import Mathlib

/-!
Mado (twin) vector-graphics core: fixed-point trigonometry, the path model and the
TinyVG decoder

A shallow embedding of `src/src/trig.c`, `src/src/path.c` and `src/src/image-tvg.c`,
followed by the proofs of the properties C1-C20 of the specification.

Conventions of the embedding:

* `twin_fixed_t` (Q16.16, 32 bit), `twin_sfixed_t` and `twin_angle_t` values are `Int`;
  where the C code computes in `uint64_t` the model computes in `Nat` modulo `2^64`,
  and 32-bit signed results are reduced with `wrap32`.
* `x >> i` on a signed value is the arithmetic shift, `Int.shiftRight` (floor division by
  `2^i`).
* `a & (p - 1)`, `a & p` and `a & ~p` on two's-complement integers, `p` a power of two, are
  written with `and_mask`, `and_bit` and `and_not_bit`.
* A path keeps the valid prefix of its two C arrays as lists (`npoints` and `nsublen` are
  their lengths) together with the allocated capacities. Each function that may call
  `malloc`/`realloc` takes the outcome of that call as a Boolean argument, so the silent
  return on allocation failure is modelled.
* The header `twin_private.h` / `twin.h` and `matrix.c` are not part of the sources at
  hand. Constants the specification fixes are defined from it and marked as such; the
  remaining constants, macros and the matrix transforms are parameters.
* A function of the decoder takes the context and gives back the value of its
  out-parameter or its error code, with the context as it leaves it; the conventions for
  the input callback, `float` values and the calls of the paint sinks are stated with the
  data model of `image-tvg.c`.
-/

namespace Twin

/-! ## Machine arithmetic helpers -/

/-- Conversion of a signed value to `uint64_t` (reduction modulo `2^64`). -/
def u64 (n : Int) : Nat := (n % 18446744073709551616).toNat

/-- Reduction of an integer to the two's-complement `int32_t` range. -/
def wrap32 (n : Int) : Int := (n + 2147483648) % 4294967296 - 2147483648

/-- The value of `a & (p - 1)` for a two's-complement integer `a` and a power of two `p`. -/
def and_mask (a p : Int) : Int := a % p

/-- Whether `a & p` is non-zero for a two's-complement integer `a` and a power of two `p`. -/
def and_bit (a p : Int) : Bool := decide ((a / p) % 2 = 1)

/-- The value of `a & ~p` for a two's-complement integer `a` and a power of two `p`. -/
def and_not_bit (a p : Int) : Int := if and_bit a p then a - p else a

/-! ## Constants -/

/-- Modelled from the spec: `ONE = 1<<16` of the Q16.16 type (`twin.h` is absent). -/
def TWIN_FIXED_ONE : Int := 65536

/-- Modelled from the spec: `ANGLE_360 = 4096` (`twin.h` is absent). -/
def TWIN_ANGLE_360 : Int := 4096

/-- Modelled from the spec: `ANGLE_180 = 2048` (`twin.h` is absent). -/
def TWIN_ANGLE_180 : Int := 2048

/-- Modelled from the spec: `ANGLE_90 = 1024` (`twin.h` is absent). -/
def TWIN_ANGLE_90 : Int := 1024

/-- Modelled from the spec: three quarter turns on the 4096-unit scale, the value `3072`
that `twin_atan2` returns for "270 degrees" (`twin.h` is absent). -/
def TWIN_ANGLE_270 : Int := 3072

/-- Modelled from the spec: `mul(a,b)` computes `(a·b) >> 16` using 64-bit widening
(the macro `twin_fixed_mul` of `twin.h` is absent). -/
def twin_fixed_mul (a b : Int) : Int := (a * b) >>> (16 : Nat)

/-! ## trig.c -/

/-- The body of `sin_poly` of trig.c: the degree-5 polynomial, evaluated in `uint64_t`
(every operation modulo `2^64`) on the converted argument. -/
def sin_poly_u64 (x : Nat) : Nat :=
  let A : Nat := 16
  let n : Nat := 10
  let p : Nat := 32
  let q : Nat := 31
  let r : Nat := 3
  let A1 : Nat := 3370945099
  let B1 : Nat := 2746362156
  let C1 : Nat := 2339369
  let y : Nat := ((C1 * x) % 2 ^ 64) >>> n
  let y : Nat := (B1 + 2 ^ 64 - (((x * y) % 2 ^ 64) >>> r)) % 2 ^ 64
  let y : Nat := (x * (y >>> n)) % 2 ^ 64
  let y : Nat := (x * (y >>> n)) % 2 ^ 64
  let y : Nat := (A1 + 2 ^ 64 - (y >>> (p - q))) % 2 ^ 64
  let y : Nat := (x * (y >>> n)) % 2 ^ 64
  let y : Nat := ((y + 2 ^ (q - A - 1)) % 2 ^ 64) >>> (q - A)
  y

/-- The function `sin_poly` of trig.c: the `twin_angle_t` argument is converted to
`uint64_t`, the result to `twin_fixed_t`. -/
def sin_poly (x : Int) : Int := wrap32 (Int.ofNat (sin_poly_u64 (u64 x)))

/-- The function `twin_sincos` of trig.c. The flags `sin` and `cos` say whether the
corresponding output pointer is non-NULL; the result is the pair of the locals
`(sin_val, cos_val)` as they are stored through the pointers. -/
def twin_sincos (a : Int) (sin cos : Bool) : Int × Int :=
  let a := and_mask a TWIN_ANGLE_360
  let c : Bool := decide (a > TWIN_ANGLE_90) && decide (a < TWIN_ANGLE_270)
  let r : Int × Int × Int :=
    if and_not_bit a TWIN_ANGLE_180 = TWIN_ANGLE_90 then
      (a, TWIN_FIXED_ONE, 0)
    else
      let a := if and_bit a TWIN_ANGLE_90 then TWIN_ANGLE_180 - a else a
      let x := and_mask a TWIN_ANGLE_90
      (a, (if sin then sin_poly x else 0), (if cos then sin_poly (TWIN_ANGLE_90 - x) else 0))
  let a := r.1
  let sin_val := r.2.1
  let cos_val := r.2.2
  let sin_val := if sin && and_bit a TWIN_ANGLE_180 then -sin_val else sin_val
  let cos_val := if cos && c then -cos_val else cos_val
  (sin_val, cos_val)

/-- The function `twin_sin` of trig.c. -/
def twin_sin (a : Int) : Int := (twin_sincos a true false).1

/-- The function `twin_cos` of trig.c. -/
def twin_cos (a : Int) : Int := (twin_sincos a false true).2

/-- The table `atan_table` of trig.c. -/
def atan_table : List Int :=
  [0x0200, 0x0130, 0x009B, 0x004F, 0x0027, 0x0014, 0x000A, 0x0005, 0x0002, 0x0001, 0x0001, 0x0000]

/-- One iteration of the CORDIC loop of `twin_atan2_first_quadrant`; the state is
`(current_x, current_y, angle)`. -/
def cordic_step (st : Int × Int × Int) (i : Nat) : Int × Int × Int :=
  let current_x := st.1
  let current_y := st.2.1
  let angle := st.2.2
  if current_y > 0 then
    (wrap32 (current_x + (current_y >>> i)), wrap32 (current_y - (current_x >>> i)),
      angle + atan_table.getD i 0)
  else
    (wrap32 (current_x - (current_y >>> i)), wrap32 (current_y + (current_x >>> i)),
      angle - atan_table.getD i 0)

/-- The function `twin_atan2_first_quadrant` of trig.c. -/
def twin_atan2_first_quadrant (y x : Int) : Int :=
  if x = 0 ∧ y = 0 then 0
  else if x = 0 then 1024
  else if y = 0 then 0
  else ((List.range 12).foldl cordic_step (x, y, 0)).2.2

/-- The function `twin_atan2` of trig.c. -/
def twin_atan2 (y x : Int) : Int :=
  if x = 0 ∧ y = 0 then 0
  else if x = 0 then (if y > 0 then 1024 else 3072)
  else if y = 0 then (if x > 0 then 0 else 2048)
  else
    let q : Nat × Int × Int :=
      if x ≥ 0 ∧ y ≥ 0 then (1, x, y)
      else if x < 0 ∧ y ≥ 0 then (2, wrap32 (-x), y)
      else if x < 0 ∧ y < 0 then (3, wrap32 (-x), wrap32 (-y))
      else (4, x, wrap32 (-y))
    let quadrant := q.1
    let abs_x := q.2.1
    let abs_y := q.2.2
    let angle := twin_atan2_first_quadrant abs_y abs_x
    match quadrant with
    | 1 => angle
    | 2 => 2048 - angle
    | 3 => 2048 + angle
    | 4 => 4096 - angle
    | _ => 0

/-- Bounded universal check: `f` holds at every natural number below the bound. -/
def allBelow (f : Nat → Bool) : Nat → Bool
  | 0 => true
  | n + 1 => f n && allBelow f n

/-- A screen-space point `twin_spoint_t`. -/
structure twin_spoint_t where
  x : Int
  y : Int
  deriving DecidableEq

/-- The affine matrix `twin_matrix_t`, `m[3][2]` of `twin_fixed_t`. -/
structure twin_matrix_t where
  m00 : Int
  m01 : Int
  m10 : Int
  m11 : Int
  m20 : Int
  m21 : Int
  deriving DecidableEq

/-- The drawing state `twin_state_t` saved and restored by `twin_path_save/restore`. -/
structure twin_state_t where
  matrix : twin_matrix_t
  font_size : Int
  font_style : Int
  cap_style : Int
  deriving DecidableEq

/-- The path `twin_path_t`. `points` holds the `npoints` valid entries of the C array and
`sublen` the `nsublen` valid entries of the boundary array; `size_points` and `size_sublen`
are the allocated capacities. -/
structure twin_path_t where
  points : List twin_spoint_t
  size_points : Nat
  sublen : List Nat
  size_sublen : Nat
  state : twin_state_t
  cur_x : Int
  cur_y : Int
  deriving DecidableEq

/-- The field `npoints`. -/
def twin_path_t.npoints (path : twin_path_t) : Nat := path.points.length

/-- The field `nsublen`. -/
def twin_path_t.nsublen (path : twin_path_t) : Nat := path.sublen.length

/-! ## path.c: operations

Every call of `malloc`/`realloc` is given its outcome as a Boolean argument (`true`: the
allocation succeeded), so that the silent early returns on allocation failure are part of
the model. The transforms `_twin_matrix_x/_y` live in `matrix.c`, which is not among the
sources at hand; they are parameters `matrix_x`, `matrix_y` of the functions that call them. -/

/-- The function `_twin_current_subpath_len` of path.c. -/
def _twin_current_subpath_len (path : twin_path_t) : Int :=
  let start : Nat := if path.nsublen ≠ 0 then path.sublen.getD (path.nsublen - 1) 0 else 0
  (path.npoints : Int) - (start : Int)

/-- The function `_twin_path_sfinish` of path.c; `ok` is the outcome of the
`malloc`/`realloc` of the boundary array, consulted only when the array is full. -/
def _twin_path_sfinish (ok : Bool) (path : twin_path_t) : twin_path_t :=
  if _twin_current_subpath_len path = 1 then
    { path with points := path.points.dropLast }
  else if _twin_current_subpath_len path = 0 then
    path
  else if path.nsublen = path.size_sublen then
    let size_sublen := if path.size_sublen > 0 then path.size_sublen * 2 else 1
    if !ok then path
    else { path with size_sublen := size_sublen, sublen := path.sublen ++ [path.npoints] }
  else
    { path with sublen := path.sublen ++ [path.npoints] }

/-- The function `_twin_path_sdraw` of path.c; `ok` is the outcome of the
`malloc`/`realloc` of the point array, consulted only when the array is full. -/
def _twin_path_sdraw (ok : Bool) (path : twin_path_t) (x y : Int) : twin_path_t :=
  if _twin_current_subpath_len path > 0 ∧ path.points.getLast? = some ⟨x, y⟩ then
    path
  else if path.npoints = path.size_points then
    let size_points := if path.size_points > 0 then path.size_points * 2 else 16
    if !ok then path
    else { path with size_points := size_points, points := path.points ++ [⟨x, y⟩] }
  else
    { path with points := path.points ++ [⟨x, y⟩] }

/-- The function `_twin_path_smove` of path.c; `ok_f` and `ok_d` are the allocation
outcomes of the inner `_twin_path_sfinish` and `_twin_path_sdraw`. -/
def _twin_path_smove (ok_f ok_d : Bool) (path : twin_path_t) (x y : Int) : twin_path_t :=
  if _twin_current_subpath_len path = 0 then
    _twin_path_sdraw ok_d path x y
  else if _twin_current_subpath_len path = 1 then
    { path with points := path.points.set (path.npoints - 1) ⟨x, y⟩ }
  else
    _twin_path_sdraw ok_d (_twin_path_sfinish ok_f path) x y

section matrix_parameters

variable (matrix_x matrix_y : twin_matrix_t → Int → Int → Int)

/-- The function `twin_path_move` of path.c. -/
def twin_path_move (ok_f ok_d : Bool) (path : twin_path_t) (x y : Int) : twin_path_t :=
  let path := { path with cur_x := x, cur_y := y }
  _twin_path_smove ok_f ok_d path (matrix_x path.state.matrix x y)
    (matrix_y path.state.matrix x y)

/-- The function `twin_path_draw` of path.c. -/
def twin_path_draw (ok : Bool) (path : twin_path_t) (x y : Int) : twin_path_t :=
  let path := { path with cur_x := x, cur_y := y }
  _twin_path_sdraw ok path (matrix_x path.state.matrix x y) (matrix_y path.state.matrix x y)

/-- The function `_twin_path_subpath_first_spoint` of path.c: the path (moved to the
origin first when it has no point) and the point `points[start]`. A read past the valid
points is modelled as `(0, 0)`. -/
def _twin_path_subpath_first_spoint (ok_f ok_d : Bool) (path : twin_path_t) :
    twin_path_t × twin_spoint_t :=
  let path := if path.npoints = 0 then twin_path_move matrix_x matrix_y ok_f ok_d path 0 0
    else path
  let start : Nat := if path.nsublen ≠ 0 then path.sublen.getD (path.nsublen - 1) 0 else 0
  (path, path.points.getD start ⟨0, 0⟩)

/-- The function `twin_path_close` of path.c; `ok_f`, `ok_d` are the allocation outcomes
inside `_twin_path_subpath_first_spoint` and `ok` the one of the closing
`_twin_path_sdraw`. -/
def twin_path_close (ok_f ok_d ok : Bool) (path : twin_path_t) : twin_path_t :=
  if _twin_current_subpath_len path = 0 ∨ _twin_current_subpath_len path = 1 then
    path
  else
    let r := _twin_path_subpath_first_spoint matrix_x matrix_y ok_f ok_d path
    _twin_path_sdraw ok r.1 r.2.x r.2.y

end matrix_parameters

/-- The function `twin_path_empty` of path.c. -/
def twin_path_empty (path : twin_path_t) : twin_path_t :=
  { path with points := [], sublen := [] }

/-- The loop of `twin_path_append`: `rest` are the points `src->points[p..]` still to be
copied, `s` the boundary cursor; `alloc p` gives the allocation outcomes of the
`_twin_path_sfinish` and `_twin_path_sdraw` calls of iteration `p`. -/
def twin_path_append_loop (alloc : Nat → Bool × Bool) (src_sublen : List Nat) :
    List twin_spoint_t → Nat → Nat → twin_path_t → twin_path_t
  | [], _, _, dst => dst
  | pt :: rest, p, s, dst =>
    if s < src_sublen.length ∧ p = src_sublen.getD s 0 then
      twin_path_append_loop alloc src_sublen rest (p + 1) (s + 1)
        (_twin_path_sdraw (alloc p).2 (_twin_path_sfinish (alloc p).1 dst) pt.x pt.y)
    else
      twin_path_append_loop alloc src_sublen rest (p + 1) s
        (_twin_path_sdraw (alloc p).2 dst pt.x pt.y)

/-- The function `twin_path_append` of path.c. -/
def twin_path_append (alloc : Nat → Bool × Bool) (dst src : twin_path_t) : twin_path_t :=
  twin_path_append_loop alloc src.sublen src.points 0 0 dst

/-- The rectangle `twin_rect_t`. -/
structure twin_rect_t where
  left : Int
  right : Int
  top : Int
  bottom : Int
  deriving DecidableEq

/-- One iteration of the loop of `twin_path_bounds`; the state is
`(left, top, right, bottom)`. -/
def bounds_step (acc : Int × Int × Int × Int) (pt : twin_spoint_t) : Int × Int × Int × Int :=
  let left := acc.1
  let top := acc.2.1
  let right := acc.2.2.1
  let bottom := acc.2.2.2
  let x := pt.x
  let y := pt.y
  let left := if x < left then x else left
  let right := if x > right then x else right
  let top := if y < top then y else top
  let bottom := if y > bottom then y else bottom
  (left, top, right, bottom)

/-- The function `twin_path_bounds` of path.c. The constants `TWIN_SFIXED_MAX`,
`TWIN_SFIXED_MIN` and the macros `twin_sfixed_trunc`, `twin_sfixed_ceil` belong to the
absent header and are parameters. -/
def twin_path_bounds (TWIN_SFIXED_MAX TWIN_SFIXED_MIN : Int)
    (twin_sfixed_trunc twin_sfixed_ceil : Int → Int) (path : twin_path_t) : twin_rect_t :=
  let acc := path.points.foldl bounds_step
    (TWIN_SFIXED_MAX, TWIN_SFIXED_MAX, TWIN_SFIXED_MIN, TWIN_SFIXED_MIN)
  let acc := if acc.1 ≥ acc.2.2.1 ∨ acc.2.1 ≥ acc.2.2.2 then (0, 0, 0, 0) else acc
  { left := twin_sfixed_trunc acc.1
    top := twin_sfixed_trunc acc.2.1
    right := twin_sfixed_trunc (twin_sfixed_ceil acc.2.2.1)
    bottom := twin_sfixed_trunc (twin_sfixed_ceil acc.2.2.2) }

/-- The function `twin_path_rectangle` of path.c; `alloc k` is the outcome of the `k`-th
allocation the call may make (two in `twin_path_move`, one in each `twin_path_draw`, three
in `twin_path_close`). -/
def twin_path_rectangle (matrix_x matrix_y : twin_matrix_t → Int → Int → Int)
    (alloc : Nat → Bool) (path : twin_path_t) (x y w h : Int) : twin_path_t :=
  let path := twin_path_move matrix_x matrix_y (alloc 0) (alloc 1) path x y
  let path := twin_path_draw matrix_x matrix_y (alloc 2) path (wrap32 (x + w)) y
  let path := twin_path_draw matrix_x matrix_y (alloc 3) path (wrap32 (x + w)) (wrap32 (y + h))
  let path := twin_path_draw matrix_x matrix_y (alloc 4) path x (wrap32 (y + h))
  twin_path_close matrix_x matrix_y (alloc 5) (alloc 6) (alloc 7) path

/-! ## path.c: arcs

The type `twin_angle_t` is declared in the absent `twin.h`; the model takes its width in
bits as a parameter. `twin_clz` and the tolerance `TWIN_SFIXED_TOLERANCE` are parameters
too. Of `twin_path_arc` the model keeps the number of sides and the sequence of angles
passed to `twin_path_draw_polar`. -/

/-- The conversion of an `int` to `twin_angle_t`, a signed integer of `bits` bits:
reduction modulo `2^bits` to the signed range. -/
def to_angle (bits : Nat) (x : Int) : Int :=
  (x + 2 ^ (bits - 1)) % 2 ^ bits - 2 ^ (bits - 1)

/-- The value of `a & ~(p - 1)` for a two's-complement integer `a` and a power of two
`p`. -/
def and_not_mask (a p : Int) : Int := a - a % p

/-- The function `_twin_matrix_max_radius`. -/
def _twin_matrix_max_radius (m : twin_matrix_t) : Int :=
  wrap32 (|m.m00| + |m.m01| + |m.m10| + |m.m11|)

/-- The number `sides` of `twin_path_arc`: `max_radius` divided by `tolerance`, the value
of `twin_sfixed_to_fixed(TWIN_SFIXED_TOLERANCE)`, and clamped to 1024. -/
def twin_path_arc_sides (tolerance max_radius : Int) : Int :=
  let sides := Int.tdiv max_radius tolerance
  if sides > 1024 then 1024 else sides

/-- The number `n` of `twin_path_arc`: `(sides > 1) ? (31 - twin_clz(sides) + 1) : 2`. -/
def twin_path_arc_n (twin_clz : Int → Int) (sides : Int) : Int :=
  if sides > 1 then 31 - twin_clz sides + 1 else 2

/-- The angle `step` of `twin_path_arc`: `TWIN_ANGLE_360 >> n`. -/
def twin_path_arc_step (bits : Nat) (n : Int) : Int :=
  to_angle bits (TWIN_ANGLE_360 >>> n.toNat)

/-- The loop `for (a = first; a != last; a += inc)` of `twin_path_arc`: the angles passed
to `twin_path_draw_polar`. The first argument bounds the number of passes; the value is
`none` when the bound is reached before the loop ends. -/
def twin_path_arc_loop (bits : Nat) (inc last : Int) : Nat → Int → Option (List Int)
  | 0, _ => none
  | fuel + 1, a =>
    if a ≠ last then
      (twin_path_arc_loop bits inc last fuel (to_angle bits (a + inc))).map (fun l => a :: l)
    else some []

/-- The angles passed to `twin_path_draw_polar` by `twin_path_arc`, in order, for the
number `n` it has computed; `fuel` bounds the passes of its loop. -/
def twin_path_arc_angles (bits : Nat) (fuel : Nat) (n start extent : Int) :
    Option (List Int) :=
  let step := twin_path_arc_step bits n
  let inc := if extent < 0 then to_angle bits (-step) else step
  let epsilon : Int := if extent < 0 then to_angle bits (-1) else 1
  let first := to_angle bits (and_not_mask (start + inc - epsilon) step)
  let last := to_angle bits (and_not_mask (start + extent - inc + epsilon) step)
  (twin_path_arc_loop bits inc last fuel first).map (fun l =>
    (if first ≠ start then [start] else []) ++ l ++
      (if last ≠ start + extent then [to_angle bits (start + extent)] else []))

/-- The number of leading zero bits of a 32-bit word, used by the concrete instances for
`twin_clz`. -/
def sample_clz (x : Int) : Int := 31 - (Nat.log2 x.toNat : Int)

/-! ## spline.c

`_twin_distance_to_line_squared` and `TWIN_SFIXED_TOLERANCE` are not among the sources: the
distance function `dist` (point, first and second point of the line) and the tolerance are
parameters. Coordinates are integers without a width, as in the path model: a point
computed by `_lerp` lies between the two points it interpolates. A shift by 32 bits or
more, which C leaves undefined, is the arithmetic shift like any other. The two loops of a
flattener take a bound on the number of their passes; a flattener gives the points it
passes to `_twin_path_sdraw`, in order, and whether it has returned within the bound. -/

/-- The cubic spline `twin_spline_t`. -/
structure twin_spline_t where
  a : twin_spoint_t
  b : twin_spoint_t
  c : twin_spoint_t
  d : twin_spoint_t
  deriving DecidableEq

/-- The function `_lerp`. -/
def _lerp (a b : twin_spoint_t) (shift : Nat) : twin_spoint_t :=
  ⟨a.x + ((b.x - a.x) >>> shift), a.y + ((b.y - a.y) >>> shift)⟩

/-- The function `_de_casteljau`: the splines `s1` and `s2`. -/
def _de_casteljau (spline : twin_spline_t) (shift : Nat) : twin_spline_t × twin_spline_t :=
  let ab := _lerp spline.a spline.b shift
  let bc := _lerp spline.b spline.c shift
  let cd := _lerp spline.c spline.d shift
  let abbc := _lerp ab bc shift
  let bccd := _lerp bc cd shift
  let final := _lerp abbc bccd shift
  (⟨spline.a, ab, abbc, final⟩, ⟨final, bccd, cd, spline.d⟩)

/-- The function `_twin_spline_distance_squared`. -/
def _twin_spline_distance_squared (dist : twin_spoint_t → twin_spoint_t → twin_spoint_t → Int)
    (spline : twin_spline_t) : Int :=
  let bdist := dist spline.b spline.a spline.d
  let cdist := dist spline.c spline.a spline.d
  if bdist > cdist then bdist else cdist

/-- The function `is_flat`. -/
def is_flat (dist : twin_spoint_t → twin_spoint_t → twin_spoint_t → Int)
    (spline : twin_spline_t) (tolerance_squared : Int) : Bool :=
  decide (_twin_spline_distance_squared dist spline ≤ tolerance_squared)

/-- The inner loop `while (true)` of `_twin_spline_decompose`, entered with `shift`: the
value of `shift` after the loop and the splines `left` and `right`, or `none` when the
bound on the passes is reached. -/
def _twin_spline_find_shift (dist : twin_spoint_t → twin_spoint_t → twin_spoint_t → Int)
    (tolerance_squared : Int) (spline : twin_spline_t) :
    Nat → Nat → Option (Nat × twin_spline_t × twin_spline_t)
  | 0, _ => none
  | fuel + 1, shift =>
    let lr := _de_casteljau spline shift
    if is_flat dist lr.1 tolerance_squared then
      some ((if shift > 1 then shift - 1 else shift), lr.1, lr.2)
    else _twin_spline_find_shift dist tolerance_squared spline fuel (shift + 1)

/-- The outer loop of `_twin_spline_decompose` with the final `_twin_path_sdraw`, entered
with `spline` and `shift`; `bound` limits the passes of each inner loop and the first
argument the passes of the outer loop. -/
def _twin_spline_decompose_loop (dist : twin_spoint_t → twin_spoint_t → twin_spoint_t → Int)
    (tolerance_squared : Int) (bound : Nat) :
    Nat → twin_spline_t → Nat → List twin_spoint_t × Bool
  | 0, _, _ => ([], false)
  | fuel + 1, spline, shift =>
    if is_flat dist spline tolerance_squared then ([spline.d], true)
    else
      match _twin_spline_find_shift dist tolerance_squared spline bound shift with
      | none => ([], false)
      | some (shift, left, right) =>
        let rest := _twin_spline_decompose_loop dist tolerance_squared bound fuel right shift
        (left.d :: rest.1, rest.2)

/-- The function `_twin_spline_decompose`: the points passed to `_twin_path_sdraw`, in
order, and whether the function has returned; `fuel` bounds the passes of each loop. -/
def _twin_spline_decompose (dist : twin_spoint_t → twin_spoint_t → twin_spoint_t → Int)
    (tolerance_squared : Int) (fuel : Nat) (spline : twin_spline_t) :
    List twin_spoint_t × Bool :=
  let rest := _twin_spline_decompose_loop dist tolerance_squared fuel fuel spline 2
  (spline.a :: rest.1, rest.2)

/-- The calls `_twin_path_sdraw(path, p.x, p.y)` for the points `p` of a list, in order;
`alloc k` is the outcome of the allocation of the `k`-th call, counted from `k`. -/
def _twin_path_sdraw_list (alloc : Nat → Bool) :
    Nat → twin_path_t → List twin_spoint_t → twin_path_t
  | _, path, [] => path
  | k, path, p :: rest =>
    _twin_path_sdraw_list alloc (k + 1) (_twin_path_sdraw (alloc k) path p.x p.y) rest

/-- The function `_twin_path_scurve`: the path and whether the function has returned.
`alloc 0` and `alloc 1` are the outcomes of the allocations of `_twin_path_smove`, and
`alloc (k + 2)` that of the `k`-th call of `_twin_path_sdraw`. When the path is still
empty after `_twin_path_smove`, because an allocation is refused, the C code reads the
point before the array; the model takes (0, 0). -/
def _twin_path_scurve (dist : twin_spoint_t → twin_spoint_t → twin_spoint_t → Int)
    (tolerance : Int) (alloc : Nat → Bool) (fuel : Nat) (path : twin_path_t)
    (x1 y1 x2 y2 x3 y3 : Int) : twin_path_t × Bool :=
  let path := if path.npoints = 0 then _twin_path_smove (alloc 0) (alloc 1) path 0 0 else path
  let spline : twin_spline_t :=
    { a := path.points.getLastD ⟨0, 0⟩, b := ⟨x1, y1⟩, c := ⟨x2, y2⟩, d := ⟨x3, y3⟩ }
  let r := _twin_spline_decompose dist (tolerance * tolerance) fuel spline
  (_twin_path_sdraw_list alloc 2 path r.1, r.2)

/-- The quadratic spline `twin_quad_spline_t`. -/
structure twin_quad_spline_t where
  p0 : twin_spoint_t
  p1 : twin_spoint_t
  p2 : twin_spoint_t
  deriving DecidableEq

/-- The function `_quad_de_casteljau`: the splines `s1` and `s2`. -/
def _quad_de_casteljau (spline : twin_quad_spline_t) (shift : Nat) :
    twin_quad_spline_t × twin_quad_spline_t :=
  let p01 := _lerp spline.p0 spline.p1 shift
  let p12 := _lerp spline.p1 spline.p2 shift
  let p012 := _lerp p01 p12 shift
  (⟨spline.p0, p01, p012⟩, ⟨p012, p12, spline.p2⟩)

/-- The function `_quad_spline_distance_squared`. -/
def _quad_spline_distance_squared (dist : twin_spoint_t → twin_spoint_t → twin_spoint_t → Int)
    (spline : twin_quad_spline_t) : Int :=
  dist spline.p1 spline.p0 spline.p2

/-- The function `_quad_is_flat`. -/
def _quad_is_flat (dist : twin_spoint_t → twin_spoint_t → twin_spoint_t → Int)
    (spline : twin_quad_spline_t) (tolerance_squared : Int) : Bool :=
  decide (_quad_spline_distance_squared dist spline ≤ tolerance_squared)

/-- The inner loop `while (true)` of `_twin_quad_spline_decompose`, entered with `shift`:
the value of `shift` after the loop and the splines `left` and `right`, or `none` when the
bound on the passes is reached. -/
def _twin_quad_spline_find_shift
    (dist : twin_spoint_t → twin_spoint_t → twin_spoint_t → Int)
    (tolerance_squared : Int) (spline : twin_quad_spline_t) :
    Nat → Nat → Option (Nat × twin_quad_spline_t × twin_quad_spline_t)
  | 0, _ => none
  | fuel + 1, shift =>
    let lr := _quad_de_casteljau spline shift
    if _quad_is_flat dist lr.1 tolerance_squared then
      some ((if shift > 1 then shift - 1 else shift), lr.1, lr.2)
    else _twin_quad_spline_find_shift dist tolerance_squared spline fuel (shift + 1)

/-- The outer loop of `_twin_quad_spline_decompose` with the final `_twin_path_sdraw`,
entered with `spline` and `shift`; `bound` limits the passes of each inner loop and the
first argument the passes of the outer loop. -/
def _twin_quad_spline_decompose_loop
    (dist : twin_spoint_t → twin_spoint_t → twin_spoint_t → Int)
    (tolerance_squared : Int) (bound : Nat) :
    Nat → twin_quad_spline_t → Nat → List twin_spoint_t × Bool
  | 0, _, _ => ([], false)
  | fuel + 1, spline, shift =>
    if _quad_is_flat dist spline tolerance_squared then ([spline.p2], true)
    else
      match _twin_quad_spline_find_shift dist tolerance_squared spline bound shift with
      | none => ([], false)
      | some (shift, left, right) =>
        let rest :=
          _twin_quad_spline_decompose_loop dist tolerance_squared bound fuel right shift
        (left.p2 :: rest.1, rest.2)

/-- The function `_twin_quad_spline_decompose`: the points passed to `_twin_path_sdraw`, in
order, and whether the function has returned; `fuel` bounds the passes of each loop. -/
def _twin_quad_spline_decompose (dist : twin_spoint_t → twin_spoint_t → twin_spoint_t → Int)
    (tolerance_squared : Int) (fuel : Nat) (spline : twin_quad_spline_t) :
    List twin_spoint_t × Bool :=
  let rest := _twin_quad_spline_decompose_loop dist tolerance_squared fuel fuel spline 2
  (spline.p0 :: rest.1, rest.2)

/-- The function `_twin_path_squad_curve`: the path and whether the function has returned,
with the allocation outcomes and the empty path as in `_twin_path_scurve`. -/
def _twin_path_squad_curve (dist : twin_spoint_t → twin_spoint_t → twin_spoint_t → Int)
    (tolerance : Int) (alloc : Nat → Bool) (fuel : Nat) (path : twin_path_t)
    (x1 y1 x2 y2 : Int) : twin_path_t × Bool :=
  let path := if path.npoints = 0 then _twin_path_smove (alloc 0) (alloc 1) path 0 0 else path
  let spline : twin_quad_spline_t :=
    { p0 := path.points.getLastD ⟨0, 0⟩, p1 := ⟨x1, y1⟩, p2 := ⟨x2, y2⟩ }
  let r := _twin_quad_spline_decompose dist (tolerance * tolerance) fuel spline
  (_twin_path_sdraw_list alloc 2 path r.1, r.2)

/-- Modelled from the spec: the helper `_twin_distance_to_line_squared(p, p1, p2)`, which is
not among the sources, as the spec's `dist²(p, line(p1, p2))`: the square of the distance
from `p` to the line through `p1` and `p2`, rounded down to an integer, and the square of
the distance from `p` to `p1` when the two points coincide. -/
def _twin_distance_to_line_squared (p p1 p2 : twin_spoint_t) : Int :=
  let A := p2.y - p1.y
  let B := p1.x - p2.x
  let num := A * (p.x - p1.x) + B * (p.y - p1.y)
  let den := A * A + B * B
  if den = 0 then (p.x - p1.x) * (p.x - p1.x) + (p.y - p1.y) * (p.y - p1.y)
  else (num * num) / den

/-! ## path.c and trig.c: arcs through two points

`twin_fixed_sqrt` and `twin_fixed_div` are not among the sources: they are the parameters
`fixed_sqrt` and `fixed_div`. A value assigned to a `twin_fixed_t` is reduced to 32 bits.
The angles computed here are sums of entries of `atan_table` and of the constants 2048 and
4096; they are kept as integers, without the conversion to `twin_angle_t`. Calls of
`log_info` are left out. -/

/-- Modelled from the spec: `HALF = 1<<15` of the Q16.16 type (`twin.h` is absent). -/
def TWIN_FIXED_HALF : Int := 32768

/-- Modelled from the spec: the angle 0, `TWIN_ANGLE_0` (`twin.h` is absent). -/
def TWIN_ANGLE_0 : Int := 0

/-- The macro `twin_fixed_abs` of path.c. -/
def twin_fixed_abs (f : Int) : Int := if f < 0 then wrap32 (-f) else f

/-- The function `twin_acos` of trig.c. -/
def twin_acos (fixed_sqrt : Int → Int) (x : Int) : Int :=
  if x ≤ -TWIN_FIXED_ONE then 2048
  else if x ≥ TWIN_FIXED_ONE then 0
  else
    let y := fixed_sqrt (wrap32 (TWIN_FIXED_ONE - twin_fixed_mul x x))
    if x ≥ 0 then twin_atan2_first_quadrant y x
    else 2048 - twin_atan2_first_quadrant y (wrap32 (-x))

/-- The function `twin_fixed_distance` of path.c. -/
def twin_fixed_distance (fixed_sqrt : Int → Int) (x1 y1 x2 y2 : Int) : Int :=
  let dx := wrap32 (x2 - x1)
  let dy := wrap32 (y2 - y1)
  fixed_sqrt (wrap32 (twin_fixed_mul dx dx + twin_fixed_mul dy dy))

/-- The statements of `twin_path_arc_circle` from `angle_diff` on: the extent passed to
`twin_path_arc` for the angles `start_angle` and `end_angle` returned by `twin_atan2`. -/
def twin_path_arc_circle_extent (large_arc sweep : Bool) (start_angle end_angle : Int) : Int :=
  let angle_diff := end_angle - start_angle
  let angle_diff := if angle_diff < 0 then angle_diff + TWIN_ANGLE_360 else angle_diff
  let extent :=
    if large_arc then
      if angle_diff < TWIN_ANGLE_180 then TWIN_ANGLE_360 - angle_diff else angle_diff
    else
      if angle_diff > TWIN_ANGLE_180 then angle_diff - TWIN_ANGLE_360 else angle_diff
  if sweep && decide (extent > 0) then -extent else extent

/-- The arguments `x, y, x_radius, y_radius, start, extent` of a call of `twin_path_arc`. -/
structure twin_arc_args where
  x : Int
  y : Int
  x_radius : Int
  y_radius : Int
  start : Int
  extent : Int
  deriving DecidableEq

/-- The function `twin_path_arc_circle` of path.c: the arguments of its call of
`twin_path_arc`, together with the local `end_angle`, or `none` when it returns at once
because the two points are at distance 0. The call of `_twin_path_current_spoint`, whose
result is not used, is left out. -/
def twin_path_arc_circle (fixed_sqrt : Int → Int) (fixed_div : Int → Int → Int)
    (large_arc sweep : Bool) (radius cur_x cur_y target_x target_y : Int) :
    Option (twin_arc_args × Int) :=
  let x1 := cur_x
  let y1 := cur_y
  let tx := target_x
  let ty := target_y
  let dx := wrap32 (tx - x1)
  let dy := wrap32 (ty - y1)
  let d := twin_fixed_distance fixed_sqrt x1 y1 tx ty
  let half_d := wrap32 (twin_fixed_mul d TWIN_FIXED_HALF)
  if d = 0 then none
  else
    let radius := if d > wrap32 (twin_fixed_mul radius (2 * 65536)) then half_d else radius
    let h := fixed_sqrt (wrap32 (twin_fixed_mul radius radius - twin_fixed_mul half_d half_d))
    let mx := wrap32 (x1 + twin_fixed_mul dx TWIN_FIXED_HALF)
    let my := wrap32 (y1 + twin_fixed_mul dy TWIN_FIXED_HALF)
    let x0 :=
      if xor sweep large_arc then
        wrap32 (mx + fixed_div (wrap32 (twin_fixed_mul h dy)) d)
      else wrap32 (mx - fixed_div (wrap32 (twin_fixed_mul h dy)) d)
    let y0 :=
      if xor sweep large_arc then
        wrap32 (my - fixed_div (wrap32 (twin_fixed_mul h dx)) d)
      else wrap32 (my + fixed_div (wrap32 (twin_fixed_mul h dx)) d)
    let start_angle := twin_atan2 (wrap32 (y1 - y0)) (wrap32 (x1 - x0))
    let end_angle := twin_atan2 (wrap32 (target_y - y0)) (wrap32 (target_x - x0))
    some (⟨x0, y0, radius, radius, start_angle,
      twin_path_arc_circle_extent large_arc sweep start_angle end_angle⟩, end_angle)

/-- The function `vector_angle` of path.c. -/
def vector_angle (fixed_sqrt : Int → Int) (fixed_div : Int → Int → Int)
    (ux uy vx vy : Int) : Int :=
  let dot := wrap32 (twin_fixed_mul ux vx + twin_fixed_mul uy vy)
  let ua := fixed_sqrt (wrap32 (twin_fixed_mul ux ux + twin_fixed_mul uy uy))
  let va := fixed_sqrt (wrap32 (twin_fixed_mul vx vx + twin_fixed_mul vy vy))
  let cos_theta := fixed_div dot (wrap32 (twin_fixed_mul ua va))
  let cross := wrap32 (twin_fixed_mul ux vy - twin_fixed_mul uy vx)
  let angle := twin_acos fixed_sqrt cos_theta
  if cross < 0 then -angle else angle

/-- The result `twin_ellipse_para_t` of `get_center_parameters`. -/
structure twin_ellipse_para_t where
  cx : Int
  cy : Int
  start : Int
  extent : Int
  deriving DecidableEq

/-- The local `sign` of `get_center_parameters` for the flags `fa` and `fs` the function is
called with: the function inverts `fs` before it compares the two. -/
def get_center_parameters_sign (fa fs : Bool) : Int :=
  let fs := !fs
  if fa = fs then -1 else 1

/-- The statements of `get_center_parameters` that adjust `_dTheta`, for the flag `fs` the
function is called with: the field `extent` of the result. The operator `%` of C
truncates. -/
def get_center_parameters_extent (fs : Bool) (_dTheta : Int) : Int :=
  let fs := !fs
  let _dTheta := if !fs && decide (_dTheta > TWIN_ANGLE_0) then _dTheta - TWIN_ANGLE_360
    else _dTheta
  let _dTheta := if fs && decide (_dTheta < TWIN_ANGLE_0) then _dTheta + TWIN_ANGLE_360
    else _dTheta
  Int.tmod _dTheta TWIN_ANGLE_360

/-- The function `get_center_parameters` of path.c. -/
def get_center_parameters (fixed_sqrt : Int → Int) (fixed_div : Int → Int → Int)
    (x1 y1 x2 y2 : Int) (fa fs : Bool) (rx ry phi : Int) : twin_ellipse_para_t :=
  let sin_phi := twin_sin phi
  let cos_phi := twin_cos phi
  let x := wrap32 (twin_fixed_mul cos_phi (twin_fixed_mul (wrap32 (x1 - x2)) TWIN_FIXED_HALF) +
    twin_fixed_mul sin_phi (twin_fixed_mul (wrap32 (y1 - y2)) TWIN_FIXED_HALF))
  let y := wrap32 (twin_fixed_mul (-sin_phi) (twin_fixed_mul (wrap32 (x1 - x2)) TWIN_FIXED_HALF) +
    twin_fixed_mul cos_phi (twin_fixed_mul (wrap32 (y1 - y2)) TWIN_FIXED_HALF))
  let px := wrap32 (twin_fixed_mul x x)
  let py := wrap32 (twin_fixed_mul y y)
  let prx := wrap32 (twin_fixed_mul rx rx)
  let pry := wrap32 (twin_fixed_mul ry ry)
  let L := wrap32 (fixed_div px prx + fixed_div py pry)
  let r : Int × Int :=
    if L > TWIN_FIXED_ONE then
      let sqrt_L := fixed_sqrt L
      (wrap32 (twin_fixed_mul sqrt_L (twin_fixed_abs rx)),
        wrap32 (twin_fixed_mul sqrt_L (twin_fixed_abs ry)))
    else (twin_fixed_abs rx, twin_fixed_abs ry)
  let rx := r.1
  let ry := r.2
  let sign := get_center_parameters_sign fa fs
  let numerator := wrap32 (twin_fixed_mul prx pry - twin_fixed_mul prx py - twin_fixed_mul pry px)
  let denominator := wrap32 (twin_fixed_mul prx py + twin_fixed_mul pry px)
  let M := wrap32 (sign * fixed_sqrt (fixed_div numerator denominator))
  let _cx := wrap32 (twin_fixed_mul M (fixed_div (wrap32 (twin_fixed_mul rx y)) ry))
  let _cy := wrap32 (twin_fixed_mul M (fixed_div (wrap32 (twin_fixed_mul (wrap32 (-ry)) x)) rx))
  let cx := wrap32 (twin_fixed_mul cos_phi _cx - twin_fixed_mul sin_phi _cy +
    twin_fixed_mul (wrap32 (x1 + x2)) TWIN_FIXED_HALF)
  let cy := wrap32 (twin_fixed_mul sin_phi _cx + twin_fixed_mul cos_phi _cy +
    twin_fixed_mul (wrap32 (y1 + y2)) TWIN_FIXED_HALF)
  let start := vector_angle fixed_sqrt fixed_div TWIN_FIXED_ONE 0
    (fixed_div (wrap32 (x - _cx)) rx) (fixed_div (wrap32 (y - _cy)) ry)
  let _dTheta := vector_angle fixed_sqrt fixed_div
    (fixed_div (wrap32 (x - _cx)) rx) (fixed_div (wrap32 (y - _cy)) ry)
    (fixed_div (wrap32 (-x - _cx)) rx) (fixed_div (wrap32 (-y - _cy)) ry)
  { cx := cx, cy := cy, start := Int.tmod start TWIN_ANGLE_360,
    extent := get_center_parameters_extent fs _dTheta }

/-- The call of `get_center_parameters` by `twin_path_arc_ellipse`: the value of its local
`para`. -/
def twin_path_arc_ellipse_para (fixed_sqrt : Int → Int) (fixed_div : Int → Int → Int)
    (large_arc sweep : Bool) (radius_x radius_y cur_x cur_y target_x target_y rotation : Int) :
    twin_ellipse_para_t :=
  get_center_parameters fixed_sqrt fixed_div cur_x cur_y target_x target_y large_arc sweep
    radius_x radius_y rotation

/-- The integer square root of `n`, found bit by bit from bit `k - 1` down, with the bits
found so far in `r`. -/
def sample_sqrt_bits (n : Nat) : Nat → Nat → Nat
  | 0, r => r
  | k + 1, r => sample_sqrt_bits n k (if (r + 2 ^ k) * (r + 2 ^ k) ≤ n then r + 2 ^ k else r)

/-- A square root used by the concrete instances: the integer square root of `x·2^16`, and
0 for a negative `x`. -/
def sample_fixed_sqrt (x : Int) : Int := (sample_sqrt_bits (x * 65536).toNat 24 0 : Nat)

/-- A division used by the concrete instances: `(a << 16) / b` rounded toward zero, reduced
to 32 bits, and 0 for `b = 0`. -/
def sample_fixed_div (a b : Int) : Int := wrap32 (Int.tdiv (a * 65536) b)

/-! ## Reachable paths -/

/-- The geometry operations of path.c that the invariants are stated for, each with the
allocation outcomes of the calls it makes. -/
inductive path_op where
  | smove (ok_f ok_d : Bool) (x y : Int)
  | sdraw (ok : Bool) (x y : Int)
  | sfinish (ok : Bool)
  | close (ok_f ok_d ok : Bool)
  | append (alloc : Nat → Bool × Bool) (src : twin_path_t)
  | empty

/-- The effect of one operation on a path. -/
def apply_op (matrix_x matrix_y : twin_matrix_t → Int → Int → Int) (path : twin_path_t) :
    path_op → twin_path_t
  | path_op.smove ok_f ok_d x y => _twin_path_smove ok_f ok_d path x y
  | path_op.sdraw ok x y => _twin_path_sdraw ok path x y
  | path_op.sfinish ok => _twin_path_sfinish ok path
  | path_op.close ok_f ok_d ok => twin_path_close matrix_x matrix_y ok_f ok_d ok path
  | path_op.append alloc src => twin_path_append alloc path src
  | path_op.empty => twin_path_empty path

/-- The path after a sequence of operations. -/
def run_ops (matrix_x matrix_y : twin_matrix_t → Int → Int → Int) (path : twin_path_t)
    (ops : List path_op) : twin_path_t :=
  ops.foldl (apply_op matrix_x matrix_y) path

/-- The representation invariant of a path: boundaries are at least two apart (the first
at least 2), none exceeds the number of points, and two neighbouring points are different
unless a boundary separates them. -/
structure path_inv (path : twin_path_t) : Prop where
  gaps : path.sublen.Pairwise (fun a b => a + 2 ≤ b)
  bounds : ∀ b ∈ path.sublen, 2 ≤ b ∧ b ≤ path.points.length
  adjacent : ∀ i p q, path.points[i]? = some p → path.points[i + 1]? = some q →
    (i + 1) ∉ path.sublen → p ≠ q

/-- The index at which the current subpath starts. -/
def subpath_start (path : twin_path_t) : Nat := path.sublen.getLast?.getD 0

/-- A path without points and boundaries, as `twin_path_create` leaves it (identity
matrix, font size 15; the enumeration values and the uninitialised current position are
set to 0). -/
def fresh_path : twin_path_t :=
  { points := [], size_points := 0, sublen := [], size_sublen := 0,
    state := { matrix := ⟨65536, 0, 0, 65536, 0, 0⟩, font_size := 65536 * 15,
               font_style := 0, cap_style := 0 },
    cur_x := 0, cur_y := 0 }

/-- A transform used by the concrete instances: the coordinate itself. -/
def sample_matrix_x (_ : twin_matrix_t) (x _ : Int) : Int := x

/-- A transform used by the concrete instances: the coordinate itself. -/
def sample_matrix_y (_ : twin_matrix_t) (_ y : Int) : Int := y

/-- A sequence of operations used by the concrete instances: a triangle that is closed,
a second subpath, a repeated point, a lone point that is dropped. -/
def sample_ops : List path_op :=
  [path_op.smove true true 0 0, path_op.sdraw true 16 0, path_op.sdraw true 16 16,
   path_op.close true true true, path_op.smove true true 32 32, path_op.sdraw true 48 32,
   path_op.sdraw true 48 32, path_op.sfinish true, path_op.smove true true 64 64,
   path_op.sfinish true]

/-- A path holding one lone point. -/
def sample_single : twin_path_t :=
  { fresh_path with points := [⟨1, 1⟩], size_points := 16 }

/-- A vertical segment: two points sharing the x value 48. -/
def sample_vertical : twin_path_t :=
  { fresh_path with points := [⟨48, 0⟩, ⟨48, 160⟩], size_points := 16 }

/-- A path with one open subpath of three points and a full point array, used by the
concrete instances. -/
def sample_path : twin_path_t :=
  { fresh_path with points := [⟨0, 0⟩, ⟨16, 0⟩, ⟨16, 16⟩], size_points := 3 }

/-- A screen transform used by the concrete instances: `m·(x,y,1)` computed in Q16.16 and
shifted to screen coordinates with 4 fractional bits. -/
def sample_sfixed_x (m : twin_matrix_t) (x y : Int) : Int :=
  (twin_fixed_mul m.m00 x + twin_fixed_mul m.m10 y + m.m20) >>> (12 : Nat)

/-- A screen transform used by the concrete instances: `m·(x,y,1)` computed in Q16.16 and
shifted to screen coordinates with 4 fractional bits. -/
def sample_sfixed_y (m : twin_matrix_t) (x y : Int) : Int :=
  (twin_fixed_mul m.m01 x + twin_fixed_mul m.m11 y + m.m21) >>> (12 : Nat)

/-- Truncation of a screen coordinate with 4 fractional bits to a pixel, used by the
concrete instances. -/
def sample_trunc (f : Int) : Int := f >>> (4 : Nat)

/-- Rounding of a screen coordinate with 4 fractional bits up to a whole pixel
(`(f + 15) & ~15`), used by the concrete instances. -/
def sample_ceil (f : Int) : Int := f + 15 - (f + 15) % 16

/-- A finished triangle used by the concrete instances: three points followed by
`_twin_path_sfinish`, so that the last boundary equals the number of points. -/
def sample_closed : twin_path_t :=
  run_ops sample_matrix_x sample_matrix_y fresh_path
    [path_op.smove true true 0 0, path_op.sdraw true 16 0, path_op.sdraw true 16 16,
     path_op.sfinish true]

/-! ## image-tvg.c: data model

The input callback `ctx->inp` is modelled as a cursor over a finite byte sequence: a call
for `size` bytes delivers them when that many remain, and otherwise delivers fewer, after
which nothing remains. Integers of more than one byte are read in little-endian order.
Values of type `float` are modelled as exact rationals. The builder calls made on a path
are recorded in order, with their `float` arguments as they stand before the conversion
`D(x)`; the calls of `twin_paint_path` and `twin_paint_stroke` are recorded in `log`
together with the calls made so far on the path they paint. -/

/-- The result codes `TVG_SUCCESS`, `TVG_E_*`. -/
inductive tvg_result_t where
  | TVG_SUCCESS
  | TVG_E_INVALID_ARG
  | TVG_E_INVALID_STATE
  | TVG_E_INVALID_FORMAT
  | TVG_E_IO_ERROR
  | TVG_E_OUT_OF_MEMORY
  | TVG_E_NOT_SUPPORTED
  deriving DecidableEq

open tvg_result_t

/-- The coordinate `tvg_point_t`. -/
structure tvg_point_t where
  x : ℚ
  y : ℚ
  deriving DecidableEq

/-- The rectangle `tvg_rect_t`. -/
structure tvg_rect_t where
  x : ℚ
  y : ℚ
  width : ℚ
  height : ℚ
  deriving DecidableEq

/-- The gradient data `tvg_gradient_t`. -/
structure tvg_gradient_t where
  point0 : tvg_point_t
  point1 : tvg_point_t
  color0 : Nat
  color1 : Nat
  deriving DecidableEq

/-- The style data `tvg_style_t`: the `kind` tag with the member of the union it selects. -/
inductive tvg_style_t where
  | flat (flat : Nat)
  | linear (linear : tvg_gradient_t)
  | radial (radial : tvg_gradient_t)
  deriving DecidableEq

/-- The fill header `tvg_fill_header_t`. -/
structure tvg_fill_header_t where
  style : tvg_style_t
  size : Nat
  deriving DecidableEq

/-- The line header `tvg_line_header_t`. -/
structure tvg_line_header_t where
  style : tvg_style_t
  line_width : ℚ
  size : Nat
  deriving DecidableEq

/-- The line and fill header `tvg_line_fill_header_t`. -/
structure tvg_line_fill_header_t where
  fill_style : tvg_style_t
  line_style : tvg_style_t
  line_width : ℚ
  size : Nat
  deriving DecidableEq

/-- A call of a path builder of path.c or spline.c made by the decoder; the arguments are
the `float` values to which the decoder applies `D`. -/
inductive path_call where
  | move (x y : ℚ)
  | draw (x y : ℚ)
  | curve (x1 y1 x2 y2 x3 y3 : ℚ)
  | arc_circle (large sweep : Bool) (radius cur_x cur_y target_x target_y : ℚ)
  | arc_ellipse (large sweep : Bool) (radius_x radius_y cur_x cur_y target_x target_y
      rotation : ℚ)
  | quadratic_curve (x1 y1 x2 y2 : ℚ)
  | close
  | rectangle (x y w h : ℚ)
  deriving DecidableEq

/-- A call of a paint sink: `twin_paint_path(pixmap, color, path)` or
`twin_paint_stroke(pixmap, color, path, D(pen_width))`. `color` is the entry
`GET_COLOR(ctx, idx)`, or `none` when `idx` lies outside the color table; `path` holds the
builder calls made on the painted path since it was created or emptied. -/
inductive sink_call where
  | paint_path (color : Option Nat) (path : List path_call)
  | paint_stroke (color : Option Nat) (path : List path_call) (pen_width : ℚ)
  deriving DecidableEq

/-- The decoder state `tvg_context_t`. `input` is what the callback has still to deliver
and `colors` holds the entries of the color table written so far. Three fields are not in
the C structure: `eof` records that the callback has delivered fewer bytes than requested,
`mallocs` lists the outcomes of the calls of `malloc` still to come (a call beyond the end
of the list succeeds), and `log` lists the calls of the paint sinks made so far. -/
structure tvg_context_t where
  input : List UInt8
  eof : Bool
  mallocs : List Bool
  log : List sink_call
  path : List path_call
  scale : Nat
  color_encoding : Nat
  coord_range : Nat
  width : Nat
  height : Nat
  colors_size : Nat
  colors : List Nat
  deriving DecidableEq

/-- A decoder function: it takes the context and gives back the value it stores through
its out-parameter, or the error code it returns, with the context as it leaves it. -/
@[reducible] def tvg_m (α : Type) : Type :=
  tvg_context_t → Except tvg_result_t α × tvg_context_t

instance : Monad tvg_m where
  pure a := fun ctx => (Except.ok a, ctx)
  bind m f := fun ctx =>
    match m ctx with
    | (Except.ok a, ctx') => f a ctx'
    | (Except.error e, ctx') => (Except.error e, ctx')

/-- Return of the error code `e`. -/
def tvg_fail {α : Type} (e : tvg_result_t) : tvg_m α := fun ctx => (Except.error e, ctx)

/-- The context as it stands. -/
def tvg_get : tvg_m tvg_context_t := fun ctx => (Except.ok ctx, ctx)

/-- An assignment to fields of the context. -/
def tvg_modify (f : tvg_context_t → tvg_context_t) : tvg_m Unit :=
  fun ctx => (Except.ok (), f ctx)

/-- The value returned by a decoder function: `TVG_SUCCESS` or the error code. -/
def tvg_result {α : Type} (r : Except tvg_result_t α) : tvg_result_t :=
  match r with
  | Except.ok _ => TVG_SUCCESS
  | Except.error e => e

/-! ## image-tvg.c: readers -/

/-- The call `ctx->inp(dst, size, ctx->inp_state)` together with the test `size > read`
that follows it: the bytes delivered, or `TVG_E_IO_ERROR` after a short read. -/
def tvg_inp (size : Nat) : tvg_m (List UInt8) := fun ctx =>
  if size ≤ ctx.input.length then
    (Except.ok (ctx.input.take size), { ctx with input := ctx.input.drop size })
  else
    (Except.error TVG_E_IO_ERROR, { ctx with input := [], eof := true })

/-- A call of `malloc`: whether the result is not `NULL`. -/
def tvg_malloc : tvg_m Bool := fun ctx =>
  (Except.ok (ctx.mallocs.headD true), { ctx with mallocs := ctx.mallocs.tail })

/-- The unsigned integer stored in little-endian order in a sequence of bytes. -/
def le_value : List UInt8 → Nat
  | [] => 0
  | b :: rest => b.toNat + 256 * le_value rest

/-- The constant `TVG_RANGE_DEFAULT`. -/
def TVG_RANGE_DEFAULT : Nat := 0
/-- The constant `TVG_RANGE_REDUCED`. -/
def TVG_RANGE_REDUCED : Nat := 1
/-- The constant `TVG_RANGE_ENHANCED`. -/
def TVG_RANGE_ENHANCED : Nat := 2

/-- The constant `TVG_COLOR_U8888`. -/
def TVG_COLOR_U8888 : Nat := 0
/-- The constant `TVG_COLOR_U565`. -/
def TVG_COLOR_U565 : Nat := 1
/-- The constant `TVG_COLOR_F32`. -/
def TVG_COLOR_F32 : Nat := 2
/-- The constant `TVG_COLOR_CUSTOM`. -/
def TVG_COLOR_CUSTOM : Nat := 3

/-- The macro `TVG_RGB16_R`. -/
def TVG_RGB16_R (x : Nat) : Nat := x &&& 0x1F
/-- The macro `TVG_RGB16_G`. -/
def TVG_RGB16_G (x : Nat) : Nat := (x >>> 5) &&& 0x3F
/-- The macro `TVG_RGB16_B`. -/
def TVG_RGB16_B (x : Nat) : Nat := (x >>> 11) &&& 0x1F
/-- The macro `TVG_CMD_INDEX`. -/
def TVG_CMD_INDEX (x : Nat) : Nat := x &&& 0x3F
/-- The macro `TVG_CMD_STYLE_KIND`. -/
def TVG_CMD_STYLE_KIND (x : Nat) : Nat := (x >>> 6) &&& 0x3
/-- The macro `TVG_SIZE_AND_STYLE_SIZE`. -/
def TVG_SIZE_AND_STYLE_SIZE (x : Nat) : Nat := (x &&& 0x3F) + 1
/-- The macro `TVG_SIZE_AND_STYLE_STYLE_KIND`. -/
def TVG_SIZE_AND_STYLE_STYLE_KIND (x : Nat) : Nat := (x >>> 6) &&& 0x3
/-- The macro `TVG_HEADER_DATA_SCALE`. -/
def TVG_HEADER_DATA_SCALE (x : Nat) : Nat := x &&& 0x0F
/-- The macro `TVG_HEADER_DATA_COLOR_ENC`. -/
def TVG_HEADER_DATA_COLOR_ENC (x : Nat) : Nat := (x >>> 4) &&& 0x03
/-- The macro `TVG_HEADER_DATA_RANGE`. -/
def TVG_HEADER_DATA_RANGE (x : Nat) : Nat := (x >>> 6) &&& 0x03
/-- The macro `TVG_PATH_CMD_INDEX`. -/
def TVG_PATH_CMD_INDEX (x : Nat) : Nat := x &&& 0x7
/-- The macro `TVG_PATH_CMD_HAS_LINE`. -/
def TVG_PATH_CMD_HAS_LINE (x : Nat) : Nat := (x >>> 4) &&& 0x1
/-- The macro `TVG_ARC_LARGE`. -/
def TVG_ARC_LARGE (x : Nat) : Nat := x &&& 0x1
/-- The macro `TVG_ARC_SWEEP`. -/
def TVG_ARC_SWEEP (x : Nat) : Nat := (x >>> 1) &&& 1
/-- The macro `PIXEL_ARGB`, on four values of type `uint8_t`, as a `twin_argb32_t`. -/
def PIXEL_ARGB (a r g b : Nat) : Nat := ((a <<< 24) ||| (r <<< 16) ||| (g <<< 8) ||| b) % 2 ^ 32

/-- The function `tvg_map_zero_to_max`. -/
def tvg_map_zero_to_max (ctx : tvg_context_t) (value : Nat) : Nat :=
  if 0 = value then
    if ctx.coord_range = TVG_RANGE_DEFAULT then 0xFFFF
    else if ctx.coord_range = TVG_RANGE_REDUCED then 0xFF
    else 0xFFFFFFFF
  else value

/-- The function `tvg_read_coord`. -/
def tvg_read_coord : tvg_m Nat := do
  let ctx ← tvg_get
  if ctx.coord_range = TVG_RANGE_DEFAULT then
    let u16 ← tvg_inp 2
    pure (le_value u16)
  else if ctx.coord_range = TVG_RANGE_REDUCED then
    let u8 ← tvg_inp 1
    pure (le_value u8)
  else
    let u32 ← tvg_inp 4
    pure (le_value u32)

/-- The value of a `float` given by its four bytes (IEEE 754 binary32); an infinity or a
NaN has no rational value and is given the value 0. -/
def f32_value (bytes : List UInt8) : ℚ :=
  let bits := le_value bytes
  let sign : ℚ := if bits >>> 31 = 0 then 1 else -1
  let e := (bits >>> 23) &&& 0xFF
  let m := bits &&& 0x7FFFFF
  if e = 0 then sign * m / 2 ^ 149
  else if e = 255 then 0
  else if e < 150 then sign * (2 ^ 23 + m) / 2 ^ (150 - e)
  else sign * (2 ^ 23 + m) * 2 ^ (e - 150)

/-- The conversion `(uint8_t) f` of a `float`: the fraction is discarded; a value outside
`0..255`, for which C leaves the conversion undefined, is reduced modulo 256. -/
def float_to_u8 (f : ℚ) : Nat :=
  ((if 0 ≤ f then Rat.floor f else -Rat.floor (-f)) % 256).toNat

/-- The function `tvg_read_color`. -/
def tvg_read_color : tvg_m Nat := do
  let ctx ← tvg_get
  if ctx.color_encoding = TVG_COLOR_F32 then
    let data ← tvg_inp 16
    let a := float_to_u8 (255 * f32_value ((data.drop 12).take 4))
    let r := float_to_u8 (255 * f32_value (data.take 4))
    let g := float_to_u8 (255 * f32_value ((data.drop 4).take 4))
    let b := float_to_u8 (255 * f32_value ((data.drop 8).take 4))
    pure (PIXEL_ARGB a r g b)
  else if ctx.color_encoding = TVG_COLOR_U565 then
    let bytes ← tvg_inp 2
    let data := le_value bytes
    let a := 0xff
    let r := float_to_u8 ((255 * (TVG_RGB16_R data : ℚ)) / 15)
    let g := float_to_u8 ((255 * (TVG_RGB16_G data : ℚ)) / 31)
    let b := float_to_u8 ((255 * (TVG_RGB16_B data : ℚ)) / 15)
    pure (PIXEL_ARGB a r g b)
  else if ctx.color_encoding = TVG_COLOR_U8888 then
    let r ← tvg_inp 1
    let g ← tvg_inp 1
    let b ← tvg_inp 1
    let a ← tvg_inp 1
    pure (PIXEL_ARGB (le_value a) (le_value r) (le_value g) (le_value b))
  else if ctx.color_encoding = TVG_COLOR_CUSTOM then
    tvg_fail TVG_E_NOT_SUPPORTED
  else
    tvg_fail TVG_E_INVALID_FORMAT

/-- The function `tvg_downscale_coord`. -/
def tvg_downscale_coord (ctx : tvg_context_t) (coord : Nat) : ℚ :=
  let factor : Nat := (1 <<< ctx.scale) % 2 ^ 16
  (coord : ℚ) / (factor : ℚ)

/-- The loop of `tvg_read_varuint`, one byte of the input for each pass: the value and the
rest of the input, or nothing when the input ends first. A shift by 32 bits or more, which
C leaves undefined, contributes nothing to the 32-bit result. -/
def tvg_read_varuint_loop : List UInt8 → Nat → Nat → Option (Nat × List UInt8)
  | [], _, _ => none
  | byte :: rest, count, result =>
    let val := ((byte.toNat &&& 0x7F) <<< (7 * count)) % 2 ^ 32
    let result := result ||| val
    if byte.toNat &&& 0x80 = 0 then some (result, rest)
    else tvg_read_varuint_loop rest (count + 1) result

/-- The function `tvg_read_varuint`. -/
def tvg_read_varuint : tvg_m Nat := fun ctx =>
  match tvg_read_varuint_loop ctx.input 0 0 with
  | some (result, rest) => (Except.ok result, { ctx with input := rest })
  | none => (Except.error TVG_E_IO_ERROR, { ctx with input := [], eof := true })

/-- The function `tvg_read_unit`. -/
def tvg_read_unit : tvg_m ℚ := do
  let val ← tvg_read_coord
  let ctx ← tvg_get
  pure (tvg_downscale_coord ctx val)

/-- The function `tvg_read_point`. -/
def tvg_read_point : tvg_m tvg_point_t := do
  let x ← tvg_read_unit
  let y ← tvg_read_unit
  pure ⟨x, y⟩

/-! ## image-tvg.c: header and styles -/

/-- The loop of `tvg_parse_header` that fills the color table, with `n` entries still to
read; on an error the table is freed. -/
def tvg_parse_header_colors : Nat → tvg_m Unit
  | 0 => pure ()
  | n + 1 => fun ctx =>
    match tvg_read_color ctx with
    | (Except.ok color, ctx') =>
      tvg_parse_header_colors n { ctx' with colors := ctx'.colors ++ [color] }
    | (Except.error res, ctx') => (Except.error res, { ctx' with colors := [] })

/-- The function `tvg_parse_header`. -/
def tvg_parse_header (dim_only : Bool) : tvg_m Unit := do
  let data ← tvg_inp 2
  if data.getD 0 0 ≠ 0x72 ∨ data.getD 1 0 ≠ 0x56 then
    tvg_fail TVG_E_INVALID_FORMAT
  else
    let data ← tvg_inp 1
    if data.getD 0 0 ≠ 1 then
      tvg_fail TVG_E_NOT_SUPPORTED
    else
      let data ← tvg_inp 1
      let d := (data.getD 0 0).toNat
      tvg_modify (fun ctx => { ctx with
        scale := TVG_HEADER_DATA_SCALE d,
        color_encoding := TVG_HEADER_DATA_COLOR_ENC d,
        coord_range := TVG_HEADER_DATA_RANGE d })
      let tmp ← tvg_read_coord
      tvg_modify (fun ctx => { ctx with width := tvg_map_zero_to_max ctx tmp })
      let tmp ← tvg_read_coord
      tvg_modify (fun ctx => { ctx with height := tvg_map_zero_to_max ctx tmp })
      if dim_only then
        pure ()
      else
        let color_count ← tvg_read_varuint
        if color_count = 0 then
          tvg_fail TVG_E_INVALID_FORMAT
        else
          let ok ← tvg_malloc
          if !ok then
            tvg_fail TVG_E_OUT_OF_MEMORY
          else
            tvg_modify (fun ctx => { ctx with colors_size := color_count, colors := [] })
            tvg_parse_header_colors color_count

/-- The function `tvg_parse_gradient`. -/
def tvg_parse_gradient : tvg_m tvg_gradient_t := do
  let point0 ← tvg_read_point
  let point1 ← tvg_read_point
  let color0 ← tvg_read_varuint
  let ctx ← tvg_get
  if color0 > ctx.colors_size then
    tvg_fail TVG_E_INVALID_FORMAT
  else
    let color1 ← tvg_read_varuint
    let ctx ← tvg_get
    if color1 > ctx.colors_size then
      tvg_fail TVG_E_INVALID_FORMAT
    else
      pure ⟨point0, point1, color0, color1⟩

/-- The constant `TVG_STYLE_FLAT`. -/
def TVG_STYLE_FLAT : Nat := 0
/-- The constant `TVG_STYLE_LINEAR`. -/
def TVG_STYLE_LINEAR : Nat := 1
/-- The constant `TVG_STYLE_RADIAL`. -/
def TVG_STYLE_RADIAL : Nat := 2

/-- The function `tvg_parse_style`. -/
def tvg_parse_style (kind : Nat) : tvg_m tvg_style_t := do
  if kind = TVG_STYLE_FLAT then
    let flat ← tvg_read_varuint
    pure (tvg_style_t.flat flat)
  else if kind = TVG_STYLE_LINEAR then
    let grad ← tvg_parse_gradient
    pure (tvg_style_t.linear grad)
  else if kind = TVG_STYLE_RADIAL then
    let grad ← tvg_parse_gradient
    pure (tvg_style_t.radial grad)
  else
    tvg_fail TVG_E_INVALID_FORMAT

/-- The function `tvg_parse_fill_header`. -/
def tvg_parse_fill_header (kind : Nat) : tvg_m tvg_fill_header_t := do
  let u32 ← tvg_read_varuint
  let count := u32 + 1
  let style ← tvg_parse_style kind
  pure { style := style, size := count }

/-- The function `tvg_parse_line_header`. -/
def tvg_parse_line_header (kind : Nat) : tvg_m tvg_line_header_t := do
  let u32 ← tvg_read_varuint
  let count := u32 + 1
  let style ← tvg_parse_style kind
  let line_width ← tvg_read_unit
  pure { style := style, line_width := line_width, size := count }

/-- The function `tvg_parse_line_fill_header`. -/
def tvg_parse_line_fill_header (kind : Nat) : tvg_m tvg_line_fill_header_t := do
  let d ← tvg_inp 1
  let d := (d.getD 0 0).toNat
  let count := TVG_SIZE_AND_STYLE_SIZE d
  let fill_style ← tvg_parse_style kind
  let line_style ← tvg_parse_style (TVG_SIZE_AND_STYLE_STYLE_KIND d)
  let line_width ← tvg_read_unit
  pure { fill_style := fill_style, line_style := line_style, line_width := line_width,
         size := count }

/-- The function `tvg_parse_rect`. -/
def tvg_parse_rect : tvg_m tvg_rect_t := do
  let pt ← tvg_read_point
  let w ← tvg_read_unit
  let h ← tvg_read_unit
  pure { x := pt.x, y := pt.y, width := w, height := h }

/-- The macro `GET_COLOR`: the entry of the color table, or `none` outside the table. -/
def GET_COLOR (ctx : tvg_context_t) (idx : Nat) : Option Nat := ctx.colors[idx]?

/-- The color index a style paints with: `flat`, `linear.color0` or `radial.color0`. -/
def tvg_style_color (style : tvg_style_t) : Nat :=
  match style with
  | tvg_style_t.flat flat => flat
  | tvg_style_t.linear linear => linear.color0
  | tvg_style_t.radial radial => radial.color0

/-- The function `_stroke_path_with_style`; `pen_width` is the value to which the caller
applies `D`. -/
def _stroke_path_with_style (fill_style : tvg_style_t) (pen_width : ℚ) : tvg_m Unit :=
  tvg_modify (fun ctx => { ctx with log := ctx.log ++
    [sink_call.paint_stroke (GET_COLOR ctx (tvg_style_color fill_style)) ctx.path pen_width] })

/-- The function `_fill_path_with_style`. -/
def _fill_path_with_style (fill_style : tvg_style_t) : tvg_m Unit :=
  tvg_modify (fun ctx => { ctx with log := ctx.log ++
    [sink_call.paint_path (GET_COLOR ctx (tvg_style_color fill_style)) ctx.path] })

/-- A call of a path builder on `ctx->path`. -/
def tvg_path_call (c : path_call) : tvg_m Unit :=
  tvg_modify (fun ctx => { ctx with path := ctx.path ++ [c] })

/-- The call `twin_path_empty(ctx->path)`. -/
def tvg_path_empty : tvg_m Unit :=
  tvg_modify (fun ctx => { ctx with path := [] })

/-! ## image-tvg.c: paths -/

/-- The `switch` of `tvg_parse_path` on the path command `d`, with the start `st` of the
path and the current point `cur`: the new current point. -/
def tvg_parse_path_command (d : Nat) (st cur : tvg_point_t) : tvg_m tvg_point_t :=
  match TVG_PATH_CMD_INDEX d with
  | 0 => do
    let pt ← tvg_read_point
    tvg_path_call (path_call.draw pt.x pt.y)
    pure pt
  | 1 => do
    let f32 ← tvg_read_unit
    let pt : tvg_point_t := ⟨f32, cur.y⟩
    tvg_path_call (path_call.draw pt.x pt.y)
    pure pt
  | 2 => do
    let f32 ← tvg_read_unit
    let pt : tvg_point_t := ⟨cur.x, f32⟩
    tvg_path_call (path_call.draw pt.x pt.y)
    pure pt
  | 3 => do
    let ctrl1 ← tvg_read_point
    let ctrl2 ← tvg_read_point
    let endp ← tvg_read_point
    tvg_path_call (path_call.curve ctrl1.x ctrl1.y ctrl2.x ctrl2.y endp.x endp.y)
    pure endp
  | 4 => do
    let d ← tvg_inp 1
    let d := (d.getD 0 0).toNat
    let radius ← tvg_read_unit
    let pt ← tvg_read_point
    tvg_path_call (path_call.arc_circle (TVG_ARC_LARGE d ≠ 0) (TVG_ARC_SWEEP d ≠ 0) radius
      cur.x cur.y pt.x pt.y)
    pure pt
  | 5 => do
    let d ← tvg_inp 1
    let d := (d.getD 0 0).toNat
    let radius_x ← tvg_read_unit
    let radius_y ← tvg_read_unit
    let rotation ← tvg_read_unit
    let pt ← tvg_read_point
    tvg_path_call (path_call.arc_ellipse (TVG_ARC_LARGE d ≠ 0) (TVG_ARC_SWEEP d ≠ 0)
      radius_x radius_y cur.x cur.y pt.x pt.y rotation)
    pure pt
  | 6 => do
    tvg_path_call (path_call.draw st.x st.y)
    pure st
  | 7 => do
    let ctrl ← tvg_read_point
    let endp ← tvg_read_point
    tvg_path_call (path_call.quadratic_curve ctrl.x ctrl.y endp.x endp.y)
    pure endp
  | _ => tvg_fail TVG_E_INVALID_FORMAT

/-- The loop of `tvg_parse_path` with `size - j` commands still to read. A short read of
the path command byte leaves the loop by `goto error` while `res` is `TVG_SUCCESS`. -/
def tvg_parse_path_loop : Nat → tvg_point_t → tvg_point_t → tvg_m Unit
  | 0, _, _ => pure ()
  | n + 1, st, cur => fun ctx =>
    match tvg_inp 1 ctx with
    | (Except.error _, ctx') => (Except.ok (), ctx')
    | (Except.ok d, ctx') =>
      (do
        let d := (d.getD 0 0).toNat
        let _line_width ← (if TVG_PATH_CMD_HAS_LINE d ≠ 0 then tvg_read_unit else pure 0)
        let cur ← tvg_parse_path_command d st cur
        tvg_parse_path_loop n st cur) ctx'

/-- The function `tvg_parse_path`. -/
def tvg_parse_path (size : Nat) : tvg_m Unit := do
  let pt ← tvg_read_point
  tvg_path_call (path_call.move pt.x pt.y)
  tvg_parse_path_loop size pt pt

/-- The loop `for (i = 0; i < size; ++i)` that reads the command counts `sizes[i]` of the
paths commands and adds one to each, as a `uint32_t`. -/
def tvg_read_sizes : Nat → tvg_m (List Nat)
  | 0 => pure []
  | n + 1 => do
    let v ← tvg_read_varuint
    let rest ← tvg_read_sizes n
    pure ((v + 1) % 2 ^ 32 :: rest)

/-- The loop `for (i = 0; i < size; ++i)` that calls `tvg_parse_path(ctx, sizes[i])`. -/
def tvg_parse_paths : List Nat → tvg_m Unit
  | [] => pure ()
  | s :: rest => do
    tvg_parse_path s
    tvg_parse_paths rest

/-- The function `tvg_parse_fill_rectangles`. -/
def tvg_parse_fill_rectangles : Nat → tvg_style_t → tvg_m Unit
  | 0, _ => pure ()
  | count + 1, fill_style => do
    let r ← tvg_parse_rect
    tvg_path_call (path_call.rectangle r.x r.y r.width r.height)
    _fill_path_with_style fill_style
    tvg_path_empty
    tvg_parse_fill_rectangles count fill_style

/-- The loop of `tvg_parse_line_fill_rectangles`. -/
def tvg_parse_line_fill_rectangles_loop : Nat → tvg_style_t → tvg_style_t → ℚ → tvg_m Unit
  | 0, _, _, _ => pure ()
  | count + 1, fill_style, line_style, line_width => do
    let r ← tvg_parse_rect
    tvg_path_call (path_call.rectangle r.x r.y r.width r.height)
    _fill_path_with_style fill_style
    _stroke_path_with_style line_style line_width
    tvg_path_empty
    tvg_parse_line_fill_rectangles_loop count fill_style line_style line_width

/-- The function `tvg_parse_line_fill_rectangles`. -/
def tvg_parse_line_fill_rectangles (size : Nat) (fill_style line_style : tvg_style_t)
    (line_width : ℚ) : tvg_m Unit :=
  let line_width := if line_width = 0 then 1 / 100 else line_width
  tvg_parse_line_fill_rectangles_loop size fill_style line_style line_width

/-- The function `tvg_parse_fill_paths`. The test `!path` cannot succeed: `ctx->path` comes
from `twin_path_create`, which writes through the pointer it allocates. -/
def tvg_parse_fill_paths (size : Nat) (style : tvg_style_t) : tvg_m Unit := do
  let ok ← tvg_malloc
  if !ok then
    tvg_fail TVG_E_OUT_OF_MEMORY
  else
    let sizes ← tvg_read_sizes size
    tvg_parse_paths sizes
    _fill_path_with_style style
    tvg_path_empty

/-- The function `tvg_parse_line_paths`. -/
def tvg_parse_line_paths (size : Nat) (line_style : tvg_style_t) (line_width : ℚ) :
    tvg_m Unit := do
  let ok ← tvg_malloc
  if !ok then
    tvg_fail TVG_E_OUT_OF_MEMORY
  else
    let sizes ← tvg_read_sizes size
    tvg_parse_paths sizes
    _stroke_path_with_style line_style line_width
    tvg_path_empty

/-- The function `tvg_parse_line_fill_paths`. -/
def tvg_parse_line_fill_paths (size : Nat) (fill_style line_style : tvg_style_t)
    (line_width : ℚ) : tvg_m Unit := do
  let ok ← tvg_malloc
  if !ok then
    tvg_fail TVG_E_OUT_OF_MEMORY
  else
    let sizes ← tvg_read_sizes size
    tvg_parse_paths sizes
    let line_width := if line_width = 0 then 1 / 10 else line_width
    _fill_path_with_style fill_style
    _stroke_path_with_style line_style line_width
    tvg_path_empty

/-! ## image-tvg.c: polygons, lines and the command loop -/

/-- The loop `while (--count)` of `tvg_parse_fill_polygon`, with `n` points still to read;
`path` holds the builder calls made on the local path. -/
def tvg_parse_fill_polygon_loop : Nat → List path_call → tvg_m (List path_call)
  | 0, path => pure path
  | n + 1, path => do
    let pt ← tvg_read_point
    tvg_parse_fill_polygon_loop n (path ++ [path_call.draw pt.x pt.y])

/-- The function `tvg_parse_fill_polygon`, for `size ≥ 1`. The builder calls go to a path
of their own, obtained from `twin_path_create`, and `_fill_path_with_style` paints
`ctx->path`. The value is the sequence of calls made on the local path. -/
def tvg_parse_fill_polygon (size : Nat) (fill_style : tvg_style_t) :
    tvg_m (List path_call) := do
  let pt ← tvg_read_point
  let path := [path_call.move pt.x pt.y]
  let path ← tvg_parse_fill_polygon_loop (size - 1) path
  let path := path ++ [path_call.close]
  _fill_path_with_style fill_style
  pure path

/-- The loop `for (i = 1; i < size; ++i)` of `tvg_parse_polyline`, with `n` points still
to read. -/
def tvg_parse_polyline_loop : Nat → tvg_m Unit
  | 0 => pure ()
  | n + 1 => do
    let pt ← tvg_read_point
    tvg_path_call (path_call.draw pt.x pt.y)
    tvg_parse_polyline_loop n

/-- The function `tvg_parse_polyline`. -/
def tvg_parse_polyline (size : Nat) (line_style : tvg_style_t) (line_width : ℚ)
    (close : Bool) : tvg_m Unit := do
  let pt ← tvg_read_point
  tvg_path_call (path_call.move pt.x pt.y)
  tvg_parse_polyline_loop (size - 1)
  if close then tvg_path_call path_call.close else pure ()
  let line_width := if line_width = 0 then 1 / 100 else line_width
  _stroke_path_with_style line_style line_width
  tvg_path_empty

/-- The loop `for (i = 1; i < size; ++i)` of `tvg_parse_line_fill_polyline`, with `n`
points still to read: the points are read and not drawn. -/
def tvg_parse_line_fill_polyline_loop : Nat → tvg_m Unit
  | 0 => pure ()
  | n + 1 => do
    let _pt ← tvg_read_point
    tvg_parse_line_fill_polyline_loop n

/-- The function `tvg_parse_line_fill_polyline`. The result of the first `tvg_read_point`
is not tested: it is returned at the end when the loop makes no pass. After a failed read
the point is not initialised; it is given the value (0, 0). -/
def tvg_parse_line_fill_polyline (size : Nat) (fill_style line_style : tvg_style_t)
    (line_width : ℚ) (close : Bool) : tvg_m Unit := fun ctx =>
  match tvg_read_point ctx with
  | (res, ctx') =>
    let pt : tvg_point_t :=
      match res with
      | Except.ok pt => pt
      | Except.error _ => ⟨0, 0⟩
    (do
      tvg_path_call (path_call.move pt.x pt.y)
      tvg_parse_line_fill_polyline_loop (size - 1)
      if close then tvg_path_call path_call.close else pure ()
      _fill_path_with_style fill_style
      let line_width := if line_width = 0 then 1 / 100 else line_width
      _stroke_path_with_style line_style line_width
      tvg_path_empty
      if size - 1 = 0 then
        match res with
        | Except.ok _ => pure ()
        | Except.error e => tvg_fail e
      else pure ()) ctx'

/-- The loop of `tvg_parse_lines`, with `n` lines still to read. -/
def tvg_parse_lines_loop : Nat → tvg_m Unit
  | 0 => pure ()
  | n + 1 => do
    let pt ← tvg_read_point
    tvg_path_call (path_call.move pt.x pt.y)
    let pt ← tvg_read_point
    tvg_path_call (path_call.draw pt.x pt.y)
    tvg_parse_lines_loop n

/-- The function `tvg_parse_lines`. -/
def tvg_parse_lines (size : Nat) (line_style : tvg_style_t) (line_width : ℚ) :
    tvg_m Unit := do
  tvg_parse_lines_loop size
  let line_width := if line_width = 0 then 1 / 100 else line_width
  _stroke_path_with_style line_style line_width
  tvg_path_empty

/-- The `switch` of `tvg_parse_commands` on the command byte `cmd`. -/
def tvg_parse_command (cmd : Nat) : tvg_m Unit :=
  match TVG_CMD_INDEX cmd with
  | 0 => pure ()
  | 1 => do
    let data ← tvg_parse_fill_header (TVG_CMD_STYLE_KIND cmd)
    let _ ← tvg_parse_fill_polygon data.size data.style
    pure ()
  | 2 => do
    let data ← tvg_parse_fill_header (TVG_CMD_STYLE_KIND cmd)
    tvg_parse_fill_rectangles data.size data.style
  | 3 => do
    let data ← tvg_parse_fill_header (TVG_CMD_STYLE_KIND cmd)
    tvg_parse_fill_paths data.size data.style
  | 4 => do
    let data ← tvg_parse_line_header (TVG_CMD_STYLE_KIND cmd)
    tvg_parse_lines data.size data.style data.line_width
  | 5 => do
    let data ← tvg_parse_line_header (TVG_CMD_STYLE_KIND cmd)
    tvg_parse_polyline data.size data.style data.line_width true
  | 6 => do
    let data ← tvg_parse_line_header (TVG_CMD_STYLE_KIND cmd)
    tvg_parse_polyline data.size data.style data.line_width false
  | 7 => do
    let data ← tvg_parse_line_header (TVG_CMD_STYLE_KIND cmd)
    tvg_parse_line_paths data.size data.style data.line_width
  | 8 => do
    let data ← tvg_parse_line_fill_header (TVG_CMD_STYLE_KIND cmd)
    tvg_parse_line_fill_polyline data.size data.fill_style data.line_style data.line_width
      true
  | 9 => do
    let data ← tvg_parse_line_fill_header (TVG_CMD_STYLE_KIND cmd)
    tvg_parse_line_fill_rectangles data.size data.fill_style data.line_style data.line_width
  | 10 => do
    let data ← tvg_parse_line_fill_header (TVG_CMD_STYLE_KIND cmd)
    tvg_parse_line_fill_paths data.size data.fill_style data.line_style data.line_width
  | _ => tvg_fail TVG_E_INVALID_FORMAT

/-- The function `tvg_parse_commands`: the loop `while (cmd != 0)`, each pass of which
reads one command byte. The first argument bounds the number of passes; the value is
`none` when the bound is reached before the loop ends. -/
def tvg_parse_commands : Nat → tvg_context_t →
    Option (Except tvg_result_t Unit × tvg_context_t)
  | 0, _ => none
  | fuel + 1, ctx =>
    match tvg_inp 1 ctx with
    | (Except.error e, ctx') => some (Except.error e, ctx')
    | (Except.ok cmd, ctx') =>
      match tvg_parse_command (cmd.getD 0 0).toNat ctx' with
      | (Except.error e, ctx'') => some (Except.error e, ctx'')
      | (Except.ok _, ctx'') =>
        if cmd.getD 0 0 ≠ 0 then tvg_parse_commands fuel ctx''
        else some (Except.ok (), ctx'')

/-- The context at the start of an entry point: the input of the callback and the outcomes
of the allocations to come; the fields C leaves uninitialised are set to 0. -/
def tvg_context_init (input : List UInt8) (mallocs : List Bool) : tvg_context_t :=
  { input := input, eof := false, mallocs := mallocs, log := [], path := [], scale := 0,
    color_encoding := 0, coord_range := 0, width := 0, height := 0, colors_size := 0,
    colors := [] }

/-- The function `tvg_document_dimensions`; `inp` is `none` for a `NULL` callback. The
value pairs the result code with the width and height stored on success. -/
def tvg_document_dimensions (inp : Option (List UInt8)) : tvg_result_t × Option (Nat × Nat) :=
  match inp with
  | none => (TVG_E_INVALID_ARG, none)
  | some input =>
    match tvg_parse_header true (tvg_context_init input []) with
    | (Except.error res, _) => (res, none)
    | (Except.ok _, ctx) => (TVG_SUCCESS, some (ctx.width, ctx.height))

/-- The function `tvg_render_document`; `inp` is `none` for a `NULL` callback. The value
pairs the result code with the context as it stands at the label `error`, before the color
table is freed; it is `none` when the command loop does not end within one pass for each
byte of the input and one more. `twin_path_create` writes through the pointer it
allocates, so the test `!ctx.path` cannot succeed. -/
def tvg_render_document (inp : Option (List UInt8)) (mallocs : List Bool) :
    Option (tvg_result_t × tvg_context_t) :=
  match inp with
  | none => some (TVG_E_INVALID_ARG, tvg_context_init [] mallocs)
  | some input =>
    match tvg_parse_header false (tvg_context_init input mallocs) with
    | (Except.error res, ctx) => some (res, ctx)
    | (Except.ok _, ctx) =>
      let ctx := { ctx with path := [] }
      match tvg_parse_commands (ctx.input.length + 1) ctx with
      | none => none
      | some (res, ctx) => some (tvg_result res, ctx)

/-- The standard encoding of `n` as a VarUInt, following the description of the format:
chunks of 7 bits, the lowest first, with the top bit of a byte set when another byte
follows. -/
def leb128 (n : Nat) : List UInt8 :=
  if h : n < 128 then [UInt8.ofNat n]
  else UInt8.ofNat (n % 128 + 128) :: leb128 (n / 128)
termination_by n
decreasing_by omega

/-- The document of 14 bytes given as an example: magic, version 1, flags 0x40, and ten
more bytes. -/
def sample_document : List UInt8 :=
  [0x72, 0x56, 0x01, 0x40, 0x10, 0x00, 0x10, 0x00, 0x00, 0xFF, 0x00, 0x00, 0xFF, 0x00]

/-- The example document with width and height written as one byte each, as the range
`TVG_RANGE_REDUCED` selected by its flags byte 0x40 requires, and a color count of 1. -/
def sample_document_reduced : List UInt8 :=
  [0x72, 0x56, 0x01, 0x40, 0x10, 0x10, 0x01, 0xFF, 0x00, 0x00, 0xFF, 0x00]

/-- A document with the color encoding `TVG_COLOR_CUSTOM` (flags byte 0x30): width 16 and
height 16 in the default range, and a color count of 1. -/
def sample_document_custom : List UInt8 :=
  [0x72, 0x56, 0x01, 0x30, 0x10, 0x00, 0x10, 0x00, 0x01]

/-- The 12-byte document without its last byte, the command byte 0 that ends it. -/
def sample_document_truncated : List UInt8 :=
  [0x72, 0x56, 0x01, 0x40, 0x10, 0x10, 0x01, 0xFF, 0x00, 0x00, 0xFF]

/-- The header of the example documents: magic, version 1, flags 0x40 (scale 0, colors
U8888, range `TVG_RANGE_REDUCED`), width 16, height 16 and a table of one color, red. -/
def sample_header : List UInt8 :=
  [0x72, 0x56, 0x01, 0x40, 0x10, 0x10, 0x01, 0xFF, 0x00, 0x00, 0xFF]

/-- A document whose command FILL_RECTANGLES has the flat color index 1, one past the
table of one color: one rectangle (0, 0, 8, 8), then the command byte 0. -/
def sample_flat_index : List UInt8 :=
  sample_header ++ [0x02, 0x00, 0x01, 0x00, 0x00, 0x08, 0x08, 0x00]

/-- A document whose command FILL_RECTANGLES has a linear gradient from (0, 0) to (8, 8)
with the color indices `color0` and 0: one rectangle (0, 0, 8, 8), then the command
byte 0. -/
def sample_gradient_index (color0 : UInt8) : List UInt8 :=
  sample_header ++
    [0x42, 0x00, 0x00, 0x00, 0x08, 0x08, color0, 0x00, 0x00, 0x00, 0x08, 0x08, 0x00]

/-- A document whose command DRAW_LINE_PATH has the line width 0: one path from (0, 0)
with one line to (8, 8), then the command byte 0. -/
def sample_line_path : List UInt8 :=
  sample_header ++ [0x07, 0x00, 0x00, 0x00, 0x00, 0x00, 0x00, 0x00, 0x08, 0x08, 0x00]

/-- A document whose command DRAW_LINE_STRIP has the line width 0: the points (0, 0) and
(8, 8), then the command byte 0. -/
def sample_line_strip : List UInt8 :=
  sample_header ++ [0x06, 0x01, 0x00, 0x00, 0x00, 0x00, 0x08, 0x08, 0x00]

/-- A document whose command FILL_POLYGON has the three vertices (0, 0), (8, 0), (8, 8),
then the command byte 0. -/
def sample_fill_polygon : List UInt8 :=
  sample_header ++ [0x01, 0x02, 0x00, 0x00, 0x00, 0x08, 0x00, 0x08, 0x08, 0x00]

/-- A document whose command OUTLINE_FILL_POLYGON has the line width 16 and the three
vertices (0, 0), (8, 0), (8, 8), then the command byte 0. -/
def sample_outline_polygon : List UInt8 :=
  sample_header ++
    [0x08, 0x02, 0x00, 0x00, 0x10, 0x00, 0x00, 0x08, 0x00, 0x08, 0x08, 0x00]

/-- A document whose command DRAW_LINE_LOOP has the line width 16 and the three vertices
(0, 0), (8, 0), (8, 8), then the command byte 0. -/
def sample_line_loop : List UInt8 :=
  sample_header ++ [0x05, 0x02, 0x00, 0x10, 0x00, 0x00, 0x08, 0x00, 0x08, 0x08, 0x00]

/-! ## Definitions used by the proofs on image-tvg.c -/

/-- The record `eof` is sound: once the callback has delivered fewer bytes than requested,
nothing remains of the input. -/
def tvg_inv (ctx : tvg_context_t) : Prop := ctx.eof = true → ctx.input = []

/-- A decoder function reads forward: what it leaves of the input is an end part of what
it found, it keeps the record `eof` sound, and the error code it returns is not
`TVG_SUCCESS`. -/
def tvg_ok {α : Type} (m : tvg_m α) : Prop :=
  ∀ ctx, (m ctx).2.input <:+ ctx.input ∧ (tvg_inv ctx → tvg_inv (m ctx).2) ∧
    (m ctx).1 ≠ Except.error TVG_SUCCESS

/-- The part of `tvg_parse_header` that follows the test of `dim_only`: the color table. -/
def tvg_parse_color_table : tvg_m Unit := do
  let color_count ← tvg_read_varuint
  if color_count = 0 then
    tvg_fail TVG_E_INVALID_FORMAT
  else
    let ok ← tvg_malloc
    if !ok then
      tvg_fail TVG_E_OUT_OF_MEMORY
    else
      tvg_modify (fun ctx => { ctx with colors_size := color_count, colors := [] })
      tvg_parse_header_colors color_count

/-- The expression `(uint8_t) ((255.0f * (float) field) / divisor)` by which
`tvg_read_color` turns a field of a U565 color into a channel. -/
def u565_channel (field divisor : Nat) : Nat :=
  float_to_u8 ((255 * (field : ℚ)) / (divisor : ℚ))

/-- A context in which the color encoding is `TVG_COLOR_U565`, with the input given. -/
def sample_u565_context (input : List UInt8) : tvg_context_t :=
  { tvg_context_init input [] with color_encoding := TVG_COLOR_U565 }

/-- A decoder function keeps the width and the height stored in the context. -/
def tvg_keeps_dims {α : Type} (m : tvg_m α) : Prop :=
  ∀ ctx, (m ctx).2.width = ctx.width ∧ (m ctx).2.height = ctx.height

/-- A decoder function neither consults nor changes the outcomes of the allocations. -/
def tvg_no_malloc {α : Type} (m : tvg_m α) : Prop :=
  ∀ ctx ms, m { ctx with mallocs := ms } = ((m ctx).1, { (m ctx).2 with mallocs := ms })

/-! ## Definitions used by the proofs on trig.c -/

/-- The polynomial as a fixed-point value, for arguments in `[0, 1024]`. -/
def sp (n : Nat) : Int := Int.ofNat (sin_poly_u64 n)

/-- The check behind C3 on the first quadrant, in `uint64_t` arithmetic: with
`S = sin_poly(x)` and `C = sin_poly(1024 - x)`, `S*S >> 16` plus `C*C >> 16` is within 16
of 65536. -/
def pythagoras_ok (x : Nat) : Bool :=
  decide (65536 ≤ sin_poly_u64 x * sin_poly_u64 x / 65536 +
      sin_poly_u64 (1024 - x) * sin_poly_u64 (1024 - x) / 65536 + 16 ∧
    sin_poly_u64 x * sin_poly_u64 x / 65536 +
      sin_poly_u64 (1024 - x) * sin_poly_u64 (1024 - x) / 65536 ≤ 65536 + 16)

/-- The control polygons whose chords the outer loop of `_twin_spline_decompose` draws.
`tested_polygons dist tol2 spline shift l done` holds when the loop, entered with the
working spline `spline` and the value `shift`, draws the chords `a -> d` of the polygons
`l`, in this order, each after the test `is_flat` has passed on it. Either the working
spline passes the test of the `while` and is the last polygon (`last`), or it fails it,
the inner loop finds the first `s` from `shift` on at which the left part of
`_de_casteljau` passes the test, this left part is the next polygon and the loop goes on
with the right part and `s - 1` (or 1) (`left`), or the loops are cut at their bound
(`cut`, with `done = false`). -/
inductive tested_polygons (dist : twin_spoint_t → twin_spoint_t → twin_spoint_t → Int)
    (tol2 : Int) : twin_spline_t → Nat → List twin_spline_t → Bool → Prop
  | last (spline : twin_spline_t) (shift : Nat) :
      is_flat dist spline tol2 = true → tested_polygons dist tol2 spline shift [spline] true
  | left (spline : twin_spline_t) (shift s : Nat) (rest : List twin_spline_t) (done : Bool) :
      is_flat dist spline tol2 = false → shift ≤ s →
      (∀ t, shift ≤ t → t < s → is_flat dist (_de_casteljau spline t).1 tol2 = false) →
      is_flat dist (_de_casteljau spline s).1 tol2 = true →
      tested_polygons dist tol2 (_de_casteljau spline s).2 (if s > 1 then s - 1 else s)
        rest done →
      tested_polygons dist tol2 spline shift ((_de_casteljau spline s).1 :: rest) done
  | cut (spline : twin_spline_t) (shift : Nat) :
      tested_polygons dist tol2 spline shift [] false


/-- The quadratic control polygons whose chords the outer loop of
`_twin_quad_spline_decompose` draws, as `tested_polygons` for the cubic flattener.
`tested_quad_polygons dist tol2 spline shift l done` holds when the loop, entered with the
working spline `spline` and the value `shift`, draws the chords `p0 -> p2` of the polygons
`l`, in this order, each after the test `_quad_is_flat` has passed on it. Either the working
spline passes the test of the `while` and is the last polygon (`last`), or it fails it,
the inner loop finds the first `s` from `shift` on at which the left part of
`_quad_de_casteljau` passes the test, this left part is the next polygon and the loop goes on
with the right part and `s - 1` (or 1) (`left`), or the loops are cut at their bound
(`cut`, with `done = false`). -/
inductive tested_quad_polygons (dist : twin_spoint_t → twin_spoint_t → twin_spoint_t → Int)
    (tol2 : Int) : twin_quad_spline_t → Nat → List twin_quad_spline_t → Bool → Prop
  | last (spline : twin_quad_spline_t) (shift : Nat) :
      _quad_is_flat dist spline tol2 = true →
      tested_quad_polygons dist tol2 spline shift [spline] true
  | left (spline : twin_quad_spline_t) (shift s : Nat) (rest : List twin_quad_spline_t)
      (done : Bool) :
      _quad_is_flat dist spline tol2 = false → shift ≤ s →
      (∀ t, shift ≤ t → t < s →
        _quad_is_flat dist (_quad_de_casteljau spline t).1 tol2 = false) →
      _quad_is_flat dist (_quad_de_casteljau spline s).1 tol2 = true →
      tested_quad_polygons dist tol2 (_quad_de_casteljau spline s).2
        (if s > 1 then s - 1 else s) rest done →
      tested_quad_polygons dist tol2 spline shift ((_quad_de_casteljau spline s).1 :: rest) done
  | cut (spline : twin_quad_spline_t) (shift : Nat) :
      tested_quad_polygons dist tol2 spline shift [] false


/-- One coordinate of `_lerp`. -/
def lerp1 (u v : Int) (s : Nat) : Int := u + ((v - u) >>> s)

/-- The point `l` lies between `u` and `v`, and differs from `u` when `v` is below `u`. -/
def lerp_rel (u v l : Int) : Prop := (u ≤ v ∧ u ≤ l ∧ l ≤ v) ∨ (v < u ∧ v ≤ l ∧ l < u)

/-- The length of the control polygon `a, b, c, d` in one coordinate. -/
def tv1 (a b c d : Int) : Nat := (b - a).natAbs + (c - b).natAbs + (d - c).natAbs

/-- The distance of the inner control points `b` and `c` from the end `d` in one
coordinate. -/
def psi1 (b c d : Int) : Nat := (d - b).natAbs + (d - c).natAbs

/-- The length of a cubic control polygon, summed over the two coordinates. -/
def spline_tv (s : twin_spline_t) : Nat :=
  tv1 s.a.x s.b.x s.c.x s.d.x + tv1 s.a.y s.b.y s.c.y s.d.y

/-- The distance of the inner control points of a cubic from its end, summed over the two
coordinates. -/
def spline_psi (s : twin_spline_t) : Nat :=
  psi1 s.b.x s.c.x s.d.x + psi1 s.b.y s.c.y s.d.y

/-- Every coordinate of the cubic control polygon lies in `[lo, hi]`. -/
def spline_in_box (lo hi : Int) (s : twin_spline_t) : Prop :=
  (lo ≤ s.a.x ∧ s.a.x ≤ hi) ∧ (lo ≤ s.b.x ∧ s.b.x ≤ hi) ∧ (lo ≤ s.c.x ∧ s.c.x ≤ hi) ∧
  (lo ≤ s.d.x ∧ s.d.x ≤ hi) ∧ (lo ≤ s.a.y ∧ s.a.y ≤ hi) ∧ (lo ≤ s.b.y ∧ s.b.y ≤ hi) ∧
  (lo ≤ s.c.y ∧ s.c.y ≤ hi) ∧ (lo ≤ s.d.y ∧ s.d.y ≤ hi)

/-- The steps `e1, e2, e3` of a control polygon in one coordinate are all 0 or 1. -/
def steps_up (e1 e2 e3 : Int) : Prop :=
  (0 ≤ e1 ∧ e1 ≤ 1) ∧ (0 ≤ e2 ∧ e2 ≤ 1) ∧ (0 ≤ e3 ∧ e3 ≤ 1)

/-- The steps `e1, e2, e3` of a control polygon in one coordinate are all 0 or -1. -/
def steps_down (e1 e2 e3 : Int) : Prop :=
  (-1 ≤ e1 ∧ e1 ≤ 0) ∧ (-1 ≤ e2 ∧ e2 ≤ 0) ∧ (-1 ≤ e3 ∧ e3 ≤ 0)

/-- The cubic control polygon is a staircase: each of its points differs from the one
before by 0 or 1 in both coordinates, or each by 0 or -1 in both coordinates. -/
def is_stair (s : twin_spline_t) : Prop :=
  (steps_up (s.b.x - s.a.x) (s.c.x - s.b.x) (s.d.x - s.c.x) ∧
    steps_up (s.b.y - s.a.y) (s.c.y - s.b.y) (s.d.y - s.c.y)) ∨
  (steps_down (s.b.x - s.a.x) (s.c.x - s.b.x) (s.d.x - s.c.x) ∧
    steps_down (s.b.y - s.a.y) (s.c.y - s.b.y) (s.d.y - s.c.y))

/-- The length of a quadratic control polygon, summed over the two coordinates. -/
def quad_spline_tv (s : twin_quad_spline_t) : Nat :=
  tv1 s.p0.x s.p0.x s.p1.x s.p2.x + tv1 s.p0.y s.p0.y s.p1.y s.p2.y

/-- The distance of the inner control point of a quadratic from its end, summed over the
two coordinates. -/
def quad_spline_psi (s : twin_quad_spline_t) : Nat :=
  (s.p2.x - s.p1.x).natAbs + (s.p2.y - s.p1.y).natAbs

/-- Every coordinate of the quadratic control polygon lies in `[lo, hi]`. -/
def quad_spline_in_box (lo hi : Int) (s : twin_quad_spline_t) : Prop :=
  (lo ≤ s.p0.x ∧ s.p0.x ≤ hi) ∧ (lo ≤ s.p1.x ∧ s.p1.x ≤ hi) ∧ (lo ≤ s.p2.x ∧ s.p2.x ≤ hi) ∧
  (lo ≤ s.p0.y ∧ s.p0.y ≤ hi) ∧ (lo ≤ s.p1.y ∧ s.p1.y ≤ hi) ∧ (lo ≤ s.p2.y ∧ s.p2.y ≤ hi)

/-- The quadratic control polygon is a staircase: each of its points differs from the one
before by 0 or 1 in both coordinates, or each by 0 or -1 in both coordinates. -/
def quad_is_stair (s : twin_quad_spline_t) : Prop :=
  (steps_up 0 (s.p1.x - s.p0.x) (s.p2.x - s.p1.x) ∧
    steps_up 0 (s.p1.y - s.p0.y) (s.p2.y - s.p1.y)) ∨
  (steps_down 0 (s.p1.x - s.p0.x) (s.p2.x - s.p1.x) ∧
    steps_down 0 (s.p1.y - s.p0.y) (s.p2.y - s.p1.y))

/-- The value of `_twin_distance_to_line_squared` in terms of the differences of the point
and of the second point of the line from the first point of the line. -/
def distance_of_differences (px py dx dy : Int) : Int :=
  let num := dy * px + -dx * py
  let den := dy * dy + -dx * -dx
  if den = 0 then px * px + py * py else (num * num) / den

/-- The cubic `(p0, p0 + 2/3 (p1 - p0), p2 + 2/3 (p1 - p2), p2)` that the claim on the two
flatteners calls the equivalent of the quadratic `(p0, p1, p2)`; the division rounds
down. -/
def quad_to_cubic (q : twin_quad_spline_t) : twin_spline_t :=
  { a := q.p0,
    b := ⟨q.p0.x + 2 * (q.p1.x - q.p0.x) / 3, q.p0.y + 2 * (q.p1.y - q.p0.y) / 3⟩,
    c := ⟨q.p2.x + 2 * (q.p1.x - q.p2.x) / 3, q.p2.y + 2 * (q.p1.y - q.p2.y) / 3⟩,
    d := q.p2 }

/-- The quadratic `((0, 0), (600, 0), (600, 600))`. -/
def sample_quad : twin_quad_spline_t := ⟨⟨0, 0⟩, ⟨600, 0⟩, ⟨600, 600⟩⟩

/-- The value of `twin_sin` at an angle with the residue `r` modulo 4096, through the
values `f` of the polynomial on the first quadrant. -/
def sin_of_residue (f : Nat → Int) (r : Nat) : Int :=
  if r < 1024 then f r
  else if r = 1024 then 65536
  else if r < 2048 then f (2048 - r)
  else if r < 3072 then -f (r - 2048)
  else if r = 3072 then -65536
  else -f (4096 - r)

/-- The value of `twin_cos` at an angle with the residue `r` modulo 4096, through the
values `f` of the polynomial on the first quadrant. -/
def cos_of_residue (f : Nat → Int) (r : Nat) : Int :=
  if r < 1024 then f (1024 - r)
  else if r = 1024 then 0
  else if r < 2048 then -f (r - 1024)
  else if r < 3072 then -f (3072 - r)
  else if r = 3072 then 0
  else f (r - 3072)

/-! ## Auxiliary lemmas: bounded checks -/

theorem allBelow_spec (f : Nat → Bool) :
    ∀ n, allBelow f n = true → ∀ a, a < n → f a = true := by
  intro n
  induction n with
  | zero => intro _ a h; omega
  | succ k ih =>
    intro h a ha
    simp only [allBelow, Bool.and_eq_true] at h
    rcases Nat.lt_succ_iff_lt_or_eq.mp ha with h1 | h1
    · exact ih h.2 a h1
    · subst h1; exact h.1

/-! ## Auxiliary lemmas: the sine polynomial on the first quadrant -/

theorem sin_poly_u64_check :
    allBelow (fun n => decide (sin_poly_u64 n ≤ 65536)) 1025 = true := by decide!

theorem sin_poly_u64_le (n : Nat) (h : n ≤ 1024) : sin_poly_u64 n ≤ 65536 := by
  have := allBelow_spec _ 1025 sin_poly_u64_check n (by omega)
  simpa using this

theorem sin_poly_eq_sp (x : Int) (n : Nat) (hx : x = (n : Int)) (h : n ≤ 1024) :
    sin_poly x = sp n := by
  subst hx
  have h1 : u64 (n : Int) = n := by
    unfold u64
    omega
  have h2 := sin_poly_u64_le n h
  unfold sin_poly sp wrap32
  rw [h1]
  simp only [Int.ofNat_eq_coe]
  omega

theorem sp_nonneg (n : Nat) : 0 ≤ sp n := by
  unfold sp
  exact Int.ofNat_nonneg _

theorem sp_zero : sp 0 = 0 := by decide

theorem sp_1024 : sp 1024 = 65536 := by decide

/-! ## Auxiliary lemmas: `twin_sincos` by quadrant -/

theorem twin_sincos_fst (a : Int) (c : Bool) : (twin_sincos a true c).1 = twin_sin a := by
  cases c
  · rfl
  · unfold twin_sin twin_sincos
    by_cases h : and_not_bit (and_mask a TWIN_ANGLE_360) TWIN_ANGLE_180 = TWIN_ANGLE_90
    · simp [h]
    · simp [h]

theorem twin_sincos_snd (a : Int) (s : Bool) : (twin_sincos a s true).2 = twin_cos a := by
  cases s
  · rfl
  · unfold twin_cos twin_sincos
    by_cases h : and_not_bit (and_mask a TWIN_ANGLE_360) TWIN_ANGLE_180 = TWIN_ANGLE_90
    · simp [h]
    · simp [h]

theorem twin_sincos_q1 (a : Int) (x : Nat) (hx : x < 1024) (h : a % 4096 = x) :
    twin_sin a = sp x ∧ twin_cos a = sp (1024 - x) := by
  have e1 : sin_poly (x : Int) = sp x := sin_poly_eq_sp _ x rfl (by omega)
  have e2 : sin_poly (1024 - (x : Int)) = sp (1024 - x) :=
    sin_poly_eq_sp _ (1024 - x) (by omega) (by omega)
  have b1 : ¬ ((x : Int) / 2048 % 2 = 1) := by omega
  have b2 : ¬ ((x : Int) / 1024 % 2 = 1) := by omega
  have b3 : (x : Int) % 1024 = x := by omega
  have b4 : ¬ ((x : Int) = 1024) := by omega
  have b5 : ¬ ((x : Int) > 1024) := by omega
  simp [twin_sin, twin_cos, twin_sincos, and_mask, and_bit, and_not_bit, TWIN_ANGLE_360,
    TWIN_ANGLE_180, TWIN_ANGLE_90, TWIN_ANGLE_270, TWIN_FIXED_ONE, h, b1, b2, b3, b4, b5, e1, e2]

theorem twin_sincos_q2 (a : Int) (x : Nat) (hx0 : 0 < x) (hx : x < 1024)
    (h : a % 4096 = 2048 - (x : Int)) :
    twin_sin a = sp x ∧ twin_cos a = -sp (1024 - x) := by
  have e1 : sin_poly (x : Int) = sp x := sin_poly_eq_sp _ x rfl (by omega)
  have e2 : sin_poly (1024 - (x : Int)) = sp (1024 - x) :=
    sin_poly_eq_sp _ (1024 - x) (by omega) (by omega)
  have b1 : ¬ ((2048 - (x : Int)) / 2048 % 2 = 1) := by omega
  have b2 : (2048 - (x : Int)) / 1024 % 2 = 1 := by omega
  have b3 : (x : Int) % 1024 = x := by omega
  have b4 : ¬ (2048 - (x : Int) = 1024) := by omega
  have b5 : (2048 - (x : Int)) > 1024 := by omega
  have b6 : (2048 - (x : Int)) < 3072 := by omega
  have b7 : ¬ ((x : Int) / 2048 % 2 = 1) := by omega
  simp [twin_sin, twin_cos, twin_sincos, and_mask, and_bit, and_not_bit, TWIN_ANGLE_360,
    TWIN_ANGLE_180, TWIN_ANGLE_90, TWIN_ANGLE_270, TWIN_FIXED_ONE, h, b1, b2, b3, b4, b5, b6, b7,
    e1, e2]

theorem twin_sincos_q3 (a : Int) (x : Nat) (hx : x < 1024) (h : a % 4096 = 2048 + (x : Int)) :
    twin_sin a = -sp x ∧ twin_cos a = -sp (1024 - x) := by
  have e1 : sin_poly (x : Int) = sp x := sin_poly_eq_sp _ x rfl (by omega)
  have e2 : sin_poly (1024 - (x : Int)) = sp (1024 - x) :=
    sin_poly_eq_sp _ (1024 - x) (by omega) (by omega)
  have b1 : (2048 + (x : Int)) / 2048 % 2 = 1 := by omega
  have b2 : ¬ ((2048 + (x : Int)) / 1024 % 2 = 1) := by omega
  have b3 : (2048 + (x : Int)) % 1024 = x := by omega
  have b4 : ¬ ((x : Int) = 1024) := by omega
  have b5 : (2048 + (x : Int)) > 1024 := by omega
  have b6 : (2048 + (x : Int)) < 3072 := by omega
  simp [twin_sin, twin_cos, twin_sincos, and_mask, and_bit, and_not_bit, TWIN_ANGLE_360,
    TWIN_ANGLE_180, TWIN_ANGLE_90, TWIN_ANGLE_270, TWIN_FIXED_ONE, h, b1, b2, b3, b4, b5, b6,
    e1, e2]

theorem twin_sincos_q4 (a : Int) (x : Nat) (hx0 : 0 < x) (hx : x < 1024)
    (h : a % 4096 = 4096 - (x : Int)) :
    twin_sin a = -sp x ∧ twin_cos a = sp (1024 - x) := by
  have e1 : sin_poly (x : Int) = sp x := sin_poly_eq_sp _ x rfl (by omega)
  have e2 : sin_poly (1024 - (x : Int)) = sp (1024 - x) :=
    sin_poly_eq_sp _ (1024 - x) (by omega) (by omega)
  have b1 : (4096 - (x : Int)) / 2048 % 2 = 1 := by omega
  have b2 : (4096 - (x : Int)) / 1024 % 2 = 1 := by omega
  have b3 : (2048 - (4096 - (x : Int))) % 1024 = x := by omega
  have b4 : ¬ (4096 - (x : Int) - 2048 = 1024) := by omega
  have b8 : ¬ ((x : Int) = 1024) := by omega
  have b5 : ¬ ((4096 - (x : Int)) < 3072) := by omega
  have b7 : (2048 - (4096 - (x : Int))) / 2048 % 2 = 1 := by omega
  simp [twin_sin, twin_cos, twin_sincos, and_mask, and_bit, and_not_bit, TWIN_ANGLE_360,
    TWIN_ANGLE_180, TWIN_ANGLE_90, TWIN_ANGLE_270, TWIN_FIXED_ONE, h, b1, b2, b3, b4, b5, b7, b8,
    e1, e2]

theorem twin_sincos_90 (a : Int) (h : a % 4096 = 1024) :
    twin_sin a = 65536 ∧ twin_cos a = 0 := by
  simp [twin_sin, twin_cos, twin_sincos, and_mask, and_bit, and_not_bit, TWIN_ANGLE_360,
    TWIN_ANGLE_180, TWIN_ANGLE_90, TWIN_ANGLE_270, TWIN_FIXED_ONE, h]

theorem twin_sincos_270 (a : Int) (h : a % 4096 = 3072) :
    twin_sin a = -65536 ∧ twin_cos a = 0 := by
  simp [twin_sin, twin_cos, twin_sincos, and_mask, and_bit, and_not_bit, TWIN_ANGLE_360,
    TWIN_ANGLE_180, TWIN_ANGLE_90, TWIN_ANGLE_270, TWIN_FIXED_ONE, h]

theorem emod_4096_range (a : Int) : 0 ≤ a % 4096 ∧ a % 4096 < 4096 := by
  omega

theorem twin_sincos_shape (a : Int) :
    ∃ x : Nat, x ≤ 1024 ∧ (twin_sin a = sp x ∨ twin_sin a = -sp x) ∧
      (twin_cos a = sp (1024 - x) ∨ twin_cos a = -sp (1024 - x)) := by
  obtain ⟨h0, h1⟩ := emod_4096_range a
  by_cases c1 : a % 4096 < 1024
  · obtain ⟨hs, hc⟩ := twin_sincos_q1 a (a % 4096).toNat (by omega) (by omega)
    exact ⟨_, by omega, Or.inl hs, Or.inl hc⟩
  by_cases c2 : a % 4096 = 1024
  · obtain ⟨hs, hc⟩ := twin_sincos_90 a c2
    exact ⟨1024, le_refl _, Or.inl (by rw [hs, sp_1024]), Or.inl (by rw [hc]; exact sp_zero.symm)⟩
  by_cases c3 : a % 4096 < 2048
  · obtain ⟨hs, hc⟩ := twin_sincos_q2 a (2048 - a % 4096).toNat (by omega) (by omega) (by omega)
    exact ⟨_, by omega, Or.inl hs, Or.inr hc⟩
  by_cases c4 : a % 4096 < 3072
  · obtain ⟨hs, hc⟩ := twin_sincos_q3 a (a % 4096 - 2048).toNat (by omega) (by omega)
    exact ⟨_, by omega, Or.inr hs, Or.inr hc⟩
  by_cases c5 : a % 4096 = 3072
  · obtain ⟨hs, hc⟩ := twin_sincos_270 a c5
    exact ⟨1024, le_refl _, Or.inr (by rw [hs, sp_1024]), Or.inl (by rw [hc]; exact sp_zero.symm)⟩
  · obtain ⟨hs, hc⟩ := twin_sincos_q4 a (4096 - a % 4096).toNat (by omega) (by omega) (by omega)
    exact ⟨_, by omega, Or.inr hs, Or.inl hc⟩

theorem twin_fixed_mul_self_sp (v : Int) (n : Nat) (h : v = sp n ∨ v = -sp n) :
    twin_fixed_mul v v = ((sin_poly_u64 n * sin_poly_u64 n / 65536 : Nat) : Int) := by
  have hv : v * v = sp n * sp n := by
    rcases h with h | h <;> rw [h]
    exact neg_mul_neg _ _
  unfold twin_fixed_mul
  rw [hv, Int.shiftRight_eq_div_pow]
  unfold sp
  simp only [Int.ofNat_eq_coe]
  norm_cast

theorem pythagoras_check : allBelow pythagoras_ok 1025 = true := by decide!

theorem twin_atan2_pos_y_axis (y : Int) (hy : 0 < y) : twin_atan2 y 0 = TWIN_ANGLE_90 := by
  have h1 : y ≠ 0 := by omega
  simp [twin_atan2, h1, hy, TWIN_ANGLE_90]

theorem twin_atan2_neg_y_axis (y : Int) (hy : y < 0) : twin_atan2 y 0 = TWIN_ANGLE_270 := by
  have h1 : y ≠ 0 := by omega
  have h2 : ¬ (0 < y) := by omega
  simp [twin_atan2, h1, h2, TWIN_ANGLE_270]

theorem twin_atan2_pos_x_axis (x : Int) (hx : 0 < x) : twin_atan2 0 x = 0 := by
  have h1 : x ≠ 0 := by omega
  simp [twin_atan2, h1, hx]

theorem twin_atan2_neg_x_axis (x : Int) (hx : x < 0) : twin_atan2 0 x = TWIN_ANGLE_180 := by
  have h1 : x ≠ 0 := by omega
  have h2 : ¬ (0 < x) := by omega
  simp [twin_atan2, h1, h2, TWIN_ANGLE_180]

/-- C1: `twin_sincos` gives the exact cardinal values: `twin_sin(ANGLE_90) = ONE`,
`twin_cos(ANGLE_90) = 0`, `twin_sin(ANGLE_180) = 0` and `twin_cos(ANGLE_180) = -ONE`. -/
theorem twin_sincos_cardinal_values :
    twin_sin TWIN_ANGLE_90 = TWIN_FIXED_ONE ∧ twin_cos TWIN_ANGLE_90 = 0 ∧
    twin_sin TWIN_ANGLE_180 = 0 ∧ twin_cos TWIN_ANGLE_180 = -TWIN_FIXED_ONE := by
  decide

/-- C2: `twin_atan2` is closed-form on the axes: `atan2(y, 0) = ANGLE_90` for every `y > 0`,
`atan2(y, 0) = ANGLE_270` for every `y < 0`, `atan2(0, x) = 0` for every `x > 0`,
`atan2(0, x) = ANGLE_180` for every `x < 0`, and `atan2(0, 0) = 0`. -/
theorem twin_atan2_axes :
    (∀ y : Int, 0 < y → twin_atan2 y 0 = TWIN_ANGLE_90) ∧
    (∀ y : Int, y < 0 → twin_atan2 y 0 = TWIN_ANGLE_270) ∧
    (∀ x : Int, 0 < x → twin_atan2 0 x = 0) ∧
    (∀ x : Int, x < 0 → twin_atan2 0 x = TWIN_ANGLE_180) ∧
    twin_atan2 0 0 = 0 :=
  ⟨twin_atan2_pos_y_axis, twin_atan2_neg_y_axis, twin_atan2_pos_x_axis, twin_atan2_neg_x_axis,
    by simp [twin_atan2]⟩

/-- Witness of C2 at the four unit axis vectors (scenario 5 of the specification). -/
theorem twin_atan2_axes_witness :
    twin_atan2 65536 0 = TWIN_ANGLE_90 ∧ twin_atan2 (-65536) 0 = TWIN_ANGLE_270 ∧
    twin_atan2 0 65536 = 0 ∧ twin_atan2 0 (-65536) = TWIN_ANGLE_180 :=
  ⟨twin_atan2_axes.1 65536 (by decide), twin_atan2_axes.2.1 (-65536) (by decide),
    twin_atan2_axes.2.2.1 65536 (by decide), twin_atan2_axes.2.2.2.1 (-65536) (by decide)⟩

/-- C3: for every angle `a`, with `(s, c) = twin_sincos(a)` and `mul(p,q) = (p*q) >> 16`,
`|mul(s,s) + mul(c,c) - ONE| ≤ ONE / 4096` (that is, at most 16). -/
theorem twin_sincos_pythagoras (a : Int) :
    |twin_fixed_mul (twin_sincos a true true).1 (twin_sincos a true true).1 +
      twin_fixed_mul (twin_sincos a true true).2 (twin_sincos a true true).2 -
      TWIN_FIXED_ONE| ≤ TWIN_FIXED_ONE / 4096 := by
  rw [twin_sincos_fst, twin_sincos_snd]
  obtain ⟨x, hx, hs, hc⟩ := twin_sincos_shape a
  rw [twin_fixed_mul_self_sp _ x hs, twin_fixed_mul_self_sp _ (1024 - x) hc]
  have h := allBelow_spec pythagoras_ok 1025 pythagoras_check x (by omega)
  simp only [pythagoras_ok, decide_eq_true_eq] at h
  unfold TWIN_FIXED_ONE
  rw [abs_le]
  omega

theorem current_subpath_len_eq (path : twin_path_t) :
    _twin_current_subpath_len path = (path.points.length : Int) - (subpath_start path : Int) := by
  unfold _twin_current_subpath_len subpath_start twin_path_t.npoints twin_path_t.nsublen
  rcases List.eq_nil_or_concat path.sublen with h | ⟨L, b, h⟩
  · simp [h]
  · simp [h]

theorem subpath_start_nil (path : twin_path_t) (h : path.sublen = []) :
    subpath_start path = 0 := by
  simp [subpath_start, h]

theorem subpath_start_mem (path : twin_path_t) (h : path.sublen ≠ []) :
    subpath_start path ∈ path.sublen := by
  unfold subpath_start
  rcases List.eq_nil_or_concat path.sublen with h1 | ⟨L, b, h1⟩
  · exact absurd h1 h
  · simp [h1]

theorem path_inv.mem_le_start {path : twin_path_t} (hi : path_inv path) :
    ∀ b ∈ path.sublen, b ≤ subpath_start path := by
  intro b hb
  have hg := hi.gaps
  unfold subpath_start
  rcases List.eq_nil_or_concat path.sublen with h1 | ⟨L, c, h1⟩
  · rw [h1] at hb; simp at hb
  · rw [h1] at hb hg ⊢
    simp only [List.concat_eq_append, List.mem_append, List.mem_singleton] at hb
    simp only [List.concat_eq_append, List.getLast?_concat, Option.getD_some]
    rw [List.concat_eq_append, List.pairwise_append] at hg
    rcases hb with hb | hb
    · have := hg.2.2 b hb c (by simp)
      omega
    · omega

theorem path_inv.start_le {path : twin_path_t} (hi : path_inv path) :
    subpath_start path ≤ path.points.length := by
  by_cases h : path.sublen = []
  · rw [subpath_start_nil path h]; omega
  · exact (hi.bounds _ (subpath_start_mem path h)).2

theorem path_inv.len_nonneg {path : twin_path_t} (hi : path_inv path) :
    0 ≤ _twin_current_subpath_len path := by
  rw [current_subpath_len_eq]
  have := hi.start_le
  omega

theorem path_inv_congr {P Q : twin_path_t} (hp : Q.points = P.points) (hs : Q.sublen = P.sublen)
    (hi : path_inv P) : path_inv Q := by
  constructor
  · rw [hs]; exact hi.gaps
  · rw [hs, hp]; exact hi.bounds
  · rw [hs, hp]; exact hi.adjacent

theorem path_inv_drop_last {P Q : twin_path_t} (hi : path_inv P)
    (hl : _twin_current_subpath_len P = 1)
    (hp : Q.points = P.points.dropLast) (hs : Q.sublen = P.sublen) : path_inv Q := by
  rw [current_subpath_len_eq] at hl
  constructor
  · rw [hs]; exact hi.gaps
  · intro b hb
    rw [hs] at hb
    have h1 := hi.bounds b hb
    have h2 := hi.mem_le_start b hb
    rw [hp, List.length_dropLast]
    omega
  · intro i p q h1 h2 h3
    rw [hp, List.getElem?_dropLast] at h1 h2
    rw [hs] at h3
    split_ifs at h1 h2
    exact hi.adjacent i p q h1 h2 h3

theorem path_inv_push_boundary {P Q : twin_path_t} (hi : path_inv P)
    (h0 : _twin_current_subpath_len P ≠ 0) (h1 : _twin_current_subpath_len P ≠ 1)
    (hp : Q.points = P.points) (hs : Q.sublen = P.sublen ++ [P.points.length]) :
    path_inv Q := by
  have hn := hi.len_nonneg
  rw [current_subpath_len_eq] at h0 h1 hn
  constructor
  · rw [hs, List.pairwise_append]
    refine ⟨hi.gaps, List.pairwise_singleton _ _, ?_⟩
    intro a ha b hb
    have := hi.mem_le_start a ha
    simp only [List.mem_singleton] at hb
    omega
  · intro b hb
    rw [hs] at hb
    rw [hp]
    simp only [List.mem_append, List.mem_singleton] at hb
    rcases hb with hb | hb
    · exact hi.bounds b hb
    · omega
  · intro i p q g1 g2 g3
    rw [hp] at g1 g2
    rw [hs] at g3
    simp only [List.mem_append, List.mem_singleton, not_or] at g3
    exact hi.adjacent i p q g1 g2 g3.1

theorem path_inv_push_point {P Q : twin_path_t} (hi : path_inv P) (pt : twin_spoint_t)
    (hd : ¬ (_twin_current_subpath_len P > 0 ∧ P.points.getLast? = some pt))
    (hp : Q.points = P.points ++ [pt]) (hs : Q.sublen = P.sublen) : path_inv Q := by
  have hn := hi.len_nonneg
  rw [current_subpath_len_eq] at hd hn
  constructor
  · rw [hs]; exact hi.gaps
  · intro b hb
    rw [hs] at hb
    have := hi.bounds b hb
    rw [hp, List.length_append, List.length_singleton]
    omega
  · intro i p q g1 g2 g3
    rw [hs] at g3
    rw [hp] at g1 g2
    by_cases c : i + 1 < P.points.length
    · rw [List.getElem?_append_left (by omega)] at g1
      rw [List.getElem?_append_left c] at g2
      exact hi.adjacent i p q g1 g2 g3
    · have c1 : i + 1 = P.points.length := by
        by_contra hne
        rw [List.getElem?_eq_none (by simp; omega)] at g2
        exact Option.noConfusion g2
      rw [List.getElem?_append_left (by omega)] at g1
      rw [c1, List.getElem?_concat_length] at g2
      have hq : q = pt := (Option.some.inj g2).symm
      have hlast : P.points.getLast? = some p := by
        rw [List.getLast?_eq_getElem?, ← g1]
        congr 1
        omega
      have hpos : (P.points.length : Int) - (subpath_start P : Int) > 0 := by
        by_cases hnil : P.sublen = []
        · rw [subpath_start_nil P hnil]; omega
        · have hm := subpath_start_mem P hnil
          have : subpath_start P ≠ i + 1 := fun e => g3 (e ▸ hm)
          omega
      intro hpq
      apply hd
      refine ⟨hpos, ?_⟩
      rw [hlast, hpq, hq]

theorem path_inv_set_last {P Q : twin_path_t} (hi : path_inv P) (pt : twin_spoint_t)
    (hl : _twin_current_subpath_len P = 1)
    (hp : Q.points = P.points.set (P.points.length - 1) pt) (hs : Q.sublen = P.sublen) :
    path_inv Q := by
  rw [current_subpath_len_eq] at hl
  constructor
  · rw [hs]; exact hi.gaps
  · intro b hb
    rw [hs] at hb
    rw [hp, List.length_set]
    exact hi.bounds b hb
  · intro i p q g1 g2 g3
    rw [hs] at g3
    rw [hp] at g1 g2
    have hlen : i + 1 < P.points.length := by
      by_contra hne
      rw [List.getElem?_eq_none (by simp; omega)] at g2
      exact Option.noConfusion g2
    have hne2 : i + 1 ≠ P.points.length - 1 := by
      intro e
      by_cases hnil : P.sublen = []
      · rw [subpath_start_nil P hnil] at hl; omega
      · have hm := subpath_start_mem P hnil
        apply g3
        have : subpath_start P = i + 1 := by omega
        rw [← this]; exact hm
    rw [List.getElem?_set_ne (by omega)] at g1
    rw [List.getElem?_set_ne (by omega)] at g2
    exact hi.adjacent i p q g1 g2 g3

theorem sfinish_inv (ok : Bool) (P : twin_path_t) (hi : path_inv P) :
    path_inv (_twin_path_sfinish ok P) := by
  unfold _twin_path_sfinish
  split_ifs <;>
    first
    | exact hi
    | exact path_inv_drop_last hi ‹_› rfl rfl
    | exact path_inv_push_boundary hi ‹_› ‹_› rfl rfl

theorem sdraw_inv (ok : Bool) (P : twin_path_t) (x y : Int) (hi : path_inv P) :
    path_inv (_twin_path_sdraw ok P x y) := by
  unfold _twin_path_sdraw
  split_ifs <;>
    first
    | exact hi
    | exact path_inv_push_point hi ⟨x, y⟩ ‹_› rfl rfl

theorem smove_inv (ok_f ok_d : Bool) (P : twin_path_t) (x y : Int) (hi : path_inv P) :
    path_inv (_twin_path_smove ok_f ok_d P x y) := by
  unfold _twin_path_smove
  split_ifs with h0 h1
  · exact sdraw_inv _ _ _ _ hi
  · exact path_inv_set_last hi ⟨x, y⟩ h1 rfl rfl
  · exact sdraw_inv _ _ _ _ (sfinish_inv _ _ hi)

theorem move_inv (mx my : twin_matrix_t → Int → Int → Int) (ok_f ok_d : Bool)
    (P : twin_path_t) (x y : Int) (hi : path_inv P) :
    path_inv (twin_path_move mx my ok_f ok_d P x y) := by
  unfold twin_path_move
  exact smove_inv _ _ _ _ _ (path_inv_congr (P := P) rfl rfl hi)

theorem first_spoint_inv (mx my : twin_matrix_t → Int → Int → Int) (ok_f ok_d : Bool)
    (P : twin_path_t) (hi : path_inv P) :
    path_inv (_twin_path_subpath_first_spoint mx my ok_f ok_d P).1 := by
  unfold _twin_path_subpath_first_spoint
  simp only
  split_ifs with h
  · exact move_inv _ _ _ _ _ _ _ hi
  · exact hi

theorem close_inv (mx my : twin_matrix_t → Int → Int → Int) (ok_f ok_d ok : Bool)
    (P : twin_path_t) (hi : path_inv P) :
    path_inv (twin_path_close mx my ok_f ok_d ok P) := by
  unfold twin_path_close
  split_ifs with h
  · exact hi
  · exact sdraw_inv _ _ _ _ (first_spoint_inv _ _ _ _ _ hi)

theorem empty_inv (P : twin_path_t) : path_inv (twin_path_empty P) := by
  constructor
  · simp [twin_path_empty]
  · intro b hb
    simp [twin_path_empty] at hb
  · intro i p q h1
    simp [twin_path_empty] at h1

theorem append_loop_inv (alloc : Nat → Bool × Bool) (src_sublen : List Nat) :
    ∀ (rest : List twin_spoint_t) (p s : Nat) (dst : twin_path_t), path_inv dst →
      path_inv (twin_path_append_loop alloc src_sublen rest p s dst) := by
  intro rest
  induction rest with
  | nil => intro p s dst hi; exact hi
  | cons pt rest ih =>
    intro p s dst hi
    unfold twin_path_append_loop
    split_ifs with h
    · exact ih _ _ _ (sdraw_inv _ _ _ _ (sfinish_inv _ _ hi))
    · exact ih _ _ _ (sdraw_inv _ _ _ _ hi)

theorem append_inv (alloc : Nat → Bool × Bool) (dst src : twin_path_t) (hi : path_inv dst) :
    path_inv (twin_path_append alloc dst src) :=
  append_loop_inv alloc src.sublen src.points 0 0 dst hi

theorem apply_op_inv (mx my : twin_matrix_t → Int → Int → Int) (P : twin_path_t)
    (op : path_op) (hi : path_inv P) : path_inv (apply_op mx my P op) := by
  cases op with
  | smove ok_f ok_d x y => exact smove_inv _ _ _ _ _ hi
  | sdraw ok x y => exact sdraw_inv _ _ _ _ hi
  | sfinish ok => exact sfinish_inv _ _ hi
  | close ok_f ok_d ok => exact close_inv _ _ _ _ _ _ hi
  | append alloc src => exact append_inv _ _ _ hi
  | empty => exact empty_inv _

theorem run_ops_inv (mx my : twin_matrix_t → Int → Int → Int) (ops : List path_op) :
    ∀ P : twin_path_t, path_inv P → path_inv (run_ops mx my P ops) := by
  induction ops with
  | nil => intro P hi; exact hi
  | cons op ops ih =>
    intro P hi
    exact ih _ (apply_op_inv mx my P op hi)

theorem empty_path_inv (P : twin_path_t) (hp : P.points = []) (hs : P.sublen = []) :
    path_inv P := by
  constructor
  · rw [hs]; exact List.Pairwise.nil
  · intro b hb; rw [hs] at hb; simp at hb
  · intro i p q h1; rw [hp] at h1; simp at h1

theorem reachable_inv (mx my : twin_matrix_t → Int → Int → Int) (P0 : twin_path_t)
    (ops : List path_op) (hp : P0.points = []) (hs : P0.sublen = []) :
    path_inv (run_ops mx my P0 ops) :=
  run_ops_inv mx my ops P0 (empty_path_inv P0 hp hs)

/-! ## Auxiliary lemmas: `_twin_path_sdraw` and `twin_path_close` -/

theorem sdraw_of_last (ok : Bool) (Q : twin_path_t) (x y : Int)
    (h : _twin_current_subpath_len Q > 0) (hl : Q.points.getLast? = some ⟨x, y⟩) :
    _twin_path_sdraw ok Q x y = Q := by
  unfold _twin_path_sdraw
  rw [if_pos ⟨h, hl⟩]

theorem sdraw_sdraw (ok1 ok2 : Bool) (P : twin_path_t) (x y : Int)
    (hwf : 0 ≤ _twin_current_subpath_len P) :
    _twin_path_sdraw ok2 (_twin_path_sdraw ok1 P x y) x y =
      _twin_path_sdraw (ok1 || ok2) P x y := by
  by_cases hd : _twin_current_subpath_len P > 0 ∧ P.points.getLast? = some ⟨x, y⟩
  · rw [sdraw_of_last ok1 P x y hd.1 hd.2, sdraw_of_last ok2 P x y hd.1 hd.2,
      sdraw_of_last _ P x y hd.1 hd.2]
  · rw [current_subpath_len_eq] at hwf
    have key : ∀ Q : twin_path_t, Q.points = P.points ++ [⟨x, y⟩] → Q.sublen = P.sublen →
        _twin_path_sdraw ok2 Q x y = Q := by
      intro Q hp hs
      apply sdraw_of_last
      · rw [current_subpath_len_eq]
        have : subpath_start Q = subpath_start P := by unfold subpath_start; rw [hs]
        rw [this, hp, List.length_append, List.length_singleton]
        push_cast
        omega
      · rw [hp, List.getLast?_concat]
    by_cases hfull : P.npoints = P.size_points
    · cases ok1
      · have e : _twin_path_sdraw false P x y = P := by
          unfold _twin_path_sdraw
          simp [hd, hfull]
        rw [e, Bool.false_or]
      · have e : _twin_path_sdraw true P x y =
            { P with size_points := (if P.size_points > 0 then P.size_points * 2 else 16),
                     points := P.points ++ [⟨x, y⟩] } := by
          unfold _twin_path_sdraw
          simp [hd, hfull]
        rw [Bool.true_or, e]
        exact key _ rfl rfl
    · have e : ∀ ok, _twin_path_sdraw ok P x y = { P with points := P.points ++ [⟨x, y⟩] } := by
        intro ok
        unfold _twin_path_sdraw
        simp [hd, hfull]
      rw [e ok1, e (ok1 || ok2)]
      exact key _ rfl rfl

theorem sdraw_len_mono (ok : Bool) (P : twin_path_t) (x y : Int) :
    _twin_current_subpath_len P ≤ _twin_current_subpath_len (_twin_path_sdraw ok P x y) := by
  unfold _twin_path_sdraw
  split_ifs <;>
    simp [_twin_current_subpath_len, twin_path_t.npoints, twin_path_t.nsublen]

theorem sdraw_npoints_le (ok : Bool) (P : twin_path_t) (x y : Int) :
    (_twin_path_sdraw ok P x y).npoints ≤ P.npoints + 1 := by
  unfold _twin_path_sdraw
  split_ifs <;> simp [twin_path_t.npoints]

theorem sdraw_repeat (x y : Int) (oks : List Bool) :
    ∀ (ok : Bool) (P : twin_path_t), 0 ≤ _twin_current_subpath_len P →
      oks.foldl (fun p o => _twin_path_sdraw o p x y) (_twin_path_sdraw ok P x y) =
        _twin_path_sdraw (ok || oks.any id) P x y := by
  induction oks with
  | nil => intro ok P _; simp
  | cons o rest ih =>
    intro ok P hwf
    rw [List.foldl_cons, sdraw_sdraw ok o P x y hwf, ih (ok || o) P hwf]
    simp [Bool.or_assoc]

theorem sdraw_state (ok : Bool) (P : twin_path_t) (x y : Int) :
    (_twin_path_sdraw ok P x y).state = P.state ∧
    (_twin_path_sdraw ok P x y).cur_x = P.cur_x ∧
    (_twin_path_sdraw ok P x y).cur_y = P.cur_y := by
  unfold _twin_path_sdraw
  split_ifs <;> exact ⟨rfl, rfl, rfl⟩

theorem with_cur_self (Q : twin_path_t) (a b : Int) (h1 : Q.cur_x = a) (h2 : Q.cur_y = b) :
    ({ Q with cur_x := a, cur_y := b } : twin_path_t) = Q := by
  cases Q
  simp_all

theorem draw_draw (mx my : twin_matrix_t → Int → Int → Int) (ok : Bool) (P : twin_path_t)
    (ux uy : Int) (hwf : 0 ≤ _twin_current_subpath_len P) :
    twin_path_draw mx my ok (twin_path_draw mx my ok P ux uy) ux uy =
      twin_path_draw mx my ok P ux uy := by
  have hwf1 : 0 ≤ _twin_current_subpath_len { P with cur_x := ux, cur_y := uy } := hwf
  have e : twin_path_draw mx my ok P ux uy =
      _twin_path_sdraw ok { P with cur_x := ux, cur_y := uy } (mx P.state.matrix ux uy)
        (my P.state.matrix ux uy) := rfl
  obtain ⟨s1, s2, s3⟩ := sdraw_state ok { P with cur_x := ux, cur_y := uy }
    (mx P.state.matrix ux uy) (my P.state.matrix ux uy)
  rw [e]
  generalize hR : _twin_path_sdraw ok { P with cur_x := ux, cur_y := uy }
    (mx P.state.matrix ux uy) (my P.state.matrix ux uy) = R at s1 s2 s3
  have e2 : twin_path_draw mx my ok R ux uy =
      _twin_path_sdraw ok { R with cur_x := ux, cur_y := uy } (mx R.state.matrix ux uy)
        (my R.state.matrix ux uy) := rfl
  rw [e2, with_cur_self R ux uy s2 s3, s1, ← hR]
  show _twin_path_sdraw ok (_twin_path_sdraw ok { P with cur_x := ux, cur_y := uy }
      (mx P.state.matrix ux uy) (my P.state.matrix ux uy)) (mx P.state.matrix ux uy)
      (my P.state.matrix ux uy) = _
  rw [sdraw_sdraw ok ok _ _ _ hwf1, Bool.or_self]

theorem close_eq_sdraw (mx my : twin_matrix_t → Int → Int → Int) (ok_f ok_d ok : Bool)
    (P : twin_path_t) (h2 : 2 ≤ _twin_current_subpath_len P) :
    ∃ f, P.points[subpath_start P]? = some f ∧
      twin_path_close mx my ok_f ok_d ok P = _twin_path_sdraw ok P f.x f.y := by
  have hl := h2
  rw [current_subpath_len_eq] at hl
  have hlt : subpath_start P < P.points.length := by omega
  refine ⟨P.points[subpath_start P], List.getElem?_eq_getElem hlt, ?_⟩
  have hne : ¬ (_twin_current_subpath_len P = 0 ∨ _twin_current_subpath_len P = 1) := by
    omega
  have hnp : ¬ (P.npoints = 0) := by
    unfold twin_path_t.npoints; omega
  have hstart : (if P.nsublen ≠ 0 then P.sublen.getD (P.nsublen - 1) 0 else 0)
      = subpath_start P := by
    have := current_subpath_len_eq P
    unfold _twin_current_subpath_len twin_path_t.npoints at this
    simp only at this
    omega
  unfold twin_path_close
  rw [if_neg hne]
  unfold _twin_path_subpath_first_spoint
  simp only [if_neg hnp, hstart]
  rw [List.getD_eq_getElem?_getD, List.getElem?_eq_getElem hlt, Option.getD_some]

/-! ## Claims on path.c -/

/-- C5: drawing the same point repeatedly appends it once. For every well-formed path `P`
(the last boundary does not exceed the number of points) and screen point `(x, y)`,
`_twin_path_sdraw(_twin_path_sdraw(P,x,y),x,y) = _twin_path_sdraw(P,x,y)`; with arbitrary
allocation outcomes two draws amount to one draw that succeeds if either does; after
`n ≥ 1` identical draws the point count has grown by at most one; and `twin_path_draw` is
idempotent in the same way. -/
theorem twin_path_sdraw_idempotent (P : twin_path_t) (x y : Int)
    (hwf : 0 ≤ _twin_current_subpath_len P) :
    (∀ ok : Bool, _twin_path_sdraw ok (_twin_path_sdraw ok P x y) x y =
      _twin_path_sdraw ok P x y) ∧
    (∀ ok1 ok2 : Bool, _twin_path_sdraw ok2 (_twin_path_sdraw ok1 P x y) x y =
      _twin_path_sdraw (ok1 || ok2) P x y) ∧
    (∀ oks : List Bool, oks ≠ [] →
      oks.foldl (fun p o => _twin_path_sdraw o p x y) P =
        _twin_path_sdraw (oks.any id) P x y ∧
      (oks.foldl (fun p o => _twin_path_sdraw o p x y) P).npoints ≤ P.npoints + 1) ∧
    (∀ (mx my : twin_matrix_t → Int → Int → Int) (ok : Bool) (ux uy : Int),
      twin_path_draw mx my ok (twin_path_draw mx my ok P ux uy) ux uy =
        twin_path_draw mx my ok P ux uy) := by
  refine ⟨?_, ?_, ?_, ?_⟩
  · intro ok
    rw [sdraw_sdraw ok ok P x y hwf, Bool.or_self]
  · intro ok1 ok2
    exact sdraw_sdraw ok1 ok2 P x y hwf
  · intro oks hne
    cases oks with
    | nil => exact absurd rfl hne
    | cons o rest =>
      have h := sdraw_repeat x y rest o P hwf
      rw [List.foldl_cons, h]
      refine ⟨by simp, sdraw_npoints_le _ P x y⟩
  · intro mx my ok ux uy
    exact draw_draw mx my ok P ux uy hwf

/-- Witness of C5 on a path whose point array is full, with the point `(3, 4)`. -/
theorem twin_path_sdraw_idempotent_witness :
    0 ≤ _twin_current_subpath_len sample_path ∧
    _twin_path_sdraw true (_twin_path_sdraw true sample_path 3 4) 3 4 =
      _twin_path_sdraw true sample_path 3 4 :=
  ⟨by decide, (twin_path_sdraw_idempotent sample_path 3 4 (by decide)).1 true⟩

/-- C6: well-formedness of `sublen` is an invariant. Starting from an empty path, after any
sequence of `_twin_path_smove`, `_twin_path_sdraw`, `_twin_path_sfinish`, `twin_path_close`,
`twin_path_append` and `twin_path_empty` (whatever the allocation outcomes), the `sublen`
array is strictly increasing and its last entry is at most `npoints`. -/
theorem sublen_wellformed_reachable (mx my : twin_matrix_t → Int → Int → Int)
    (P0 : twin_path_t) (ops : List path_op) (hp : P0.points = []) (hs : P0.sublen = []) :
    (run_ops mx my P0 ops).sublen.Pairwise (fun a b => a < b) ∧
    ∀ b, (run_ops mx my P0 ops).sublen.getLast? = some b → b ≤ (run_ops mx my P0 ops).npoints := by
  have hi := reachable_inv mx my P0 ops hp hs
  constructor
  · exact hi.gaps.imp (fun h => by omega)
  · intro b hb
    exact (hi.bounds b (List.mem_of_getLast?_eq_some hb)).2

/-- Witness of C6 on the sample operation sequence. -/
theorem sublen_wellformed_reachable_witness :
    fresh_path.points = [] ∧ fresh_path.sublen = [] ∧
    (run_ops sample_matrix_x sample_matrix_y fresh_path sample_ops).sublen.Pairwise
      (fun a b => a < b) :=
  ⟨rfl, rfl,
    (sublen_wellformed_reachable sample_matrix_x sample_matrix_y fresh_path sample_ops rfl rfl).1⟩

/-- C7: every finalized subpath has at least two points. In any path reachable from the
empty path, `sublen[0] ≥ 2` and `sublen[k+1] - sublen[k] ≥ 2` for every `k`; and
`_twin_path_sfinish` on a current subpath of exactly one point removes that point and
records no boundary. -/
theorem finalized_subpath_two_points (mx my : twin_matrix_t → Int → Int → Int)
    (P0 : twin_path_t) (ops : List path_op) (hp : P0.points = []) (hs : P0.sublen = []) :
    (∀ b, (run_ops mx my P0 ops).sublen[0]? = some b → 2 ≤ b) ∧
    (∀ k a b, (run_ops mx my P0 ops).sublen[k]? = some a →
      (run_ops mx my P0 ops).sublen[k + 1]? = some b → a + 2 ≤ b) ∧
    (∀ (ok : Bool) (Q : twin_path_t), _twin_current_subpath_len Q = 1 →
      (_twin_path_sfinish ok Q).points = Q.points.dropLast ∧
      (_twin_path_sfinish ok Q).npoints + 1 = Q.npoints ∧
      (_twin_path_sfinish ok Q).sublen = Q.sublen) := by
  have hi := reachable_inv mx my P0 ops hp hs
  refine ⟨?_, ?_, ?_⟩
  · intro b hb
    exact (hi.bounds b (List.getElem?_mem hb)).1
  · intro k a b ha hb
    obtain ⟨h1, e1⟩ := List.getElem?_eq_some.mp ha
    obtain ⟨h2, e2⟩ := List.getElem?_eq_some.mp hb
    have := List.pairwise_iff_getElem.mp hi.gaps k (k + 1) h1 h2 (by omega)
    rw [e1, e2] at this
    exact this
  · intro ok Q hl
    have h1 : (_twin_path_sfinish ok Q) = { Q with points := Q.points.dropLast } := by
      unfold _twin_path_sfinish
      rw [if_pos hl]
    rw [h1]
    refine ⟨rfl, ?_, rfl⟩
    rw [current_subpath_len_eq] at hl
    simp only [twin_path_t.npoints, List.length_dropLast]
    omega

/-- Witness of C7 on the sample operation sequence, whose boundaries are 4 and 6, and for
`_twin_path_sfinish` on a path holding one lone point. -/
theorem finalized_subpath_two_points_witness :
    fresh_path.points = [] ∧ fresh_path.sublen = [] ∧
    (run_ops sample_matrix_x sample_matrix_y fresh_path sample_ops).sublen = [4, 6] ∧
    (4 : Nat) + 2 ≤ 6 ∧
    _twin_current_subpath_len sample_single = 1 ∧
    (_twin_path_sfinish true sample_single).points = sample_single.points.dropLast :=
  ⟨rfl, rfl, by decide,
    (finalized_subpath_two_points sample_matrix_x sample_matrix_y fresh_path sample_ops
      rfl rfl).2.1 0 4 6 (by decide) (by decide),
    by decide,
    ((finalized_subpath_two_points sample_matrix_x sample_matrix_y fresh_path sample_ops
      rfl rfl).2.2 true sample_single (by decide)).1⟩

/-- C8: in every path reachable from the empty path through the path operations (smove,
sdraw, sfinish, close, append, empty), no two adjacent points inside the same subpath are
equal: points `i` and `i+1` differ unless `i+1` is a subpath boundary. -/
theorem no_equal_neighbours_reachable (mx my : twin_matrix_t → Int → Int → Int)
    (P0 : twin_path_t) (ops : List path_op) (hp : P0.points = []) (hs : P0.sublen = []) :
    ∀ i p q, (run_ops mx my P0 ops).points[i]? = some p →
      (run_ops mx my P0 ops).points[i + 1]? = some q →
      (i + 1) ∉ (run_ops mx my P0 ops).sublen → p ≠ q :=
  (reachable_inv mx my P0 ops hp hs).adjacent

/-- Witness of C8 on the sample operation sequence: its first two points, `(0, 0)` and
`(16, 0)`, lie in one subpath and differ. -/
theorem no_equal_neighbours_reachable_witness :
    fresh_path.points = [] ∧ fresh_path.sublen = [] ∧
    (run_ops sample_matrix_x sample_matrix_y fresh_path sample_ops).points[0]? = some ⟨0, 0⟩ ∧
    (run_ops sample_matrix_x sample_matrix_y fresh_path sample_ops).points[1]? = some ⟨16, 0⟩ ∧
    1 ∉ (run_ops sample_matrix_x sample_matrix_y fresh_path sample_ops).sublen ∧
    (⟨0, 0⟩ : twin_spoint_t) ≠ ⟨16, 0⟩ :=
  ⟨rfl, rfl, by decide, by decide, by decide,
    no_equal_neighbours_reachable sample_matrix_x sample_matrix_y fresh_path sample_ops rfl rfl
      0 ⟨0, 0⟩ ⟨16, 0⟩ (by decide) (by decide) (by decide)⟩

/-- C9: `twin_path_close`. If the current subpath has at least 2 points and the closing
draw is not refused for lack of memory, afterwards the last point of the path equals the
first point of the current subpath; if the current subpath has 0 or 1 points the path is
unchanged; and when the point array is full and cannot be grown the path is unchanged as
well. -/
theorem twin_path_close_spec (mx my : twin_matrix_t → Int → Int → Int)
    (ok_f ok_d ok : Bool) (P : twin_path_t) :
    (2 ≤ _twin_current_subpath_len P → (ok = true ∨ P.npoints ≠ P.size_points) →
      (P.points[subpath_start P]?).isSome = true ∧
      (twin_path_close mx my ok_f ok_d ok P).points.getLast? = P.points[subpath_start P]? ∧
      (twin_path_close mx my ok_f ok_d ok P).points[
        subpath_start (twin_path_close mx my ok_f ok_d ok P)]? = P.points[subpath_start P]?) ∧
    (_twin_current_subpath_len P = 0 ∨ _twin_current_subpath_len P = 1 →
      twin_path_close mx my ok_f ok_d ok P = P) ∧
    (2 ≤ _twin_current_subpath_len P → ok = false → P.npoints = P.size_points →
      twin_path_close mx my ok_f ok_d ok P = P) := by
  refine ⟨?_, ?_, ?_⟩
  · intro h2 hok
    obtain ⟨f, hf, hc⟩ := close_eq_sdraw mx my ok_f ok_d ok P h2
    rw [hc, hf]
    refine ⟨rfl, ?_⟩
    have hl := h2
    rw [current_subpath_len_eq] at hl
    by_cases hd : _twin_current_subpath_len P > 0 ∧ P.points.getLast? = some ⟨f.x, f.y⟩
    · rw [sdraw_of_last ok P f.x f.y hd.1 hd.2]
      exact ⟨hd.2, hf⟩
    · have e : ∃ sz, _twin_path_sdraw ok P f.x f.y =
          { P with size_points := sz, points := P.points ++ [⟨f.x, f.y⟩] } := by
        unfold _twin_path_sdraw
        rw [if_neg hd]
        by_cases hfull : P.npoints = P.size_points
        · rcases hok with hok | hok
          · subst hok
            exact ⟨(if P.size_points > 0 then P.size_points * 2 else 16), by simp [hfull]⟩
          · exact absurd hfull hok
        · exact ⟨P.size_points, by simp [hfull]⟩
      obtain ⟨sz, e⟩ := e
      rw [e]
      refine ⟨List.getLast?_concat _, ?_⟩
      have hst : subpath_start { P with size_points := sz, points := P.points ++ [⟨f.x, f.y⟩] }
          = subpath_start P := rfl
      rw [hst]
      show (P.points ++ [⟨f.x, f.y⟩])[subpath_start P]? = some f
      rw [List.getElem?_append_left (by omega)]
      exact hf
  · intro h
    unfold twin_path_close
    rw [if_pos h]
  · intro h2 hok hfull
    obtain ⟨f, _, hc⟩ := close_eq_sdraw mx my ok_f ok_d ok P h2
    rw [hc]
    subst hok
    unfold _twin_path_sdraw
    split_ifs <;> simp_all

/-- Witness of C9 on the sample path (three points, array full, allocation succeeding):
after the close the last point is the first point `(0, 0)`. -/
theorem twin_path_close_spec_witness :
    2 ≤ _twin_current_subpath_len sample_path ∧
    (twin_path_close sample_matrix_x sample_matrix_y true true true sample_path).points.getLast?
      = sample_path.points[subpath_start sample_path]? ∧
    sample_path.points[subpath_start sample_path]? = some ⟨0, 0⟩ :=
  ⟨by decide,
    ((twin_path_close_spec sample_matrix_x sample_matrix_y true true true sample_path).1
      (by decide) (Or.inl rfl)).2.1, by decide⟩

theorem bounds_fold_x (c : Int) (pts : List twin_spoint_t) (h : ∀ p ∈ pts, p.x = c) :
    ∀ acc : Int × Int × Int × Int, c ≤ acc.1 → acc.2.2.1 ≤ c →
      c ≤ (pts.foldl bounds_step acc).1 ∧ (pts.foldl bounds_step acc).2.2.1 ≤ c := by
  induction pts with
  | nil => intro acc h1 h2; exact ⟨h1, h2⟩
  | cons pt rest ih =>
    intro acc h1 h2
    have hx : pt.x = c := h pt (List.mem_cons_self _ _)
    rw [List.foldl_cons]
    apply ih (fun p hp => h p (List.mem_cons_of_mem _ hp))
    · simp only [bounds_step, hx]
      split_ifs <;> omega
    · simp only [bounds_step, hx]
      split_ifs <;> omega

theorem bounds_fold_y (c : Int) (pts : List twin_spoint_t) (h : ∀ p ∈ pts, p.y = c) :
    ∀ acc : Int × Int × Int × Int, c ≤ acc.2.1 → acc.2.2.2 ≤ c →
      c ≤ (pts.foldl bounds_step acc).2.1 ∧ (pts.foldl bounds_step acc).2.2.2 ≤ c := by
  induction pts with
  | nil => intro acc h1 h2; exact ⟨h1, h2⟩
  | cons pt rest ih =>
    intro acc h1 h2
    have hy : pt.y = c := h pt (List.mem_cons_self _ _)
    rw [List.foldl_cons]
    apply ih (fun p hp => h p (List.mem_cons_of_mem _ hp))
    · simp only [bounds_step, hy]
      split_ifs <;> omega
    · simp only [bounds_step, hy]
      split_ifs <;> omega

theorem bounds_of_degenerate (smax smin : Int) (trunc ceil : Int → Int) (P : twin_path_t)
    (ht : trunc 0 = 0) (hc : ceil 0 = 0)
    (hdeg : (P.points.foldl bounds_step (smax, smax, smin, smin)).1 ≥
        (P.points.foldl bounds_step (smax, smax, smin, smin)).2.2.1 ∨
      (P.points.foldl bounds_step (smax, smax, smin, smin)).2.1 ≥
        (P.points.foldl bounds_step (smax, smax, smin, smin)).2.2.2) :
    twin_path_bounds smax smin trunc ceil P = ⟨0, 0, 0, 0⟩ := by
  unfold twin_path_bounds
  simp only [if_pos hdeg, ht, hc]

/-- C10: `twin_path_bounds` returns `{0,0,0,0}` for every degenerate path: the empty path,
and every path whose points all share one x value or all share one y value. The constants
and macros of the absent header are parameters, assumed to satisfy
`TWIN_SFIXED_MIN ≤ TWIN_SFIXED_MAX`, `twin_sfixed_trunc(0) = 0`, `twin_sfixed_ceil(0) = 0`,
and the shared coordinate lies in the screen range `[TWIN_SFIXED_MIN, TWIN_SFIXED_MAX]`. -/
theorem twin_path_bounds_degenerate (smax smin : Int) (trunc ceil : Int → Int)
    (P : twin_path_t) (hr : smin ≤ smax) (ht : trunc 0 = 0) (hc : ceil 0 = 0) :
    (P.points = [] → twin_path_bounds smax smin trunc ceil P = ⟨0, 0, 0, 0⟩) ∧
    (∀ c : Int, smin ≤ c → c ≤ smax → (∀ p ∈ P.points, p.x = c) →
      twin_path_bounds smax smin trunc ceil P = ⟨0, 0, 0, 0⟩) ∧
    (∀ c : Int, smin ≤ c → c ≤ smax → (∀ p ∈ P.points, p.y = c) →
      twin_path_bounds smax smin trunc ceil P = ⟨0, 0, 0, 0⟩) := by
  refine ⟨?_, ?_, ?_⟩
  · intro he
    apply bounds_of_degenerate smax smin trunc ceil P ht hc
    rw [he]
    left
    exact hr
  · intro c h1 h2 hx
    apply bounds_of_degenerate smax smin trunc ceil P ht hc
    left
    have := bounds_fold_x c P.points hx (smax, smax, smin, smin) h2 h1
    omega
  · intro c h1 h2 hy
    apply bounds_of_degenerate smax smin trunc ceil P ht hc
    right
    have := bounds_fold_y c P.points hy (smax, smax, smin, smin) h2 h1
    omega

/-- Witness of C10 with 16-bit screen coordinates of 4 fractional bits
(`trunc(f) = f >> 4`, `ceil(f) = (f + 15) & ~15`), on the empty path and on a vertical
segment. -/
theorem twin_path_bounds_degenerate_witness :
    twin_path_bounds 32767 (-32767) (fun f => f >>> (4 : Nat)) (fun f => f + 15 - (f + 15) % 16)
      fresh_path = ⟨0, 0, 0, 0⟩ ∧
    twin_path_bounds 32767 (-32767) (fun f => f >>> (4 : Nat)) (fun f => f + 15 - (f + 15) % 16)
      sample_vertical = ⟨0, 0, 0, 0⟩ :=
  ⟨(twin_path_bounds_degenerate 32767 (-32767) (fun f => f >>> (4 : Nat))
      (fun f => f + 15 - (f + 15) % 16) fresh_path (by decide) (by decide) (by decide)).1 rfl,
   (twin_path_bounds_degenerate 32767 (-32767) (fun f => f >>> (4 : Nat))
      (fun f => f + 15 - (f + 15) % 16) sample_vertical (by decide) (by decide) (by decide)).2.1
      48 (by decide) (by decide) (by decide)⟩

/-! ## Rectangle and bounds -/

theorem rectangle_points_fresh (mx my : twin_matrix_t → Int → Int → Int) (alloc : Nat → Bool)
    (u : Int) (hu : 0 < u)
    (hmx : ∀ a b : Int, mx fresh_path.state.matrix (a * TWIN_FIXED_ONE) (b * TWIN_FIXED_ONE)
      = a * u)
    (hmy : ∀ a b : Int, my fresh_path.state.matrix (a * TWIN_FIXED_ONE) (b * TWIN_FIXED_ONE)
      = b * u)
    (halloc : alloc 1 = true) :
    (twin_path_rectangle mx my alloc fresh_path 0 0 (10 * TWIN_FIXED_ONE)
      (5 * TWIN_FIXED_ONE)).points =
      [⟨0, 0⟩, ⟨10 * u, 0⟩, ⟨10 * u, 5 * u⟩, ⟨0, 5 * u⟩, ⟨0, 0⟩] := by
  have x00 : mx fresh_path.state.matrix 0 0 = 0 := by simpa using hmx 0 0
  have y00 : my fresh_path.state.matrix 0 0 = 0 := by simpa using hmy 0 0
  have x10 : mx fresh_path.state.matrix 655360 0 = 10 * u := by
    simpa [TWIN_FIXED_ONE] using hmx 10 0
  have y10 : my fresh_path.state.matrix 655360 0 = 0 := by
    simpa [TWIN_FIXED_ONE] using hmy 10 0
  have x15 : mx fresh_path.state.matrix 655360 327680 = 10 * u := by
    simpa [TWIN_FIXED_ONE] using hmx 10 5
  have y15 : my fresh_path.state.matrix 655360 327680 = 5 * u := by
    simpa [TWIN_FIXED_ONE] using hmy 10 5
  have x05 : mx fresh_path.state.matrix 0 327680 = 0 := by
    simpa [TWIN_FIXED_ONE] using hmx 0 5
  have y05 : my fresh_path.state.matrix 0 327680 = 5 * u := by
    simpa [TWIN_FIXED_ONE] using hmy 0 5
  have e10 : (10 : Int) * TWIN_FIXED_ONE = 655360 := by decide
  have e5 : (5 : Int) * TWIN_FIXED_ONE = 327680 := by decide
  have w1 : wrap32 655360 = 655360 := by decide
  have w2 : wrap32 327680 = 327680 := by decide
  have n1 : ¬ (10 * u = 0) := by omega
  have n2 : ¬ (5 * u = 0) := by omega
  have n3 : ¬ (0 = 10 * u) := by omega
  have n4 : ¬ (0 = 5 * u) := by omega
  have hm : fresh_path.state.matrix = ⟨65536, 0, 0, 65536, 0, 0⟩ := rfl
  rw [hm] at x00 y00 x10 y10 x15 y15 x05 y05
  simp [twin_path_rectangle, twin_path_move, twin_path_draw, twin_path_close,
    _twin_path_subpath_first_spoint, _twin_path_smove, _twin_path_sdraw, _twin_path_sfinish,
    _twin_current_subpath_len, twin_path_t.npoints, twin_path_t.nsublen, fresh_path,
    e10, e5, w1, w2, x00, y00, x10, y10, x15, y15, x05, y05, halloc, n1, n2, n3, n4]

theorem bounds_step_eq (acc : Int × Int × Int × Int) (pt : twin_spoint_t) :
    bounds_step acc pt =
      (min pt.x acc.1, min pt.y acc.2.1, max pt.x acc.2.2.1, max pt.y acc.2.2.2) := by
  unfold bounds_step
  simp only [min_def, max_def]
  refine Prod.ext ?_ (Prod.ext ?_ (Prod.ext ?_ ?_)) <;> simp only <;> split_ifs <;> omega

theorem bounds_fold_contains (pts : List twin_spoint_t) :
    ∀ acc : Int × Int × Int × Int,
      (pts.foldl bounds_step acc).1 ≤ acc.1 ∧ (pts.foldl bounds_step acc).2.1 ≤ acc.2.1 ∧
      acc.2.2.1 ≤ (pts.foldl bounds_step acc).2.2.1 ∧
      acc.2.2.2 ≤ (pts.foldl bounds_step acc).2.2.2 ∧
      ∀ p ∈ pts, (pts.foldl bounds_step acc).1 ≤ p.x ∧ (pts.foldl bounds_step acc).2.1 ≤ p.y ∧
        p.x ≤ (pts.foldl bounds_step acc).2.2.1 ∧ p.y ≤ (pts.foldl bounds_step acc).2.2.2 := by
  induction pts with
  | nil => intro acc; simp
  | cons pt rest ih =>
    intro acc
    rw [List.foldl_cons]
    obtain ⟨h1, h2, h3, h4, h5⟩ := ih (bounds_step acc pt)
    generalize List.foldl bounds_step (bounds_step acc pt) rest = r at h1 h2 h3 h4 h5 ⊢
    rw [bounds_step_eq] at h1 h2 h3 h4
    simp only at h1 h2 h3 h4
    refine ⟨by omega, by omega, by omega, by omega, ?_⟩
    intro p hp
    rcases List.mem_cons.mp hp with e | hm
    · subst e
      refine ⟨by omega, by omega, by omega, by omega⟩
    · exact h5 p hm

theorem trunc_exact (u : Int) (trunc : Int → Int) (hu : 0 < u)
    (htrunc : ∀ f, u * trunc f ≤ f ∧ f < u * trunc f + u) (n : Int) : trunc (u * n) = n := by
  obtain ⟨h1, h2⟩ := htrunc (u * n)
  have a : trunc (u * n) ≤ n := le_of_mul_le_mul_left h1 hu
  have b : u * n < u * (trunc (u * n) + 1) := by rw [mul_add, mul_one]; exact h2
  have c : n < trunc (u * n) + 1 := lt_of_mul_lt_mul_left b (le_of_lt hu)
  omega

theorem ceil_exact (u : Int) (ceil : Int → Int) (hu : 0 < u)
    (hceil : ∀ f, f ≤ ceil f ∧ ceil f < f + u ∧ u ∣ ceil f) (n : Int) : ceil (u * n) = u * n := by
  obtain ⟨h1, h2, k, hk⟩ := hceil (u * n)
  rw [hk] at h1 h2 ⊢
  have a : n ≤ k := le_of_mul_le_mul_left h1 hu
  have b : u * k < u * (n + 1) := by rw [mul_add, mul_one]; exact h2
  have c : k < n + 1 := lt_of_mul_lt_mul_left b (le_of_lt hu)
  have : k = n := by omega
  rw [this]

theorem sample_sfixed_x_identity (a b : Int) :
    sample_sfixed_x fresh_path.state.matrix (a * TWIN_FIXED_ONE) (b * TWIN_FIXED_ONE)
      = a * 16 := by
  simp only [sample_sfixed_x, fresh_path, twin_fixed_mul, TWIN_FIXED_ONE,
    Int.shiftRight_eq_div_pow]
  omega

theorem sample_sfixed_y_identity (a b : Int) :
    sample_sfixed_y fresh_path.state.matrix (a * TWIN_FIXED_ONE) (b * TWIN_FIXED_ONE)
      = b * 16 := by
  simp only [sample_sfixed_y, fresh_path, twin_fixed_mul, TWIN_FIXED_ONE,
    Int.shiftRight_eq_div_pow]
  omega

theorem sample_trunc_spec (f : Int) :
    16 * sample_trunc f ≤ f ∧ f < 16 * sample_trunc f + 16 := by
  simp only [sample_trunc, Int.shiftRight_eq_div_pow]
  omega

theorem sample_ceil_spec (f : Int) :
    f ≤ sample_ceil f ∧ sample_ceil f < f + 16 ∧ (16 : Int) ∣ sample_ceil f := by
  refine ⟨?_, ?_, ⟨(f + 15) / 16, ?_⟩⟩ <;> simp only [sample_ceil] <;> omega

/-- C11: on a fresh path with the identity matrix, `twin_path_rectangle(0, 0, 10*ONE, 5*ONE)`
followed by `twin_path_bounds` gives left=0, top=0, right=10, bottom=5; and for every
non-degenerate path every stored point lies inside the returned pixel rectangle. The screen
unit `u`, the transforms and the macros of the absent header are parameters: the identity
matrix maps `a*ONE` to `a*u`, `twin_sfixed_trunc` rounds down to a pixel and
`twin_sfixed_ceil` rounds up to a multiple of `u`. -/
theorem twin_path_rectangle_bounds (mx my : twin_matrix_t → Int → Int → Int)
    (smax smin u : Int) (trunc ceil : Int → Int) (alloc : Nat → Bool) (hu : 0 < u)
    (hmx : ∀ a b : Int, mx fresh_path.state.matrix (a * TWIN_FIXED_ONE) (b * TWIN_FIXED_ONE)
      = a * u)
    (hmy : ∀ a b : Int, my fresh_path.state.matrix (a * TWIN_FIXED_ONE) (b * TWIN_FIXED_ONE)
      = b * u)
    (htrunc : ∀ f, u * trunc f ≤ f ∧ f < u * trunc f + u)
    (hceil : ∀ f, f ≤ ceil f ∧ ceil f < f + u ∧ u ∣ ceil f)
    (hrange : smin ≤ 0 ∧ 10 * u ≤ smax) (halloc : alloc 1 = true) :
    twin_path_bounds smax smin trunc ceil
        (twin_path_rectangle mx my alloc fresh_path 0 0 (10 * TWIN_FIXED_ONE)
          (5 * TWIN_FIXED_ONE)) = { left := 0, right := 10, top := 0, bottom := 5 } ∧
    ∀ P : twin_path_t, (∃ p ∈ P.points, ∃ q ∈ P.points, p.x < q.x) →
      (∃ p ∈ P.points, ∃ q ∈ P.points, p.y < q.y) →
      ∀ p ∈ P.points,
        u * (twin_path_bounds smax smin trunc ceil P).left ≤ p.x ∧
        p.x ≤ u * (twin_path_bounds smax smin trunc ceil P).right ∧
        u * (twin_path_bounds smax smin trunc ceil P).top ≤ p.y ∧
        p.y ≤ u * (twin_path_bounds smax smin trunc ceil P).bottom := by
  constructor
  · have hp := rectangle_points_fresh mx my alloc u hu hmx hmy halloc
    have hf : List.foldl bounds_step (smax, smax, smin, smin)
        [⟨0, 0⟩, ⟨10 * u, 0⟩, ⟨10 * u, 5 * u⟩, ⟨0, 5 * u⟩, ⟨0, 0⟩] = (0, 0, 10 * u, 5 * u) := by
      simp only [List.foldl_cons, List.foldl_nil, bounds_step_eq]
      refine Prod.ext ?_ (Prod.ext ?_ (Prod.ext ?_ ?_)) <;> simp only <;> omega
    have hnd : ¬ ((0 : Int) ≥ 10 * u ∨ (0 : Int) ≥ 5 * u) := by omega
    have t0 : trunc 0 = 0 := by simpa using trunc_exact u trunc hu htrunc 0
    have c10 : ceil (10 * u) = u * 10 := by
      rw [mul_comm 10 u]; exact ceil_exact u ceil hu hceil 10
    have c5 : ceil (5 * u) = u * 5 := by
      rw [mul_comm 5 u]; exact ceil_exact u ceil hu hceil 5
    unfold twin_path_bounds
    rw [hp, hf]
    simp only [if_neg hnd, t0, c10, c5, trunc_exact u trunc hu htrunc]
  · intro P hx hy p hp
    obtain ⟨a, ha, b, hb, hab⟩ := hx
    obtain ⟨c, hc, d, hd, hcd⟩ := hy
    obtain ⟨_, _, _, _, h5⟩ := bounds_fold_contains P.points (smax, smax, smin, smin)
    have hnd : ¬ ((P.points.foldl bounds_step (smax, smax, smin, smin)).1 ≥
          (P.points.foldl bounds_step (smax, smax, smin, smin)).2.2.1 ∨
        (P.points.foldl bounds_step (smax, smax, smin, smin)).2.1 ≥
          (P.points.foldl bounds_step (smax, smax, smin, smin)).2.2.2) := by
      have := h5 a ha
      have := h5 b hb
      have := h5 c hc
      have := h5 d hd
      omega
    have hup : ∀ f : Int, f ≤ u * trunc (ceil f) := by
      intro f
      obtain ⟨h1, _, k, hk⟩ := hceil f
      rw [hk, trunc_exact u trunc hu htrunc k, ← hk]
      exact h1
    unfold twin_path_bounds
    simp only [if_neg hnd]
    obtain ⟨g1, g2, g3, g4⟩ := h5 p hp
    refine ⟨le_trans (htrunc _).1 g1, le_trans g3 (hup _), le_trans (htrunc _).1 g2,
      le_trans g4 (hup _)⟩

theorem twin_path_rectangle_bounds_witness :
    twin_path_bounds 32767 (-32767) sample_trunc sample_ceil
        (twin_path_rectangle sample_sfixed_x sample_sfixed_y (fun _ => true) fresh_path 0 0
          (10 * TWIN_FIXED_ONE) (5 * TWIN_FIXED_ONE))
      = { left := 0, right := 10, top := 0, bottom := 5 } ∧
    (16 * (twin_path_bounds 32767 (-32767) sample_trunc sample_ceil sample_path).left ≤ 16 ∧
     16 ≤ 16 * (twin_path_bounds 32767 (-32767) sample_trunc sample_ceil sample_path).right ∧
     16 * (twin_path_bounds 32767 (-32767) sample_trunc sample_ceil sample_path).top ≤ 0 ∧
     0 ≤ 16 * (twin_path_bounds 32767 (-32767) sample_trunc sample_ceil sample_path).bottom) :=
  ⟨(twin_path_rectangle_bounds sample_sfixed_x sample_sfixed_y 32767 (-32767) 16 sample_trunc
      sample_ceil (fun _ => true) (by decide) sample_sfixed_x_identity sample_sfixed_y_identity
      sample_trunc_spec sample_ceil_spec (by decide) rfl).1,
   (twin_path_rectangle_bounds sample_sfixed_x sample_sfixed_y 32767 (-32767) 16 sample_trunc
      sample_ceil (fun _ => true) (by decide) sample_sfixed_x_identity sample_sfixed_y_identity
      sample_trunc_spec sample_ceil_spec (by decide) rfl).2 sample_path
      ⟨⟨0, 0⟩, by decide, ⟨16, 0⟩, by decide, by decide⟩
      ⟨⟨0, 0⟩, by decide, ⟨16, 16⟩, by decide, by decide⟩ ⟨16, 0⟩ (by decide)⟩

/-! ## Appending a path -/

theorem sfinish_push (P : twin_path_t) (h : 2 ≤ _twin_current_subpath_len P) :
    (_twin_path_sfinish true P).points = P.points ∧
    (_twin_path_sfinish true P).sublen = P.sublen ++ [P.points.length] := by
  unfold _twin_path_sfinish
  have h1 : ¬ (_twin_current_subpath_len P = 1) := by omega
  have h0 : ¬ (_twin_current_subpath_len P = 0) := by omega
  simp only [if_neg h1, if_neg h0]
  split_ifs <;> simp_all [twin_path_t.npoints]

theorem sdraw_push (P : twin_path_t) (x y : Int)
    (h : ¬ (_twin_current_subpath_len P > 0 ∧ P.points.getLast? = some ⟨x, y⟩)) :
    (_twin_path_sdraw true P x y).points = P.points ++ [⟨x, y⟩] ∧
    (_twin_path_sdraw true P x y).sublen = P.sublen := by
  unfold _twin_path_sdraw
  simp only [if_neg h]
  split_ifs <;> simp_all

theorem getElem?_append_length {α : Type} (L : List α) (a : α) (t : List α) :
    (L ++ a :: t)[L.length]? = some a := by
  rw [List.getElem?_append_right (le_refl _), Nat.sub_self, List.getElem?_cons_zero]

theorem getElem?_append_length_succ {α : Type} (L : List α) (a b : α) (t : List α) :
    (L ++ a :: b :: t)[L.length + 1]? = some b := by
  have h : L.length + 1 - L.length = 1 := by omega
  rw [List.getElem?_append_right (Nat.le_succ _), h]
  simp

theorem getD_append_length (L : List Nat) (a : Nat) (t : List Nat) :
    (L ++ a :: t).getD L.length 0 = a := by
  rw [List.getD_eq_getElem?_getD, getElem?_append_length, Option.getD_some]

theorem append_loop_copy (alloc : Nat → Bool × Bool) (halloc : ∀ k, alloc k = (true, true))
    (src : twin_path_t) (hi : path_inv src) :
    ∀ (rest pre : List twin_spoint_t) (done todo : List Nat) (dst : twin_path_t),
      src.points = pre ++ rest → src.sublen = done ++ todo →
      (∀ b ∈ done, b < pre.length) → (∀ b ∈ todo, pre.length ≤ b) →
      dst.points = pre → dst.sublen = done →
      (twin_path_append_loop alloc src.sublen rest pre.length done.length dst).points
        = src.points ∧
      (twin_path_append_loop alloc src.sublen rest pre.length done.length dst).sublen
        = src.sublen.filter (fun b => b < src.points.length) := by
  intro rest
  induction rest with
  | nil =>
    intro pre done todo dst hp hs hd ht hdp hds
    simp only [twin_path_append_loop]
    rw [List.append_nil] at hp
    refine ⟨by rw [hdp, hp], ?_⟩
    rw [hds, hs, hp, List.filter_append]
    have h1 : done.filter (fun b => b < pre.length) = done :=
      List.filter_eq_self.2 (fun b hb => by simpa using hd b hb)
    have h2 : todo.filter (fun b => b < pre.length) = [] :=
      List.filter_eq_nil_iff.2 (fun b hb => by simpa using ht b hb)
    rw [h1, h2, List.append_nil]
  | cons pt rest ih =>
    intro pre done todo dst hp hs hd ht hdp hds
    have hp1 : src.points = (pre ++ [pt]) ++ rest := by simp [hp]
    have hlen : (pre ++ [pt]).length = pre.length + 1 := by simp
    have hpt : (⟨pt.x, pt.y⟩ : twin_spoint_t) = pt := rfl
    simp only [twin_path_append_loop, halloc]
    by_cases hc : done.length < src.sublen.length ∧ pre.length = src.sublen.getD done.length 0
    · rw [if_pos hc]
      obtain ⟨hc1, hc2⟩ := hc
      cases todo with
      | nil => simp [hs] at hc1
      | cons b t =>
        have hb : b = pre.length := by
          rw [hc2, hs, getD_append_length]
        have hg := hi.gaps
        rw [hs, List.pairwise_append] at hg
        have hs1 : src.sublen = (done ++ [b]) ++ t := by simp [hs]
        -- the subpath being finished has at least two points
        have hlen2 : 2 ≤ _twin_current_subpath_len dst := by
          rw [current_subpath_len_eq, hdp]
          unfold subpath_start
          rw [hds]
          rcases List.eq_nil_or_concat done with h | ⟨L, c, h⟩
          · have := (hi.bounds b (by rw [hs]; simp)).1
            simp only [h, List.getLast?_nil, Option.getD_none]
            omega
          · have := hg.2.2 c (by rw [h]; simp) b (by simp)
            simp only [h, List.concat_eq_append, List.getLast?_concat, Option.getD_some]
            omega
        obtain ⟨f1, f2⟩ := sfinish_push dst hlen2
        have hzero : ¬ (_twin_current_subpath_len (_twin_path_sfinish true dst) > 0 ∧
            (_twin_path_sfinish true dst).points.getLast? = some ⟨pt.x, pt.y⟩) := by
          rw [current_subpath_len_eq, f1, hdp]
          unfold subpath_start
          rw [f2, hdp]
          simp
        obtain ⟨d1, d2⟩ := sdraw_push (_twin_path_sfinish true dst) pt.x pt.y hzero
        have := ih (pre ++ [pt]) (done ++ [b]) t
          (_twin_path_sdraw true (_twin_path_sfinish true dst) pt.x pt.y) hp1 hs1
          (by
            intro c hc
            rw [hlen]
            rcases List.mem_append.1 hc with h | h
            · have := hd c h; omega
            · simp only [List.mem_singleton] at h; omega)
          (by
            intro c hc
            rw [hlen]
            have := (List.pairwise_cons.1 hg.2.1).1 c hc
            omega)
          (by rw [d1, f1, hdp, hpt])
          (by rw [d2, f2, hds, hdp, hb])
        simpa [hlen] using this
    · rw [if_neg hc]
      have hg := hi.gaps
      rw [hs, List.pairwise_append] at hg
      have ht1 : ∀ b ∈ todo, pre.length + 1 ≤ b := by
        cases todo with
        | nil => simp
        | cons b t =>
          have hbne : pre.length ≠ b := by
            intro h
            apply hc
            refine ⟨by simp [hs], ?_⟩
            rw [hs, getD_append_length]; exact h
          have hb := ht b (by simp)
          intro c hc
          rcases List.mem_cons.1 hc with h | h
          · omega
          · have := (List.pairwise_cons.1 hg.2.1).1 c h
            omega
      have hnd : ¬ (_twin_current_subpath_len dst > 0 ∧
          dst.points.getLast? = some ⟨pt.x, pt.y⟩) := by
        rintro ⟨_, hl⟩
        rw [hdp, hpt] at hl
        rcases List.eq_nil_or_concat pre with h | ⟨L, q, h⟩
        · simp [h] at hl
        · rw [h] at hl
          simp only [List.concat_eq_append, List.getLast?_concat, Option.some.injEq] at hl
          have hnm : (L.length + 1) ∉ src.sublen := by
            rw [hs]
            intro hm
            have hpl : pre.length = L.length + 1 := by simp [h]
            rcases List.mem_append.1 hm with hm | hm
            · have := hd _ hm; omega
            · have := ht1 _ hm; omega
          refine hi.adjacent L.length q pt ?_ ?_ hnm hl
          · rw [hp, h, List.concat_eq_append, List.append_assoc, List.singleton_append]
            exact getElem?_append_length L q (pt :: rest)
          · rw [hp, h, List.concat_eq_append, List.append_assoc, List.singleton_append]
            exact getElem?_append_length_succ L q pt rest
      obtain ⟨d1, d2⟩ := sdraw_push dst pt.x pt.y hnd
      have := ih (pre ++ [pt]) done todo (_twin_path_sdraw true dst pt.x pt.y) hp1 hs
        (by intro c hc; rw [hlen]; have := hd c hc; omega)
        (by intro c hc; rw [hlen]; exact ht1 c hc)
        (by rw [d1, hdp, hpt])
        (by rw [d2, hds])
      simpa [hlen] using this

/-- C12, counterexample: a finished triangle (three points, boundary 3) is well formed and
reachable, yet after `twin_path_append` into a fresh path the boundary 3 of the source is
not a boundary of the destination. -/
theorem twin_path_append_boundary_counterexample :
    path_inv sample_closed ∧ sample_closed.points.length = 3 ∧ 3 ∈ sample_closed.sublen ∧
    3 ∉ (twin_path_append (fun _ => (true, true)) fresh_path sample_closed).sublen :=
  ⟨reachable_inv _ _ fresh_path _ rfl rfl, by decide, by decide, by decide⟩

/-- C12, amended: `twin_path_append` into an empty destination, when no allocation is
refused, copies the geometry of a well-formed source: the destination ends with exactly the
source's point sequence, and its boundaries are exactly the boundaries of the source that
are smaller than the source's number of points (a boundary closing the last subpath is not
copied). -/
theorem twin_path_append_copies (alloc : Nat → Bool × Bool) (dst src : twin_path_t)
    (hi : path_inv src) (hp : dst.points = []) (hs : dst.sublen = [])
    (halloc : ∀ k, alloc k = (true, true)) :
    (twin_path_append alloc dst src).points = src.points ∧
    (twin_path_append alloc dst src).sublen
      = src.sublen.filter (fun b => b < src.npoints) ∧
    ∀ b ∈ src.sublen, b < src.npoints → b ∈ (twin_path_append alloc dst src).sublen := by
  have h := append_loop_copy alloc halloc src hi src.points [] [] src.sublen dst rfl rfl
    (by simp) (by simp) hp hs
  refine ⟨h.1, h.2, ?_⟩
  intro b hb hlt
  have h2 : (twin_path_append alloc dst src).sublen
      = src.sublen.filter (fun b => b < src.points.length) := h.2
  rw [h2, List.mem_filter]
  exact ⟨hb, by simpa [twin_path_t.npoints] using hlt⟩

theorem twin_path_append_copies_witness :
    (twin_path_append (fun _ => (true, true)) fresh_path sample_closed).points
      = [⟨0, 0⟩, ⟨16, 0⟩, ⟨16, 16⟩] ∧
    (twin_path_append (fun _ => (true, true)) fresh_path sample_closed).sublen = [] :=
  ⟨(twin_path_append_copies (fun _ => (true, true)) fresh_path sample_closed
      (reachable_inv _ _ fresh_path _ rfl rfl) rfl rfl (fun _ => rfl)).1,
   (twin_path_append_copies (fun _ => (true, true)) fresh_path sample_closed
      (reachable_inv _ _ fresh_path _ rfl rfl) rfl rfl (fun _ => rfl)).2.1⟩

/-! ## Auxiliary lemmas: the decoder reads forward -/

theorem tvg_bind_apply {α β : Type} (m : tvg_m α) (f : α → tvg_m β) (ctx : tvg_context_t) :
    (m >>= f) ctx =
      match m ctx with
      | (Except.ok a, ctx') => f a ctx'
      | (Except.error e, ctx') => (Except.error e, ctx') := rfl

theorem tvg_pure_apply {α : Type} (a : α) (ctx : tvg_context_t) :
    (pure a : tvg_m α) ctx = (Except.ok a, ctx) := rfl

theorem tvg_ok_pure {α : Type} (a : α) : tvg_ok (pure a : tvg_m α) := by
  intro ctx
  exact ⟨List.suffix_refl _, fun h => h, by rw [tvg_pure_apply]; simp⟩

theorem tvg_ok_fail {α : Type} (e : tvg_result_t) (he : e ≠ TVG_SUCCESS) :
    tvg_ok (tvg_fail e : tvg_m α) := by
  intro ctx
  refine ⟨List.suffix_refl _, fun h => h, ?_⟩
  simp only [tvg_fail, ne_eq, Except.error.injEq]
  exact he

theorem tvg_ok_get : tvg_ok tvg_get := by
  intro ctx
  exact ⟨List.suffix_refl _, fun h => h, by simp [tvg_get]⟩

theorem tvg_ok_modify (f : tvg_context_t → tvg_context_t)
    (hf : ∀ ctx, (f ctx).input = ctx.input ∧ (f ctx).eof = ctx.eof) : tvg_ok (tvg_modify f) := by
  intro ctx
  obtain ⟨h1, h2⟩ := hf ctx
  refine ⟨?_, ?_, by simp [tvg_modify]⟩
  · show (f ctx).input <:+ ctx.input
    rw [h1]
  · intro h
    show (f ctx).eof = true → (f ctx).input = []
    rw [h1, h2]
    exact h

theorem tvg_ok_apply_after {β : Type} {m : tvg_m β} (hm : tvg_ok m) (ctx ctx' : tvg_context_t)
    (h1 : ctx'.input <:+ ctx.input) (h2 : tvg_inv ctx → tvg_inv ctx') :
    (m ctx').2.input <:+ ctx.input ∧ (tvg_inv ctx → tvg_inv (m ctx').2) ∧
      (m ctx').1 ≠ Except.error TVG_SUCCESS := by
  obtain ⟨h3, h4, h5⟩ := hm ctx'
  exact ⟨h3.trans h1, fun h => h4 (h2 h), h5⟩

theorem tvg_ok_bind {α β : Type} (m : tvg_m α) (f : α → tvg_m β) (hm : tvg_ok m)
    (hf : ∀ a, tvg_ok (f a)) : tvg_ok (m >>= f) := by
  intro ctx
  rw [tvg_bind_apply]
  obtain ⟨h1, h2, h3⟩ := hm ctx
  rcases hr : m ctx with ⟨r, ctx'⟩
  rw [hr] at h1 h2 h3
  cases r with
  | error e => exact ⟨h1, h2, by simpa using h3⟩
  | ok a => exact tvg_ok_apply_after (hf a) ctx ctx' h1 h2

theorem tvg_ok_ite {α : Type} (c : Prop) [Decidable c] (a b : tvg_m α) (ha : tvg_ok a)
    (hb : tvg_ok b) : tvg_ok (if c then a else b) := by
  split
  · exact ha
  · exact hb

theorem tvg_ok_inp (size : Nat) : tvg_ok (tvg_inp size) := by
  intro ctx
  unfold tvg_inp
  split
  · refine ⟨List.drop_suffix _ _, ?_, by simp⟩
    intro h he
    simp only at he ⊢
    rw [h he]
    simp
  · exact ⟨List.nil_suffix, fun _ _ => rfl, by simp⟩

theorem tvg_ok_malloc : tvg_ok tvg_malloc := by
  intro ctx
  exact ⟨List.suffix_refl _, fun h => h, by simp [tvg_malloc]⟩

theorem tvg_read_varuint_loop_suffix :
    ∀ (input : List UInt8) (count result v : Nat) (rest : List UInt8),
      tvg_read_varuint_loop input count result = some (v, rest) → rest <:+ input := by
  intro input
  induction input with
  | nil => intro count result v rest h; simp [tvg_read_varuint_loop] at h
  | cons b t ih =>
    intro count result v rest h
    simp only [tvg_read_varuint_loop] at h
    split at h
    · simp only [Option.some.injEq, Prod.mk.injEq] at h
      rw [← h.2]
      exact List.suffix_cons _ _
    · exact (ih _ _ _ _ h).trans (List.suffix_cons _ _)

theorem tvg_ok_read_varuint : tvg_ok tvg_read_varuint := by
  intro ctx
  unfold tvg_read_varuint
  split
  · rename_i result rest h
    refine ⟨tvg_read_varuint_loop_suffix _ _ _ _ _ h, ?_, by simp⟩
    intro hi he
    have h0 := hi he
    rw [h0] at h
    simp [tvg_read_varuint_loop] at h
  · exact ⟨List.nil_suffix, fun _ _ => rfl, by simp⟩

theorem tvg_ok_read_coord : tvg_ok tvg_read_coord := by
  unfold tvg_read_coord
  repeat (first
    | exact tvg_ok_pure _ | exact tvg_ok_get | exact tvg_ok_inp _
    | apply tvg_ok_bind | apply tvg_ok_ite | intro _)

theorem tvg_ok_read_color : tvg_ok tvg_read_color := by
  unfold tvg_read_color
  repeat (first
    | with_reducible exact tvg_ok_pure _ | with_reducible exact tvg_ok_fail _ (by decide)
    | with_reducible exact tvg_ok_get | with_reducible exact tvg_ok_inp _
    | with_reducible exact tvg_ok_malloc | with_reducible exact tvg_ok_read_varuint
    | with_reducible exact tvg_ok_read_coord | with_reducible apply tvg_ok_bind
    | with_reducible apply tvg_ok_ite | with_reducible intro _ | split
    | with_reducible exact tvg_ok_modify _ (fun _ => ⟨rfl, rfl⟩))

theorem tvg_ok_read_unit : tvg_ok tvg_read_unit := by
  unfold tvg_read_unit
  repeat (first
    | with_reducible exact tvg_ok_pure _ | with_reducible exact tvg_ok_fail _ (by decide)
    | with_reducible exact tvg_ok_get | with_reducible exact tvg_ok_inp _
    | with_reducible exact tvg_ok_malloc | with_reducible exact tvg_ok_read_varuint
    | with_reducible exact tvg_ok_read_coord | with_reducible exact tvg_ok_read_color
    | with_reducible apply tvg_ok_bind | with_reducible apply tvg_ok_ite
    | with_reducible intro _ | split
    | with_reducible exact tvg_ok_modify _ (fun _ => ⟨rfl, rfl⟩))

theorem tvg_ok_read_point : tvg_ok tvg_read_point := by
  unfold tvg_read_point
  repeat (first
    | with_reducible exact tvg_ok_pure _ | with_reducible exact tvg_ok_fail _ (by decide)
    | with_reducible exact tvg_ok_get | with_reducible exact tvg_ok_inp _
    | with_reducible exact tvg_ok_malloc | with_reducible exact tvg_ok_read_varuint
    | with_reducible exact tvg_ok_read_coord | with_reducible exact tvg_ok_read_color
    | with_reducible exact tvg_ok_read_unit | with_reducible apply tvg_ok_bind
    | with_reducible apply tvg_ok_ite | with_reducible intro _ | split
    | with_reducible exact tvg_ok_modify _ (fun _ => ⟨rfl, rfl⟩))

theorem tvg_ok_parse_header_colors (n : Nat) : tvg_ok (tvg_parse_header_colors n) := by
  induction n with
  | zero => exact tvg_ok_pure _
  | succ n ih =>
    intro ctx
    obtain ⟨h1, h2, h3⟩ := tvg_ok_read_color ctx
    simp only [tvg_parse_header_colors]
    rcases hr : tvg_read_color ctx with ⟨r, ctx'⟩
    rw [hr] at h1 h2 h3
    cases r with
    | error e => exact ⟨h1, h2, by simpa using h3⟩
    | ok color =>
      exact tvg_ok_apply_after ih ctx { ctx' with colors := ctx'.colors ++ [color] } h1 h2

theorem tvg_ok_parse_header (dim_only : Bool) : tvg_ok (tvg_parse_header dim_only) := by
  unfold tvg_parse_header
  repeat (first
    | with_reducible exact tvg_ok_pure _ | with_reducible exact tvg_ok_fail _ (by decide)
    | with_reducible exact tvg_ok_get | with_reducible exact tvg_ok_inp _
    | with_reducible exact tvg_ok_malloc | with_reducible exact tvg_ok_read_varuint
    | with_reducible exact tvg_ok_read_coord | with_reducible exact tvg_ok_read_color
    | with_reducible exact tvg_ok_read_unit | with_reducible exact tvg_ok_read_point
    | with_reducible exact tvg_ok_parse_header_colors _ | with_reducible apply tvg_ok_bind
    | with_reducible apply tvg_ok_ite | with_reducible intro _ | split
    | with_reducible exact tvg_ok_modify _ (fun _ => ⟨rfl, rfl⟩))

theorem tvg_ok_parse_gradient : tvg_ok tvg_parse_gradient := by
  unfold tvg_parse_gradient
  repeat (first
    | with_reducible exact tvg_ok_pure _ | with_reducible exact tvg_ok_fail _ (by decide)
    | with_reducible exact tvg_ok_get | with_reducible exact tvg_ok_inp _
    | with_reducible exact tvg_ok_malloc | with_reducible exact tvg_ok_read_varuint
    | with_reducible exact tvg_ok_read_coord | with_reducible exact tvg_ok_read_color
    | with_reducible exact tvg_ok_read_unit | with_reducible exact tvg_ok_read_point
    | with_reducible exact tvg_ok_parse_header_colors _
    | with_reducible exact tvg_ok_parse_header _ | with_reducible apply tvg_ok_bind
    | with_reducible apply tvg_ok_ite | with_reducible intro _ | split
    | with_reducible exact tvg_ok_modify _ (fun _ => ⟨rfl, rfl⟩))

theorem tvg_ok_parse_style (kind : Nat) : tvg_ok (tvg_parse_style kind) := by
  unfold tvg_parse_style
  repeat (first
    | with_reducible exact tvg_ok_pure _ | with_reducible exact tvg_ok_fail _ (by decide)
    | with_reducible exact tvg_ok_get | with_reducible exact tvg_ok_inp _
    | with_reducible exact tvg_ok_malloc | with_reducible exact tvg_ok_read_varuint
    | with_reducible exact tvg_ok_read_coord | with_reducible exact tvg_ok_read_color
    | with_reducible exact tvg_ok_read_unit | with_reducible exact tvg_ok_read_point
    | with_reducible exact tvg_ok_parse_header_colors _
    | with_reducible exact tvg_ok_parse_header _ | with_reducible exact tvg_ok_parse_gradient
    | with_reducible apply tvg_ok_bind | with_reducible apply tvg_ok_ite
    | with_reducible intro _ | split
    | with_reducible exact tvg_ok_modify _ (fun _ => ⟨rfl, rfl⟩))

theorem tvg_ok_parse_fill_header (kind : Nat) : tvg_ok (tvg_parse_fill_header kind) := by
  unfold tvg_parse_fill_header
  repeat (first
    | with_reducible exact tvg_ok_pure _ | with_reducible exact tvg_ok_fail _ (by decide)
    | with_reducible exact tvg_ok_get | with_reducible exact tvg_ok_inp _
    | with_reducible exact tvg_ok_malloc | with_reducible exact tvg_ok_read_varuint
    | with_reducible exact tvg_ok_read_coord | with_reducible exact tvg_ok_read_color
    | with_reducible exact tvg_ok_read_unit | with_reducible exact tvg_ok_read_point
    | with_reducible exact tvg_ok_parse_header_colors _
    | with_reducible exact tvg_ok_parse_header _ | with_reducible exact tvg_ok_parse_gradient
    | with_reducible exact tvg_ok_parse_style _ | with_reducible apply tvg_ok_bind
    | with_reducible apply tvg_ok_ite | with_reducible intro _ | split
    | with_reducible exact tvg_ok_modify _ (fun _ => ⟨rfl, rfl⟩))

theorem tvg_ok_parse_line_header (kind : Nat) : tvg_ok (tvg_parse_line_header kind) := by
  unfold tvg_parse_line_header
  repeat (first
    | with_reducible exact tvg_ok_pure _ | with_reducible exact tvg_ok_fail _ (by decide)
    | with_reducible exact tvg_ok_get | with_reducible exact tvg_ok_inp _
    | with_reducible exact tvg_ok_malloc | with_reducible exact tvg_ok_read_varuint
    | with_reducible exact tvg_ok_read_coord | with_reducible exact tvg_ok_read_color
    | with_reducible exact tvg_ok_read_unit | with_reducible exact tvg_ok_read_point
    | with_reducible exact tvg_ok_parse_header_colors _
    | with_reducible exact tvg_ok_parse_header _ | with_reducible exact tvg_ok_parse_gradient
    | with_reducible exact tvg_ok_parse_style _
    | with_reducible exact tvg_ok_parse_fill_header _ | with_reducible apply tvg_ok_bind
    | with_reducible apply tvg_ok_ite | with_reducible intro _ | split
    | with_reducible exact tvg_ok_modify _ (fun _ => ⟨rfl, rfl⟩))

theorem tvg_ok_parse_line_fill_header (kind : Nat) : tvg_ok (tvg_parse_line_fill_header kind) := by
  unfold tvg_parse_line_fill_header
  repeat (first
    | with_reducible exact tvg_ok_pure _ | with_reducible exact tvg_ok_fail _ (by decide)
    | with_reducible exact tvg_ok_get | with_reducible exact tvg_ok_inp _
    | with_reducible exact tvg_ok_malloc | with_reducible exact tvg_ok_read_varuint
    | with_reducible exact tvg_ok_read_coord | with_reducible exact tvg_ok_read_color
    | with_reducible exact tvg_ok_read_unit | with_reducible exact tvg_ok_read_point
    | with_reducible exact tvg_ok_parse_header_colors _
    | with_reducible exact tvg_ok_parse_header _ | with_reducible exact tvg_ok_parse_gradient
    | with_reducible exact tvg_ok_parse_style _
    | with_reducible exact tvg_ok_parse_fill_header _
    | with_reducible exact tvg_ok_parse_line_header _ | with_reducible apply tvg_ok_bind
    | with_reducible apply tvg_ok_ite | with_reducible intro _ | split
    | with_reducible exact tvg_ok_modify _ (fun _ => ⟨rfl, rfl⟩))

theorem tvg_ok_parse_rect : tvg_ok tvg_parse_rect := by
  unfold tvg_parse_rect
  repeat (first
    | with_reducible exact tvg_ok_pure _ | with_reducible exact tvg_ok_fail _ (by decide)
    | with_reducible exact tvg_ok_get | with_reducible exact tvg_ok_inp _
    | with_reducible exact tvg_ok_malloc | with_reducible exact tvg_ok_read_varuint
    | with_reducible exact tvg_ok_read_coord | with_reducible exact tvg_ok_read_color
    | with_reducible exact tvg_ok_read_unit | with_reducible exact tvg_ok_read_point
    | with_reducible exact tvg_ok_parse_header_colors _
    | with_reducible exact tvg_ok_parse_header _ | with_reducible exact tvg_ok_parse_gradient
    | with_reducible exact tvg_ok_parse_style _
    | with_reducible exact tvg_ok_parse_fill_header _
    | with_reducible exact tvg_ok_parse_line_header _
    | with_reducible exact tvg_ok_parse_line_fill_header _ | with_reducible apply tvg_ok_bind
    | with_reducible apply tvg_ok_ite | with_reducible intro _ | split
    | with_reducible exact tvg_ok_modify _ (fun _ => ⟨rfl, rfl⟩))

theorem tvg_ok_stroke_path_with_style (fill_style : tvg_style_t) (pen_width : ℚ) : tvg_ok (_stroke_path_with_style fill_style pen_width) := by
  unfold _stroke_path_with_style
  repeat (first
    | with_reducible exact tvg_ok_pure _ | with_reducible exact tvg_ok_fail _ (by decide)
    | with_reducible exact tvg_ok_get | with_reducible exact tvg_ok_inp _
    | with_reducible exact tvg_ok_malloc | with_reducible exact tvg_ok_read_varuint
    | with_reducible exact tvg_ok_read_coord | with_reducible exact tvg_ok_read_color
    | with_reducible exact tvg_ok_read_unit | with_reducible exact tvg_ok_read_point
    | with_reducible exact tvg_ok_parse_header_colors _
    | with_reducible exact tvg_ok_parse_header _ | with_reducible exact tvg_ok_parse_gradient
    | with_reducible exact tvg_ok_parse_style _
    | with_reducible exact tvg_ok_parse_fill_header _
    | with_reducible exact tvg_ok_parse_line_header _
    | with_reducible exact tvg_ok_parse_line_fill_header _
    | with_reducible exact tvg_ok_parse_rect | with_reducible apply tvg_ok_bind
    | with_reducible apply tvg_ok_ite | with_reducible intro _ | split
    | with_reducible exact tvg_ok_modify _ (fun _ => ⟨rfl, rfl⟩))

theorem tvg_ok_fill_path_with_style (fill_style : tvg_style_t) : tvg_ok (_fill_path_with_style fill_style) := by
  unfold _fill_path_with_style
  repeat (first
    | with_reducible exact tvg_ok_pure _ | with_reducible exact tvg_ok_fail _ (by decide)
    | with_reducible exact tvg_ok_get | with_reducible exact tvg_ok_inp _
    | with_reducible exact tvg_ok_malloc | with_reducible exact tvg_ok_read_varuint
    | with_reducible exact tvg_ok_read_coord | with_reducible exact tvg_ok_read_color
    | with_reducible exact tvg_ok_read_unit | with_reducible exact tvg_ok_read_point
    | with_reducible exact tvg_ok_parse_header_colors _
    | with_reducible exact tvg_ok_parse_header _ | with_reducible exact tvg_ok_parse_gradient
    | with_reducible exact tvg_ok_parse_style _
    | with_reducible exact tvg_ok_parse_fill_header _
    | with_reducible exact tvg_ok_parse_line_header _
    | with_reducible exact tvg_ok_parse_line_fill_header _
    | with_reducible exact tvg_ok_parse_rect
    | with_reducible exact tvg_ok_stroke_path_with_style _ _ | with_reducible apply tvg_ok_bind
    | with_reducible apply tvg_ok_ite | with_reducible intro _ | split
    | with_reducible exact tvg_ok_modify _ (fun _ => ⟨rfl, rfl⟩))

theorem tvg_ok_path_call (c : path_call) : tvg_ok (tvg_path_call c) := by
  unfold tvg_path_call
  repeat (first
    | with_reducible exact tvg_ok_pure _ | with_reducible exact tvg_ok_fail _ (by decide)
    | with_reducible exact tvg_ok_get | with_reducible exact tvg_ok_inp _
    | with_reducible exact tvg_ok_malloc | with_reducible exact tvg_ok_read_varuint
    | with_reducible exact tvg_ok_read_coord | with_reducible exact tvg_ok_read_color
    | with_reducible exact tvg_ok_read_unit | with_reducible exact tvg_ok_read_point
    | with_reducible exact tvg_ok_parse_header_colors _
    | with_reducible exact tvg_ok_parse_header _ | with_reducible exact tvg_ok_parse_gradient
    | with_reducible exact tvg_ok_parse_style _
    | with_reducible exact tvg_ok_parse_fill_header _
    | with_reducible exact tvg_ok_parse_line_header _
    | with_reducible exact tvg_ok_parse_line_fill_header _
    | with_reducible exact tvg_ok_parse_rect
    | with_reducible exact tvg_ok_stroke_path_with_style _ _
    | with_reducible exact tvg_ok_fill_path_with_style _ | with_reducible apply tvg_ok_bind
    | with_reducible apply tvg_ok_ite | with_reducible intro _ | split
    | with_reducible exact tvg_ok_modify _ (fun _ => ⟨rfl, rfl⟩))

theorem tvg_ok_path_empty : tvg_ok tvg_path_empty := by
  unfold tvg_path_empty
  repeat (first
    | with_reducible exact tvg_ok_pure _ | with_reducible exact tvg_ok_fail _ (by decide)
    | with_reducible exact tvg_ok_get | with_reducible exact tvg_ok_inp _
    | with_reducible exact tvg_ok_malloc | with_reducible exact tvg_ok_read_varuint
    | with_reducible exact tvg_ok_read_coord | with_reducible exact tvg_ok_read_color
    | with_reducible exact tvg_ok_read_unit | with_reducible exact tvg_ok_read_point
    | with_reducible exact tvg_ok_parse_header_colors _
    | with_reducible exact tvg_ok_parse_header _ | with_reducible exact tvg_ok_parse_gradient
    | with_reducible exact tvg_ok_parse_style _
    | with_reducible exact tvg_ok_parse_fill_header _
    | with_reducible exact tvg_ok_parse_line_header _
    | with_reducible exact tvg_ok_parse_line_fill_header _
    | with_reducible exact tvg_ok_parse_rect
    | with_reducible exact tvg_ok_stroke_path_with_style _ _
    | with_reducible exact tvg_ok_fill_path_with_style _
    | with_reducible exact tvg_ok_path_call _ | with_reducible apply tvg_ok_bind
    | with_reducible apply tvg_ok_ite | with_reducible intro _ | split
    | with_reducible exact tvg_ok_modify _ (fun _ => ⟨rfl, rfl⟩))

theorem tvg_ok_parse_path_command (d : Nat) (st cur : tvg_point_t) : tvg_ok (tvg_parse_path_command d st cur) := by
  unfold tvg_parse_path_command
  repeat (first
    | with_reducible exact tvg_ok_pure _ | with_reducible exact tvg_ok_fail _ (by decide)
    | with_reducible exact tvg_ok_get | with_reducible exact tvg_ok_inp _
    | with_reducible exact tvg_ok_malloc | with_reducible exact tvg_ok_read_varuint
    | with_reducible exact tvg_ok_read_coord | with_reducible exact tvg_ok_read_color
    | with_reducible exact tvg_ok_read_unit | with_reducible exact tvg_ok_read_point
    | with_reducible exact tvg_ok_parse_header_colors _
    | with_reducible exact tvg_ok_parse_header _ | with_reducible exact tvg_ok_parse_gradient
    | with_reducible exact tvg_ok_parse_style _
    | with_reducible exact tvg_ok_parse_fill_header _
    | with_reducible exact tvg_ok_parse_line_header _
    | with_reducible exact tvg_ok_parse_line_fill_header _
    | with_reducible exact tvg_ok_parse_rect
    | with_reducible exact tvg_ok_stroke_path_with_style _ _
    | with_reducible exact tvg_ok_fill_path_with_style _
    | with_reducible exact tvg_ok_path_call _ | with_reducible exact tvg_ok_path_empty
    | with_reducible apply tvg_ok_bind | with_reducible apply tvg_ok_ite
    | with_reducible intro _ | split
    | with_reducible exact tvg_ok_modify _ (fun _ => ⟨rfl, rfl⟩))

theorem tvg_ok_parse_path_loop (n : Nat) (st cur : tvg_point_t) :
    tvg_ok (tvg_parse_path_loop n st cur) := by
  induction n generalizing st cur with
  | zero => exact tvg_ok_pure _
  | succ n ih =>
    intro ctx
    obtain ⟨h1, h2, _⟩ := tvg_ok_inp 1 ctx
    simp only [tvg_parse_path_loop]
    rcases hr : tvg_inp 1 ctx with ⟨r, ctx'⟩
    rw [hr] at h1 h2
    cases r with
    | error e => exact ⟨h1, h2, by simp⟩
    | ok d =>
      refine tvg_ok_apply_after ?_ ctx ctx' h1 h2
      repeat (first
        | with_reducible exact tvg_ok_pure _ | with_reducible exact tvg_ok_fail _ (by decide)
        | with_reducible exact tvg_ok_get | with_reducible exact tvg_ok_inp _
        | with_reducible exact tvg_ok_malloc | with_reducible exact tvg_ok_read_varuint
        | with_reducible exact tvg_ok_read_coord | with_reducible exact tvg_ok_read_color
        | with_reducible exact tvg_ok_read_unit | with_reducible exact tvg_ok_read_point
        | with_reducible exact tvg_ok_parse_header_colors _
        | with_reducible exact tvg_ok_parse_header _
        | with_reducible exact tvg_ok_parse_gradient
        | with_reducible exact tvg_ok_parse_style _
        | with_reducible exact tvg_ok_parse_fill_header _
        | with_reducible exact tvg_ok_parse_line_header _
        | with_reducible exact tvg_ok_parse_line_fill_header _
        | with_reducible exact tvg_ok_parse_rect
        | with_reducible exact tvg_ok_stroke_path_with_style _ _
        | with_reducible exact tvg_ok_fill_path_with_style _
        | with_reducible exact tvg_ok_path_call _ | with_reducible exact tvg_ok_path_empty
        | with_reducible exact tvg_ok_parse_path_command _ _ _ | exact ih _ _
        | with_reducible apply tvg_ok_bind | with_reducible apply tvg_ok_ite
        | with_reducible intro _ | split
        | with_reducible exact tvg_ok_modify _ (fun _ => ⟨rfl, rfl⟩))

theorem tvg_ok_parse_path (size : Nat) : tvg_ok (tvg_parse_path size) := by
  unfold tvg_parse_path
  repeat (first
    | with_reducible exact tvg_ok_pure _ | with_reducible exact tvg_ok_fail _ (by decide)
    | with_reducible exact tvg_ok_get | with_reducible exact tvg_ok_inp _
    | with_reducible exact tvg_ok_malloc | with_reducible exact tvg_ok_read_varuint
    | with_reducible exact tvg_ok_read_coord | with_reducible exact tvg_ok_read_color
    | with_reducible exact tvg_ok_read_unit | with_reducible exact tvg_ok_read_point
    | with_reducible exact tvg_ok_parse_header_colors _
    | with_reducible exact tvg_ok_parse_header _ | with_reducible exact tvg_ok_parse_gradient
    | with_reducible exact tvg_ok_parse_style _
    | with_reducible exact tvg_ok_parse_fill_header _
    | with_reducible exact tvg_ok_parse_line_header _
    | with_reducible exact tvg_ok_parse_line_fill_header _
    | with_reducible exact tvg_ok_parse_rect
    | with_reducible exact tvg_ok_stroke_path_with_style _ _
    | with_reducible exact tvg_ok_fill_path_with_style _
    | with_reducible exact tvg_ok_path_call _ | with_reducible exact tvg_ok_path_empty
    | with_reducible exact tvg_ok_parse_path_command _ _ _
    | with_reducible exact tvg_ok_parse_path_loop _ _ _ | with_reducible apply tvg_ok_bind
    | with_reducible apply tvg_ok_ite | with_reducible intro _ | split
    | with_reducible exact tvg_ok_modify _ (fun _ => ⟨rfl, rfl⟩))

theorem tvg_ok_read_sizes (n : Nat) : tvg_ok (tvg_read_sizes n) := by
  induction n with
  | zero => exact tvg_ok_pure _
  | succ n ih =>
    unfold tvg_read_sizes
    repeat (first
      | with_reducible exact tvg_ok_pure _ | with_reducible exact tvg_ok_fail _ (by decide)
      | with_reducible exact tvg_ok_get | with_reducible exact tvg_ok_inp _
      | with_reducible exact tvg_ok_malloc | with_reducible exact tvg_ok_read_varuint
      | with_reducible exact tvg_ok_read_coord | with_reducible exact tvg_ok_read_color
      | with_reducible exact tvg_ok_read_unit | with_reducible exact tvg_ok_read_point
      | with_reducible exact tvg_ok_parse_header_colors _
      | with_reducible exact tvg_ok_parse_header _ | with_reducible exact tvg_ok_parse_gradient
      | with_reducible exact tvg_ok_parse_style _
      | with_reducible exact tvg_ok_parse_fill_header _
      | with_reducible exact tvg_ok_parse_line_header _
      | with_reducible exact tvg_ok_parse_line_fill_header _
      | with_reducible exact tvg_ok_parse_rect
      | with_reducible exact tvg_ok_stroke_path_with_style _ _
      | with_reducible exact tvg_ok_fill_path_with_style _
      | with_reducible exact tvg_ok_path_call _ | with_reducible exact tvg_ok_path_empty
      | with_reducible exact tvg_ok_parse_path_command _ _ _
      | with_reducible exact tvg_ok_parse_path_loop _ _ _
      | with_reducible exact tvg_ok_parse_path _ | exact ih | with_reducible apply tvg_ok_bind
      | with_reducible apply tvg_ok_ite | with_reducible intro _ | split
      | with_reducible exact tvg_ok_modify _ (fun _ => ⟨rfl, rfl⟩))

theorem tvg_ok_parse_paths (sizes : List Nat) : tvg_ok (tvg_parse_paths sizes) := by
  induction sizes with
  | nil => exact tvg_ok_pure _
  | cons s rest ih =>
    unfold tvg_parse_paths
    repeat (first
      | with_reducible exact tvg_ok_pure _ | with_reducible exact tvg_ok_fail _ (by decide)
      | with_reducible exact tvg_ok_get | with_reducible exact tvg_ok_inp _
      | with_reducible exact tvg_ok_malloc | with_reducible exact tvg_ok_read_varuint
      | with_reducible exact tvg_ok_read_coord | with_reducible exact tvg_ok_read_color
      | with_reducible exact tvg_ok_read_unit | with_reducible exact tvg_ok_read_point
      | with_reducible exact tvg_ok_parse_header_colors _
      | with_reducible exact tvg_ok_parse_header _ | with_reducible exact tvg_ok_parse_gradient
      | with_reducible exact tvg_ok_parse_style _
      | with_reducible exact tvg_ok_parse_fill_header _
      | with_reducible exact tvg_ok_parse_line_header _
      | with_reducible exact tvg_ok_parse_line_fill_header _
      | with_reducible exact tvg_ok_parse_rect
      | with_reducible exact tvg_ok_stroke_path_with_style _ _
      | with_reducible exact tvg_ok_fill_path_with_style _
      | with_reducible exact tvg_ok_path_call _ | with_reducible exact tvg_ok_path_empty
      | with_reducible exact tvg_ok_parse_path_command _ _ _
      | with_reducible exact tvg_ok_parse_path_loop _ _ _
      | with_reducible exact tvg_ok_parse_path _ | with_reducible exact tvg_ok_read_sizes _
      | exact ih | with_reducible apply tvg_ok_bind | with_reducible apply tvg_ok_ite
      | with_reducible intro _ | split
      | with_reducible exact tvg_ok_modify _ (fun _ => ⟨rfl, rfl⟩))

theorem tvg_ok_parse_fill_rectangles (n : Nat) (fill_style : tvg_style_t) : tvg_ok (tvg_parse_fill_rectangles n fill_style) := by
  induction n generalizing fill_style with
  | zero => exact tvg_ok_pure _
  | succ n ih =>
    unfold tvg_parse_fill_rectangles
    repeat (first
      | with_reducible exact tvg_ok_pure _ | with_reducible exact tvg_ok_fail _ (by decide)
      | with_reducible exact tvg_ok_get | with_reducible exact tvg_ok_inp _
      | with_reducible exact tvg_ok_malloc | with_reducible exact tvg_ok_read_varuint
      | with_reducible exact tvg_ok_read_coord | with_reducible exact tvg_ok_read_color
      | with_reducible exact tvg_ok_read_unit | with_reducible exact tvg_ok_read_point
      | with_reducible exact tvg_ok_parse_header_colors _
      | with_reducible exact tvg_ok_parse_header _ | with_reducible exact tvg_ok_parse_gradient
      | with_reducible exact tvg_ok_parse_style _
      | with_reducible exact tvg_ok_parse_fill_header _
      | with_reducible exact tvg_ok_parse_line_header _
      | with_reducible exact tvg_ok_parse_line_fill_header _
      | with_reducible exact tvg_ok_parse_rect
      | with_reducible exact tvg_ok_stroke_path_with_style _ _
      | with_reducible exact tvg_ok_fill_path_with_style _
      | with_reducible exact tvg_ok_path_call _ | with_reducible exact tvg_ok_path_empty
      | with_reducible exact tvg_ok_parse_path_command _ _ _
      | with_reducible exact tvg_ok_parse_path_loop _ _ _
      | with_reducible exact tvg_ok_parse_path _ | with_reducible exact tvg_ok_read_sizes _
      | with_reducible exact tvg_ok_parse_paths _ | exact ih _
      | with_reducible apply tvg_ok_bind | with_reducible apply tvg_ok_ite
      | with_reducible intro _ | split
      | with_reducible exact tvg_ok_modify _ (fun _ => ⟨rfl, rfl⟩))

theorem tvg_ok_parse_line_fill_rectangles_loop (n : Nat) (fill_style line_style : tvg_style_t) (line_width : ℚ) : tvg_ok (tvg_parse_line_fill_rectangles_loop n fill_style line_style line_width) := by
  induction n generalizing fill_style line_style line_width with
  | zero => exact tvg_ok_pure _
  | succ n ih =>
    unfold tvg_parse_line_fill_rectangles_loop
    repeat (first
      | with_reducible exact tvg_ok_pure _ | with_reducible exact tvg_ok_fail _ (by decide)
      | with_reducible exact tvg_ok_get | with_reducible exact tvg_ok_inp _
      | with_reducible exact tvg_ok_malloc | with_reducible exact tvg_ok_read_varuint
      | with_reducible exact tvg_ok_read_coord | with_reducible exact tvg_ok_read_color
      | with_reducible exact tvg_ok_read_unit | with_reducible exact tvg_ok_read_point
      | with_reducible exact tvg_ok_parse_header_colors _
      | with_reducible exact tvg_ok_parse_header _ | with_reducible exact tvg_ok_parse_gradient
      | with_reducible exact tvg_ok_parse_style _
      | with_reducible exact tvg_ok_parse_fill_header _
      | with_reducible exact tvg_ok_parse_line_header _
      | with_reducible exact tvg_ok_parse_line_fill_header _
      | with_reducible exact tvg_ok_parse_rect
      | with_reducible exact tvg_ok_stroke_path_with_style _ _
      | with_reducible exact tvg_ok_fill_path_with_style _
      | with_reducible exact tvg_ok_path_call _ | with_reducible exact tvg_ok_path_empty
      | with_reducible exact tvg_ok_parse_path_command _ _ _
      | with_reducible exact tvg_ok_parse_path_loop _ _ _
      | with_reducible exact tvg_ok_parse_path _ | with_reducible exact tvg_ok_read_sizes _
      | with_reducible exact tvg_ok_parse_paths _
      | with_reducible exact tvg_ok_parse_fill_rectangles _ _ | exact ih _ _ _
      | with_reducible apply tvg_ok_bind | with_reducible apply tvg_ok_ite
      | with_reducible intro _ | split
      | with_reducible exact tvg_ok_modify _ (fun _ => ⟨rfl, rfl⟩))

theorem tvg_ok_parse_line_fill_rectangles (size : Nat) (fill_style line_style : tvg_style_t) (line_width : ℚ) : tvg_ok (tvg_parse_line_fill_rectangles size fill_style line_style line_width) := by
  unfold tvg_parse_line_fill_rectangles
  repeat (first
    | with_reducible exact tvg_ok_pure _ | with_reducible exact tvg_ok_fail _ (by decide)
    | with_reducible exact tvg_ok_get | with_reducible exact tvg_ok_inp _
    | with_reducible exact tvg_ok_malloc | with_reducible exact tvg_ok_read_varuint
    | with_reducible exact tvg_ok_read_coord | with_reducible exact tvg_ok_read_color
    | with_reducible exact tvg_ok_read_unit | with_reducible exact tvg_ok_read_point
    | with_reducible exact tvg_ok_parse_header_colors _
    | with_reducible exact tvg_ok_parse_header _ | with_reducible exact tvg_ok_parse_gradient
    | with_reducible exact tvg_ok_parse_style _
    | with_reducible exact tvg_ok_parse_fill_header _
    | with_reducible exact tvg_ok_parse_line_header _
    | with_reducible exact tvg_ok_parse_line_fill_header _
    | with_reducible exact tvg_ok_parse_rect
    | with_reducible exact tvg_ok_stroke_path_with_style _ _
    | with_reducible exact tvg_ok_fill_path_with_style _
    | with_reducible exact tvg_ok_path_call _ | with_reducible exact tvg_ok_path_empty
    | with_reducible exact tvg_ok_parse_path_command _ _ _
    | with_reducible exact tvg_ok_parse_path_loop _ _ _
    | with_reducible exact tvg_ok_parse_path _ | with_reducible exact tvg_ok_read_sizes _
    | with_reducible exact tvg_ok_parse_paths _
    | with_reducible exact tvg_ok_parse_fill_rectangles _ _
    | with_reducible exact tvg_ok_parse_line_fill_rectangles_loop _ _ _ _
    | with_reducible apply tvg_ok_bind | with_reducible apply tvg_ok_ite
    | with_reducible intro _ | split
    | with_reducible exact tvg_ok_modify _ (fun _ => ⟨rfl, rfl⟩))

theorem tvg_ok_parse_fill_paths (size : Nat) (style : tvg_style_t) : tvg_ok (tvg_parse_fill_paths size style) := by
  unfold tvg_parse_fill_paths
  repeat (first
    | with_reducible exact tvg_ok_pure _ | with_reducible exact tvg_ok_fail _ (by decide)
    | with_reducible exact tvg_ok_get | with_reducible exact tvg_ok_inp _
    | with_reducible exact tvg_ok_malloc | with_reducible exact tvg_ok_read_varuint
    | with_reducible exact tvg_ok_read_coord | with_reducible exact tvg_ok_read_color
    | with_reducible exact tvg_ok_read_unit | with_reducible exact tvg_ok_read_point
    | with_reducible exact tvg_ok_parse_header_colors _
    | with_reducible exact tvg_ok_parse_header _ | with_reducible exact tvg_ok_parse_gradient
    | with_reducible exact tvg_ok_parse_style _
    | with_reducible exact tvg_ok_parse_fill_header _
    | with_reducible exact tvg_ok_parse_line_header _
    | with_reducible exact tvg_ok_parse_line_fill_header _
    | with_reducible exact tvg_ok_parse_rect
    | with_reducible exact tvg_ok_stroke_path_with_style _ _
    | with_reducible exact tvg_ok_fill_path_with_style _
    | with_reducible exact tvg_ok_path_call _ | with_reducible exact tvg_ok_path_empty
    | with_reducible exact tvg_ok_parse_path_command _ _ _
    | with_reducible exact tvg_ok_parse_path_loop _ _ _
    | with_reducible exact tvg_ok_parse_path _ | with_reducible exact tvg_ok_read_sizes _
    | with_reducible exact tvg_ok_parse_paths _
    | with_reducible exact tvg_ok_parse_fill_rectangles _ _
    | with_reducible exact tvg_ok_parse_line_fill_rectangles_loop _ _ _ _
    | with_reducible exact tvg_ok_parse_line_fill_rectangles _ _ _ _
    | with_reducible apply tvg_ok_bind | with_reducible apply tvg_ok_ite
    | with_reducible intro _ | split
    | with_reducible exact tvg_ok_modify _ (fun _ => ⟨rfl, rfl⟩))

theorem tvg_ok_parse_line_paths (size : Nat) (line_style : tvg_style_t) (line_width : ℚ) : tvg_ok (tvg_parse_line_paths size line_style line_width) := by
  unfold tvg_parse_line_paths
  repeat (first
    | with_reducible exact tvg_ok_pure _ | with_reducible exact tvg_ok_fail _ (by decide)
    | with_reducible exact tvg_ok_get | with_reducible exact tvg_ok_inp _
    | with_reducible exact tvg_ok_malloc | with_reducible exact tvg_ok_read_varuint
    | with_reducible exact tvg_ok_read_coord | with_reducible exact tvg_ok_read_color
    | with_reducible exact tvg_ok_read_unit | with_reducible exact tvg_ok_read_point
    | with_reducible exact tvg_ok_parse_header_colors _
    | with_reducible exact tvg_ok_parse_header _ | with_reducible exact tvg_ok_parse_gradient
    | with_reducible exact tvg_ok_parse_style _
    | with_reducible exact tvg_ok_parse_fill_header _
    | with_reducible exact tvg_ok_parse_line_header _
    | with_reducible exact tvg_ok_parse_line_fill_header _
    | with_reducible exact tvg_ok_parse_rect
    | with_reducible exact tvg_ok_stroke_path_with_style _ _
    | with_reducible exact tvg_ok_fill_path_with_style _
    | with_reducible exact tvg_ok_path_call _ | with_reducible exact tvg_ok_path_empty
    | with_reducible exact tvg_ok_parse_path_command _ _ _
    | with_reducible exact tvg_ok_parse_path_loop _ _ _
    | with_reducible exact tvg_ok_parse_path _ | with_reducible exact tvg_ok_read_sizes _
    | with_reducible exact tvg_ok_parse_paths _
    | with_reducible exact tvg_ok_parse_fill_rectangles _ _
    | with_reducible exact tvg_ok_parse_line_fill_rectangles_loop _ _ _ _
    | with_reducible exact tvg_ok_parse_line_fill_rectangles _ _ _ _
    | with_reducible exact tvg_ok_parse_fill_paths _ _ | with_reducible apply tvg_ok_bind
    | with_reducible apply tvg_ok_ite | with_reducible intro _ | split
    | with_reducible exact tvg_ok_modify _ (fun _ => ⟨rfl, rfl⟩))

theorem tvg_ok_parse_line_fill_paths (size : Nat) (fill_style line_style : tvg_style_t) (line_width : ℚ) : tvg_ok (tvg_parse_line_fill_paths size fill_style line_style line_width) := by
  unfold tvg_parse_line_fill_paths
  repeat (first
    | with_reducible exact tvg_ok_pure _ | with_reducible exact tvg_ok_fail _ (by decide)
    | with_reducible exact tvg_ok_get | with_reducible exact tvg_ok_inp _
    | with_reducible exact tvg_ok_malloc | with_reducible exact tvg_ok_read_varuint
    | with_reducible exact tvg_ok_read_coord | with_reducible exact tvg_ok_read_color
    | with_reducible exact tvg_ok_read_unit | with_reducible exact tvg_ok_read_point
    | with_reducible exact tvg_ok_parse_header_colors _
    | with_reducible exact tvg_ok_parse_header _ | with_reducible exact tvg_ok_parse_gradient
    | with_reducible exact tvg_ok_parse_style _
    | with_reducible exact tvg_ok_parse_fill_header _
    | with_reducible exact tvg_ok_parse_line_header _
    | with_reducible exact tvg_ok_parse_line_fill_header _
    | with_reducible exact tvg_ok_parse_rect
    | with_reducible exact tvg_ok_stroke_path_with_style _ _
    | with_reducible exact tvg_ok_fill_path_with_style _
    | with_reducible exact tvg_ok_path_call _ | with_reducible exact tvg_ok_path_empty
    | with_reducible exact tvg_ok_parse_path_command _ _ _
    | with_reducible exact tvg_ok_parse_path_loop _ _ _
    | with_reducible exact tvg_ok_parse_path _ | with_reducible exact tvg_ok_read_sizes _
    | with_reducible exact tvg_ok_parse_paths _
    | with_reducible exact tvg_ok_parse_fill_rectangles _ _
    | with_reducible exact tvg_ok_parse_line_fill_rectangles_loop _ _ _ _
    | with_reducible exact tvg_ok_parse_line_fill_rectangles _ _ _ _
    | with_reducible exact tvg_ok_parse_fill_paths _ _
    | with_reducible exact tvg_ok_parse_line_paths _ _ _ | with_reducible apply tvg_ok_bind
    | with_reducible apply tvg_ok_ite | with_reducible intro _ | split
    | with_reducible exact tvg_ok_modify _ (fun _ => ⟨rfl, rfl⟩))

theorem tvg_ok_parse_fill_polygon_loop (n : Nat) (path : List path_call) : tvg_ok (tvg_parse_fill_polygon_loop n path) := by
  induction n generalizing path with
  | zero => exact tvg_ok_pure _
  | succ n ih =>
    unfold tvg_parse_fill_polygon_loop
    repeat (first
      | with_reducible exact tvg_ok_pure _ | with_reducible exact tvg_ok_fail _ (by decide)
      | with_reducible exact tvg_ok_get | with_reducible exact tvg_ok_inp _
      | with_reducible exact tvg_ok_malloc | with_reducible exact tvg_ok_read_varuint
      | with_reducible exact tvg_ok_read_coord | with_reducible exact tvg_ok_read_color
      | with_reducible exact tvg_ok_read_unit | with_reducible exact tvg_ok_read_point
      | with_reducible exact tvg_ok_parse_header_colors _
      | with_reducible exact tvg_ok_parse_header _ | with_reducible exact tvg_ok_parse_gradient
      | with_reducible exact tvg_ok_parse_style _
      | with_reducible exact tvg_ok_parse_fill_header _
      | with_reducible exact tvg_ok_parse_line_header _
      | with_reducible exact tvg_ok_parse_line_fill_header _
      | with_reducible exact tvg_ok_parse_rect
      | with_reducible exact tvg_ok_stroke_path_with_style _ _
      | with_reducible exact tvg_ok_fill_path_with_style _
      | with_reducible exact tvg_ok_path_call _ | with_reducible exact tvg_ok_path_empty
      | with_reducible exact tvg_ok_parse_path_command _ _ _
      | with_reducible exact tvg_ok_parse_path_loop _ _ _
      | with_reducible exact tvg_ok_parse_path _ | with_reducible exact tvg_ok_read_sizes _
      | with_reducible exact tvg_ok_parse_paths _
      | with_reducible exact tvg_ok_parse_fill_rectangles _ _
      | with_reducible exact tvg_ok_parse_line_fill_rectangles_loop _ _ _ _
      | with_reducible exact tvg_ok_parse_line_fill_rectangles _ _ _ _
      | with_reducible exact tvg_ok_parse_fill_paths _ _
      | with_reducible exact tvg_ok_parse_line_paths _ _ _
      | with_reducible exact tvg_ok_parse_line_fill_paths _ _ _ _ | exact ih _
      | with_reducible apply tvg_ok_bind | with_reducible apply tvg_ok_ite
      | with_reducible intro _ | split
      | with_reducible exact tvg_ok_modify _ (fun _ => ⟨rfl, rfl⟩))

theorem tvg_ok_parse_fill_polygon (size : Nat) (fill_style : tvg_style_t) : tvg_ok (tvg_parse_fill_polygon size fill_style) := by
  unfold tvg_parse_fill_polygon
  repeat (first
    | with_reducible exact tvg_ok_pure _ | with_reducible exact tvg_ok_fail _ (by decide)
    | with_reducible exact tvg_ok_get | with_reducible exact tvg_ok_inp _
    | with_reducible exact tvg_ok_malloc | with_reducible exact tvg_ok_read_varuint
    | with_reducible exact tvg_ok_read_coord | with_reducible exact tvg_ok_read_color
    | with_reducible exact tvg_ok_read_unit | with_reducible exact tvg_ok_read_point
    | with_reducible exact tvg_ok_parse_header_colors _
    | with_reducible exact tvg_ok_parse_header _ | with_reducible exact tvg_ok_parse_gradient
    | with_reducible exact tvg_ok_parse_style _
    | with_reducible exact tvg_ok_parse_fill_header _
    | with_reducible exact tvg_ok_parse_line_header _
    | with_reducible exact tvg_ok_parse_line_fill_header _
    | with_reducible exact tvg_ok_parse_rect
    | with_reducible exact tvg_ok_stroke_path_with_style _ _
    | with_reducible exact tvg_ok_fill_path_with_style _
    | with_reducible exact tvg_ok_path_call _ | with_reducible exact tvg_ok_path_empty
    | with_reducible exact tvg_ok_parse_path_command _ _ _
    | with_reducible exact tvg_ok_parse_path_loop _ _ _
    | with_reducible exact tvg_ok_parse_path _ | with_reducible exact tvg_ok_read_sizes _
    | with_reducible exact tvg_ok_parse_paths _
    | with_reducible exact tvg_ok_parse_fill_rectangles _ _
    | with_reducible exact tvg_ok_parse_line_fill_rectangles_loop _ _ _ _
    | with_reducible exact tvg_ok_parse_line_fill_rectangles _ _ _ _
    | with_reducible exact tvg_ok_parse_fill_paths _ _
    | with_reducible exact tvg_ok_parse_line_paths _ _ _
    | with_reducible exact tvg_ok_parse_line_fill_paths _ _ _ _
    | with_reducible exact tvg_ok_parse_fill_polygon_loop _ _
    | with_reducible apply tvg_ok_bind | with_reducible apply tvg_ok_ite
    | with_reducible intro _ | split
    | with_reducible exact tvg_ok_modify _ (fun _ => ⟨rfl, rfl⟩))

theorem tvg_ok_parse_polyline_loop (n : Nat) : tvg_ok (tvg_parse_polyline_loop n) := by
  induction n with
  | zero => exact tvg_ok_pure _
  | succ n ih =>
    unfold tvg_parse_polyline_loop
    repeat (first
      | with_reducible exact tvg_ok_pure _ | with_reducible exact tvg_ok_fail _ (by decide)
      | with_reducible exact tvg_ok_get | with_reducible exact tvg_ok_inp _
      | with_reducible exact tvg_ok_malloc | with_reducible exact tvg_ok_read_varuint
      | with_reducible exact tvg_ok_read_coord | with_reducible exact tvg_ok_read_color
      | with_reducible exact tvg_ok_read_unit | with_reducible exact tvg_ok_read_point
      | with_reducible exact tvg_ok_parse_header_colors _
      | with_reducible exact tvg_ok_parse_header _ | with_reducible exact tvg_ok_parse_gradient
      | with_reducible exact tvg_ok_parse_style _
      | with_reducible exact tvg_ok_parse_fill_header _
      | with_reducible exact tvg_ok_parse_line_header _
      | with_reducible exact tvg_ok_parse_line_fill_header _
      | with_reducible exact tvg_ok_parse_rect
      | with_reducible exact tvg_ok_stroke_path_with_style _ _
      | with_reducible exact tvg_ok_fill_path_with_style _
      | with_reducible exact tvg_ok_path_call _ | with_reducible exact tvg_ok_path_empty
      | with_reducible exact tvg_ok_parse_path_command _ _ _
      | with_reducible exact tvg_ok_parse_path_loop _ _ _
      | with_reducible exact tvg_ok_parse_path _ | with_reducible exact tvg_ok_read_sizes _
      | with_reducible exact tvg_ok_parse_paths _
      | with_reducible exact tvg_ok_parse_fill_rectangles _ _
      | with_reducible exact tvg_ok_parse_line_fill_rectangles_loop _ _ _ _
      | with_reducible exact tvg_ok_parse_line_fill_rectangles _ _ _ _
      | with_reducible exact tvg_ok_parse_fill_paths _ _
      | with_reducible exact tvg_ok_parse_line_paths _ _ _
      | with_reducible exact tvg_ok_parse_line_fill_paths _ _ _ _
      | with_reducible exact tvg_ok_parse_fill_polygon_loop _ _
      | with_reducible exact tvg_ok_parse_fill_polygon _ _ | exact ih
      | with_reducible apply tvg_ok_bind | with_reducible apply tvg_ok_ite
      | with_reducible intro _ | split
      | with_reducible exact tvg_ok_modify _ (fun _ => ⟨rfl, rfl⟩))

theorem tvg_ok_parse_polyline (size : Nat) (line_style : tvg_style_t) (line_width : ℚ) (close : Bool) : tvg_ok (tvg_parse_polyline size line_style line_width close) := by
  unfold tvg_parse_polyline
  repeat (first
    | with_reducible exact tvg_ok_pure _ | with_reducible exact tvg_ok_fail _ (by decide)
    | with_reducible exact tvg_ok_get | with_reducible exact tvg_ok_inp _
    | with_reducible exact tvg_ok_malloc | with_reducible exact tvg_ok_read_varuint
    | with_reducible exact tvg_ok_read_coord | with_reducible exact tvg_ok_read_color
    | with_reducible exact tvg_ok_read_unit | with_reducible exact tvg_ok_read_point
    | with_reducible exact tvg_ok_parse_header_colors _
    | with_reducible exact tvg_ok_parse_header _ | with_reducible exact tvg_ok_parse_gradient
    | with_reducible exact tvg_ok_parse_style _
    | with_reducible exact tvg_ok_parse_fill_header _
    | with_reducible exact tvg_ok_parse_line_header _
    | with_reducible exact tvg_ok_parse_line_fill_header _
    | with_reducible exact tvg_ok_parse_rect
    | with_reducible exact tvg_ok_stroke_path_with_style _ _
    | with_reducible exact tvg_ok_fill_path_with_style _
    | with_reducible exact tvg_ok_path_call _ | with_reducible exact tvg_ok_path_empty
    | with_reducible exact tvg_ok_parse_path_command _ _ _
    | with_reducible exact tvg_ok_parse_path_loop _ _ _
    | with_reducible exact tvg_ok_parse_path _ | with_reducible exact tvg_ok_read_sizes _
    | with_reducible exact tvg_ok_parse_paths _
    | with_reducible exact tvg_ok_parse_fill_rectangles _ _
    | with_reducible exact tvg_ok_parse_line_fill_rectangles_loop _ _ _ _
    | with_reducible exact tvg_ok_parse_line_fill_rectangles _ _ _ _
    | with_reducible exact tvg_ok_parse_fill_paths _ _
    | with_reducible exact tvg_ok_parse_line_paths _ _ _
    | with_reducible exact tvg_ok_parse_line_fill_paths _ _ _ _
    | with_reducible exact tvg_ok_parse_fill_polygon_loop _ _
    | with_reducible exact tvg_ok_parse_fill_polygon _ _
    | with_reducible exact tvg_ok_parse_polyline_loop _ | with_reducible apply tvg_ok_bind
    | with_reducible apply tvg_ok_ite | with_reducible intro _ | split
    | with_reducible exact tvg_ok_modify _ (fun _ => ⟨rfl, rfl⟩))

theorem tvg_ok_parse_line_fill_polyline_loop (n : Nat) : tvg_ok (tvg_parse_line_fill_polyline_loop n) := by
  induction n with
  | zero => exact tvg_ok_pure _
  | succ n ih =>
    unfold tvg_parse_line_fill_polyline_loop
    repeat (first
      | with_reducible exact tvg_ok_pure _ | with_reducible exact tvg_ok_fail _ (by decide)
      | with_reducible exact tvg_ok_get | with_reducible exact tvg_ok_inp _
      | with_reducible exact tvg_ok_malloc | with_reducible exact tvg_ok_read_varuint
      | with_reducible exact tvg_ok_read_coord | with_reducible exact tvg_ok_read_color
      | with_reducible exact tvg_ok_read_unit | with_reducible exact tvg_ok_read_point
      | with_reducible exact tvg_ok_parse_header_colors _
      | with_reducible exact tvg_ok_parse_header _ | with_reducible exact tvg_ok_parse_gradient
      | with_reducible exact tvg_ok_parse_style _
      | with_reducible exact tvg_ok_parse_fill_header _
      | with_reducible exact tvg_ok_parse_line_header _
      | with_reducible exact tvg_ok_parse_line_fill_header _
      | with_reducible exact tvg_ok_parse_rect
      | with_reducible exact tvg_ok_stroke_path_with_style _ _
      | with_reducible exact tvg_ok_fill_path_with_style _
      | with_reducible exact tvg_ok_path_call _ | with_reducible exact tvg_ok_path_empty
      | with_reducible exact tvg_ok_parse_path_command _ _ _
      | with_reducible exact tvg_ok_parse_path_loop _ _ _
      | with_reducible exact tvg_ok_parse_path _ | with_reducible exact tvg_ok_read_sizes _
      | with_reducible exact tvg_ok_parse_paths _
      | with_reducible exact tvg_ok_parse_fill_rectangles _ _
      | with_reducible exact tvg_ok_parse_line_fill_rectangles_loop _ _ _ _
      | with_reducible exact tvg_ok_parse_line_fill_rectangles _ _ _ _
      | with_reducible exact tvg_ok_parse_fill_paths _ _
      | with_reducible exact tvg_ok_parse_line_paths _ _ _
      | with_reducible exact tvg_ok_parse_line_fill_paths _ _ _ _
      | with_reducible exact tvg_ok_parse_fill_polygon_loop _ _
      | with_reducible exact tvg_ok_parse_fill_polygon _ _
      | with_reducible exact tvg_ok_parse_polyline_loop _
      | with_reducible exact tvg_ok_parse_polyline _ _ _ _ | exact ih
      | with_reducible apply tvg_ok_bind | with_reducible apply tvg_ok_ite
      | with_reducible intro _ | split
      | with_reducible exact tvg_ok_modify _ (fun _ => ⟨rfl, rfl⟩))

theorem tvg_ok_parse_line_fill_polyline (size : Nat) (fill_style line_style : tvg_style_t)
    (line_width : ℚ) (close : Bool) :
    tvg_ok (tvg_parse_line_fill_polyline size fill_style line_style line_width close) := by
  intro ctx
  obtain ⟨h1, h2, h3⟩ := tvg_ok_read_point ctx
  simp only [tvg_parse_line_fill_polyline]
  rcases hr : tvg_read_point ctx with ⟨r, ctx'⟩
  rw [hr] at h1 h2 h3
  cases r with
  | error e =>
    have he : e ≠ TVG_SUCCESS := fun h => h3 (by rw [h])
    dsimp only
    refine tvg_ok_apply_after ?_ ctx _ h1 h2
    repeat (first
      | with_reducible exact tvg_ok_pure _ | with_reducible exact tvg_ok_fail _ (by decide)
      | with_reducible exact tvg_ok_get | with_reducible exact tvg_ok_inp _
      | with_reducible exact tvg_ok_malloc | with_reducible exact tvg_ok_read_varuint
      | with_reducible exact tvg_ok_read_coord | with_reducible exact tvg_ok_read_color
      | with_reducible exact tvg_ok_read_unit | with_reducible exact tvg_ok_read_point
      | with_reducible exact tvg_ok_parse_header_colors _
      | with_reducible exact tvg_ok_parse_header _ | with_reducible exact tvg_ok_parse_gradient
      | with_reducible exact tvg_ok_parse_style _
      | with_reducible exact tvg_ok_parse_fill_header _
      | with_reducible exact tvg_ok_parse_line_header _
      | with_reducible exact tvg_ok_parse_line_fill_header _
      | with_reducible exact tvg_ok_parse_rect
      | with_reducible exact tvg_ok_stroke_path_with_style _ _
      | with_reducible exact tvg_ok_fill_path_with_style _
      | with_reducible exact tvg_ok_path_call _ | with_reducible exact tvg_ok_path_empty
      | with_reducible exact tvg_ok_parse_path_command _ _ _
      | with_reducible exact tvg_ok_parse_path_loop _ _ _
      | with_reducible exact tvg_ok_parse_path _ | with_reducible exact tvg_ok_read_sizes _
      | with_reducible exact tvg_ok_parse_paths _
      | with_reducible exact tvg_ok_parse_fill_rectangles _ _
      | with_reducible exact tvg_ok_parse_line_fill_rectangles_loop _ _ _ _
      | with_reducible exact tvg_ok_parse_line_fill_rectangles _ _ _ _
      | with_reducible exact tvg_ok_parse_fill_paths _ _
      | with_reducible exact tvg_ok_parse_line_paths _ _ _
      | with_reducible exact tvg_ok_parse_line_fill_paths _ _ _ _
      | with_reducible exact tvg_ok_parse_fill_polygon_loop _ _
      | with_reducible exact tvg_ok_parse_fill_polygon _ _
      | with_reducible exact tvg_ok_parse_polyline_loop _
      | with_reducible exact tvg_ok_parse_polyline _ _ _ _
      | with_reducible exact tvg_ok_parse_line_fill_polyline_loop _
      | with_reducible exact tvg_ok_fail _ he | with_reducible apply tvg_ok_bind
      | with_reducible apply tvg_ok_ite | with_reducible intro _ | split
      | with_reducible exact tvg_ok_modify _ (fun _ => ⟨rfl, rfl⟩))
  | ok pt =>
    dsimp only
    refine tvg_ok_apply_after ?_ ctx _ h1 h2
    repeat (first
      | with_reducible exact tvg_ok_pure _ | with_reducible exact tvg_ok_fail _ (by decide)
      | with_reducible exact tvg_ok_get | with_reducible exact tvg_ok_inp _
      | with_reducible exact tvg_ok_malloc | with_reducible exact tvg_ok_read_varuint
      | with_reducible exact tvg_ok_read_coord | with_reducible exact tvg_ok_read_color
      | with_reducible exact tvg_ok_read_unit | with_reducible exact tvg_ok_read_point
      | with_reducible exact tvg_ok_parse_header_colors _
      | with_reducible exact tvg_ok_parse_header _ | with_reducible exact tvg_ok_parse_gradient
      | with_reducible exact tvg_ok_parse_style _
      | with_reducible exact tvg_ok_parse_fill_header _
      | with_reducible exact tvg_ok_parse_line_header _
      | with_reducible exact tvg_ok_parse_line_fill_header _
      | with_reducible exact tvg_ok_parse_rect
      | with_reducible exact tvg_ok_stroke_path_with_style _ _
      | with_reducible exact tvg_ok_fill_path_with_style _
      | with_reducible exact tvg_ok_path_call _ | with_reducible exact tvg_ok_path_empty
      | with_reducible exact tvg_ok_parse_path_command _ _ _
      | with_reducible exact tvg_ok_parse_path_loop _ _ _
      | with_reducible exact tvg_ok_parse_path _ | with_reducible exact tvg_ok_read_sizes _
      | with_reducible exact tvg_ok_parse_paths _
      | with_reducible exact tvg_ok_parse_fill_rectangles _ _
      | with_reducible exact tvg_ok_parse_line_fill_rectangles_loop _ _ _ _
      | with_reducible exact tvg_ok_parse_line_fill_rectangles _ _ _ _
      | with_reducible exact tvg_ok_parse_fill_paths _ _
      | with_reducible exact tvg_ok_parse_line_paths _ _ _
      | with_reducible exact tvg_ok_parse_line_fill_paths _ _ _ _
      | with_reducible exact tvg_ok_parse_fill_polygon_loop _ _
      | with_reducible exact tvg_ok_parse_fill_polygon _ _
      | with_reducible exact tvg_ok_parse_polyline_loop _
      | with_reducible exact tvg_ok_parse_polyline _ _ _ _
      | with_reducible exact tvg_ok_parse_line_fill_polyline_loop _
      | with_reducible apply tvg_ok_bind | with_reducible apply tvg_ok_ite
      | with_reducible intro _ | split
      | with_reducible exact tvg_ok_modify _ (fun _ => ⟨rfl, rfl⟩))

theorem tvg_ok_parse_lines_loop (n : Nat) : tvg_ok (tvg_parse_lines_loop n) := by
  induction n with
  | zero => exact tvg_ok_pure _
  | succ n ih =>
    unfold tvg_parse_lines_loop
    repeat (first
      | with_reducible exact tvg_ok_pure _ | with_reducible exact tvg_ok_fail _ (by decide)
      | with_reducible exact tvg_ok_get | with_reducible exact tvg_ok_inp _
      | with_reducible exact tvg_ok_malloc | with_reducible exact tvg_ok_read_varuint
      | with_reducible exact tvg_ok_read_coord | with_reducible exact tvg_ok_read_color
      | with_reducible exact tvg_ok_read_unit | with_reducible exact tvg_ok_read_point
      | with_reducible exact tvg_ok_parse_header_colors _
      | with_reducible exact tvg_ok_parse_header _ | with_reducible exact tvg_ok_parse_gradient
      | with_reducible exact tvg_ok_parse_style _
      | with_reducible exact tvg_ok_parse_fill_header _
      | with_reducible exact tvg_ok_parse_line_header _
      | with_reducible exact tvg_ok_parse_line_fill_header _
      | with_reducible exact tvg_ok_parse_rect
      | with_reducible exact tvg_ok_stroke_path_with_style _ _
      | with_reducible exact tvg_ok_fill_path_with_style _
      | with_reducible exact tvg_ok_path_call _ | with_reducible exact tvg_ok_path_empty
      | with_reducible exact tvg_ok_parse_path_command _ _ _
      | with_reducible exact tvg_ok_parse_path_loop _ _ _
      | with_reducible exact tvg_ok_parse_path _ | with_reducible exact tvg_ok_read_sizes _
      | with_reducible exact tvg_ok_parse_paths _
      | with_reducible exact tvg_ok_parse_fill_rectangles _ _
      | with_reducible exact tvg_ok_parse_line_fill_rectangles_loop _ _ _ _
      | with_reducible exact tvg_ok_parse_line_fill_rectangles _ _ _ _
      | with_reducible exact tvg_ok_parse_fill_paths _ _
      | with_reducible exact tvg_ok_parse_line_paths _ _ _
      | with_reducible exact tvg_ok_parse_line_fill_paths _ _ _ _
      | with_reducible exact tvg_ok_parse_fill_polygon_loop _ _
      | with_reducible exact tvg_ok_parse_fill_polygon _ _
      | with_reducible exact tvg_ok_parse_polyline_loop _
      | with_reducible exact tvg_ok_parse_polyline _ _ _ _
      | with_reducible exact tvg_ok_parse_line_fill_polyline_loop _
      | with_reducible exact tvg_ok_parse_line_fill_polyline _ _ _ _ _ | exact ih
      | with_reducible apply tvg_ok_bind | with_reducible apply tvg_ok_ite
      | with_reducible intro _ | split
      | with_reducible exact tvg_ok_modify _ (fun _ => ⟨rfl, rfl⟩))

theorem tvg_ok_parse_lines (size : Nat) (line_style : tvg_style_t) (line_width : ℚ) : tvg_ok (tvg_parse_lines size line_style line_width) := by
  unfold tvg_parse_lines
  repeat (first
    | with_reducible exact tvg_ok_pure _ | with_reducible exact tvg_ok_fail _ (by decide)
    | with_reducible exact tvg_ok_get | with_reducible exact tvg_ok_inp _
    | with_reducible exact tvg_ok_malloc | with_reducible exact tvg_ok_read_varuint
    | with_reducible exact tvg_ok_read_coord | with_reducible exact tvg_ok_read_color
    | with_reducible exact tvg_ok_read_unit | with_reducible exact tvg_ok_read_point
    | with_reducible exact tvg_ok_parse_header_colors _
    | with_reducible exact tvg_ok_parse_header _ | with_reducible exact tvg_ok_parse_gradient
    | with_reducible exact tvg_ok_parse_style _
    | with_reducible exact tvg_ok_parse_fill_header _
    | with_reducible exact tvg_ok_parse_line_header _
    | with_reducible exact tvg_ok_parse_line_fill_header _
    | with_reducible exact tvg_ok_parse_rect
    | with_reducible exact tvg_ok_stroke_path_with_style _ _
    | with_reducible exact tvg_ok_fill_path_with_style _
    | with_reducible exact tvg_ok_path_call _ | with_reducible exact tvg_ok_path_empty
    | with_reducible exact tvg_ok_parse_path_command _ _ _
    | with_reducible exact tvg_ok_parse_path_loop _ _ _
    | with_reducible exact tvg_ok_parse_path _ | with_reducible exact tvg_ok_read_sizes _
    | with_reducible exact tvg_ok_parse_paths _
    | with_reducible exact tvg_ok_parse_fill_rectangles _ _
    | with_reducible exact tvg_ok_parse_line_fill_rectangles_loop _ _ _ _
    | with_reducible exact tvg_ok_parse_line_fill_rectangles _ _ _ _
    | with_reducible exact tvg_ok_parse_fill_paths _ _
    | with_reducible exact tvg_ok_parse_line_paths _ _ _
    | with_reducible exact tvg_ok_parse_line_fill_paths _ _ _ _
    | with_reducible exact tvg_ok_parse_fill_polygon_loop _ _
    | with_reducible exact tvg_ok_parse_fill_polygon _ _
    | with_reducible exact tvg_ok_parse_polyline_loop _
    | with_reducible exact tvg_ok_parse_polyline _ _ _ _
    | with_reducible exact tvg_ok_parse_line_fill_polyline_loop _
    | with_reducible exact tvg_ok_parse_line_fill_polyline _ _ _ _ _
    | with_reducible exact tvg_ok_parse_lines_loop _ | with_reducible apply tvg_ok_bind
    | with_reducible apply tvg_ok_ite | with_reducible intro _ | split
    | with_reducible exact tvg_ok_modify _ (fun _ => ⟨rfl, rfl⟩))

theorem tvg_ok_parse_command (cmd : Nat) : tvg_ok (tvg_parse_command cmd) := by
  unfold tvg_parse_command
  repeat (first
    | with_reducible exact tvg_ok_pure _ | with_reducible exact tvg_ok_fail _ (by decide)
    | with_reducible exact tvg_ok_get | with_reducible exact tvg_ok_inp _
    | with_reducible exact tvg_ok_malloc | with_reducible exact tvg_ok_read_varuint
    | with_reducible exact tvg_ok_read_coord | with_reducible exact tvg_ok_read_color
    | with_reducible exact tvg_ok_read_unit | with_reducible exact tvg_ok_read_point
    | with_reducible exact tvg_ok_parse_header_colors _
    | with_reducible exact tvg_ok_parse_header _ | with_reducible exact tvg_ok_parse_gradient
    | with_reducible exact tvg_ok_parse_style _
    | with_reducible exact tvg_ok_parse_fill_header _
    | with_reducible exact tvg_ok_parse_line_header _
    | with_reducible exact tvg_ok_parse_line_fill_header _
    | with_reducible exact tvg_ok_parse_rect
    | with_reducible exact tvg_ok_stroke_path_with_style _ _
    | with_reducible exact tvg_ok_fill_path_with_style _
    | with_reducible exact tvg_ok_path_call _ | with_reducible exact tvg_ok_path_empty
    | with_reducible exact tvg_ok_parse_path_command _ _ _
    | with_reducible exact tvg_ok_parse_path_loop _ _ _
    | with_reducible exact tvg_ok_parse_path _ | with_reducible exact tvg_ok_read_sizes _
    | with_reducible exact tvg_ok_parse_paths _
    | with_reducible exact tvg_ok_parse_fill_rectangles _ _
    | with_reducible exact tvg_ok_parse_line_fill_rectangles_loop _ _ _ _
    | with_reducible exact tvg_ok_parse_line_fill_rectangles _ _ _ _
    | with_reducible exact tvg_ok_parse_fill_paths _ _
    | with_reducible exact tvg_ok_parse_line_paths _ _ _
    | with_reducible exact tvg_ok_parse_line_fill_paths _ _ _ _
    | with_reducible exact tvg_ok_parse_fill_polygon_loop _ _
    | with_reducible exact tvg_ok_parse_fill_polygon _ _
    | with_reducible exact tvg_ok_parse_polyline_loop _
    | with_reducible exact tvg_ok_parse_polyline _ _ _ _
    | with_reducible exact tvg_ok_parse_line_fill_polyline_loop _
    | with_reducible exact tvg_ok_parse_line_fill_polyline _ _ _ _ _
    | with_reducible exact tvg_ok_parse_lines_loop _
    | with_reducible exact tvg_ok_parse_lines _ _ _ | with_reducible apply tvg_ok_bind
    | with_reducible apply tvg_ok_ite | with_reducible intro _ | split
    | with_reducible exact tvg_ok_modify _ (fun _ => ⟨rfl, rfl⟩))

/-! ## Auxiliary lemmas: the command loop -/

theorem tvg_parse_command_zero (ctx : tvg_context_t) :
    tvg_parse_command 0 ctx = (Except.ok (), ctx) := rfl

theorem tvg_inp_one_ok (ctx ctx' : tvg_context_t) (cmd : List UInt8)
    (h : tvg_inp 1 ctx = (Except.ok cmd, ctx')) :
    ctx.input = cmd.getD 0 0 :: ctx'.input ∧ ctx'.eof = ctx.eof := by
  unfold tvg_inp at h
  split at h
  · rename_i hlen
    simp only [Prod.mk.injEq, Except.ok.injEq] at h
    obtain ⟨h1, h2⟩ := h
    rw [← h1, ← h2]
    cases hi : ctx.input with
    | nil => rw [hi] at hlen; simp at hlen
    | cons b t => simp
  · simp at h

theorem tvg_parse_commands_spec :
    ∀ (fuel : Nat) (ctx : tvg_context_t), ctx.input.length < fuel → tvg_inv ctx →
      ∃ r ctx', tvg_parse_commands fuel ctx = some (r, ctx') ∧
        r ≠ Except.error TVG_SUCCESS ∧
        (r = Except.ok () → ctx'.eof = false ∧ ∃ pre, ctx.input = pre ++ 0 :: ctx'.input) := by
  intro fuel
  induction fuel with
  | zero => intro ctx h; omega
  | succ fuel ih =>
    intro ctx hlen hinv
    obtain ⟨h1, h2, h3⟩ := tvg_ok_inp 1 ctx
    simp only [tvg_parse_commands]
    rcases hr : tvg_inp 1 ctx with ⟨r, ctx1⟩
    rw [hr] at h1 h2 h3
    cases r with
    | error e => exact ⟨_, _, rfl, by simpa using h3, by simp⟩
    | ok cmd =>
      obtain ⟨hin, heof⟩ := tvg_inp_one_ok ctx ctx1 cmd hr
      obtain ⟨k1, k2, k3⟩ := tvg_ok_parse_command (cmd.getD 0 0).toNat ctx1
      dsimp only
      rcases hc : tvg_parse_command (cmd.getD 0 0).toNat ctx1 with ⟨r2, ctx2⟩
      rw [hc] at k1 k2 k3
      dsimp only at k1 k2 k3
      cases r2 with
      | error e => exact ⟨_, _, rfl, by simpa using k3, by simp⟩
      | ok u =>
        dsimp only
        by_cases hz : cmd.getD 0 0 = 0
        · rw [if_neg (by simpa using hz)]
          refine ⟨_, _, rfl, by simp, fun _ => ?_⟩
          rw [hz] at hc hin
          have hc2 : ctx2 = ctx1 := by
            have := tvg_parse_command_zero ctx1
            rw [show (0 : UInt8).toNat = 0 from rfl] at hc
            rw [this] at hc
            simp only [Prod.mk.injEq] at hc
            exact hc.2.symm
          rw [hc2]
          refine ⟨?_, [], by simpa using hin⟩
          rw [heof]
          by_contra hne
          have := hinv (by simpa using hne)
          rw [this] at hin
          simp at hin
        · rw [if_pos hz]
          have hl : ctx2.input.length < fuel := by
            have := k1.length_le
            rw [hin] at hlen
            simp only [List.length_cons] at hlen
            omega
          obtain ⟨r3, ctx3, e1, e2, e3⟩ := ih ctx2 hl (k2 (h2 hinv))
          refine ⟨r3, ctx3, e1, e2, fun hok => ?_⟩
          obtain ⟨g1, pre, g2⟩ := e3 hok
          refine ⟨g1, ?_⟩
          obtain ⟨p2, hp2⟩ := k1
          refine ⟨cmd.getD 0 0 :: p2 ++ pre, ?_⟩
          rw [hin, ← hp2, g2]
          simp

/-! ## Auxiliary lemmas: the header -/

theorem tvg_bind_assoc {α β γ : Type} (m : tvg_m α) (f : α → tvg_m β) (g : β → tvg_m γ) :
    (m >>= f) >>= g = m >>= fun a => f a >>= g := by
  funext ctx
  simp only [tvg_bind_apply]
  rcases m ctx with ⟨r, ctx'⟩
  cases r <;> rfl

theorem tvg_pure_bind {α β : Type} (a : α) (f : α → tvg_m β) : (pure a : tvg_m α) >>= f = f a :=
  rfl

theorem tvg_fail_bind {α β : Type} (e : tvg_result_t) (f : α → tvg_m β) :
    (tvg_fail e : tvg_m α) >>= f = tvg_fail e := rfl

theorem tvg_ite_bind {α β : Type} (c : Prop) [Decidable c] (a b : tvg_m α) (f : α → tvg_m β) :
    (if c then a else b) >>= f = if c then a >>= f else b >>= f := by
  split <;> rfl

theorem tvg_parse_header_split :
    tvg_parse_header false = tvg_parse_header true >>= fun _ => tvg_parse_color_table := by
  unfold tvg_parse_header tvg_parse_color_table
  simp only [Bool.false_eq_true, if_false, if_true, tvg_bind_assoc, tvg_ite_bind, tvg_fail_bind,
    tvg_pure_bind]

theorem tvg_keeps_dims_pure {α : Type} (a : α) : tvg_keeps_dims (pure a : tvg_m α) :=
  fun _ => ⟨rfl, rfl⟩

theorem tvg_keeps_dims_fail {α : Type} (e : tvg_result_t) :
    tvg_keeps_dims (tvg_fail e : tvg_m α) :=
  fun _ => ⟨rfl, rfl⟩

theorem tvg_keeps_dims_get : tvg_keeps_dims tvg_get := fun _ => ⟨rfl, rfl⟩

theorem tvg_keeps_dims_malloc : tvg_keeps_dims tvg_malloc := fun _ => ⟨rfl, rfl⟩

theorem tvg_keeps_dims_modify (f : tvg_context_t → tvg_context_t)
    (hf : ∀ ctx, (f ctx).width = ctx.width ∧ (f ctx).height = ctx.height) :
    tvg_keeps_dims (tvg_modify f) :=
  fun ctx => hf ctx

theorem tvg_keeps_dims_inp (size : Nat) : tvg_keeps_dims (tvg_inp size) := by
  intro ctx
  unfold tvg_inp
  split <;> exact ⟨rfl, rfl⟩

theorem tvg_keeps_dims_read_varuint : tvg_keeps_dims tvg_read_varuint := by
  intro ctx
  unfold tvg_read_varuint
  split <;> exact ⟨rfl, rfl⟩

theorem tvg_keeps_dims_bind {α β : Type} (m : tvg_m α) (f : α → tvg_m β)
    (hm : tvg_keeps_dims m) (hf : ∀ a, tvg_keeps_dims (f a)) : tvg_keeps_dims (m >>= f) := by
  intro ctx
  rw [tvg_bind_apply]
  obtain ⟨h1, h2⟩ := hm ctx
  rcases hr : m ctx with ⟨r, ctx'⟩
  rw [hr] at h1 h2
  cases r with
  | error e => exact ⟨h1, h2⟩
  | ok a =>
    obtain ⟨h3, h4⟩ := hf a ctx'
    exact ⟨h3.trans h1, h4.trans h2⟩

theorem tvg_keeps_dims_ite {α : Type} (c : Prop) [Decidable c] (a b : tvg_m α)
    (ha : tvg_keeps_dims a) (hb : tvg_keeps_dims b) : tvg_keeps_dims (if c then a else b) := by
  split
  · exact ha
  · exact hb

theorem tvg_keeps_dims_read_color : tvg_keeps_dims tvg_read_color := by
  unfold tvg_read_color
  repeat (first
    | with_reducible exact tvg_keeps_dims_pure _ | with_reducible exact tvg_keeps_dims_fail _
    | with_reducible exact tvg_keeps_dims_get | with_reducible exact tvg_keeps_dims_inp _
    | with_reducible apply tvg_keeps_dims_bind | with_reducible apply tvg_keeps_dims_ite
    | with_reducible intro _)

theorem tvg_keeps_dims_parse_header_colors (n : Nat) :
    tvg_keeps_dims (tvg_parse_header_colors n) := by
  induction n with
  | zero => exact tvg_keeps_dims_pure _
  | succ n ih =>
    intro ctx
    obtain ⟨h1, h2⟩ := tvg_keeps_dims_read_color ctx
    simp only [tvg_parse_header_colors]
    rcases hr : tvg_read_color ctx with ⟨r, ctx'⟩
    rw [hr] at h1 h2
    cases r with
    | error e => exact ⟨h1, h2⟩
    | ok color =>
      obtain ⟨h3, h4⟩ := ih { ctx' with colors := ctx'.colors ++ [color] }
      exact ⟨h3.trans h1, h4.trans h2⟩

theorem tvg_keeps_dims_parse_color_table : tvg_keeps_dims tvg_parse_color_table := by
  unfold tvg_parse_color_table
  repeat (first
    | with_reducible exact tvg_keeps_dims_fail _
    | with_reducible exact tvg_keeps_dims_malloc
    | with_reducible exact tvg_keeps_dims_read_varuint
    | with_reducible exact tvg_keeps_dims_parse_header_colors _
    | with_reducible apply tvg_keeps_dims_bind | with_reducible apply tvg_keeps_dims_ite
    | with_reducible intro _
    | exact tvg_keeps_dims_modify _ (fun _ => ⟨rfl, rfl⟩))

theorem tvg_no_malloc_pure {α : Type} (a : α) : tvg_no_malloc (pure a : tvg_m α) :=
  fun _ _ => rfl

theorem tvg_no_malloc_fail {α : Type} (e : tvg_result_t) :
    tvg_no_malloc (tvg_fail e : tvg_m α) :=
  fun _ _ => rfl

theorem tvg_no_malloc_modify (f : tvg_context_t → tvg_context_t)
    (hf : ∀ ctx ms, f { ctx with mallocs := ms } = { f ctx with mallocs := ms }) :
    tvg_no_malloc (tvg_modify f) := by
  intro ctx ms
  show (Except.ok (), f { ctx with mallocs := ms }) = (Except.ok (), { f ctx with mallocs := ms })
  rw [hf ctx ms]

theorem tvg_no_malloc_inp (size : Nat) : tvg_no_malloc (tvg_inp size) := by
  intro ctx ms
  unfold tvg_inp
  split <;> rfl

theorem tvg_no_malloc_bind {α β : Type} (m : tvg_m α) (f : α → tvg_m β)
    (hm : tvg_no_malloc m) (hf : ∀ a, tvg_no_malloc (f a)) : tvg_no_malloc (m >>= f) := by
  intro ctx ms
  rw [tvg_bind_apply, tvg_bind_apply, hm ctx ms]
  rcases m ctx with ⟨r, ctx'⟩
  cases r with
  | error e => rfl
  | ok a => exact hf a ctx' ms

theorem tvg_no_malloc_ite {α : Type} (c : Prop) [Decidable c] (a b : tvg_m α)
    (ha : tvg_no_malloc a) (hb : tvg_no_malloc b) : tvg_no_malloc (if c then a else b) := by
  split
  · exact ha
  · exact hb

theorem tvg_no_malloc_read_coord : tvg_no_malloc tvg_read_coord := by
  intro ctx ms
  have h : ∀ k, tvg_no_malloc (tvg_inp k >>= fun u => pure (le_value u)) :=
    fun k => tvg_no_malloc_bind _ _ (tvg_no_malloc_inp k) (fun _ => tvg_no_malloc_pure _)
  simp only [tvg_read_coord, tvg_bind_apply, tvg_get]
  split_ifs
  · exact h 2 ctx ms
  · exact h 1 ctx ms
  · exact h 4 ctx ms

theorem tvg_no_malloc_parse_header : tvg_no_malloc (tvg_parse_header true) := by
  unfold tvg_parse_header
  simp only [if_true]
  repeat (first
    | with_reducible exact tvg_no_malloc_pure _ | with_reducible exact tvg_no_malloc_fail _
    | with_reducible exact tvg_no_malloc_inp _ | with_reducible exact tvg_no_malloc_read_coord
    | with_reducible apply tvg_no_malloc_bind | with_reducible apply tvg_no_malloc_ite
    | with_reducible intro _
    | exact tvg_no_malloc_modify _ (fun _ _ => rfl))

/-! ## Claims on image-tvg.c: header validation -/

theorem tvg_inp_two (ctx : tvg_context_t) (a b : UInt8) (rest : List UInt8)
    (h : ctx.input = a :: b :: rest) :
    tvg_inp 2 ctx = (Except.ok [a, b], { ctx with input := rest }) := by
  simp [tvg_inp, h]

theorem tvg_inp_one (ctx : tvg_context_t) (a : UInt8) (rest : List UInt8)
    (h : ctx.input = a :: rest) :
    tvg_inp 1 ctx = (Except.ok [a], { ctx with input := rest }) := by
  simp [tvg_inp, h]

theorem tvg_parse_header_bad_magic (d : Bool) (ctx : tvg_context_t) (a b : UInt8)
    (rest : List UInt8) (h : ctx.input = a :: b :: rest) (hm : a ≠ 0x72 ∨ b ≠ 0x56) :
    tvg_parse_header d ctx = (Except.error TVG_E_INVALID_FORMAT, { ctx with input := rest }) := by
  unfold tvg_parse_header
  rw [tvg_bind_apply, tvg_inp_two ctx a b rest h]
  simp only [List.getD_cons_zero, List.getD_cons_succ]
  rw [if_pos hm]
  rfl

theorem tvg_parse_header_bad_version (d : Bool) (ctx : tvg_context_t) (v : UInt8)
    (rest : List UInt8) (h : ctx.input = 0x72 :: 0x56 :: v :: rest) (hv : v ≠ 1) :
    tvg_parse_header d ctx = (Except.error TVG_E_NOT_SUPPORTED, { ctx with input := rest }) := by
  unfold tvg_parse_header
  rw [tvg_bind_apply, tvg_inp_two ctx _ _ _ h]
  simp only [List.getD_cons_zero, List.getD_cons_succ]
  rw [if_neg (by decide), tvg_bind_apply, tvg_inp_one _ v rest rfl]
  simp only [List.getD_cons_zero]
  rw [if_pos hv]
  rfl

/-- C17: header validation order. For every input of at least two bytes whose first two
bytes are not 0x72 0x56, `tvg_document_dimensions` and `tvg_render_document` return
`TVG_E_INVALID_FORMAT`; for every input with the correct magic and a third byte different
from 1, both return `TVG_E_NOT_SUPPORTED`. In both cases no paint sink is called. -/
theorem tvg_header_validation_order (a b v : UInt8) (rest : List UInt8) (mallocs : List Bool) :
    ((a ≠ 0x72 ∨ b ≠ 0x56) →
      tvg_document_dimensions (some (a :: b :: rest)) = (TVG_E_INVALID_FORMAT, none) ∧
      (tvg_render_document (some (a :: b :: rest)) mallocs).map (fun r => (r.1, r.2.log))
        = some (TVG_E_INVALID_FORMAT, [])) ∧
    (v ≠ 1 →
      tvg_document_dimensions (some (0x72 :: 0x56 :: v :: rest)) = (TVG_E_NOT_SUPPORTED, none) ∧
      (tvg_render_document (some (0x72 :: 0x56 :: v :: rest)) mallocs).map
        (fun r => (r.1, r.2.log)) = some (TVG_E_NOT_SUPPORTED, [])) := by
  constructor
  · intro hm
    constructor
    · simp only [tvg_document_dimensions]
      rw [tvg_parse_header_bad_magic true _ a b rest rfl hm]
    · simp only [tvg_render_document]
      rw [tvg_parse_header_bad_magic false _ a b rest rfl hm]
      rfl
  · intro hv
    constructor
    · simp only [tvg_document_dimensions]
      rw [tvg_parse_header_bad_version true _ v rest rfl hv]
    · simp only [tvg_render_document]
      rw [tvg_parse_header_bad_version false _ v rest rfl hv]
      rfl

theorem tvg_header_validation_order_witness :
    (tvg_document_dimensions (some [0x89, 0x50, 0x4E, 0x47]) = (TVG_E_INVALID_FORMAT, none) ∧
      (tvg_render_document (some [0x89, 0x50, 0x4E, 0x47]) []).map (fun r => (r.1, r.2.log))
        = some (TVG_E_INVALID_FORMAT, [])) ∧
    (tvg_document_dimensions (some [0x72, 0x56, 0x02, 0x47]) = (TVG_E_NOT_SUPPORTED, none) ∧
      (tvg_render_document (some [0x72, 0x56, 0x02, 0x47]) []).map (fun r => (r.1, r.2.log))
        = some (TVG_E_NOT_SUPPORTED, [])) :=
  ⟨(tvg_header_validation_order 0x89 0x50 0x02 [0x4E, 0x47] []).1 (by decide),
   (tvg_header_validation_order 0x89 0x50 0x02 [0x47] []).2 (by decide)⟩

/-! ## VarUInt -/

theorem toNat_ofNat_byte (n : Nat) : (UInt8.ofNat n).toNat = n % 256 := rfl

set_option maxRecDepth 100000 in
theorem byte_and_0x80 : ∀ x : Fin 256, (x.val &&& 0x80 = 0) ↔ x.val < 128 := by decide

theorem and_0x80_eq_zero (x : Nat) (h : x < 256) : (x &&& 0x80 = 0) ↔ x < 128 :=
  byte_and_0x80 ⟨x, h⟩

theorem and_0x7F (x : Nat) : x &&& 0x7F = x % 128 :=
  Nat.and_pow_two_sub_one_eq_mod x 7

theorem lor_eq_add (result v i : Nat) (h : result < 2 ^ i) :
    result ||| (v * 2 ^ i) = result + v * 2 ^ i := by
  rw [Nat.lor_comm, Nat.mul_comm v, ← Nat.mul_add_lt_is_or h v, Nat.add_comm]

theorem tvg_read_varuint_loop_leb128 (n : Nat) :
    ∀ (count result : Nat) (rest : List UInt8), result < 2 ^ (7 * count) →
      n * 2 ^ (7 * count) < 2 ^ 32 →
      tvg_read_varuint_loop (leb128 n ++ rest) count result
        = some (result + n * 2 ^ (7 * count), rest) := by
  induction n using Nat.strong_induction_on with
  | _ n ih =>
    intro count result rest hres hn
    rw [leb128]
    split
    · rename_i hlt
      have hb : (UInt8.ofNat n).toNat = n := by rw [toNat_ofNat_byte]; omega
      rw [List.singleton_append]
      simp only [tvg_read_varuint_loop, hb, and_0x7F, Nat.shiftLeft_eq]
      have h1 : n % 128 = n := Nat.mod_eq_of_lt hlt
      have h2 : n * 2 ^ (7 * count) % 2 ^ 32 = n * 2 ^ (7 * count) := Nat.mod_eq_of_lt hn
      rw [h1, h2, lor_eq_add _ _ _ hres, if_pos ((and_0x80_eq_zero n (by omega)).2 hlt)]
    · rename_i hge
      have hb : (UInt8.ofNat (n % 128 + 128)).toNat = n % 128 + 128 := by
        rw [toNat_ofNat_byte]; omega
      have hmod : (n % 128 + 128) % 128 = n % 128 := by omega
      have hP : 2 ^ (7 * (count + 1)) = 128 * 2 ^ (7 * count) := by
        rw [Nat.mul_add, Nat.pow_add]; ring
      have hsplit : n * 2 ^ (7 * count)
          = n % 128 * 2 ^ (7 * count) + n / 128 * (128 * 2 ^ (7 * count)) := by
        conv_lhs => rw [← Nat.div_add_mod n 128]
        ring
      have hle : n % 128 * 2 ^ (7 * count) < 2 ^ 32 := by omega
      have hne : ¬ ((n % 128 + 128) &&& 0x80 = 0) := by
        rw [and_0x80_eq_zero _ (by omega)]; omega
      rw [List.cons_append]
      simp only [tvg_read_varuint_loop, hb, and_0x7F, hmod,
        Nat.shiftLeft_eq, Nat.mod_eq_of_lt hle, lor_eq_add _ _ _ hres, if_neg hne]
      have hres2 : result + n % 128 * 2 ^ (7 * count) < 2 ^ (7 * (count + 1)) := by
        rw [hP]
        have : n % 128 * 2 ^ (7 * count) ≤ 127 * 2 ^ (7 * count) :=
          Nat.mul_le_mul_right _ (by omega)
        omega
      rw [ih (n / 128) (by omega) (count + 1) _ rest hres2 (by rw [hP]; omega), hP, hsplit]
      simp only [Option.some.injEq, Prod.mk.injEq, and_true]
      ring

/-- C13: `tvg_read_varuint` decodes a VarUInt as LEB128. For every `n < 2^32`, reading the
standard encoding of `n` (chunks of 7 bits, lowest first, top bit = continuation) returns
`n` with success and consumes exactly the bytes of the encoding. -/
theorem tvg_read_varuint_leb128 (n : Nat) (hn : n < 2 ^ 32) (ctx : tvg_context_t)
    (rest : List UInt8) (h : ctx.input = leb128 n ++ rest) :
    tvg_read_varuint ctx = (Except.ok n, { ctx with input := rest }) := by
  unfold tvg_read_varuint
  rw [h, tvg_read_varuint_loop_leb128 n 0 0 rest (by decide) (by simpa using hn)]
  simp

theorem tvg_read_varuint_leb128_witness :
    tvg_read_varuint (tvg_context_init [0xAC, 0x02, 0x07] [])
      = (Except.ok 300, tvg_context_init [0x07] []) :=
  tvg_read_varuint_leb128 300 (by decide) (tvg_context_init [0xAC, 0x02, 0x07] []) [0x07]
    (by simp [leb128, tvg_context_init])

/-! ## Claims on image-tvg.c: the example document -/

/-- C14, counterexample: for the 14-byte example input `tvg_document_dimensions` does not
return the width 16 and the height 16. -/
theorem tvg_document_dimensions_example_counterexample :
    tvg_document_dimensions (some sample_document) ≠ (TVG_SUCCESS, some (16, 16)) := by
  decide

/-- C14, amended: for the 14-byte example input `tvg_document_dimensions` succeeds and
returns the width 16 and the height 255: the flags byte 0x40 selects `TVG_RANGE_REDUCED`,
so width and height are the single bytes 0x10 and 0x00, and 0 stands for the maximum 255.
With width and height written as one byte each (the 12-byte input) it returns 16 and 16. -/
theorem tvg_document_dimensions_example :
    tvg_document_dimensions (some sample_document) = (TVG_SUCCESS, some (16, 255)) ∧
    tvg_document_dimensions (some sample_document_reduced) = (TVG_SUCCESS, some (16, 16)) := by
  decide

/-- C15, counterexample: for the 14-byte example input, with no allocation refused,
`tvg_render_document` does not return `TVG_SUCCESS`. -/
theorem tvg_render_document_example_counterexample :
    (tvg_render_document (some sample_document) []).map Prod.fst ≠ some TVG_SUCCESS := by
  decide!

/-- C15, amended: for the 14-byte example input, with no allocation refused,
`tvg_render_document` returns `TVG_E_IO_ERROR` and calls no paint sink: the byte 0x10 after
the one-byte width and height is a color count of 16, and the input ends inside the second
color. With width and height written as one byte each and a color count of 1 (the 12-byte
input) it returns `TVG_SUCCESS` and calls no paint sink. -/
theorem tvg_render_document_example :
    (tvg_render_document (some sample_document) []).map (fun r => (r.1, r.2.log))
      = some (TVG_E_IO_ERROR, []) ∧
    (tvg_render_document (some sample_document_reduced) []).map (fun r => (r.1, r.2.log))
      = some (TVG_SUCCESS, []) := by
  decide!

/-! ## Claims on image-tvg.c: dimensions -/

theorem tvg_parse_header_false_ok (ctx ctx' : tvg_context_t)
    (h : tvg_parse_header false ctx = (Except.ok (), ctx')) :
    ∃ c1, tvg_parse_header true ctx = (Except.ok (), c1) ∧
      tvg_parse_color_table c1 = (Except.ok (), ctx') := by
  rw [tvg_parse_header_split, tvg_bind_apply] at h
  rcases hr : tvg_parse_header true ctx with ⟨r, c1⟩
  rw [hr] at h
  cases r with
  | error e => simp at h
  | ok u => exact ⟨c1, rfl, h⟩

theorem tvg_parse_header_dims_mallocs (input : List UInt8) (mallocs : List Bool) :
    tvg_parse_header true (tvg_context_init input mallocs) =
      ((tvg_parse_header true (tvg_context_init input [])).1,
        { (tvg_parse_header true (tvg_context_init input [])).2 with mallocs := mallocs }) :=
  tvg_no_malloc_parse_header (tvg_context_init input []) mallocs

theorem tvg_render_document_success (input : List UInt8) (mallocs : List Bool)
    (r : tvg_result_t × tvg_context_t)
    (hr : tvg_render_document (some input) mallocs = some r) (hs : r.1 = TVG_SUCCESS) :
    (tvg_parse_header false (tvg_context_init input mallocs)).1 = Except.ok () := by
  obtain ⟨_, _, h3⟩ := tvg_ok_parse_header false (tvg_context_init input mallocs)
  simp only [tvg_render_document] at hr
  rcases hh : tvg_parse_header false (tvg_context_init input mallocs) with ⟨res, c⟩
  rw [hh] at hr h3
  cases res with
  | ok u => rfl
  | error e =>
    simp only [Option.some.injEq] at hr
    rw [← hr] at hs
    exact absurd (by rw [show e = TVG_SUCCESS from hs]) h3

/-- C16: whenever `tvg_render_document` succeeds on an input, its header parse has
succeeded, and `tvg_document_dimensions` succeeds on that input and returns the width and
the height that the header parse of `tvg_render_document` stores in its context. -/
theorem tvg_dimensions_agree (input : List UInt8) (mallocs : List Bool)
    (r : tvg_result_t × tvg_context_t)
    (hr : tvg_render_document (some input) mallocs = some r) (hs : r.1 = TVG_SUCCESS) :
    (tvg_parse_header false (tvg_context_init input mallocs)).1 = Except.ok () ∧
    tvg_document_dimensions (some input) = (TVG_SUCCESS, some
      ((tvg_parse_header false (tvg_context_init input mallocs)).2.width,
       (tvg_parse_header false (tvg_context_init input mallocs)).2.height)) := by
  have h0 := tvg_render_document_success input mallocs r hr hs
  refine ⟨h0, ?_⟩
  rcases hh : tvg_parse_header false (tvg_context_init input mallocs) with ⟨res, ctx'⟩
  rw [hh] at h0
  dsimp only at h0
  subst h0
  obtain ⟨c1, e1, e2⟩ := tvg_parse_header_false_ok _ _ hh
  obtain ⟨k1, k2⟩ := tvg_keeps_dims_parse_color_table c1
  rw [e2] at k1 k2
  dsimp only at k1 k2 ⊢
  rw [tvg_parse_header_dims_mallocs] at e1
  simp only [tvg_document_dimensions]
  rcases hd : tvg_parse_header true (tvg_context_init input []) with ⟨res1, d1⟩
  rw [hd] at e1
  simp only [Prod.mk.injEq] at e1
  obtain ⟨e3, e4⟩ := e1
  subst e3
  dsimp only
  rw [k1, k2, ← e4]

theorem tvg_dimensions_agree_witness :
    (tvg_parse_header false (tvg_context_init sample_document_reduced [])).1 = Except.ok () ∧
    tvg_document_dimensions (some sample_document_reduced) = (TVG_SUCCESS, some
      ((tvg_parse_header false (tvg_context_init sample_document_reduced [])).2.width,
       (tvg_parse_header false (tvg_context_init sample_document_reduced [])).2.height)) :=
  tvg_dimensions_agree sample_document_reduced []
    (TVG_SUCCESS,
      { input := [], eof := false, mallocs := [], log := [], path := [], scale := 0,
        color_encoding := 0, coord_range := 1, width := 16, height := 16, colors_size := 1,
        colors := [0xFFFF0000] })
    (by decide!) rfl

/-! ## Claims on image-tvg.c: custom color encoding -/

theorem tvg_read_varuint_fields (ctx ctx3 : tvg_context_t) (n : Nat)
    (hn : tvg_read_varuint ctx = (Except.ok n, ctx3)) :
    ctx3.mallocs = ctx.mallocs ∧ ctx3.color_encoding = ctx.color_encoding := by
  unfold tvg_read_varuint at hn
  split at hn
  · simp only [Prod.mk.injEq, Except.ok.injEq] at hn
    rw [← hn.2]
    exact ⟨rfl, rfl⟩
  · simp at hn

theorem tvg_read_color_custom (ctx : tvg_context_t)
    (h : ctx.color_encoding = TVG_COLOR_CUSTOM) :
    tvg_read_color ctx = (Except.error TVG_E_NOT_SUPPORTED, ctx) := by
  unfold tvg_read_color
  rw [tvg_bind_apply]
  simp only [tvg_get, h]
  rfl

theorem tvg_parse_color_table_custom (ctx2 ctx3 : tvg_context_t) (n : Nat)
    (hc : ctx2.color_encoding = TVG_COLOR_CUSTOM)
    (hn : tvg_read_varuint ctx2 = (Except.ok n, ctx3)) (h1 : 1 ≤ n) :
    tvg_result (tvg_parse_color_table ctx2).1 =
      if ctx2.mallocs.headD true = true then TVG_E_NOT_SUPPORTED else TVG_E_OUT_OF_MEMORY := by
  obtain ⟨f1, f2⟩ := tvg_read_varuint_fields ctx2 ctx3 n hn
  unfold tvg_parse_color_table
  rw [tvg_bind_apply, hn]
  dsimp only
  rw [if_neg (by omega), tvg_bind_apply]
  simp only [tvg_malloc, f1]
  cases hm : ctx2.mallocs.headD true with
  | false => rfl
  | true =>
    obtain ⟨k, rfl⟩ : ∃ k, n = k + 1 := ⟨n - 1, by omega⟩
    simp only [Bool.not_true, Bool.false_eq_true, if_false, if_true, tvg_bind_apply, tvg_modify,
      tvg_parse_header_colors]
    rw [tvg_read_color_custom _ (by rw [← hc, ← f2])]
    rfl

/-- C18: for every input with valid magic, version 1 and a complete width and height (the
header parse that stops before the color table succeeds), the color encoding
`TVG_COLOR_CUSTOM` and a color count of at least 1, `tvg_render_document` returns
`TVG_E_NOT_SUPPORTED` when the allocation of the color table succeeds, and
`TVG_E_OUT_OF_MEMORY` when it is refused. -/
theorem tvg_render_document_custom (input : List UInt8) (mallocs : List Bool)
    (ctx2 ctx3 : tvg_context_t) (n : Nat)
    (hh : tvg_parse_header true (tvg_context_init input mallocs) = (Except.ok (), ctx2))
    (hc : ctx2.color_encoding = TVG_COLOR_CUSTOM)
    (hn : tvg_read_varuint ctx2 = (Except.ok n, ctx3)) (h1 : 1 ≤ n) :
    (tvg_render_document (some input) mallocs).map Prod.fst =
      some (if mallocs.headD true = true then TVG_E_NOT_SUPPORTED
        else TVG_E_OUT_OF_MEMORY) := by
  have hm : ctx2.mallocs = mallocs := by
    rw [tvg_parse_header_dims_mallocs] at hh
    simp only [Prod.mk.injEq] at hh
    rw [← hh.2]
  have ht := tvg_parse_color_table_custom ctx2 ctx3 n hc hn h1
  rw [hm] at ht
  simp only [tvg_render_document]
  have hs : tvg_parse_header false (tvg_context_init input mallocs)
      = tvg_parse_color_table ctx2 := by
    rw [tvg_parse_header_split, tvg_bind_apply, hh]
  rw [hs]
  rcases hr : tvg_parse_color_table ctx2 with ⟨res, c⟩
  rw [hr] at ht
  cases res with
  | error e =>
    simp only [tvg_result] at ht
    simp only [Option.map_some', Option.some.injEq]
    exact ht
  | ok u =>
    simp only [tvg_result] at ht
    split at ht <;> exact absurd ht (by decide)

theorem tvg_render_document_custom_witness :
    (tvg_render_document (some sample_document_custom) []).map Prod.fst
      = some TVG_E_NOT_SUPPORTED ∧
    (tvg_render_document (some sample_document_custom) [false]).map Prod.fst
      = some TVG_E_OUT_OF_MEMORY :=
  ⟨tvg_render_document_custom sample_document_custom []
      { input := [0x01], eof := false, mallocs := [], log := [], path := [], scale := 0,
        color_encoding := 3, coord_range := 0, width := 16, height := 16, colors_size := 0,
        colors := [] }
      { input := [], eof := false, mallocs := [], log := [], path := [], scale := 0,
        color_encoding := 3, coord_range := 0, width := 16, height := 16, colors_size := 0,
        colors := [] }
      1 rfl rfl rfl (by decide),
   tvg_render_document_custom sample_document_custom [false]
      { input := [0x01], eof := false, mallocs := [false], log := [], path := [], scale := 0,
        color_encoding := 3, coord_range := 0, width := 16, height := 16, colors_size := 0,
        colors := [] }
      { input := [], eof := false, mallocs := [false], log := [], path := [], scale := 0,
        color_encoding := 3, coord_range := 0, width := 16, height := 16, colors_size := 0,
        colors := [] }
      1 rfl rfl rfl (by decide)⟩

/-! ## Claims on image-tvg.c: the command loop -/

theorem tvg_inv_init (input : List UInt8) (mallocs : List Bool) :
    tvg_inv (tvg_context_init input mallocs) := by
  intro h
  simp [tvg_context_init] at h

theorem tvg_result_eq_success {α : Type} (r : Except tvg_result_t α)
    (h : r ≠ Except.error TVG_SUCCESS) : tvg_result r = TVG_SUCCESS ↔ ∃ a, r = Except.ok a := by
  cases r with
  | ok a => simp [tvg_result]
  | error e =>
    simp only [tvg_result, reduceCtorEq, exists_false, iff_false]
    intro he
    exact h (by rw [he])

/-- C19: a truncated document never decodes successfully. For every byte sequence and
all outcomes of the allocations, `tvg_render_document` returns; if any read has found fewer
bytes than it asked for, the result is not `TVG_SUCCESS`; and when the result is
`TVG_SUCCESS`, no read has run short and the last byte consumed is a command byte 0 read by
the command loop. -/
theorem tvg_render_document_truncated (input : List UInt8) (mallocs : List Bool) :
    ∃ r, tvg_render_document (some input) mallocs = some r ∧
      (r.2.eof = true → r.1 ≠ TVG_SUCCESS) ∧
      (r.1 = TVG_SUCCESS → r.2.eof = false ∧ ∃ pre, input = pre ++ 0 :: r.2.input) := by
  obtain ⟨h1, h2, h3⟩ := tvg_ok_parse_header false (tvg_context_init input mallocs)
  have hi := h2 (tvg_inv_init input mallocs)
  simp only [tvg_render_document]
  rcases hh : tvg_parse_header false (tvg_context_init input mallocs) with ⟨res, c1⟩
  rw [hh] at h1 h3 hi
  dsimp only at h1 h3 hi
  cases res with
  | error e =>
    have he : e ≠ TVG_SUCCESS := fun h => h3 (by rw [h])
    exact ⟨_, rfl, fun _ => he, fun h => absurd h he⟩
  | ok u =>
    dsimp only
    have hi2 : tvg_inv { c1 with path := [] } := hi
    obtain ⟨r, c2, e1, e2, e3⟩ :=
      tvg_parse_commands_spec (c1.input.length + 1) { c1 with path := [] } (Nat.lt_succ_self _)
        hi2
    rw [e1]
    have key : tvg_result r = TVG_SUCCESS →
        c2.eof = false ∧ ∃ pre, input = pre ++ 0 :: c2.input := by
      intro hs
      obtain ⟨a, ha⟩ := (tvg_result_eq_success r e2).1 hs
      obtain ⟨g1, pre, g2⟩ := e3 ha
      refine ⟨g1, ?_⟩
      obtain ⟨p1, hp1⟩ := h1
      refine ⟨p1 ++ pre, ?_⟩
      have g3 : c1.input = pre ++ 0 :: c2.input := g2
      have g4 : p1 ++ c1.input = input := hp1
      rw [← g4, g3]
      simp
    refine ⟨_, rfl, ?_, key⟩
    intro heof hs
    have := (key hs).1
    rw [this] at heof
    exact absurd heof (by decide)

theorem tvg_render_document_truncated_witness :
    (tvg_render_document (some sample_document_truncated) []).map Prod.fst
      ≠ some TVG_SUCCESS := by
  obtain ⟨r, hr, h1, _⟩ := tvg_render_document_truncated sample_document_truncated []
  have hc : (tvg_render_document (some sample_document_truncated) []).map (fun r => r.2.eof)
      = some true := by decide!
  rw [hr] at hc ⊢
  simp only [Option.map_some', Option.some.injEq] at hc
  simp only [Option.map_some', ne_eq, Option.some.injEq]
  exact h1 hc

theorem tvg_parse_command_unknown (cmd : Nat) (h : 11 ≤ TVG_CMD_INDEX cmd) :
    tvg_parse_command cmd = tvg_fail TVG_E_INVALID_FORMAT := by
  unfold tvg_parse_command
  split <;> first | rfl | omega

/-- C20: for every command byte whose low 6 bits are in 11..63, `tvg_parse_commands`
returns `TVG_E_INVALID_FORMAT` after reading that byte; the context is otherwise unchanged,
so no paint sink and no path builder is called for that command. -/
theorem tvg_parse_commands_unknown (fuel : Nat) (ctx : tvg_context_t) (b : UInt8)
    (rest : List UInt8) (hin : ctx.input = b :: rest) (hb : 11 ≤ TVG_CMD_INDEX b.toNat) :
    tvg_parse_commands (fuel + 1) ctx =
      some (Except.error TVG_E_INVALID_FORMAT, { ctx with input := rest }) := by
  simp only [tvg_parse_commands]
  rw [tvg_inp_one ctx b rest hin]
  simp only [List.getD_cons_zero]
  rw [tvg_parse_command_unknown _ hb]
  rfl

theorem tvg_parse_commands_unknown_witness :
    tvg_parse_commands 3 (tvg_context_init [0x4B, 0x00] []) =
      some (Except.error TVG_E_INVALID_FORMAT, tvg_context_init [0x00] []) :=
  tvg_parse_commands_unknown 2 (tvg_context_init [0x4B, 0x00] []) 0x4B [0x00] rfl (by decide)

/-! ## Claims on image-tvg.c: commands and styles -/

/-- C21: what `tvg_parse_commands` does on a command byte with the low 6 bits 0 and style
bits set. After the header of one color, the bytes 0x40, 0x80 and 0xC0 do not end the
document: the loop reads on, finds the input empty and the result is `TVG_E_IO_ERROR`.
When the byte 0x40 is followed by 0x00 0x55, the loop stops only after the byte 0x00;
the byte 0x00 itself stops it at once. -/
theorem tvg_parse_commands_end_document_style_bits :
    (tvg_render_document (some (sample_header ++ [0x40])) []).map (fun r => (r.1, r.2.eof))
      = some (TVG_E_IO_ERROR, true) ∧
    (tvg_render_document (some (sample_header ++ [0x80])) []).map (fun r => (r.1, r.2.eof))
      = some (TVG_E_IO_ERROR, true) ∧
    (tvg_render_document (some (sample_header ++ [0xC0])) []).map (fun r => (r.1, r.2.eof))
      = some (TVG_E_IO_ERROR, true) ∧
    (tvg_render_document (some (sample_header ++ [0x40, 0x00, 0x55])) []).map
      (fun r => (r.1, r.2.input)) = some (TVG_SUCCESS, [0x55]) ∧
    (tvg_render_document (some (sample_header ++ [0x00, 0x55])) []).map
      (fun r => (r.1, r.2.input)) = some (TVG_SUCCESS, [0x55]) := by
  decide!

/-- C22: what the decoder does on a color index outside the table. With a table of one
color, a flat style with index 1 and a linear gradient whose first index is 1 are both
accepted: rendering succeeds and the fill sink is called with the entry `colors[1]`, which
is outside the table. A gradient whose first index is 2 is refused with
`TVG_E_INVALID_FORMAT`. -/
theorem tvg_color_index_unchecked :
    (tvg_render_document (some sample_flat_index) []).map (fun r => (r.1, r.2.log))
      = some (TVG_SUCCESS, [sink_call.paint_path none [path_call.rectangle 0 0 8 8]]) ∧
    (tvg_render_document (some (sample_gradient_index 1)) []).map (fun r => (r.1, r.2.log))
      = some (TVG_SUCCESS, [sink_call.paint_path none [path_call.rectangle 0 0 8 8]]) ∧
    (tvg_render_document (some (sample_gradient_index 2)) []).map (fun r => (r.1, r.2.log))
      = some (TVG_E_INVALID_FORMAT, []) := by
  decide!

/-- C24: what the decoder does on a line width of 0. For the command DRAW_LINE_PATH the
stroke sink is called with the pen width `D(0)`; for the command DRAW_LINE_STRIP with the
same width it is called with `D(1/100)`. -/
theorem tvg_line_path_zero_width :
    (tvg_render_document (some sample_line_path) []).map (fun r => (r.1, r.2.log))
      = some (TVG_SUCCESS, [sink_call.paint_stroke (some 0xFFFF0000)
          [path_call.move 0 0, path_call.draw 8 8] 0]) ∧
    (tvg_render_document (some sample_line_strip) []).map (fun r => (r.1, r.2.log))
      = some (TVG_SUCCESS, [sink_call.paint_stroke (some 0xFFFF0000)
          [path_call.move 0 0, path_call.draw 8 8] (1 / 100)]) := by
  decide!

/-- C25: what the polygon commands paint. For FILL_POLYGON with the vertices (0, 0),
(8, 0), (8, 8) the fill sink receives `ctx->path` with no point at all; for
OUTLINE_FILL_POLYGON the fill and stroke sinks receive a path with the first vertex alone,
closed. The command DRAW_LINE_LOOP on the same vertices hands over all three. -/
theorem tvg_polygon_paints_no_vertices :
    (tvg_render_document (some sample_fill_polygon) []).map (fun r => (r.1, r.2.log))
      = some (TVG_SUCCESS, [sink_call.paint_path (some 0xFFFF0000) []]) ∧
    (tvg_render_document (some sample_outline_polygon) []).map (fun r => (r.1, r.2.log))
      = some (TVG_SUCCESS,
          [sink_call.paint_path (some 0xFFFF0000) [path_call.move 0 0, path_call.close],
           sink_call.paint_stroke (some 0xFFFF0000) [path_call.move 0 0, path_call.close]
             16]) ∧
    (tvg_render_document (some sample_line_loop) []).map (fun r => (r.1, r.2.log))
      = some (TVG_SUCCESS, [sink_call.paint_stroke (some 0xFFFF0000)
          [path_call.move 0 0, path_call.draw 8 0, path_call.draw 8 8, path_call.close]
          16]) := by
  decide!

/-! ## Claims on image-tvg.c: U565 colors -/

theorem float_to_u8_le (f : ℚ) : float_to_u8 f ≤ 255 := by
  unfold float_to_u8
  have h1 := Int.emod_nonneg (if 0 ≤ f then Rat.floor f else -Rat.floor (-f))
    (show (256 : Int) ≠ 0 by decide)
  have h2 := Int.emod_lt_of_pos (if 0 ≤ f then Rat.floor f else -Rat.floor (-f))
    (show (0 : Int) < 256 by decide)
  omega

theorem float_to_u8_zero : float_to_u8 0 = 0 := by
  decide

theorem PIXEL_ARGB_eq (a r g b : Nat) (ha : a ≤ 255) (hr : r ≤ 255) (hg : g ≤ 255)
    (hb : b ≤ 255) : PIXEL_ARGB a r g b = a * 2 ^ 24 + r * 2 ^ 16 + g * 2 ^ 8 + b := by
  unfold PIXEL_ARGB
  simp only [Nat.shiftLeft_eq]
  have e1 : a * 2 ^ 24 ||| r * 2 ^ 16 = a * 2 ^ 24 + r * 2 ^ 16 := by
    have := Nat.mul_add_lt_is_or (show r * 2 ^ 16 < 2 ^ 24 by omega) a
    rw [Nat.mul_comm a, ← this]
  have e2 : (a * 2 ^ 24 + r * 2 ^ 16) ||| g * 2 ^ 8 = a * 2 ^ 24 + r * 2 ^ 16 + g * 2 ^ 8 := by
    have := Nat.mul_add_lt_is_or (show g * 2 ^ 8 < 2 ^ 16 by omega) (a * 2 ^ 8 + r)
    have e : 2 ^ 16 * (a * 2 ^ 8 + r) = a * 2 ^ 24 + r * 2 ^ 16 := by ring
    rw [e] at this
    rw [← this]
  have e3 : (a * 2 ^ 24 + r * 2 ^ 16 + g * 2 ^ 8) ||| b
      = a * 2 ^ 24 + r * 2 ^ 16 + g * 2 ^ 8 + b := by
    have := Nat.mul_add_lt_is_or (show b < 2 ^ 8 by omega) (a * 2 ^ 16 + r * 2 ^ 8 + g)
    have e : 2 ^ 8 * (a * 2 ^ 16 + r * 2 ^ 8 + g) = a * 2 ^ 24 + r * 2 ^ 16 + g * 2 ^ 8 := by
      ring
    rw [e] at this
    rw [← this]
  rw [e1, e2, e3]
  omega

theorem u565_channel_le (field divisor : Nat) : u565_channel field divisor ≤ 255 :=
  float_to_u8_le _

theorem u565_channel_zero (divisor : Nat) : u565_channel 0 divisor = 0 := by
  unfold u565_channel
  rw [Nat.cast_zero, mul_zero, zero_div]
  exact float_to_u8_zero

/-- C23, counterexample: in the 16-bit value 0x000F the top five bits, which the claim
takes for red, are 0, and `tvg_read_color` returns the color 0xFFFF0000, whose red channel
is 0xFF. -/
theorem tvg_read_color_u565_counterexample :
    (0x000F >>> 11) &&& 0x1F = 0 ∧
    (tvg_read_color (sample_u565_context [0x0F, 0x00])).1.toOption = some 0xFFFF0000 ∧
    (0xFFFF0000 >>> 16) &&& 0xFF = 0xFF := by
  decide!

/-- C23, amended: U565 decoding. For every 16-bit value `v`, read as two bytes in
little-endian order, `tvg_read_color` succeeds and returns alpha 0xFF with the red channel
computed from the low 5 bits of `v`, the green channel from the middle 6 bits and the blue
channel from the top 5 bits; every channel is at most 255 and a field of 0 gives the
channel 0. -/
theorem tvg_read_color_u565 (ctx : tvg_context_t) (b0 b1 : UInt8) (rest : List UInt8)
    (henc : ctx.color_encoding = TVG_COLOR_U565) (hin : ctx.input = b0 :: b1 :: rest) :
    tvg_read_color ctx =
      (Except.ok (0xFF * 2 ^ 24
          + u565_channel ((b0.toNat + 256 * b1.toNat) % 32) 15 * 2 ^ 16
          + u565_channel ((b0.toNat + 256 * b1.toNat) / 32 % 64) 31 * 2 ^ 8
          + u565_channel ((b0.toNat + 256 * b1.toNat) / 2048 % 32) 15),
        { ctx with input := rest }) ∧
    (∀ field divisor, u565_channel field divisor ≤ 255) ∧
    (∀ divisor, u565_channel 0 divisor = 0) := by
  refine ⟨?_, u565_channel_le, u565_channel_zero⟩
  have hR : ∀ v : Nat, TVG_RGB16_R v = v % 32 := fun v => Nat.and_pow_two_sub_one_eq_mod v 5
  have hG : ∀ v : Nat, TVG_RGB16_G v = v / 32 % 64 := fun v => by
    unfold TVG_RGB16_G
    rw [Nat.shiftRight_eq_div_pow]
    exact Nat.and_pow_two_sub_one_eq_mod _ 6
  have hB : ∀ v : Nat, TVG_RGB16_B v = v / 2048 % 32 := fun v => by
    unfold TVG_RGB16_B
    rw [Nat.shiftRight_eq_div_pow]
    exact Nat.and_pow_two_sub_one_eq_mod _ 5
  have hv : le_value [b0, b1] = b0.toNat + 256 * b1.toNat := by
    simp [le_value]
  unfold tvg_read_color
  rw [tvg_bind_apply]
  simp only [tvg_get]
  rw [if_neg (by rw [henc]; decide), if_pos henc, tvg_bind_apply,
    tvg_inp_two ctx b0 b1 rest hin]
  simp only [tvg_pure_apply, hv, hR, hG, hB]
  rw [PIXEL_ARGB_eq _ _ _ _ (by decide) (float_to_u8_le _) (float_to_u8_le _)
    (float_to_u8_le _)]
  rfl

theorem tvg_read_color_u565_witness :
    tvg_read_color (sample_u565_context [0x1F, 0x00, 0x55]) =
      (Except.ok (0xFF * 2 ^ 24
          + u565_channel (((0x1F : UInt8).toNat + 256 * (0x00 : UInt8).toNat) % 32) 15 * 2 ^ 16
          + u565_channel (((0x1F : UInt8).toNat + 256 * (0x00 : UInt8).toNat) / 32 % 64) 31
            * 2 ^ 8
          + u565_channel (((0x1F : UInt8).toNat + 256 * (0x00 : UInt8).toNat) / 2048 % 32) 15),
        { sample_u565_context [0x1F, 0x00, 0x55] with input := [0x55] }) :=
  (tvg_read_color_u565 (sample_u565_context [0x1F, 0x00, 0x55]) 0x1F 0x00 [0x55] rfl rfl).1

theorem sample_clz_spec (x : Int) (k : Nat) (h1 : 2 ^ k ≤ x) (h2 : x < 2 ^ (k + 1)) :
    sample_clz x = 31 - (k : Int) := by
  unfold sample_clz
  have hx : 0 < x := lt_of_lt_of_le (by positivity) h1
  have hn : x.toNat ≠ 0 := by omega
  have e : (x.toNat : Int) = x := Int.toNat_of_nonneg hx.le
  have a1 : k ≤ x.toNat.log2 := by
    rw [Nat.le_log2 hn]
    have : ((2 ^ k : Nat) : Int) ≤ (x.toNat : Int) := by rw [e]; exact_mod_cast h1
    exact_mod_cast this
  have a2 : x.toNat.log2 < k + 1 := by
    rw [Nat.log2_lt hn]
    have : (x.toNat : Int) < ((2 ^ (k + 1) : Nat) : Int) := by rw [e]; exact_mod_cast h2
    exact_mod_cast this
  omega

/-! ## Claims on path.c: arcs -/

/-- C29: the number of sides `twin_path_arc` uses. For every `twin_clz` that counts the
leading zero bits of a 32-bit word, and every `sides > 1` with `2^k ≤ sides < 2^(k+1)`,
the code computes `n = k + 1`, so that `2^n` is the smallest power of two greater than
`sides`: for `sides = 4` it gives `n = 3` (8 sides, step 512) and for `sides = 1024` it
gives `n = 11` (2048 sides, step 2). -/
theorem twin_path_arc_n_spec (twin_clz : Int → Int)
    (hclz : ∀ (x : Int) (k : Nat), 2 ^ k ≤ x → x < 2 ^ (k + 1) → twin_clz x = 31 - (k : Int)) :
    (∀ (sides : Int) (k : Nat), 1 < sides → 2 ^ k ≤ sides → sides < 2 ^ (k + 1) →
      twin_path_arc_n twin_clz sides = (k : Int) + 1) ∧
    twin_path_arc_n twin_clz 4 = 3 ∧ twin_path_arc_step 16 3 = 512 ∧
    twin_path_arc_n twin_clz 1024 = 11 ∧ twin_path_arc_step 16 11 = 2 := by
  have h : ∀ (sides : Int) (k : Nat), 1 < sides → 2 ^ k ≤ sides → sides < 2 ^ (k + 1) →
      twin_path_arc_n twin_clz sides = (k : Int) + 1 := by
    intro sides k h1 h2 h3
    unfold twin_path_arc_n
    rw [if_pos h1, hclz sides k h2 h3]
    omega
  exact ⟨h, h 4 2 (by decide) (by decide) (by decide), by decide,
    h 1024 10 (by decide) (by decide) (by decide), by decide⟩

theorem twin_path_arc_n_spec_witness :
    twin_path_arc_n sample_clz 4 = 3 ∧ twin_path_arc_step 16 3 = 512 ∧
    twin_path_arc_n sample_clz 1024 = 11 ∧ twin_path_arc_step 16 11 = 2 :=
  (twin_path_arc_n_spec sample_clz sample_clz_spec).2

/-- C30: the angles `twin_path_arc` passes to `twin_path_draw_polar` at the boundaries,
with four sides (`n = 2`, step 1024) and angles of 16 bits. From 0 over the extent 1024
the only angle is 1024: the start is not sampled. From 0 over the extent -1024 the only
angle is 0, and over the extent -4096 the angles are 0, -1024, -2048, -3072: the end is
not sampled. From 0 over the extent 4096 the angles begin with 0 and end with 4096. -/
theorem twin_path_arc_boundary_samples :
    twin_path_arc_angles 16 8 2 0 1024 = some [1024] ∧
    twin_path_arc_angles 16 8 2 0 (-1024) = some [0] ∧
    twin_path_arc_angles 16 8 2 0 (-4096) = some [0, -1024, -2048, -3072] ∧
    twin_path_arc_angles 16 8 2 0 4096 = some [0, 1024, 2048, 4096] := by
  decide

/-! ## Auxiliary lemmas: the flatness tests -/

theorem is_flat_iff (dist : twin_spoint_t → twin_spoint_t → twin_spoint_t → Int)
    (s : twin_spline_t) (tol2 : Int) :
    is_flat dist s tol2 = true ↔ max (dist s.b s.a s.d) (dist s.c s.a s.d) ≤ tol2 := by
  unfold is_flat _twin_spline_distance_squared
  simp only [decide_eq_true_eq]
  split <;> rename_i h
  · rw [max_eq_left (le_of_lt h)]
  · rw [max_eq_right (not_lt.mp h)]

theorem quad_is_flat_iff (dist : twin_spoint_t → twin_spoint_t → twin_spoint_t → Int)
    (s : twin_quad_spline_t) (tol2 : Int) :
    _quad_is_flat dist s tol2 = true ↔ dist s.p1 s.p0 s.p2 ≤ tol2 := by
  unfold _quad_is_flat _quad_spline_distance_squared
  simp only [decide_eq_true_eq]

/-- What the inner loop returns is a subdivision of the spline whose left part is flat; the
new shift is one less than the shift of the subdivision, or 1. -/
theorem _twin_spline_find_shift_spec
    (dist : twin_spoint_t → twin_spoint_t → twin_spoint_t → Int) (tol2 : Int)
    (spline : twin_spline_t) (fuel shift sh : Nat) (l r : twin_spline_t)
    (h : _twin_spline_find_shift dist tol2 spline fuel shift = some (sh, l, r)) :
    ∃ s, shift ≤ s ∧ s < shift + fuel ∧ (l, r) = _de_casteljau spline s ∧
      is_flat dist l tol2 = true ∧ sh = (if s > 1 then s - 1 else s) ∧
      ∀ t, shift ≤ t → t < s → is_flat dist (_de_casteljau spline t).1 tol2 = false := by
  induction fuel generalizing shift with
  | zero => simp [_twin_spline_find_shift] at h
  | succ n ih =>
    rw [_twin_spline_find_shift] at h
    by_cases hf : is_flat dist (_de_casteljau spline shift).1 tol2 = true
    · simp only [hf, if_true, Option.some.injEq, Prod.mk.injEq] at h
      refine ⟨shift, le_refl _, by omega, ?_, ?_, h.1.symm, fun t h1 h2 => by omega⟩
      · rw [← h.2.1, ← h.2.2]
      · rw [← h.2.1]; exact hf
    · simp only [hf] at h
      obtain ⟨s, h1, h2, h3, h4, h5, h6⟩ := ih (shift + 1) h
      refine ⟨s, by omega, by omega, h3, h4, h5, fun t ht1 ht2 => ?_⟩
      by_cases hts : t = shift
      · subst hts; simpa using hf
      · exact h6 t (by omega) ht2

theorem _twin_quad_spline_find_shift_spec
    (dist : twin_spoint_t → twin_spoint_t → twin_spoint_t → Int) (tol2 : Int)
    (spline : twin_quad_spline_t) (fuel shift sh : Nat) (l r : twin_quad_spline_t)
    (h : _twin_quad_spline_find_shift dist tol2 spline fuel shift = some (sh, l, r)) :
    ∃ s, shift ≤ s ∧ s < shift + fuel ∧ (l, r) = _quad_de_casteljau spline s ∧
      _quad_is_flat dist l tol2 = true ∧ sh = (if s > 1 then s - 1 else s) ∧
      ∀ t, shift ≤ t → t < s →
        _quad_is_flat dist (_quad_de_casteljau spline t).1 tol2 = false := by
  induction fuel generalizing shift with
  | zero => simp [_twin_quad_spline_find_shift] at h
  | succ n ih =>
    rw [_twin_quad_spline_find_shift] at h
    by_cases hf : _quad_is_flat dist (_quad_de_casteljau spline shift).1 tol2 = true
    · simp only [hf, if_true, Option.some.injEq, Prod.mk.injEq] at h
      refine ⟨shift, le_refl _, by omega, ?_, ?_, h.1.symm, fun t h1 h2 => by omega⟩
      · rw [← h.2.1, ← h.2.2]
      · rw [← h.2.1]; exact hf
    · simp only [hf] at h
      obtain ⟨s, h1, h2, h3, h4, h5, h6⟩ := ih (shift + 1) h
      refine ⟨s, by omega, by omega, h3, h4, h5, fun t ht1 ht2 => ?_⟩
      by_cases hts : t = shift
      · subst hts; simpa using hf
      · exact h6 t (by omega) ht2

/-! ## Auxiliary lemmas: the control polygons a flattener tests -/

theorem _twin_spline_decompose_loop_tested
    (dist : twin_spoint_t → twin_spoint_t → twin_spoint_t → Int) (tol2 : Int) (bound : Nat)
    (fuel : Nat) (spline : twin_spline_t) (shift : Nat) :
    ∃ l, tested_polygons dist tol2 spline shift l
        (_twin_spline_decompose_loop dist tol2 bound fuel spline shift).2 ∧
      (_twin_spline_decompose_loop dist tol2 bound fuel spline shift).1 = l.map (fun s => s.d) := by
  induction fuel generalizing spline shift with
  | zero => exact ⟨[], tested_polygons.cut spline shift, by simp [_twin_spline_decompose_loop]⟩
  | succ n ih =>
    rw [_twin_spline_decompose_loop]
    by_cases hf : is_flat dist spline tol2 = true
    · simp only [hf, if_true]
      exact ⟨[spline], tested_polygons.last spline shift hf, rfl⟩
    · simp only [hf]
      cases hfs : _twin_spline_find_shift dist tol2 spline bound shift with
      | none => exact ⟨[], tested_polygons.cut spline shift, rfl⟩
      | some v =>
        obtain ⟨sh, l, r⟩ := v
        obtain ⟨s, h1, -, h3, h4, h5, h6⟩ :=
          _twin_spline_find_shift_spec dist tol2 spline bound shift sh l r hfs
        have hl : l = (_de_casteljau spline s).1 := by rw [← h3]
        have hr : r = (_de_casteljau spline s).2 := by rw [← h3]
        obtain ⟨rest, t1, t2⟩ := ih r sh
        simp only [Bool.false_eq_true, if_false]
        refine ⟨l :: rest, ?_, by rw [t2]; rfl⟩
        rw [hl]
        rw [hl] at h4
        generalize (_twin_spline_decompose_loop dist tol2 bound n r sh).2 = done at t1 ⊢
        rw [hr, h5] at t1
        exact tested_polygons.left spline shift s rest done (by simpa using hf) h1 h6 h4 t1

theorem tested_polygons_flat
    (dist : twin_spoint_t → twin_spoint_t → twin_spoint_t → Int) (tol2 : Int)
    (spline : twin_spline_t) (shift : Nat) (l : List twin_spline_t) (done : Bool)
    (h : tested_polygons dist tol2 spline shift l done) :
    ∀ s ∈ l, is_flat dist s tol2 = true := by
  induction h with
  | last spline shift hf => intro s hs; rw [List.mem_singleton.mp hs]; exact hf
  | left spline shift s rest done _ _ _ h4 _ ih =>
    intro p hp
    rcases List.mem_cons.mp hp with e | e
    · rw [e]; exact h4
    · exact ih p e
  | cut spline shift => intro s hs; simp at hs

theorem tested_polygons_zip
    (dist : twin_spoint_t → twin_spoint_t → twin_spoint_t → Int) (tol2 : Int)
    (spline : twin_spline_t) (shift : Nat) (l : List twin_spline_t) (done : Bool)
    (h : tested_polygons dist tol2 spline shift l done) :
    List.zip (spline.a :: l.map (fun s => s.d)) (l.map (fun s => s.d)) =
      l.map (fun s => (s.a, s.d)) := by
  induction h with
  | last spline shift hf => rfl
  | left spline shift s rest done _ _ _ _ _ ih =>
    simp only [List.map_cons, List.zip_cons_cons]
    exact congrArg (List.cons _) ih
  | cut spline shift => rfl

theorem tested_polygons_chain
    (dist : twin_spoint_t → twin_spoint_t → twin_spoint_t → Int) (tol2 : Int)
    (spline : twin_spline_t) (shift : Nat) (l : List twin_spline_t) (done : Bool)
    (h : tested_polygons dist tol2 spline shift l done) :
    List.Chain (fun p q => ∃ s ∈ l, s.a = p ∧ s.d = q) spline.a (l.map (fun s => s.d)) := by
  induction h with
  | last spline shift hf =>
    exact List.Chain.cons ⟨spline, List.mem_singleton.mpr rfl, rfl, rfl⟩ List.Chain.nil
  | left spline shift s rest done _ _ _ _ _ ih =>
    refine List.Chain.cons ⟨_, List.mem_cons_self _ _, rfl, rfl⟩ ?_
    exact List.Chain.imp (fun p q ⟨t, ht, e⟩ => ⟨t, List.mem_cons_of_mem _ ht, e⟩) ih
  | cut spline shift => exact List.Chain.nil

theorem tested_polygons_unique
    (dist : twin_spoint_t → twin_spoint_t → twin_spoint_t → Int) (tol2 : Int)
    (spline : twin_spline_t) (shift : Nat) (l : List twin_spline_t) (done : Bool)
    (h : tested_polygons dist tol2 spline shift l done) :
    done = true → ∀ l2, tested_polygons dist tol2 spline shift l2 true → l2 = l := by
  induction h with
  | last spline shift hf =>
    intro _ l2 h2
    cases h2 with
    | last _ _ _ => rfl
    | left _ _ s2 rest2 _ g1 _ _ _ _ => rw [hf] at g1; exact absurd g1 (by simp)
  | left spline shift s rest done h1 h2 h3 h4 _ ih =>
    intro hd l2 h5
    cases h5 with
    | last _ _ g => rw [h1] at g; exact absurd g (by simp)
    | left _ _ s2 rest2 _ g1 g2 g3 g4 g5 =>
      have e : s2 = s := by
        rcases Nat.lt_trichotomy s2 s with c | c | c
        · have := h3 s2 g2 c; rw [g4] at this; exact absurd this (by simp)
        · exact c
        · have := g3 s h2 c; rw [h4] at this; exact absurd this (by simp)
      subst e
      rw [ih hd rest2 g5]
  | cut spline shift => intro hd; exact absurd hd (by simp)


theorem _twin_quad_spline_decompose_loop_tested
    (dist : twin_spoint_t → twin_spoint_t → twin_spoint_t → Int) (tol2 : Int) (bound : Nat)
    (fuel : Nat) (spline : twin_quad_spline_t) (shift : Nat) :
    ∃ l, tested_quad_polygons dist tol2 spline shift l
        (_twin_quad_spline_decompose_loop dist tol2 bound fuel spline shift).2 ∧
      (_twin_quad_spline_decompose_loop dist tol2 bound fuel spline shift).1 = l.map (fun s => s.p2) := by
  induction fuel generalizing spline shift with
  | zero => exact ⟨[], tested_quad_polygons.cut spline shift, by simp [_twin_quad_spline_decompose_loop]⟩
  | succ n ih =>
    rw [_twin_quad_spline_decompose_loop]
    by_cases hf : _quad_is_flat dist spline tol2 = true
    · simp only [hf, if_true]
      exact ⟨[spline], tested_quad_polygons.last spline shift hf, rfl⟩
    · simp only [hf]
      cases hfs : _twin_quad_spline_find_shift dist tol2 spline bound shift with
      | none => exact ⟨[], tested_quad_polygons.cut spline shift, rfl⟩
      | some v =>
        obtain ⟨sh, l, r⟩ := v
        obtain ⟨s, h1, -, h3, h4, h5, h6⟩ :=
          _twin_quad_spline_find_shift_spec dist tol2 spline bound shift sh l r hfs
        have hl : l = (_quad_de_casteljau spline s).1 := by rw [← h3]
        have hr : r = (_quad_de_casteljau spline s).2 := by rw [← h3]
        obtain ⟨rest, t1, t2⟩ := ih r sh
        simp only [Bool.false_eq_true, if_false]
        refine ⟨l :: rest, ?_, by rw [t2]; rfl⟩
        rw [hl]
        rw [hl] at h4
        generalize (_twin_quad_spline_decompose_loop dist tol2 bound n r sh).2 = done at t1 ⊢
        rw [hr, h5] at t1
        exact tested_quad_polygons.left spline shift s rest done (by simpa using hf) h1 h6 h4 t1

theorem tested_quad_polygons_flat
    (dist : twin_spoint_t → twin_spoint_t → twin_spoint_t → Int) (tol2 : Int)
    (spline : twin_quad_spline_t) (shift : Nat) (l : List twin_quad_spline_t) (done : Bool)
    (h : tested_quad_polygons dist tol2 spline shift l done) :
    ∀ s ∈ l, _quad_is_flat dist s tol2 = true := by
  induction h with
  | last spline shift hf => intro s hs; rw [List.mem_singleton.mp hs]; exact hf
  | left spline shift s rest done _ _ _ h4 _ ih =>
    intro p hp
    rcases List.mem_cons.mp hp with e | e
    · rw [e]; exact h4
    · exact ih p e
  | cut spline shift => intro s hs; simp at hs

theorem tested_quad_polygons_zip
    (dist : twin_spoint_t → twin_spoint_t → twin_spoint_t → Int) (tol2 : Int)
    (spline : twin_quad_spline_t) (shift : Nat) (l : List twin_quad_spline_t) (done : Bool)
    (h : tested_quad_polygons dist tol2 spline shift l done) :
    List.zip (spline.p0 :: l.map (fun s => s.p2)) (l.map (fun s => s.p2)) =
      l.map (fun s => (s.p0, s.p2)) := by
  induction h with
  | last spline shift hf => rfl
  | left spline shift s rest done _ _ _ _ _ ih =>
    simp only [List.map_cons, List.zip_cons_cons]
    exact congrArg (List.cons _) ih
  | cut spline shift => rfl

theorem tested_quad_polygons_chain
    (dist : twin_spoint_t → twin_spoint_t → twin_spoint_t → Int) (tol2 : Int)
    (spline : twin_quad_spline_t) (shift : Nat) (l : List twin_quad_spline_t) (done : Bool)
    (h : tested_quad_polygons dist tol2 spline shift l done) :
    List.Chain (fun p q => ∃ s ∈ l, s.p0 = p ∧ s.p2 = q) spline.p0 (l.map (fun s => s.p2)) := by
  induction h with
  | last spline shift hf =>
    exact List.Chain.cons ⟨spline, List.mem_singleton.mpr rfl, rfl, rfl⟩ List.Chain.nil
  | left spline shift s rest done _ _ _ _ _ ih =>
    refine List.Chain.cons ⟨_, List.mem_cons_self _ _, rfl, rfl⟩ ?_
    exact List.Chain.imp (fun p q ⟨t, ht, e⟩ => ⟨t, List.mem_cons_of_mem _ ht, e⟩) ih
  | cut spline shift => exact List.Chain.nil

theorem tested_quad_polygons_unique
    (dist : twin_spoint_t → twin_spoint_t → twin_spoint_t → Int) (tol2 : Int)
    (spline : twin_quad_spline_t) (shift : Nat) (l : List twin_quad_spline_t) (done : Bool)
    (h : tested_quad_polygons dist tol2 spline shift l done) :
    done = true → ∀ l2, tested_quad_polygons dist tol2 spline shift l2 true → l2 = l := by
  induction h with
  | last spline shift hf =>
    intro _ l2 h2
    cases h2 with
    | last _ _ _ => rfl
    | left _ _ s2 rest2 _ g1 _ _ _ _ => rw [hf] at g1; exact absurd g1 (by simp)
  | left spline shift s rest done h1 h2 h3 h4 _ ih =>
    intro hd l2 h5
    cases h5 with
    | last _ _ g => rw [h1] at g; exact absurd g (by simp)
    | left _ _ s2 rest2 _ g1 g2 g3 g4 g5 =>
      have e : s2 = s := by
        rcases Nat.lt_trichotomy s2 s with c | c | c
        · have := h3 s2 g2 c; rw [g4] at this; exact absurd this (by simp)
        · exact c
        · have := g3 s h2 c; rw [h4] at this; exact absurd this (by simp)
      subst e
      rw [ih hd rest2 g5]
  | cut spline shift => intro hd; exact absurd hd (by simp)


/-! ## Auxiliary lemmas: the points a flattener draws -/

theorem _twin_path_sdraw_true_points (path : twin_path_t) (x y : Int) :
    ((_twin_path_sdraw true path x y).points = path.points ∧
        path.points.getLast? = some ⟨x, y⟩) ∨
      (_twin_path_sdraw true path x y).points = path.points ++ [⟨x, y⟩] := by
  unfold _twin_path_sdraw
  by_cases h : _twin_current_subpath_len path > 0 ∧ path.points.getLast? = some ⟨x, y⟩
  · rw [if_pos h]; exact Or.inl ⟨rfl, h.2⟩
  · rw [if_neg h]; right
    split <;> simp

theorem _twin_path_sdraw_true_getLast (path : twin_path_t) (x y : Int) :
    (_twin_path_sdraw true path x y).points.getLast? = some ⟨x, y⟩ := by
  rcases _twin_path_sdraw_true_points path x y with h | h
  · rw [h.1]; exact h.2
  · rw [h]; simp

theorem _twin_path_sdraw_list_getLast (alloc : Nat → Bool) (halloc : ∀ k, alloc k = true)
    (pts : List twin_spoint_t) (hpts : pts ≠ []) (k : Nat) (path : twin_path_t) :
    (_twin_path_sdraw_list alloc k path pts).points.getLast? = pts.getLast? := by
  induction pts generalizing k path with
  | nil => exact absurd rfl hpts
  | cons p rest ih =>
    rw [_twin_path_sdraw_list, halloc k]
    cases rest with
    | nil =>
      rw [_twin_path_sdraw_list]
      simpa using _twin_path_sdraw_true_getLast path p.x p.y
    | cons q rest =>
      rw [ih (by simp)]
      simp [List.getLast?_cons_cons]

theorem _twin_path_sdraw_list_chain (R : twin_spoint_t → twin_spoint_t → Prop)
    (alloc : Nat → Bool) (halloc : ∀ k, alloc k = true) (pts : List twin_spoint_t) (k : Nat)
    (path : twin_path_t) (a : twin_spoint_t) (ha : path.points.getLast? = some a)
    (hch : List.Chain R a pts) :
    ∃ L, (_twin_path_sdraw_list alloc k path pts).points = path.points ++ L ∧
      List.Chain R a L := by
  induction pts generalizing k path a with
  | nil => exact ⟨[], by simp [_twin_path_sdraw_list], List.Chain.nil⟩
  | cons p rest ih =>
    rw [_twin_path_sdraw_list, halloc k]
    rw [List.chain_cons] at hch
    rcases _twin_path_sdraw_true_points path p.x p.y with h | h
    · have hpa : p = a := by
        have := h.2; rw [ha] at this
        exact (Option.some.inj this).symm
      obtain ⟨L, h1, h2⟩ := ih (k + 1) (_twin_path_sdraw true path p.x p.y) a
        (by rw [h.1]; exact ha) (by rw [← hpa]; exact hch.2)
      exact ⟨L, by rw [h1, h.1], h2⟩
    · obtain ⟨L, h1, h2⟩ := ih (k + 1) (_twin_path_sdraw true path p.x p.y) p
        (by rw [h]; simp) hch.2
      exact ⟨p :: L, by rw [h1, h]; simp, List.Chain.cons hch.1 h2⟩

theorem _twin_path_sdraw_list_from_last (R : twin_spoint_t → twin_spoint_t → Prop)
    (alloc : Nat → Bool) (halloc : ∀ k, alloc k = true) (rest : List twin_spoint_t)
    (path : twin_path_t) (hne : path.points ≠ [])
    (hch : List.Chain R (path.points.getLastD ⟨0, 0⟩) rest) :
    ∃ L0 L, (_twin_path_sdraw_list alloc 2 path
          (path.points.getLastD ⟨0, 0⟩ :: rest)).points = path.points ++ L0 ++ L ∧
      (L0 = [] ∨ L0 = [path.points.getLastD ⟨0, 0⟩]) ∧
      List.Chain R (path.points.getLastD ⟨0, 0⟩) L := by
  have hlast : path.points.getLast? = some (path.points.getLastD ⟨0, 0⟩) := by
    cases hp : path.points.getLast? with
    | none => exact absurd (List.getLast?_eq_none_iff.mp hp) hne
    | some v => simp [List.getLastD_eq_getLast?, hp]
  generalize path.points.getLastD ⟨0, 0⟩ = a at hlast hch ⊢
  rw [_twin_path_sdraw_list, halloc 2]
  obtain ⟨L, h1, h2⟩ := _twin_path_sdraw_list_chain R alloc halloc rest 3
    (_twin_path_sdraw true path a.x a.y) a (_twin_path_sdraw_true_getLast path a.x a.y) hch
  rcases _twin_path_sdraw_true_points path a.x a.y with h | h
  · exact ⟨[], L, by rw [h1, h.1]; simp, Or.inl rfl, h2⟩
  · exact ⟨[a], L, by rw [h1, h], Or.inr rfl, h2⟩

/-! ## Auxiliary lemmas: the shift of `_lerp` -/

theorem shiftRight_bounds (x : Int) (s : Nat) :
    (x >>> s) * 2 ^ s ≤ x ∧ x < (x >>> s) * 2 ^ s + 2 ^ s := by
  have hP : (0 : Int) < 2 ^ s := by positivity
  rw [Int.shiftRight_eq_div_pow, Nat.cast_pow, Nat.cast_ofNat]
  constructor
  · exact Int.ediv_mul_le x (ne_of_gt hP)
  · have := Int.lt_ediv_add_one_mul_self x hP
    rw [add_mul, one_mul] at this
    exact this

/-- The step of `_lerp` lies between 0 and the difference, and is negative when the
difference is. -/
theorem shiftRight_between (x : Int) (s : Nat) :
    (0 ≤ x ∧ 0 ≤ x >>> s ∧ x >>> s ≤ x) ∨ (x < 0 ∧ x ≤ x >>> s ∧ x >>> s < 0) := by
  obtain ⟨h1, h2⟩ := shiftRight_bounds x s
  have hP : (0 : Int) < 2 ^ s := by positivity
  generalize x >>> s = q at h1 h2
  generalize (2 : Int) ^ s = P at h1 h2 hP
  rcases le_or_lt 0 x with hx | hx
  · left
    refine ⟨hx, ?_, ?_⟩
    · by_contra hq
      have : (q + 1) * P ≤ 0 := mul_nonpos_of_nonpos_of_nonneg (by omega) (by omega)
      linarith
    · by_contra hq
      have h0 : 0 ≤ q := by omega
      have : q * 1 ≤ q * P := mul_le_mul_of_nonneg_left (by omega) h0
      linarith
  · right
    have hq : q < 0 := by
      by_contra hq
      have : 0 ≤ q * P := mul_nonneg (by omega) (by omega)
      linarith
    refine ⟨hx, ?_, hq⟩
    have : (q + 1) * P ≤ (q + 1) * 1 := mul_le_mul_of_nonpos_left (by omega) (by omega)
    linarith

/-- The step of `_lerp` is 0 exactly for a difference in `[0, 2^s)`. -/
theorem shiftRight_eq_zero_iff (x : Int) (s : Nat) : x >>> s = 0 ↔ 0 ≤ x ∧ x < 2 ^ s := by
  obtain ⟨h1, h2⟩ := shiftRight_bounds x s
  have hP : (0 : Int) < 2 ^ s := by positivity
  generalize x >>> s = q at h1 h2
  generalize (2 : Int) ^ s = P at h1 h2 hP
  constructor
  · intro h; subst h; constructor <;> linarith
  · intro ⟨h3, h4⟩
    by_contra hq
    rcases lt_or_gt_of_ne hq with hq | hq
    · have : (q + 1) * P ≤ 0 := mul_nonpos_of_nonpos_of_nonneg (by omega) (by omega)
      linarith
    · have : 1 * P ≤ q * P := mul_le_mul_of_nonneg_right (by omega) (by omega)
      linarith

/-- The step of `_lerp` is -1 for a difference in `[-2^s, 0)`. -/
theorem shiftRight_eq_neg_one (x : Int) (s : Nat) (h3 : -2 ^ s ≤ x) (h4 : x < 0) :
    x >>> s = -1 := by
  obtain ⟨h1, h2⟩ := shiftRight_bounds x s
  have hP : (0 : Int) < 2 ^ s := by positivity
  generalize x >>> s = q at h1 h2
  generalize (2 : Int) ^ s = P at h1 h2 hP h3
  by_contra hq
  rcases lt_or_gt_of_ne hq with hq | hq
  · have : (q + 2) * P ≤ 0 := mul_nonpos_of_nonpos_of_nonneg (by omega) (by omega)
    linarith
  · have : 0 ≤ q * P := mul_nonneg (by omega) (by omega)
    linarith

/-- The step of `_lerp` by `s` bits for a difference in `[0, 2^(s+1))`: 0 below `2^s` and 1
from `2^s` on. -/
theorem shiftRight_zero_or_one (x : Int) (s : Nat) (h3 : 0 ≤ x) (h4 : x < 2 * 2 ^ s) :
    (x < 2 ^ s ∧ x >>> s = 0) ∨ (2 ^ s ≤ x ∧ x >>> s = 1) := by
  rcases lt_or_le x (2 ^ s) with h | h
  · exact Or.inl ⟨h, (shiftRight_eq_zero_iff x s).mpr ⟨h3, h⟩⟩
  · right
    refine ⟨h, ?_⟩
    obtain ⟨h1, h2⟩ := shiftRight_bounds x s
    have hP : (0 : Int) < 2 ^ s := by positivity
    generalize x >>> s = q at h1 h2
    generalize (2 : Int) ^ s = P at h1 h2 hP h h4
    by_contra hq
    rcases lt_or_gt_of_ne hq with hq | hq
    · have : q * P ≤ 0 := mul_nonpos_of_nonpos_of_nonneg (by omega) (by omega)
      linarith
    · have : 2 * P ≤ q * P := mul_le_mul_of_nonneg_right (by omega) (by omega)
      linarith

/-! ## Auxiliary lemmas: one coordinate of a subdivision -/

theorem lerp1_rel (u v : Int) (s : Nat) : lerp_rel u v (lerp1 u v s) := by
  unfold lerp_rel lerp1
  have := shiftRight_between (v - u) s
  omega

theorem lerp_rel_split (u v l : Int) (h : lerp_rel u v l) :
    (l - u).natAbs + (v - l).natAbs = (v - u).natAbs := by
  unfold lerp_rel at h; omega

theorem lerp_rel_box (lo hi u v l : Int) (h : lerp_rel u v l) (hu : lo ≤ u ∧ u ≤ hi)
    (hv : lo ≤ v ∧ v ≤ hi) : lo ≤ l ∧ l ≤ hi := by
  unfold lerp_rel at h; omega

theorem natAbs_triangle (u v w : Int) :
    (w - u).natAbs ≤ (v - u).natAbs + (w - v).natAbs := by omega

theorem natAbs_triangle_eq (u v w : Int) (huv : u ≤ v) (huw : u ≤ w)
    (h : (w - u).natAbs = (v - u).natAbs + (w - v).natAbs) : v ≤ w := by omega

theorem lerp_rel_up (u v l : Int) (h : lerp_rel u v l) (hl : u ≤ l) : u ≤ v ∧ l ≤ v := by
  unfold lerp_rel at h; omega

theorem cubic_tv_arith (n1 n2 n3 n4 n5 n6 n7 n8 n9 n10 n11 n12 n13 n14 n15 n16 n17 n18 : Nat)
    (e1 : n1 + n2 = n3) (e2 : n4 + n5 = n6) (e3 : n7 + n8 = n9) (e4 : n10 + n11 = n12)
    (e5 : n13 + n14 = n15) (e6 : n16 + n17 = n18) (t1 : n12 ≤ n2 + n4) (t2 : n15 ≤ n5 + n7)
    (t3 : n18 ≤ n11 + n13) :
    n17 + n14 + n8 ≤ n3 + n6 + n9 ∧
    (n17 + n14 + n8 = n3 + n6 + n9 →
      n1 = 0 ∧ n10 = 0 ∧ n16 = 0 ∧ n12 = n2 + n4 ∧ n15 = n5 + n7 ∧ n18 = n11 + n13) := by
  omega

theorem cubic_tv_le (a b c d ab bc cd abbc bccd f : Int)
    (h1 : lerp_rel a b ab) (h2 : lerp_rel b c bc) (h3 : lerp_rel c d cd)
    (h4 : lerp_rel ab bc abbc) (h5 : lerp_rel bc cd bccd) (h6 : lerp_rel abbc bccd f) :
    tv1 f bccd cd d ≤ tv1 a b c d ∧
    (tv1 f bccd cd d = tv1 a b c d →
      f = a ∧ abbc = a ∧ ab = a ∧ a ≤ b ∧ b ≤ bc ∧ bc ≤ c ∧ c ≤ cd ∧ cd ≤ d ∧
        bc ≤ bccd ∧ bccd ≤ cd) := by
  have key := cubic_tv_arith _ _ _ _ _ _ _ _ _ _ _ _ _ _ _ _ _ _
    (lerp_rel_split _ _ _ h1) (lerp_rel_split _ _ _ h2) (lerp_rel_split _ _ _ h3)
    (lerp_rel_split _ _ _ h4) (lerp_rel_split _ _ _ h5) (lerp_rel_split _ _ _ h6)
    (natAbs_triangle ab b bc) (natAbs_triangle bc c cd) (natAbs_triangle abbc bc bccd)
  unfold tv1
  refine ⟨key.1, fun heq => ?_⟩
  obtain ⟨z1, z2, z3, s1, s2, s3⟩ := key.2 heq
  clear key heq
  have q1 : ab = a := by have := Int.natAbs_eq_zero.mp z1; linarith
  have q2 : abbc = ab := by have := Int.natAbs_eq_zero.mp z2; linarith
  have q3 : f = abbc := by have := Int.natAbs_eq_zero.mp z3; linarith
  clear z1 z2 z3
  have m1 := lerp_rel_up _ _ _ h1 (le_of_eq q1.symm)
  have m2 := lerp_rel_up _ _ _ h4 (le_of_eq q2.symm)
  have m3 := lerp_rel_up _ _ _ h6 (le_of_eq q3.symm)
  have m4 : b ≤ bc := natAbs_triangle_eq ab b bc m1.2 m2.1 s1
  have m5 := lerp_rel_up _ _ _ h2 m4
  have m6 : bc ≤ bccd := natAbs_triangle_eq abbc bc bccd m2.2 m3.1 s3
  have m7 := lerp_rel_up _ _ _ h5 m6
  have m8 : c ≤ cd := natAbs_triangle_eq bc c cd m5.2 m7.1 s2
  have m9 := lerp_rel_up _ _ _ h3 m8
  clear s1 s2 s3 h1 h2 h3 h4 h5 h6
  omega

theorem quad_tv_arith (n1 n2 n3 n4 n5 n6 n10 n11 n12 : Nat)
    (e1 : n1 + n2 = n3) (e2 : n4 + n5 = n6) (e4 : n10 + n11 = n12) (t1 : n12 ≤ n2 + n4) :
    n11 + n5 ≤ n3 + n6 ∧ (n11 + n5 = n3 + n6 → n1 = 0 ∧ n10 = 0 ∧ n12 = n2 + n4) := by
  omega

theorem quad_tv_le (a b c ab bc f : Int)
    (h1 : lerp_rel a b ab) (h2 : lerp_rel b c bc) (h4 : lerp_rel ab bc f) :
    tv1 f f bc c ≤ tv1 a a b c ∧
    (tv1 f f bc c = tv1 a a b c → f = a ∧ ab = a ∧ a ≤ b ∧ b ≤ bc ∧ bc ≤ c) := by
  have key := quad_tv_arith _ _ _ _ _ _ _ _ _
    (lerp_rel_split _ _ _ h1) (lerp_rel_split _ _ _ h2) (lerp_rel_split _ _ _ h4)
    (natAbs_triangle ab b bc)
  unfold tv1
  simp only [sub_self, Int.natAbs_zero, zero_add]
  refine ⟨key.1, fun heq => ?_⟩
  obtain ⟨z1, z2, s1⟩ := key.2 heq
  clear key heq
  have q1 : ab = a := by have := Int.natAbs_eq_zero.mp z1; linarith
  have q2 : f = ab := by have := Int.natAbs_eq_zero.mp z2; linarith
  clear z1 z2
  have m1 := lerp_rel_up _ _ _ h1 (le_of_eq q1.symm)
  have m2 := lerp_rel_up _ _ _ h4 (le_of_eq q2.symm)
  have m4 : b ≤ bc := natAbs_triangle_eq ab b bc m1.2 m2.1 s1
  have m5 := lerp_rel_up _ _ _ h2 m4
  clear s1 h1 h2 h4
  omega


theorem lerp1_eq_self (u v : Int) (s : Nat) (h : lerp1 u v s = u) :
    0 ≤ v - u ∧ v - u < 2 ^ s := by
  unfold lerp1 at h
  exact (shiftRight_eq_zero_iff (v - u) s).mp (by omega)

/-- One coordinate of the right part of a cubic subdivision: the control polygon does not
get longer; when its length stays, its start stays and the inner points do not move away
from the end; when they stay too, every step of the polygon lies in `[0, 2^s)`. -/
theorem cubic1_measure (a b c d : Int) (s : Nat) :
    tv1 (lerp1 (lerp1 (lerp1 a b s) (lerp1 b c s) s) (lerp1 (lerp1 b c s) (lerp1 c d s) s) s)
        (lerp1 (lerp1 b c s) (lerp1 c d s) s) (lerp1 c d s) d ≤ tv1 a b c d ∧
    (tv1 (lerp1 (lerp1 (lerp1 a b s) (lerp1 b c s) s)
          (lerp1 (lerp1 b c s) (lerp1 c d s) s) s)
        (lerp1 (lerp1 b c s) (lerp1 c d s) s) (lerp1 c d s) d = tv1 a b c d →
      lerp1 (lerp1 (lerp1 a b s) (lerp1 b c s) s) (lerp1 (lerp1 b c s) (lerp1 c d s) s) s = a ∧
      psi1 (lerp1 (lerp1 b c s) (lerp1 c d s) s) (lerp1 c d s) d ≤ psi1 b c d ∧
      (psi1 (lerp1 (lerp1 b c s) (lerp1 c d s) s) (lerp1 c d s) d = psi1 b c d →
        lerp1 (lerp1 b c s) (lerp1 c d s) s = b ∧ lerp1 c d s = c ∧
        (0 ≤ b - a ∧ b - a < 2 ^ s) ∧ (0 ≤ c - b ∧ c - b < 2 ^ s) ∧
        (0 ≤ d - c ∧ d - c < 2 ^ s))) := by
  have e1 := lerp1_eq_self a b s
  have e2 := lerp1_eq_self b c s
  have e3 := lerp1_eq_self c d s
  have h1 := lerp1_rel a b s
  have h2 := lerp1_rel b c s
  have h3 := lerp1_rel c d s
  generalize lerp1 a b s = ab at *
  generalize lerp1 b c s = bc at *
  generalize lerp1 c d s = cd at *
  have h4 := lerp1_rel ab bc s
  have h5 := lerp1_rel bc cd s
  generalize lerp1 ab bc s = abbc at *
  generalize lerp1 bc cd s = bccd at *
  have h6 := lerp1_rel abbc bccd s
  generalize lerp1 abbc bccd s = f at *
  obtain ⟨k1, k2⟩ := cubic_tv_le a b c d ab bc cd abbc bccd f h1 h2 h3 h4 h5 h6
  refine ⟨k1, fun heq => ?_⟩
  obtain ⟨m1, m2, m3, m4, m5, m6, m7, m8, m9, m10⟩ := k2 heq
  clear k1 k2 heq h1 h2 h3 h4 h5 h6
  refine ⟨m1, by unfold psi1; omega, fun hpsi => ?_⟩
  have q1 : bccd = b := by unfold psi1 at hpsi; omega
  have q2 : cd = c := by unfold psi1 at hpsi; omega
  exact ⟨q1, q2, e1 m3, e2 (by omega), e3 q2⟩

/-- One coordinate of the right part of a quadratic subdivision, as for the cubic. -/
theorem quad1_measure (a b c : Int) (s : Nat) :
    tv1 (lerp1 (lerp1 a b s) (lerp1 b c s) s) (lerp1 (lerp1 a b s) (lerp1 b c s) s)
        (lerp1 b c s) c ≤ tv1 a a b c ∧
    (tv1 (lerp1 (lerp1 a b s) (lerp1 b c s) s) (lerp1 (lerp1 a b s) (lerp1 b c s) s)
        (lerp1 b c s) c = tv1 a a b c →
      lerp1 (lerp1 a b s) (lerp1 b c s) s = a ∧
      (c - lerp1 b c s).natAbs ≤ (c - b).natAbs ∧
      ((c - lerp1 b c s).natAbs = (c - b).natAbs →
        lerp1 b c s = b ∧ (0 ≤ b - a ∧ b - a < 2 ^ s) ∧ (0 ≤ c - b ∧ c - b < 2 ^ s))) := by
  have e1 := lerp1_eq_self a b s
  have e2 := lerp1_eq_self b c s
  have h1 := lerp1_rel a b s
  have h2 := lerp1_rel b c s
  generalize lerp1 a b s = ab at *
  generalize lerp1 b c s = bc at *
  have h4 := lerp1_rel ab bc s
  generalize lerp1 ab bc s = f at *
  obtain ⟨k1, k2⟩ := quad_tv_le a b c ab bc f h1 h2 h4
  refine ⟨k1, fun heq => ?_⟩
  obtain ⟨m1, m2, m3, m4, m5⟩ := k2 heq
  clear k1 k2 heq h1 h2 h4
  refine ⟨m1, by omega, fun hpsi => ?_⟩
  have q1 : bc = b := by omega
  exact ⟨q1, e1 m2, e2 q1⟩

/-- A shift by enough bits leaves a step of 0 or -1. -/
theorem lerp1_large (lo hi u v : Int) (s : Nat) (hs : hi - lo < 2 ^ s)
    (hu : lo ≤ u ∧ u ≤ hi) (hv : lo ≤ v ∧ v ≤ hi) :
    -1 ≤ lerp1 u v s - u ∧ lerp1 u v s - u ≤ 0 := by
  unfold lerp1
  rcases lt_or_le (v - u) 0 with h | h
  · have := shiftRight_eq_neg_one (v - u) s (by omega) h
    omega
  · have := (shiftRight_eq_zero_iff (v - u) s).mpr ⟨h, by omega⟩
    omega

theorem lerp1_box (lo hi u v : Int) (s : Nat) (hu : lo ≤ u ∧ u ≤ hi)
    (hv : lo ≤ v ∧ v ≤ hi) : lo ≤ lerp1 u v s ∧ lerp1 u v s ≤ hi :=
  lerp_rel_box lo hi u v _ (lerp1_rel u v s) hu hv

/-- One coordinate of the left part of a cubic subdivision by enough bits: steps 0 or -1. -/
theorem cubic1_stair_down (lo hi a b c d : Int) (s : Nat) (hs : hi - lo < 2 ^ s)
    (ha : lo ≤ a ∧ a ≤ hi) (hb : lo ≤ b ∧ b ≤ hi) (hc : lo ≤ c ∧ c ≤ hi)
    (hd : lo ≤ d ∧ d ≤ hi) :
    steps_down (lerp1 a b s - a) (lerp1 (lerp1 a b s) (lerp1 b c s) s - lerp1 a b s)
      (lerp1 (lerp1 (lerp1 a b s) (lerp1 b c s) s) (lerp1 (lerp1 b c s) (lerp1 c d s) s) s
        - lerp1 (lerp1 a b s) (lerp1 b c s) s) := by
  have bab := lerp1_box lo hi a b s ha hb
  have bbc := lerp1_box lo hi b c s hb hc
  have bcd := lerp1_box lo hi c d s hc hd
  have babbc := lerp1_box lo hi _ _ s bab bbc
  have bbccd := lerp1_box lo hi _ _ s bbc bcd
  exact ⟨lerp1_large lo hi _ _ s hs ha hb, lerp1_large lo hi _ _ s hs bab bbc,
    lerp1_large lo hi _ _ s hs babbc bbccd⟩

theorem lerp1_zero_or_one (u v : Int) (s : Nat) (h3 : 0 ≤ v - u) (h4 : v - u < 2 * 2 ^ s) :
    (v - u < 2 ^ s ∧ lerp1 u v s = u) ∨ (2 ^ s ≤ v - u ∧ lerp1 u v s = u + 1) := by
  unfold lerp1
  have := shiftRight_zero_or_one (v - u) s h3 h4
  omega

/-- One coordinate of the left part of a cubic subdivision by `s` bits when every step of
the control polygon lies in `[0, 2^(s+1))`: steps 0 or 1. -/
theorem cubic1_stair_up (a b c d : Int) (s : Nat)
    (hab : 0 ≤ b - a ∧ b - a < 2 * 2 ^ s) (hbc : 0 ≤ c - b ∧ c - b < 2 * 2 ^ s)
    (hcd : 0 ≤ d - c ∧ d - c < 2 * 2 ^ s) :
    steps_up (lerp1 a b s - a) (lerp1 (lerp1 a b s) (lerp1 b c s) s - lerp1 a b s)
      (lerp1 (lerp1 (lerp1 a b s) (lerp1 b c s) s) (lerp1 (lerp1 b c s) (lerp1 c d s) s) s
        - lerp1 (lerp1 a b s) (lerp1 b c s) s) := by
  have h1 := lerp1_zero_or_one a b s hab.1 hab.2
  have h2 := lerp1_zero_or_one b c s hbc.1 hbc.2
  have h3 := lerp1_zero_or_one c d s hcd.1 hcd.2
  generalize lerp1 a b s = ab at *
  generalize lerp1 b c s = bc at *
  generalize lerp1 c d s = cd at *
  have h4 := lerp1_zero_or_one ab bc s (by omega) (by omega)
  have h5 := lerp1_zero_or_one bc cd s (by omega) (by omega)
  generalize lerp1 ab bc s = abbc at *
  generalize lerp1 bc cd s = bccd at *
  have h6 := lerp1_zero_or_one abbc bccd s (by omega) (by omega)
  generalize lerp1 abbc bccd s = f at *
  unfold steps_up
  omega

theorem quad1_stair_down (lo hi a b c : Int) (s : Nat) (hs : hi - lo < 2 ^ s)
    (ha : lo ≤ a ∧ a ≤ hi) (hb : lo ≤ b ∧ b ≤ hi) (hc : lo ≤ c ∧ c ≤ hi) :
    steps_down 0 (lerp1 a b s - a) (lerp1 (lerp1 a b s) (lerp1 b c s) s - lerp1 a b s) := by
  have bab := lerp1_box lo hi a b s ha hb
  have bbc := lerp1_box lo hi b c s hb hc
  exact ⟨by omega, lerp1_large lo hi _ _ s hs ha hb, lerp1_large lo hi _ _ s hs bab bbc⟩

theorem quad1_stair_up (a b c : Int) (s : Nat)
    (hab : 0 ≤ b - a ∧ b - a < 2 * 2 ^ s) (hbc : 0 ≤ c - b ∧ c - b < 2 * 2 ^ s) :
    steps_up 0 (lerp1 a b s - a) (lerp1 (lerp1 a b s) (lerp1 b c s) s - lerp1 a b s) := by
  have h1 := lerp1_zero_or_one a b s hab.1 hab.2
  have h2 := lerp1_zero_or_one b c s hbc.1 hbc.2
  generalize lerp1 a b s = ab at *
  generalize lerp1 b c s = bc at *
  have h4 := lerp1_zero_or_one ab bc s (by omega) (by omega)
  generalize lerp1 ab bc s = f at *
  unfold steps_up
  omega

/-! ## Auxiliary lemmas: a subdivision of a cubic -/

theorem _de_casteljau_box (lo hi : Int) (s : twin_spline_t) (sh : Nat)
    (h : spline_in_box lo hi s) : spline_in_box lo hi (_de_casteljau s sh).2 := by
  obtain ⟨⟨ax, ay⟩, ⟨bx, bY⟩, ⟨cx, cy⟩, ⟨dx, dy⟩⟩ := s
  obtain ⟨hax, hbx, hcx, hdx, hay, hby, hcy, hdy⟩ := h
  have bbcx := lerp1_box lo hi bx cx sh hbx hcx
  have bcdx := lerp1_box lo hi cx dx sh hcx hdx
  have bbcy := lerp1_box lo hi bY cy sh hby hcy
  have bcdy := lerp1_box lo hi cy dy sh hcy hdy
  have babx := lerp1_box lo hi ax bx sh hax hbx
  have baby := lerp1_box lo hi ay bY sh hay hby
  have bbccdx := lerp1_box lo hi _ _ sh bbcx bcdx
  have bbccdy := lerp1_box lo hi _ _ sh bbcy bcdy
  have babbcx := lerp1_box lo hi _ _ sh babx bbcx
  have babbcy := lerp1_box lo hi _ _ sh baby bbcy
  exact ⟨lerp1_box lo hi _ _ sh babbcx bbccdx, bbccdx, bcdx, hdx,
    lerp1_box lo hi _ _ sh babbcy bbccdy, bbccdy, bcdy, hdy⟩

theorem _de_casteljau_stair_down (lo hi : Int) (s : twin_spline_t) (sh : Nat)
    (h : spline_in_box lo hi s) (hs : hi - lo < 2 ^ sh) : is_stair (_de_casteljau s sh).1 := by
  obtain ⟨⟨ax, ay⟩, ⟨bx, bY⟩, ⟨cx, cy⟩, ⟨dx, dy⟩⟩ := s
  obtain ⟨hax, hbx, hcx, hdx, hay, hby, hcy, hdy⟩ := h
  exact Or.inr ⟨cubic1_stair_down lo hi ax bx cx dx sh hs hax hbx hcx hdx,
    cubic1_stair_down lo hi ay bY cy dy sh hs hay hby hcy hdy⟩

theorem _de_casteljau_stair_up (s : twin_spline_t) (sh : Nat)
    (hx : (0 ≤ s.b.x - s.a.x ∧ s.b.x - s.a.x < 2 * 2 ^ sh) ∧
      (0 ≤ s.c.x - s.b.x ∧ s.c.x - s.b.x < 2 * 2 ^ sh) ∧
      (0 ≤ s.d.x - s.c.x ∧ s.d.x - s.c.x < 2 * 2 ^ sh))
    (hy : (0 ≤ s.b.y - s.a.y ∧ s.b.y - s.a.y < 2 * 2 ^ sh) ∧
      (0 ≤ s.c.y - s.b.y ∧ s.c.y - s.b.y < 2 * 2 ^ sh) ∧
      (0 ≤ s.d.y - s.c.y ∧ s.d.y - s.c.y < 2 * 2 ^ sh)) :
    is_stair (_de_casteljau s sh).1 := by
  obtain ⟨⟨ax, ay⟩, ⟨bx, bY⟩, ⟨cx, cy⟩, ⟨dx, dy⟩⟩ := s
  exact Or.inl ⟨cubic1_stair_up ax bx cx dx sh hx.1 hx.2.1 hx.2.2,
    cubic1_stair_up ay bY cy dy sh hy.1 hy.2.1 hy.2.2⟩

/-- The right part of a subdivision: the control polygon does not get longer; when its
length stays, the inner points do not move away from the end; when they stay too, the right
part is the spline itself and every step of its control polygon lies in `[0, 2^sh)`. -/
theorem _de_casteljau_measure (s : twin_spline_t) (sh : Nat) :
    spline_tv (_de_casteljau s sh).2 ≤ spline_tv s ∧
    (spline_tv (_de_casteljau s sh).2 = spline_tv s →
      spline_psi (_de_casteljau s sh).2 ≤ spline_psi s ∧
      (spline_psi (_de_casteljau s sh).2 = spline_psi s →
        (_de_casteljau s sh).2 = s ∧
        ((0 ≤ s.b.x - s.a.x ∧ s.b.x - s.a.x < 2 ^ sh) ∧
          (0 ≤ s.c.x - s.b.x ∧ s.c.x - s.b.x < 2 ^ sh) ∧
          (0 ≤ s.d.x - s.c.x ∧ s.d.x - s.c.x < 2 ^ sh)) ∧
        ((0 ≤ s.b.y - s.a.y ∧ s.b.y - s.a.y < 2 ^ sh) ∧
          (0 ≤ s.c.y - s.b.y ∧ s.c.y - s.b.y < 2 ^ sh) ∧
          (0 ≤ s.d.y - s.c.y ∧ s.d.y - s.c.y < 2 ^ sh)))) := by
  obtain ⟨⟨ax, ay⟩, ⟨bx, bY⟩, ⟨cx, cy⟩, ⟨dx, dy⟩⟩ := s
  obtain ⟨x1, x2⟩ := cubic1_measure ax bx cx dx sh
  obtain ⟨y1, y2⟩ := cubic1_measure ay bY cy dy sh
  have hx : spline_tv (_de_casteljau ⟨⟨ax, ay⟩, ⟨bx, bY⟩, ⟨cx, cy⟩, ⟨dx, dy⟩⟩ sh).2 =
      tv1 (lerp1 (lerp1 (lerp1 ax bx sh) (lerp1 bx cx sh) sh)
          (lerp1 (lerp1 bx cx sh) (lerp1 cx dx sh) sh) sh)
        (lerp1 (lerp1 bx cx sh) (lerp1 cx dx sh) sh) (lerp1 cx dx sh) dx +
      tv1 (lerp1 (lerp1 (lerp1 ay bY sh) (lerp1 bY cy sh) sh)
          (lerp1 (lerp1 bY cy sh) (lerp1 cy dy sh) sh) sh)
        (lerp1 (lerp1 bY cy sh) (lerp1 cy dy sh) sh) (lerp1 cy dy sh) dy := rfl
  have hp : spline_psi (_de_casteljau ⟨⟨ax, ay⟩, ⟨bx, bY⟩, ⟨cx, cy⟩, ⟨dx, dy⟩⟩ sh).2 =
      psi1 (lerp1 (lerp1 bx cx sh) (lerp1 cx dx sh) sh) (lerp1 cx dx sh) dx +
      psi1 (lerp1 (lerp1 bY cy sh) (lerp1 cy dy sh) sh) (lerp1 cy dy sh) dy := rfl
  have hr : (_de_casteljau ⟨⟨ax, ay⟩, ⟨bx, bY⟩, ⟨cx, cy⟩, ⟨dx, dy⟩⟩ sh).2 =
      ⟨⟨lerp1 (lerp1 (lerp1 ax bx sh) (lerp1 bx cx sh) sh)
          (lerp1 (lerp1 bx cx sh) (lerp1 cx dx sh) sh) sh,
        lerp1 (lerp1 (lerp1 ay bY sh) (lerp1 bY cy sh) sh)
          (lerp1 (lerp1 bY cy sh) (lerp1 cy dy sh) sh) sh⟩,
       ⟨lerp1 (lerp1 bx cx sh) (lerp1 cx dx sh) sh,
        lerp1 (lerp1 bY cy sh) (lerp1 cy dy sh) sh⟩,
       ⟨lerp1 cx dx sh, lerp1 cy dy sh⟩, ⟨dx, dy⟩⟩ := rfl
  have ht : spline_tv ⟨⟨ax, ay⟩, ⟨bx, bY⟩, ⟨cx, cy⟩, ⟨dx, dy⟩⟩ =
      tv1 ax bx cx dx + tv1 ay bY cy dy := rfl
  have hq : spline_psi ⟨⟨ax, ay⟩, ⟨bx, bY⟩, ⟨cx, cy⟩, ⟨dx, dy⟩⟩ =
      psi1 bx cx dx + psi1 bY cy dy := rfl
  rw [hx, hp, hr, ht, hq]
  refine ⟨Nat.add_le_add x1 y1, fun heq => ?_⟩
  obtain ⟨x3, x4, x5⟩ := x2 (by omega)
  obtain ⟨y3, y4, y5⟩ := y2 (by omega)
  refine ⟨Nat.add_le_add x4 y4, fun hpsi => ?_⟩
  obtain ⟨x6, x7, x8⟩ := x5 (by omega)
  obtain ⟨y6, y7, y8⟩ := y5 (by omega)
  refine ⟨?_, x8, y8⟩
  rw [x3, y3, x6, y6, x7, y7]

/-! ## Auxiliary lemmas: the loops of the cubic flattener end -/

theorem _twin_spline_find_shift_none
    (dist : twin_spoint_t → twin_spoint_t → twin_spoint_t → Int) (tol2 : Int)
    (spline : twin_spline_t) (fuel shift : Nat)
    (h : _twin_spline_find_shift dist tol2 spline fuel shift = none) :
    ∀ t, shift ≤ t → t < shift + fuel →
      is_flat dist (_de_casteljau spline t).1 tol2 = false := by
  induction fuel generalizing shift with
  | zero => intro t h1 h2; omega
  | succ n ih =>
    rw [_twin_spline_find_shift] at h
    by_cases hf : is_flat dist (_de_casteljau spline shift).1 tol2 = true
    · simp [hf] at h
    · simp only [hf] at h
      intro t h1 h2
      by_cases hts : t = shift
      · subst hts; simpa using hf
      · exact ih (shift + 1) h t (by omega) (by omega)

theorem _twin_spline_find_shift_mono
    (dist : twin_spoint_t → twin_spoint_t → twin_spoint_t → Int) (tol2 : Int)
    (spline : twin_spline_t) (fuel fuel2 shift : Nat) (v : Nat × twin_spline_t × twin_spline_t)
    (hle : fuel ≤ fuel2)
    (h : _twin_spline_find_shift dist tol2 spline fuel shift = some v) :
    _twin_spline_find_shift dist tol2 spline fuel2 shift = some v := by
  induction fuel generalizing shift fuel2 with
  | zero => simp [_twin_spline_find_shift] at h
  | succ n ih =>
    obtain ⟨m, rfl⟩ : ∃ m, fuel2 = m + 1 := ⟨fuel2 - 1, by omega⟩
    rw [_twin_spline_find_shift] at h ⊢
    by_cases hf : is_flat dist (_de_casteljau spline shift).1 tol2 = true
    · simpa only [hf, if_true] using h
    · simp only [hf] at h ⊢
      exact ih m (shift + 1) (by omega) h

theorem pow_two_mono_int (S t : Nat) (h : S ≤ t) : (2 : Int) ^ S ≤ 2 ^ t :=
  pow_le_pow_right₀ (by norm_num) h

/-- The inner loop ends: a subdivision by enough bits has a staircase as its left part. -/
theorem _twin_spline_find_shift_terminates
    (dist : twin_spoint_t → twin_spoint_t → twin_spoint_t → Int) (tol2 : Int)
    (hstair : ∀ s, is_stair s → is_flat dist s tol2 = true)
    (lo hi : Int) (S bound : Nat) (hS : hi - lo < 2 ^ S) (hb : S < bound)
    (spline : twin_spline_t) (hbox : spline_in_box lo hi spline) (shift : Nat) :
    ∃ v, _twin_spline_find_shift dist tol2 spline bound shift = some v := by
  cases h : _twin_spline_find_shift dist tol2 spline bound shift with
  | some v => exact ⟨v, rfl⟩
  | none =>
    exfalso
    have h1 := _twin_spline_find_shift_none dist tol2 spline bound shift h (max shift S)
      (le_max_left _ _) (by omega)
    have h2 := hstair _ (_de_casteljau_stair_down lo hi spline (max shift S) hbox
      (lt_of_lt_of_le hS (pow_two_mono_int S _ (le_max_right _ _))))
    rw [h2] at h1
    exact Bool.noConfusion h1

theorem _twin_spline_decompose_loop_succ
    (dist : twin_spoint_t → twin_spoint_t → twin_spoint_t → Int) (tol2 : Int)
    (bound fuel : Nat) (spline : twin_spline_t) (shift sh : Nat) (l r : twin_spline_t)
    (hf : is_flat dist spline tol2 ≠ true)
    (hfs : _twin_spline_find_shift dist tol2 spline bound shift = some (sh, l, r)) :
    _twin_spline_decompose_loop dist tol2 bound (fuel + 1) spline shift =
      (l.d :: (_twin_spline_decompose_loop dist tol2 bound fuel r sh).1,
        (_twin_spline_decompose_loop dist tol2 bound fuel r sh).2) := by
  rw [_twin_spline_decompose_loop]
  simp only [hf, hfs]
  rfl

/-- The outer loop ends when every staircase passes the flatness test. -/
theorem _twin_spline_decompose_loop_terminates
    (dist : twin_spoint_t → twin_spoint_t → twin_spoint_t → Int) (tol2 : Int)
    (hstair : ∀ s, is_stair s → is_flat dist s tol2 = true)
    (lo hi : Int) (S bound : Nat) (hS : hi - lo < 2 ^ S) (hb : S < bound) :
    ∀ (n1 n2 n3 : Nat) (spline : twin_spline_t) (shift : Nat),
      spline_tv spline = n1 → spline_psi spline = n2 → shift = n3 →
      spline_in_box lo hi spline → 1 ≤ shift →
      ∃ fuel, (_twin_spline_decompose_loop dist tol2 bound fuel spline shift).2 = true := by
  intro n1
  induction n1 using Nat.strong_induction_on with
  | _ n1 ih1 =>
  intro n2
  induction n2 using Nat.strong_induction_on with
  | _ n2 ih2 =>
  intro n3
  induction n3 using Nat.strong_induction_on with
  | _ n3 ih3 =>
  intro spline shift htv hpsi hsh hbox hshift
  by_cases hf : is_flat dist spline tol2 = true
  · exact ⟨1, by rw [_twin_spline_decompose_loop]; simp [hf]⟩
  obtain ⟨⟨sh, l, r⟩, hfs⟩ := _twin_spline_find_shift_terminates dist tol2 hstair lo hi S bound
    hS hb spline hbox shift
  obtain ⟨s, hs1, -, hlr, hlflat, hsh2, hmin⟩ :=
    _twin_spline_find_shift_spec dist tol2 spline bound shift sh l r hfs
  have hr : r = (_de_casteljau spline s).2 := by rw [← hlr]
  have hrbox : spline_in_box lo hi r := by rw [hr]; exact _de_casteljau_box lo hi spline s hbox
  have hsh1 : 1 ≤ sh := by rw [hsh2]; split <;> omega
  obtain ⟨m1, m2⟩ := _de_casteljau_measure spline s
  rw [← hr] at m1 m2
  have step : (∃ fuel, (_twin_spline_decompose_loop dist tol2 bound fuel r sh).2 = true) →
      ∃ fuel, (_twin_spline_decompose_loop dist tol2 bound fuel spline shift).2 = true := by
    rintro ⟨fuel, hfuel⟩
    exact ⟨fuel + 1, by
      rw [_twin_spline_decompose_loop_succ dist tol2 bound fuel spline shift sh l r hf hfs]
      exact hfuel⟩
  apply step
  rcases Nat.lt_or_ge (spline_tv r) n1 with h1 | h1
  · exact ih1 _ h1 _ _ r sh rfl rfl rfl hrbox hsh1
  have e1 : spline_tv r = n1 := by omega
  obtain ⟨m3, m4⟩ := m2 (by omega)
  rcases Nat.lt_or_ge (spline_psi r) n2 with h2 | h2
  · exact ih2 _ h2 _ r sh e1 rfl rfl hrbox hsh1
  have e2 : spline_psi r = n2 := by omega
  obtain ⟨m5, m6, m7⟩ := m4 (by omega)
  have hs_eq : s = shift := by
    by_contra hne
    have hlt : shift < s := by omega
    have hnf := hmin (s - 1) (by omega) (by omega)
    have h2s : (2 : Int) * 2 ^ (s - 1) = 2 ^ s := by
      rw [← pow_succ']; congr 1; omega
    have hup := hstair _ (_de_casteljau_stair_up spline (s - 1)
      (by rw [h2s]; exact m6) (by rw [h2s]; exact m7))
    rw [hup] at hnf
    exact Bool.noConfusion hnf
  have hs_gt : 1 < s := by
    by_contra hle
    have hs1 : s = 1 := by omega
    rw [hs1] at m6 m7
    apply hf
    apply hstair
    left
    unfold steps_up
    constructor <;> omega
  have hsh3 : sh < n3 := by rw [hsh2, if_pos hs_gt]; omega
  exact ih3 _ hsh3 r sh e1 e2 rfl hrbox hsh1

theorem _twin_spline_decompose_loop_mono
    (dist : twin_spoint_t → twin_spoint_t → twin_spoint_t → Int) (tol2 : Int)
    (bound bound2 fuel fuel2 : Nat) (hb : bound ≤ bound2) (hle : fuel ≤ fuel2)
    (spline : twin_spline_t) (shift : Nat)
    (h : (_twin_spline_decompose_loop dist tol2 bound fuel spline shift).2 = true) :
    _twin_spline_decompose_loop dist tol2 bound2 fuel2 spline shift =
      _twin_spline_decompose_loop dist tol2 bound fuel spline shift := by
  induction fuel generalizing fuel2 spline shift with
  | zero => simp [_twin_spline_decompose_loop] at h
  | succ n ih =>
    obtain ⟨m, rfl⟩ : ∃ m, fuel2 = m + 1 := ⟨fuel2 - 1, by omega⟩
    by_cases hf : is_flat dist spline tol2 = true
    · rw [_twin_spline_decompose_loop, _twin_spline_decompose_loop]
      simp only [hf, if_true]
    · cases hfs : _twin_spline_find_shift dist tol2 spline bound shift with
      | none =>
        rw [_twin_spline_decompose_loop] at h
        simp [hf, hfs] at h
      | some v =>
        obtain ⟨sh, l, r⟩ := v
        have hfs2 := _twin_spline_find_shift_mono dist tol2 spline bound bound2 shift _ hb hfs
        rw [_twin_spline_decompose_loop_succ dist tol2 bound n spline shift sh l r hf hfs] at h ⊢
        rw [_twin_spline_decompose_loop_succ dist tol2 bound2 m spline shift sh l r hf hfs2]
        rw [ih m (by omega) r sh h]

theorem spline_in_box_exists (s : twin_spline_t) : ∃ lo hi, spline_in_box lo hi s := by
  have h1 : s.a.x ≤ (s.a.x.natAbs : Int) ∧ -(s.a.x.natAbs : Int) ≤ s.a.x := by omega
  have h2 : s.b.x ≤ (s.b.x.natAbs : Int) ∧ -(s.b.x.natAbs : Int) ≤ s.b.x := by omega
  have h3 : s.c.x ≤ (s.c.x.natAbs : Int) ∧ -(s.c.x.natAbs : Int) ≤ s.c.x := by omega
  have h4 : s.d.x ≤ (s.d.x.natAbs : Int) ∧ -(s.d.x.natAbs : Int) ≤ s.d.x := by omega
  have h5 : s.a.y ≤ (s.a.y.natAbs : Int) ∧ -(s.a.y.natAbs : Int) ≤ s.a.y := by omega
  have h6 : s.b.y ≤ (s.b.y.natAbs : Int) ∧ -(s.b.y.natAbs : Int) ≤ s.b.y := by omega
  have h7 : s.c.y ≤ (s.c.y.natAbs : Int) ∧ -(s.c.y.natAbs : Int) ≤ s.c.y := by omega
  have h8 : s.d.y ≤ (s.d.y.natAbs : Int) ∧ -(s.d.y.natAbs : Int) ≤ s.d.y := by omega
  refine ⟨-((s.a.x.natAbs : Int) + s.b.x.natAbs + s.c.x.natAbs + s.d.x.natAbs + s.a.y.natAbs +
      s.b.y.natAbs + s.c.y.natAbs + s.d.y.natAbs),
    (s.a.x.natAbs : Int) + s.b.x.natAbs + s.c.x.natAbs + s.d.x.natAbs + s.a.y.natAbs +
      s.b.y.natAbs + s.c.y.natAbs + s.d.y.natAbs, ?_⟩
  unfold spline_in_box
  generalize (s.a.x.natAbs : Int) = n1 at *
  generalize (s.b.x.natAbs : Int) = n2 at *
  generalize (s.c.x.natAbs : Int) = n3 at *
  generalize (s.d.x.natAbs : Int) = n4 at *
  generalize (s.a.y.natAbs : Int) = n5 at *
  generalize (s.b.y.natAbs : Int) = n6 at *
  generalize (s.c.y.natAbs : Int) = n7 at *
  generalize (s.d.y.natAbs : Int) = n8 at *
  omega

theorem int_lt_two_pow_toNat (w : Int) : w < 2 ^ w.toNat := by
  rcases lt_or_le w 0 with h | h
  · have : (0 : Int) < 2 ^ w.toNat := by positivity
    omega
  · have h1 : (w.toNat : Int) < ((2 ^ w.toNat : Nat) : Int) := by
      exact_mod_cast Nat.lt_two_pow w.toNat
    have h2 : (w.toNat : Int) = w := Int.toNat_of_nonneg h
    rw [h2] at h1
    simpa using h1

/-- The cubic flattener returns when every staircase passes the flatness test: from some
bound on, the bound on the passes of the loops is not reached. -/
theorem _twin_spline_decompose_terminates
    (dist : twin_spoint_t → twin_spoint_t → twin_spoint_t → Int) (tol2 : Int)
    (hstair : ∀ s, is_stair s → is_flat dist s tol2 = true) (spline : twin_spline_t) :
    ∃ fuel0, ∀ fuel, fuel0 ≤ fuel →
      (_twin_spline_decompose dist tol2 fuel spline).2 = true ∧
      _twin_spline_decompose dist tol2 fuel spline =
        _twin_spline_decompose dist tol2 fuel0 spline := by
  obtain ⟨lo, hi, hbox⟩ := spline_in_box_exists spline
  obtain ⟨n, hn⟩ := _twin_spline_decompose_loop_terminates dist tol2 hstair lo hi
    (hi - lo).toNat ((hi - lo).toNat + 1) (int_lt_two_pow_toNat _) (by omega) _ _ _ spline 2
    rfl rfl rfl hbox (by omega)
  have key : ∀ fuel, max ((hi - lo).toNat + 1) n ≤ fuel →
      _twin_spline_decompose_loop dist tol2 fuel fuel spline 2 =
        _twin_spline_decompose_loop dist tol2 ((hi - lo).toNat + 1) n spline 2 := fun fuel hfuel =>
    _twin_spline_decompose_loop_mono dist tol2 _ fuel n fuel
      (le_trans (le_max_left _ _) hfuel) (le_trans (le_max_right _ _) hfuel) spline 2 hn
  refine ⟨max ((hi - lo).toNat + 1) n, fun fuel hfuel => ?_⟩
  unfold _twin_spline_decompose
  simp only
  rw [key fuel hfuel, key _ (le_refl _)]
  exact ⟨hn, rfl⟩

/-! ## Auxiliary lemmas: a subdivision of a quadratic -/

theorem _quad_de_casteljau_box (lo hi : Int) (s : twin_quad_spline_t) (sh : Nat)
    (h : quad_spline_in_box lo hi s) : quad_spline_in_box lo hi (_quad_de_casteljau s sh).2 := by
  obtain ⟨⟨ax, ay⟩, ⟨bx, bY⟩, ⟨cx, cy⟩⟩ := s
  obtain ⟨hax, hbx, hcx, hay, hby, hcy⟩ := h
  have bbcx := lerp1_box lo hi bx cx sh hbx hcx
  have bbcy := lerp1_box lo hi bY cy sh hby hcy
  have babx := lerp1_box lo hi ax bx sh hax hbx
  have baby := lerp1_box lo hi ay bY sh hay hby
  exact ⟨lerp1_box lo hi _ _ sh babx bbcx, bbcx, hcx,
    lerp1_box lo hi _ _ sh baby bbcy, bbcy, hcy⟩

theorem _quad_de_casteljau_stair_down (lo hi : Int) (s : twin_quad_spline_t) (sh : Nat)
    (h : quad_spline_in_box lo hi s) (hs : hi - lo < 2 ^ sh) :
    quad_is_stair (_quad_de_casteljau s sh).1 := by
  obtain ⟨⟨ax, ay⟩, ⟨bx, bY⟩, ⟨cx, cy⟩⟩ := s
  obtain ⟨hax, hbx, hcx, hay, hby, hcy⟩ := h
  exact Or.inr ⟨quad1_stair_down lo hi ax bx cx sh hs hax hbx hcx,
    quad1_stair_down lo hi ay bY cy sh hs hay hby hcy⟩

theorem _quad_de_casteljau_stair_up (s : twin_quad_spline_t) (sh : Nat)
    (hx : (0 ≤ s.p1.x - s.p0.x ∧ s.p1.x - s.p0.x < 2 * 2 ^ sh) ∧
      (0 ≤ s.p2.x - s.p1.x ∧ s.p2.x - s.p1.x < 2 * 2 ^ sh))
    (hy : (0 ≤ s.p1.y - s.p0.y ∧ s.p1.y - s.p0.y < 2 * 2 ^ sh) ∧
      (0 ≤ s.p2.y - s.p1.y ∧ s.p2.y - s.p1.y < 2 * 2 ^ sh)) :
    quad_is_stair (_quad_de_casteljau s sh).1 := by
  obtain ⟨⟨ax, ay⟩, ⟨bx, bY⟩, ⟨cx, cy⟩⟩ := s
  exact Or.inl ⟨quad1_stair_up ax bx cx sh hx.1 hx.2, quad1_stair_up ay bY cy sh hy.1 hy.2⟩

/-- The right part of a subdivision of a quadratic: the control polygon does not get
longer; when its length stays, the inner point does not move away from the end; when it
stays too, the right part is the spline itself and every step of its control polygon lies
in `[0, 2^sh)`. -/
theorem _quad_de_casteljau_measure (s : twin_quad_spline_t) (sh : Nat) :
    quad_spline_tv (_quad_de_casteljau s sh).2 ≤ quad_spline_tv s ∧
    (quad_spline_tv (_quad_de_casteljau s sh).2 = quad_spline_tv s →
      quad_spline_psi (_quad_de_casteljau s sh).2 ≤ quad_spline_psi s ∧
      (quad_spline_psi (_quad_de_casteljau s sh).2 = quad_spline_psi s →
        (_quad_de_casteljau s sh).2 = s ∧
        ((0 ≤ s.p1.x - s.p0.x ∧ s.p1.x - s.p0.x < 2 ^ sh) ∧
          (0 ≤ s.p2.x - s.p1.x ∧ s.p2.x - s.p1.x < 2 ^ sh)) ∧
        ((0 ≤ s.p1.y - s.p0.y ∧ s.p1.y - s.p0.y < 2 ^ sh) ∧
          (0 ≤ s.p2.y - s.p1.y ∧ s.p2.y - s.p1.y < 2 ^ sh)))) := by
  obtain ⟨⟨ax, ay⟩, ⟨bx, bY⟩, ⟨cx, cy⟩⟩ := s
  obtain ⟨x1, x2⟩ := quad1_measure ax bx cx sh
  obtain ⟨y1, y2⟩ := quad1_measure ay bY cy sh
  have hx : quad_spline_tv (_quad_de_casteljau ⟨⟨ax, ay⟩, ⟨bx, bY⟩, ⟨cx, cy⟩⟩ sh).2 =
      tv1 (lerp1 (lerp1 ax bx sh) (lerp1 bx cx sh) sh) (lerp1 (lerp1 ax bx sh) (lerp1 bx cx sh) sh)
        (lerp1 bx cx sh) cx +
      tv1 (lerp1 (lerp1 ay bY sh) (lerp1 bY cy sh) sh) (lerp1 (lerp1 ay bY sh) (lerp1 bY cy sh) sh)
        (lerp1 bY cy sh) cy := rfl
  have hp : quad_spline_psi (_quad_de_casteljau ⟨⟨ax, ay⟩, ⟨bx, bY⟩, ⟨cx, cy⟩⟩ sh).2 =
      (cx - lerp1 bx cx sh).natAbs + (cy - lerp1 bY cy sh).natAbs := rfl
  have hr : (_quad_de_casteljau ⟨⟨ax, ay⟩, ⟨bx, bY⟩, ⟨cx, cy⟩⟩ sh).2 =
      ⟨⟨lerp1 (lerp1 ax bx sh) (lerp1 bx cx sh) sh, lerp1 (lerp1 ay bY sh) (lerp1 bY cy sh) sh⟩,
       ⟨lerp1 bx cx sh, lerp1 bY cy sh⟩, ⟨cx, cy⟩⟩ := rfl
  have ht : quad_spline_tv ⟨⟨ax, ay⟩, ⟨bx, bY⟩, ⟨cx, cy⟩⟩ =
      tv1 ax ax bx cx + tv1 ay ay bY cy := rfl
  have hq : quad_spline_psi ⟨⟨ax, ay⟩, ⟨bx, bY⟩, ⟨cx, cy⟩⟩ =
      (cx - bx).natAbs + (cy - bY).natAbs := rfl
  rw [hx, hp, hr, ht, hq]
  refine ⟨Nat.add_le_add x1 y1, fun heq => ?_⟩
  obtain ⟨x3, x4, x5⟩ := x2 (by omega)
  obtain ⟨y3, y4, y5⟩ := y2 (by omega)
  refine ⟨Nat.add_le_add x4 y4, fun hpsi => ?_⟩
  obtain ⟨x6, x8⟩ := x5 (by omega)
  obtain ⟨y6, y8⟩ := y5 (by omega)
  refine ⟨?_, x8, y8⟩
  rw [x3, y3, x6, y6]

/-! ## Auxiliary lemmas: the loops of the quadratic flattener end -/

theorem _twin_quad_spline_find_shift_none
    (dist : twin_spoint_t → twin_spoint_t → twin_spoint_t → Int) (tol2 : Int)
    (spline : twin_quad_spline_t) (fuel shift : Nat)
    (h : _twin_quad_spline_find_shift dist tol2 spline fuel shift = none) :
    ∀ t, shift ≤ t → t < shift + fuel →
      _quad_is_flat dist (_quad_de_casteljau spline t).1 tol2 = false := by
  induction fuel generalizing shift with
  | zero => intro t h1 h2; omega
  | succ n ih =>
    rw [_twin_quad_spline_find_shift] at h
    by_cases hf : _quad_is_flat dist (_quad_de_casteljau spline shift).1 tol2 = true
    · simp [hf] at h
    · simp only [hf] at h
      intro t h1 h2
      by_cases hts : t = shift
      · subst hts; simpa using hf
      · exact ih (shift + 1) h t (by omega) (by omega)

theorem _twin_quad_spline_find_shift_mono
    (dist : twin_spoint_t → twin_spoint_t → twin_spoint_t → Int) (tol2 : Int)
    (spline : twin_quad_spline_t) (fuel fuel2 shift : Nat) (v : Nat × twin_quad_spline_t × twin_quad_spline_t)
    (hle : fuel ≤ fuel2)
    (h : _twin_quad_spline_find_shift dist tol2 spline fuel shift = some v) :
    _twin_quad_spline_find_shift dist tol2 spline fuel2 shift = some v := by
  induction fuel generalizing shift fuel2 with
  | zero => simp [_twin_quad_spline_find_shift] at h
  | succ n ih =>
    obtain ⟨m, rfl⟩ : ∃ m, fuel2 = m + 1 := ⟨fuel2 - 1, by omega⟩
    rw [_twin_quad_spline_find_shift] at h ⊢
    by_cases hf : _quad_is_flat dist (_quad_de_casteljau spline shift).1 tol2 = true
    · simpa only [hf, if_true] using h
    · simp only [hf] at h ⊢
      exact ih m (shift + 1) (by omega) h

/-- The inner loop ends: a subdivision by enough bits has a staircase as its left part. -/
theorem _twin_quad_spline_find_shift_terminates
    (dist : twin_spoint_t → twin_spoint_t → twin_spoint_t → Int) (tol2 : Int)
    (hstair : ∀ s, quad_is_stair s → _quad_is_flat dist s tol2 = true)
    (lo hi : Int) (S bound : Nat) (hS : hi - lo < 2 ^ S) (hb : S < bound)
    (spline : twin_quad_spline_t) (hbox : quad_spline_in_box lo hi spline) (shift : Nat) :
    ∃ v, _twin_quad_spline_find_shift dist tol2 spline bound shift = some v := by
  cases h : _twin_quad_spline_find_shift dist tol2 spline bound shift with
  | some v => exact ⟨v, rfl⟩
  | none =>
    exfalso
    have h1 := _twin_quad_spline_find_shift_none dist tol2 spline bound shift h (max shift S)
      (le_max_left _ _) (by omega)
    have h2 := hstair _ (_quad_de_casteljau_stair_down lo hi spline (max shift S) hbox
      (lt_of_lt_of_le hS (pow_two_mono_int S _ (le_max_right _ _))))
    rw [h2] at h1
    exact Bool.noConfusion h1

theorem _twin_quad_spline_decompose_loop_succ
    (dist : twin_spoint_t → twin_spoint_t → twin_spoint_t → Int) (tol2 : Int)
    (bound fuel : Nat) (spline : twin_quad_spline_t) (shift sh : Nat) (l r : twin_quad_spline_t)
    (hf : _quad_is_flat dist spline tol2 ≠ true)
    (hfs : _twin_quad_spline_find_shift dist tol2 spline bound shift = some (sh, l, r)) :
    _twin_quad_spline_decompose_loop dist tol2 bound (fuel + 1) spline shift =
      (l.p2 :: (_twin_quad_spline_decompose_loop dist tol2 bound fuel r sh).1,
        (_twin_quad_spline_decompose_loop dist tol2 bound fuel r sh).2) := by
  rw [_twin_quad_spline_decompose_loop]
  simp only [hf, hfs]
  rfl

/-- The outer loop ends when every staircase passes the flatness test. -/
theorem _twin_quad_spline_decompose_loop_terminates
    (dist : twin_spoint_t → twin_spoint_t → twin_spoint_t → Int) (tol2 : Int)
    (hstair : ∀ s, quad_is_stair s → _quad_is_flat dist s tol2 = true)
    (lo hi : Int) (S bound : Nat) (hS : hi - lo < 2 ^ S) (hb : S < bound) :
    ∀ (n1 n2 n3 : Nat) (spline : twin_quad_spline_t) (shift : Nat),
      quad_spline_tv spline = n1 → quad_spline_psi spline = n2 → shift = n3 →
      quad_spline_in_box lo hi spline → 1 ≤ shift →
      ∃ fuel, (_twin_quad_spline_decompose_loop dist tol2 bound fuel spline shift).2 = true := by
  intro n1
  induction n1 using Nat.strong_induction_on with
  | _ n1 ih1 =>
  intro n2
  induction n2 using Nat.strong_induction_on with
  | _ n2 ih2 =>
  intro n3
  induction n3 using Nat.strong_induction_on with
  | _ n3 ih3 =>
  intro spline shift htv hpsi hsh hbox hshift
  by_cases hf : _quad_is_flat dist spline tol2 = true
  · exact ⟨1, by rw [_twin_quad_spline_decompose_loop]; simp [hf]⟩
  obtain ⟨⟨sh, l, r⟩, hfs⟩ := _twin_quad_spline_find_shift_terminates dist tol2 hstair lo hi S bound
    hS hb spline hbox shift
  obtain ⟨s, hs1, -, hlr, hlflat, hsh2, hmin⟩ :=
    _twin_quad_spline_find_shift_spec dist tol2 spline bound shift sh l r hfs
  have hr : r = (_quad_de_casteljau spline s).2 := by rw [← hlr]
  have hrbox : quad_spline_in_box lo hi r := by rw [hr]; exact _quad_de_casteljau_box lo hi spline s hbox
  have hsh1 : 1 ≤ sh := by rw [hsh2]; split <;> omega
  obtain ⟨m1, m2⟩ := _quad_de_casteljau_measure spline s
  rw [← hr] at m1 m2
  have step : (∃ fuel, (_twin_quad_spline_decompose_loop dist tol2 bound fuel r sh).2 = true) →
      ∃ fuel, (_twin_quad_spline_decompose_loop dist tol2 bound fuel spline shift).2 = true := by
    rintro ⟨fuel, hfuel⟩
    exact ⟨fuel + 1, by
      rw [_twin_quad_spline_decompose_loop_succ dist tol2 bound fuel spline shift sh l r hf hfs]
      exact hfuel⟩
  apply step
  rcases Nat.lt_or_ge (quad_spline_tv r) n1 with h1 | h1
  · exact ih1 _ h1 _ _ r sh rfl rfl rfl hrbox hsh1
  have e1 : quad_spline_tv r = n1 := by omega
  obtain ⟨m3, m4⟩ := m2 (by omega)
  rcases Nat.lt_or_ge (quad_spline_psi r) n2 with h2 | h2
  · exact ih2 _ h2 _ r sh e1 rfl rfl hrbox hsh1
  have e2 : quad_spline_psi r = n2 := by omega
  obtain ⟨m5, m6, m7⟩ := m4 (by omega)
  have hs_eq : s = shift := by
    by_contra hne
    have hlt : shift < s := by omega
    have hnf := hmin (s - 1) (by omega) (by omega)
    have h2s : (2 : Int) * 2 ^ (s - 1) = 2 ^ s := by
      rw [← pow_succ']; congr 1; omega
    have hup := hstair _ (_quad_de_casteljau_stair_up spline (s - 1)
      (by rw [h2s]; exact m6) (by rw [h2s]; exact m7))
    rw [hup] at hnf
    exact Bool.noConfusion hnf
  have hs_gt : 1 < s := by
    by_contra hle
    have hs1 : s = 1 := by omega
    rw [hs1] at m6 m7
    apply hf
    apply hstair
    left
    unfold steps_up
    constructor <;> omega
  have hsh3 : sh < n3 := by rw [hsh2, if_pos hs_gt]; omega
  exact ih3 _ hsh3 r sh e1 e2 rfl hrbox hsh1

theorem _twin_quad_spline_decompose_loop_mono
    (dist : twin_spoint_t → twin_spoint_t → twin_spoint_t → Int) (tol2 : Int)
    (bound bound2 fuel fuel2 : Nat) (hb : bound ≤ bound2) (hle : fuel ≤ fuel2)
    (spline : twin_quad_spline_t) (shift : Nat)
    (h : (_twin_quad_spline_decompose_loop dist tol2 bound fuel spline shift).2 = true) :
    _twin_quad_spline_decompose_loop dist tol2 bound2 fuel2 spline shift =
      _twin_quad_spline_decompose_loop dist tol2 bound fuel spline shift := by
  induction fuel generalizing fuel2 spline shift with
  | zero => simp [_twin_quad_spline_decompose_loop] at h
  | succ n ih =>
    obtain ⟨m, rfl⟩ : ∃ m, fuel2 = m + 1 := ⟨fuel2 - 1, by omega⟩
    by_cases hf : _quad_is_flat dist spline tol2 = true
    · rw [_twin_quad_spline_decompose_loop, _twin_quad_spline_decompose_loop]
      simp only [hf, if_true]
    · cases hfs : _twin_quad_spline_find_shift dist tol2 spline bound shift with
      | none =>
        rw [_twin_quad_spline_decompose_loop] at h
        simp [hf, hfs] at h
      | some v =>
        obtain ⟨sh, l, r⟩ := v
        have hfs2 := _twin_quad_spline_find_shift_mono dist tol2 spline bound bound2 shift _ hb hfs
        rw [_twin_quad_spline_decompose_loop_succ dist tol2 bound n spline shift sh l r hf hfs] at h ⊢
        rw [_twin_quad_spline_decompose_loop_succ dist tol2 bound2 m spline shift sh l r hf hfs2]
        rw [ih m (by omega) r sh h]

theorem quad_spline_in_box_exists (s : twin_quad_spline_t) :
    ∃ lo hi, quad_spline_in_box lo hi s := by
  have h1 : s.p0.x ≤ (s.p0.x.natAbs : Int) ∧ -(s.p0.x.natAbs : Int) ≤ s.p0.x := by omega
  have h2 : s.p1.x ≤ (s.p1.x.natAbs : Int) ∧ -(s.p1.x.natAbs : Int) ≤ s.p1.x := by omega
  have h3 : s.p2.x ≤ (s.p2.x.natAbs : Int) ∧ -(s.p2.x.natAbs : Int) ≤ s.p2.x := by omega
  have h5 : s.p0.y ≤ (s.p0.y.natAbs : Int) ∧ -(s.p0.y.natAbs : Int) ≤ s.p0.y := by omega
  have h6 : s.p1.y ≤ (s.p1.y.natAbs : Int) ∧ -(s.p1.y.natAbs : Int) ≤ s.p1.y := by omega
  have h7 : s.p2.y ≤ (s.p2.y.natAbs : Int) ∧ -(s.p2.y.natAbs : Int) ≤ s.p2.y := by omega
  refine ⟨-((s.p0.x.natAbs : Int) + s.p1.x.natAbs + s.p2.x.natAbs + s.p0.y.natAbs +
      s.p1.y.natAbs + s.p2.y.natAbs),
    (s.p0.x.natAbs : Int) + s.p1.x.natAbs + s.p2.x.natAbs + s.p0.y.natAbs +
      s.p1.y.natAbs + s.p2.y.natAbs, ?_⟩
  unfold quad_spline_in_box
  generalize (s.p0.x.natAbs : Int) = n1 at *
  generalize (s.p1.x.natAbs : Int) = n2 at *
  generalize (s.p2.x.natAbs : Int) = n3 at *
  generalize (s.p0.y.natAbs : Int) = n5 at *
  generalize (s.p1.y.natAbs : Int) = n6 at *
  generalize (s.p2.y.natAbs : Int) = n7 at *
  omega

/-- The quadratic flattener returns when every staircase passes the flatness test: from some
bound on, the bound on the passes of the loops is not reached. -/
theorem _twin_quad_spline_decompose_terminates
    (dist : twin_spoint_t → twin_spoint_t → twin_spoint_t → Int) (tol2 : Int)
    (hstair : ∀ s, quad_is_stair s → _quad_is_flat dist s tol2 = true) (spline : twin_quad_spline_t) :
    ∃ fuel0, ∀ fuel, fuel0 ≤ fuel →
      (_twin_quad_spline_decompose dist tol2 fuel spline).2 = true ∧
      _twin_quad_spline_decompose dist tol2 fuel spline =
        _twin_quad_spline_decompose dist tol2 fuel0 spline := by
  obtain ⟨lo, hi, hbox⟩ := quad_spline_in_box_exists spline
  obtain ⟨n, hn⟩ := _twin_quad_spline_decompose_loop_terminates dist tol2 hstair lo hi
    (hi - lo).toNat ((hi - lo).toNat + 1) (int_lt_two_pow_toNat _) (by omega) _ _ _ spline 2
    rfl rfl rfl hbox (by omega)
  have key : ∀ fuel, max ((hi - lo).toNat + 1) n ≤ fuel →
      _twin_quad_spline_decompose_loop dist tol2 fuel fuel spline 2 =
        _twin_quad_spline_decompose_loop dist tol2 ((hi - lo).toNat + 1) n spline 2 := fun fuel hfuel =>
    _twin_quad_spline_decompose_loop_mono dist tol2 _ fuel n fuel
      (le_trans (le_max_left _ _) hfuel) (le_trans (le_max_right _ _) hfuel) spline 2 hn
  refine ⟨max ((hi - lo).toNat + 1) n, fun fuel hfuel => ?_⟩
  unfold _twin_quad_spline_decompose
  simp only
  rw [key fuel hfuel, key _ (le_refl _)]
  exact ⟨hn, rfl⟩

/-! ## Auxiliary lemmas: the distance to a line on staircases -/

theorem _twin_distance_to_line_squared_eq (p a d : twin_spoint_t) :
    _twin_distance_to_line_squared p a d =
      distance_of_differences (p.x - a.x) (p.y - a.y) (d.x - a.x) (d.y - a.y) := by
  unfold _twin_distance_to_line_squared distance_of_differences
  simp only [neg_sub]

theorem distance_of_differences_up (e1 e2 e3 f1 f2 f3 : Int)
    (he : steps_up e1 e2 e3) (hf : steps_up f1 f2 f3) :
    distance_of_differences e1 f1 (e1 + e2 + e3) (f1 + f2 + f3) = 0 ∧
    distance_of_differences (e1 + e2) (f1 + f2) (e1 + e2 + e3) (f1 + f2 + f3) = 0 := by
  obtain ⟨⟨a1, a2⟩, ⟨a3, a4⟩, ⟨a5, a6⟩⟩ := he
  obtain ⟨⟨b1, b2⟩, ⟨b3, b4⟩, ⟨b5, b6⟩⟩ := hf
  interval_cases e1 <;> interval_cases e2 <;> interval_cases e3 <;>
    interval_cases f1 <;> interval_cases f2 <;> interval_cases f3 <;> decide

theorem distance_of_differences_down (e1 e2 e3 f1 f2 f3 : Int)
    (he : steps_down e1 e2 e3) (hf : steps_down f1 f2 f3) :
    distance_of_differences e1 f1 (e1 + e2 + e3) (f1 + f2 + f3) = 0 ∧
    distance_of_differences (e1 + e2) (f1 + f2) (e1 + e2 + e3) (f1 + f2 + f3) = 0 := by
  obtain ⟨⟨a1, a2⟩, ⟨a3, a4⟩, ⟨a5, a6⟩⟩ := he
  obtain ⟨⟨b1, b2⟩, ⟨b3, b4⟩, ⟨b5, b6⟩⟩ := hf
  interval_cases e1 <;> interval_cases e2 <;> interval_cases e3 <;>
    interval_cases f1 <;> interval_cases f2 <;> interval_cases f3 <;> decide

/-- A staircase passes the flatness test of the modelled distance for every tolerance. -/
theorem _twin_distance_to_line_squared_stair (tolerance : Int) (s : twin_spline_t)
    (h : is_stair s) :
    is_flat _twin_distance_to_line_squared s (tolerance * tolerance) = true := by
  rw [is_flat_iff, _twin_distance_to_line_squared_eq, _twin_distance_to_line_squared_eq]
  have e1 : s.b.x - s.a.x = s.b.x - s.a.x := rfl
  have hdx : s.d.x - s.a.x = (s.b.x - s.a.x) + (s.c.x - s.b.x) + (s.d.x - s.c.x) := by ring
  have hdy : s.d.y - s.a.y = (s.b.y - s.a.y) + (s.c.y - s.b.y) + (s.d.y - s.c.y) := by ring
  have hcx : s.c.x - s.a.x = (s.b.x - s.a.x) + (s.c.x - s.b.x) := by ring
  have hcy : s.c.y - s.a.y = (s.b.y - s.a.y) + (s.c.y - s.b.y) := by ring
  rw [hdx, hdy, hcx, hcy]
  have h0 : (0 : Int) ≤ tolerance * tolerance := mul_self_nonneg tolerance
  rcases h with ⟨hx, hy⟩ | ⟨hx, hy⟩
  · obtain ⟨k1, k2⟩ := distance_of_differences_up _ _ _ _ _ _ hx hy
    rw [k1, k2]; simpa using h0
  · obtain ⟨k1, k2⟩ := distance_of_differences_down _ _ _ _ _ _ hx hy
    rw [k1, k2]; simpa using h0

theorem _twin_distance_to_line_squared_quad_stair (tolerance : Int) (s : twin_quad_spline_t)
    (h : quad_is_stair s) :
    _quad_is_flat _twin_distance_to_line_squared s (tolerance * tolerance) = true := by
  rw [quad_is_flat_iff, _twin_distance_to_line_squared_eq]
  have hdx : s.p2.x - s.p0.x = 0 + (s.p1.x - s.p0.x) + (s.p2.x - s.p1.x) := by ring
  have hdy : s.p2.y - s.p0.y = 0 + (s.p1.y - s.p0.y) + (s.p2.y - s.p1.y) := by ring
  have hcx : s.p1.x - s.p0.x = 0 + (s.p1.x - s.p0.x) := by ring
  have hcy : s.p1.y - s.p0.y = 0 + (s.p1.y - s.p0.y) := by ring
  rw [hdx, hdy]
  nth_rewrite 1 [hcx]
  nth_rewrite 1 [hcy]
  have h0 : (0 : Int) ≤ tolerance * tolerance := mul_self_nonneg tolerance
  rcases h with ⟨hx, hy⟩ | ⟨hx, hy⟩
  · obtain ⟨-, k2⟩ := distance_of_differences_up _ _ _ _ _ _ hx hy
    rw [k2]; exact h0
  · obtain ⟨-, k2⟩ := distance_of_differences_down _ _ _ _ _ _ hx hy
    rw [k2]; exact h0

/-! ## Auxiliary lemmas: the last point a flattener draws -/

theorem _twin_spline_decompose_loop_last
    (dist : twin_spoint_t → twin_spoint_t → twin_spoint_t → Int) (tol2 : Int)
    (bound fuel : Nat) (spline : twin_spline_t) (shift : Nat)
    (h : (_twin_spline_decompose_loop dist tol2 bound fuel spline shift).2 = true) :
    (_twin_spline_decompose_loop dist tol2 bound fuel spline shift).1.getLast? =
      some spline.d := by
  induction fuel generalizing spline shift with
  | zero => simp [_twin_spline_decompose_loop] at h
  | succ n ih =>
    by_cases hf : is_flat dist spline tol2 = true
    · rw [_twin_spline_decompose_loop]; simp [hf]
    · cases hfs : _twin_spline_find_shift dist tol2 spline bound shift with
      | none =>
        rw [_twin_spline_decompose_loop] at h
        simp [hf, hfs] at h
      | some v =>
        obtain ⟨sh, l, r⟩ := v
        obtain ⟨s, -, -, h3, -, -, -⟩ :=
          _twin_spline_find_shift_spec dist tol2 spline bound shift sh l r hfs
        have hr : r.d = spline.d := by
          have : r = (_de_casteljau spline s).2 := by rw [← h3]
          rw [this]; rfl
        rw [_twin_spline_decompose_loop_succ dist tol2 bound n spline shift sh l r hf hfs] at h ⊢
        have := ih r sh h
        rw [hr] at this
        rw [List.getLast?_cons, this]
        rfl

theorem _twin_quad_spline_decompose_loop_last
    (dist : twin_spoint_t → twin_spoint_t → twin_spoint_t → Int) (tol2 : Int)
    (bound fuel : Nat) (spline : twin_quad_spline_t) (shift : Nat)
    (h : (_twin_quad_spline_decompose_loop dist tol2 bound fuel spline shift).2 = true) :
    (_twin_quad_spline_decompose_loop dist tol2 bound fuel spline shift).1.getLast? =
      some spline.p2 := by
  induction fuel generalizing spline shift with
  | zero => simp [_twin_quad_spline_decompose_loop] at h
  | succ n ih =>
    by_cases hf : _quad_is_flat dist spline tol2 = true
    · rw [_twin_quad_spline_decompose_loop]; simp [hf]
    · cases hfs : _twin_quad_spline_find_shift dist tol2 spline bound shift with
      | none =>
        rw [_twin_quad_spline_decompose_loop] at h
        simp [hf, hfs] at h
      | some v =>
        obtain ⟨sh, l, r⟩ := v
        obtain ⟨s, -, -, h3, -, -, -⟩ :=
          _twin_quad_spline_find_shift_spec dist tol2 spline bound shift sh l r hfs
        have hr : r.p2 = spline.p2 := by
          have : r = (_quad_de_casteljau spline s).2 := by rw [← h3]
          rw [this]; rfl
        rw [_twin_quad_spline_decompose_loop_succ dist tol2 bound n spline shift sh l r hf
          hfs] at h ⊢
        have := ih r sh h
        rw [hr] at this
        rw [List.getLast?_cons, this]
        rfl

theorem _twin_path_sdraw_list_prefix (alloc : Nat → Bool) (halloc : ∀ k, alloc k = true)
    (pts : List twin_spoint_t) (k : Nat) (path : twin_path_t) :
    path.points <+: (_twin_path_sdraw_list alloc k path pts).points := by
  induction pts generalizing k path with
  | nil => exact List.prefix_refl _
  | cons p rest ih =>
    rw [_twin_path_sdraw_list, halloc k]
    refine List.IsPrefix.trans ?_ (ih (k + 1) _)
    rcases _twin_path_sdraw_true_points path p.x p.y with h | h
    · rw [h.1]
    · rw [h]; exact List.prefix_append _ _

/-- After `_twin_path_smove(path, 0, 0)` on a path without points, with the allocation of
the point granted, the last point of the path is (0, 0). -/
theorem _twin_path_smove_origin (ok_f : Bool) (path : twin_path_t) (h : path.npoints = 0) :
    (_twin_path_smove ok_f true path 0 0).points.getLast? = some ⟨0, 0⟩ := by
  unfold _twin_path_smove
  have h1 : ¬ _twin_current_subpath_len path = 1 := by
    unfold _twin_current_subpath_len
    simp only [h]
    split <;> omega
  split
  · exact _twin_path_sdraw_true_getLast _ _ _
  · exact _twin_path_sdraw_true_getLast _ _ _

/-- The path on which a flattener starts has a last point. -/
theorem scurve_start_last (alloc : Nat → Bool) (halloc : ∀ k, alloc k = true)
    (path : twin_path_t) :
    (if path.npoints = 0 then _twin_path_smove (alloc 0) (alloc 1) path 0 0
      else path).points.getLast? =
    some ((if path.npoints = 0 then _twin_path_smove (alloc 0) (alloc 1) path 0 0
      else path).points.getLastD ⟨0, 0⟩) := by
  have key : ∀ q : twin_path_t, q.points ≠ [] →
      q.points.getLast? = some (q.points.getLastD ⟨0, 0⟩) := by
    intro q hq
    cases hp : q.points.getLast? with
    | none => exact absurd (List.getLast?_eq_none_iff.mp hp) hq
    | some v => simp [List.getLastD_eq_getLast?, hp]
  apply key
  by_cases h : path.npoints = 0
  · rw [if_pos h, halloc 1]
    intro hnil
    have := _twin_path_smove_origin (alloc 0) path h
    rw [hnil] at this
    simp at this
  · rw [if_neg h]
    unfold twin_path_t.npoints at h
    intro hnil
    rw [hnil] at h
    exact h rfl

/-! ## Claims on spline.c: flat chords -/

/-- C26: every segment that a flattener draws is the chord of a control polygon on which the
flattener has tested the flatness with success. For every distance function, tolerance and
bound `fuel` on the passes of the loops there is a list `l` of cubic control polygons with
`tested_polygons`: the first is the left part of the subdivision of the spline at the first
shift from 2 on at which `is_flat` holds, the next ones come in the same way from the right
parts, and the last is the working spline on which the test of the `while` holds. The points
that `_twin_spline_decompose` passes to `_twin_path_sdraw` are `spline.a` and the points `d`
of these polygons, the `i`-th segment is the chord `a -> d` of the `i`-th polygon, and each
polygon `s` has `is_flat`, that is, `max(dist(s.b, s.a, s.d), dist(s.c, s.a, s.d)) <=
tolerance_squared`. When the flattener has returned, `l` is the only list with
`tested_polygons`. The same holds for `_twin_quad_spline_decompose` with the chords
`p0 -> p2` and `dist(s.p1, s.p0, s.p2) <= tolerance_squared`. When no allocation is refused,
the points that `_twin_path_scurve` and `_twin_path_squad_curve` append to a path that has a
point are, after the start point (appended when it opens a new subpath), a chain from the
last point of the path in which each segment is the chord of one of the polygons of `l`
(`_twin_path_sdraw` drops a point equal to the last one). When every staircase passes the
flatness test, both flatteners return from some bound on. -/
theorem twin_spline_decompose_flat_chords
    (dist : twin_spoint_t → twin_spoint_t → twin_spoint_t → Int) (fuel : Nat) :
    (∀ (tolerance_squared : Int) (spline : twin_spline_t),
      ∃ l : List twin_spline_t,
        tested_polygons dist tolerance_squared spline 2 l
          (_twin_spline_decompose dist tolerance_squared fuel spline).2 ∧
        ((_twin_spline_decompose dist tolerance_squared fuel spline).2 = true →
          ∀ l2, tested_polygons dist tolerance_squared spline 2 l2 true → l2 = l) ∧
        (_twin_spline_decompose dist tolerance_squared fuel spline).1 =
          spline.a :: l.map (fun s => s.d) ∧
        List.zip (_twin_spline_decompose dist tolerance_squared fuel spline).1
            (_twin_spline_decompose dist tolerance_squared fuel spline).1.tail =
          l.map (fun s => (s.a, s.d)) ∧
        ∀ s ∈ l, is_flat dist s tolerance_squared = true ∧
          max (dist s.b s.a s.d) (dist s.c s.a s.d) ≤ tolerance_squared) ∧
    (∀ (tolerance_squared : Int) (spline : twin_quad_spline_t),
      ∃ l : List twin_quad_spline_t,
        tested_quad_polygons dist tolerance_squared spline 2 l
          (_twin_quad_spline_decompose dist tolerance_squared fuel spline).2 ∧
        ((_twin_quad_spline_decompose dist tolerance_squared fuel spline).2 = true →
          ∀ l2, tested_quad_polygons dist tolerance_squared spline 2 l2 true → l2 = l) ∧
        (_twin_quad_spline_decompose dist tolerance_squared fuel spline).1 =
          spline.p0 :: l.map (fun s => s.p2) ∧
        List.zip (_twin_quad_spline_decompose dist tolerance_squared fuel spline).1
            (_twin_quad_spline_decompose dist tolerance_squared fuel spline).1.tail =
          l.map (fun s => (s.p0, s.p2)) ∧
        ∀ s ∈ l, _quad_is_flat dist s tolerance_squared = true ∧
          dist s.p1 s.p0 s.p2 ≤ tolerance_squared) ∧
    (∀ (tolerance : Int) (alloc : Nat → Bool) (path : twin_path_t) (x1 y1 x2 y2 x3 y3 : Int),
      (∀ k, alloc k = true) → path.points ≠ [] →
      ∃ (l : List twin_spline_t) (L0 L : List twin_spoint_t),
        tested_polygons dist (tolerance * tolerance)
          ⟨path.points.getLastD ⟨0, 0⟩, ⟨x1, y1⟩, ⟨x2, y2⟩, ⟨x3, y3⟩⟩ 2 l
          (_twin_path_scurve dist tolerance alloc fuel path x1 y1 x2 y2 x3 y3).2 ∧
        (∀ s ∈ l, is_flat dist s (tolerance * tolerance) = true) ∧
        (_twin_path_scurve dist tolerance alloc fuel path x1 y1 x2 y2 x3 y3).1.points
          = path.points ++ L0 ++ L ∧
        (L0 = [] ∨ L0 = [path.points.getLastD ⟨0, 0⟩]) ∧
        List.Chain (fun p q => ∃ s ∈ l, s.a = p ∧ s.d = q)
          (path.points.getLastD ⟨0, 0⟩) L) ∧
    (∀ (tolerance : Int) (alloc : Nat → Bool) (path : twin_path_t) (x1 y1 x2 y2 : Int),
      (∀ k, alloc k = true) → path.points ≠ [] →
      ∃ (l : List twin_quad_spline_t) (L0 L : List twin_spoint_t),
        tested_quad_polygons dist (tolerance * tolerance)
          ⟨path.points.getLastD ⟨0, 0⟩, ⟨x1, y1⟩, ⟨x2, y2⟩⟩ 2 l
          (_twin_path_squad_curve dist tolerance alloc fuel path x1 y1 x2 y2).2 ∧
        (∀ s ∈ l, _quad_is_flat dist s (tolerance * tolerance) = true) ∧
        (_twin_path_squad_curve dist tolerance alloc fuel path x1 y1 x2 y2).1.points
          = path.points ++ L0 ++ L ∧
        (L0 = [] ∨ L0 = [path.points.getLastD ⟨0, 0⟩]) ∧
        List.Chain (fun p q => ∃ s ∈ l, s.p0 = p ∧ s.p2 = q)
          (path.points.getLastD ⟨0, 0⟩) L) ∧
    (∀ (tolerance_squared : Int) (spline : twin_spline_t),
      (∀ s, is_stair s → is_flat dist s tolerance_squared = true) →
      ∃ fuel0, ∀ fuel2, fuel0 ≤ fuel2 →
        (_twin_spline_decompose dist tolerance_squared fuel2 spline).2 = true) ∧
    (∀ (tolerance_squared : Int) (spline : twin_quad_spline_t),
      (∀ s, quad_is_stair s → _quad_is_flat dist s tolerance_squared = true) →
      ∃ fuel0, ∀ fuel2, fuel0 ≤ fuel2 →
        (_twin_quad_spline_decompose dist tolerance_squared fuel2 spline).2 = true) := by
  refine ⟨fun tol2 spline => ?_, fun tol2 spline => ?_, ?_, ?_,
    fun tol2 spline hstair =>
      (_twin_spline_decompose_terminates dist tol2 hstair spline).imp
        (fun _ h fuel2 hfuel => (h fuel2 hfuel).1),
    fun tol2 spline hstair =>
      (_twin_quad_spline_decompose_terminates dist tol2 hstair spline).imp
        (fun _ h fuel2 hfuel => (h fuel2 hfuel).1)⟩
  · obtain ⟨l, h1, h2⟩ := _twin_spline_decompose_loop_tested dist tol2 fuel fuel spline 2
    have e1 : (_twin_spline_decompose dist tol2 fuel spline).2 =
        (_twin_spline_decompose_loop dist tol2 fuel fuel spline 2).2 := rfl
    have e2 : (_twin_spline_decompose dist tol2 fuel spline).1 =
        spline.a :: l.map (fun s => s.d) := by rw [← h2]; rfl
    rw [e1, e2]
    exact ⟨l, h1, fun hd l2 hl2 => tested_polygons_unique dist tol2 spline 2 l _ h1 hd l2 hl2,
      rfl, tested_polygons_zip dist tol2 spline 2 l _ h1,
      fun s hs => ⟨tested_polygons_flat dist tol2 spline 2 l _ h1 s hs,
        (is_flat_iff dist s tol2).mp (tested_polygons_flat dist tol2 spline 2 l _ h1 s hs)⟩⟩
  · obtain ⟨l, h1, h2⟩ := _twin_quad_spline_decompose_loop_tested dist tol2 fuel fuel spline 2
    have e1 : (_twin_quad_spline_decompose dist tol2 fuel spline).2 =
        (_twin_quad_spline_decompose_loop dist tol2 fuel fuel spline 2).2 := rfl
    have e2 : (_twin_quad_spline_decompose dist tol2 fuel spline).1 =
        spline.p0 :: l.map (fun s => s.p2) := by rw [← h2]; rfl
    rw [e1, e2]
    exact ⟨l, h1,
      fun hd l2 hl2 => tested_quad_polygons_unique dist tol2 spline 2 l _ h1 hd l2 hl2,
      rfl, tested_quad_polygons_zip dist tol2 spline 2 l _ h1,
      fun s hs => ⟨tested_quad_polygons_flat dist tol2 spline 2 l _ h1 s hs,
        (quad_is_flat_iff dist s tol2).mp
          (tested_quad_polygons_flat dist tol2 spline 2 l _ h1 s hs)⟩⟩
  · intro tolerance alloc path x1 y1 x2 y2 x3 y3 halloc hne
    have hn : ¬ path.npoints = 0 := by
      unfold twin_path_t.npoints; simpa using hne
    obtain ⟨l, h1, h2⟩ := _twin_spline_decompose_loop_tested dist (tolerance * tolerance)
      fuel fuel ⟨path.points.getLastD ⟨0, 0⟩, ⟨x1, y1⟩, ⟨x2, y2⟩, ⟨x3, y3⟩⟩ 2
    have hch := tested_polygons_chain dist _ _ 2 l _ h1
    rw [← h2] at hch
    obtain ⟨L0, L, k1, k2, k3⟩ := _twin_path_sdraw_list_from_last _ alloc halloc _ path hne hch
    refine ⟨l, L0, L, ?_, tested_polygons_flat dist _ _ 2 l _ h1, ?_, k2, k3⟩
    · unfold _twin_path_scurve
      simp only [if_neg hn, _twin_spline_decompose]
      exact h1
    · unfold _twin_path_scurve
      simp only [if_neg hn, _twin_spline_decompose]
      exact k1
  · intro tolerance alloc path x1 y1 x2 y2 halloc hne
    have hn : ¬ path.npoints = 0 := by
      unfold twin_path_t.npoints; simpa using hne
    obtain ⟨l, h1, h2⟩ := _twin_quad_spline_decompose_loop_tested dist (tolerance * tolerance)
      fuel fuel ⟨path.points.getLastD ⟨0, 0⟩, ⟨x1, y1⟩, ⟨x2, y2⟩⟩ 2
    have hch := tested_quad_polygons_chain dist _ _ 2 l _ h1
    rw [← h2] at hch
    obtain ⟨L0, L, k1, k2, k3⟩ := _twin_path_sdraw_list_from_last _ alloc halloc _ path hne hch
    refine ⟨l, L0, L, ?_, tested_quad_polygons_flat dist _ _ 2 l _ h1, ?_, k2, k3⟩
    · unfold _twin_path_squad_curve
      simp only [if_neg hn, _twin_quad_spline_decompose]
      exact h1
    · unfold _twin_path_squad_curve
      simp only [if_neg hn, _twin_quad_spline_decompose]
      exact k1

/-! ## Claims on spline.c: the end point -/

/-- C27: a flattened curve ends exactly at its end point. When every staircase control
polygon passes the flatness test and no allocation is refused, `_twin_path_scurve` returns
(from some bound on the passes of its loops on, the bound is not reached) and the last
point of the path is then `(x3, y3)`; the points it draws are a list that starts with the
last point `a` of the path it starts on (the path itself, or the path moved to (0, 0) when
it has no point), and no point of that path is removed. The same holds for
`_twin_path_squad_curve` with the end point `(x2, y2)`. -/
theorem twin_path_scurve_ends_at_end_point
    (dist : twin_spoint_t → twin_spoint_t → twin_spoint_t → Int) (tolerance : Int)
    (alloc : Nat → Bool)
    (hstair : ∀ s, is_stair s → is_flat dist s (tolerance * tolerance) = true)
    (hquad : ∀ s, quad_is_stair s → _quad_is_flat dist s (tolerance * tolerance) = true)
    (halloc : ∀ k, alloc k = true) (path : twin_path_t) :
    (∀ x1 y1 x2 y2 x3 y3 : Int, ∃ fuel0, ∀ fuel, fuel0 ≤ fuel →
      (_twin_path_scurve dist tolerance alloc fuel path x1 y1 x2 y2 x3 y3).2 = true ∧
      (_twin_path_scurve dist tolerance alloc fuel path x1 y1 x2 y2 x3 y3).1.points.getLast?
        = some ⟨x3, y3⟩ ∧
      ∃ a rest,
        (if path.npoints = 0 then _twin_path_smove (alloc 0) (alloc 1) path 0 0
          else path).points.getLast? = some a ∧
        (_twin_path_scurve dist tolerance alloc fuel path x1 y1 x2 y2 x3 y3).1 =
          _twin_path_sdraw_list alloc 2
            (if path.npoints = 0 then _twin_path_smove (alloc 0) (alloc 1) path 0 0 else path)
            (a :: rest) ∧
        (if path.npoints = 0 then _twin_path_smove (alloc 0) (alloc 1) path 0 0
          else path).points <+:
          (_twin_path_scurve dist tolerance alloc fuel path x1 y1 x2 y2 x3 y3).1.points) ∧
    (∀ x1 y1 x2 y2 : Int, ∃ fuel0, ∀ fuel, fuel0 ≤ fuel →
      (_twin_path_squad_curve dist tolerance alloc fuel path x1 y1 x2 y2).2 = true ∧
      (_twin_path_squad_curve dist tolerance alloc fuel path x1 y1 x2 y2).1.points.getLast?
        = some ⟨x2, y2⟩ ∧
      ∃ a rest,
        (if path.npoints = 0 then _twin_path_smove (alloc 0) (alloc 1) path 0 0
          else path).points.getLast? = some a ∧
        (_twin_path_squad_curve dist tolerance alloc fuel path x1 y1 x2 y2).1 =
          _twin_path_sdraw_list alloc 2
            (if path.npoints = 0 then _twin_path_smove (alloc 0) (alloc 1) path 0 0 else path)
            (a :: rest) ∧
        (if path.npoints = 0 then _twin_path_smove (alloc 0) (alloc 1) path 0 0
          else path).points <+:
          (_twin_path_squad_curve dist tolerance alloc fuel path x1 y1 x2 y2).1.points) := by
  have hstart := scurve_start_last alloc halloc path
  constructor
  · intro x1 y1 x2 y2 x3 y3
    obtain ⟨fuel0, h0⟩ := _twin_spline_decompose_terminates dist (tolerance * tolerance) hstair
      ⟨(if path.npoints = 0 then _twin_path_smove (alloc 0) (alloc 1) path 0 0
        else path).points.getLastD ⟨0, 0⟩, ⟨x1, y1⟩, ⟨x2, y2⟩, ⟨x3, y3⟩⟩
    refine ⟨fuel0, fun fuel hfuel => ?_⟩
    obtain ⟨hfin, -⟩ := h0 fuel hfuel
    have hlast := _twin_spline_decompose_loop_last dist (tolerance * tolerance) fuel fuel _ 2 hfin
    unfold _twin_path_scurve
    simp only [_twin_spline_decompose] at hfin ⊢
    refine ⟨hfin, ?_, _, _, hstart, rfl, _twin_path_sdraw_list_prefix alloc halloc _ 2 _⟩
    rw [_twin_path_sdraw_list_getLast alloc halloc _ (by simp), List.getLast?_cons, hlast]
    rfl
  · intro x1 y1 x2 y2
    obtain ⟨fuel0, h0⟩ := _twin_quad_spline_decompose_terminates dist (tolerance * tolerance)
      hquad ⟨(if path.npoints = 0 then _twin_path_smove (alloc 0) (alloc 1) path 0 0
        else path).points.getLastD ⟨0, 0⟩, ⟨x1, y1⟩, ⟨x2, y2⟩⟩
    refine ⟨fuel0, fun fuel hfuel => ?_⟩
    obtain ⟨hfin, -⟩ := h0 fuel hfuel
    have hlast :=
      _twin_quad_spline_decompose_loop_last dist (tolerance * tolerance) fuel fuel _ 2 hfin
    unfold _twin_path_squad_curve
    simp only [_twin_quad_spline_decompose] at hfin ⊢
    refine ⟨hfin, ?_, _, _, hstart, rfl, _twin_path_sdraw_list_prefix alloc halloc _ 2 _⟩
    rw [_twin_path_sdraw_list_getLast alloc halloc _ (by simp), List.getLast?_cons, hlast]
    rfl

theorem twin_path_scurve_ends_at_end_point_witness :
    (∀ s, is_stair s → is_flat _twin_distance_to_line_squared s (1 * 1) = true) ∧
    (∀ s, quad_is_stair s → _quad_is_flat _twin_distance_to_line_squared s (1 * 1) = true) ∧
    (∀ k : Nat, (fun _ => true) k = true) ∧
    (∃ fuel0, ∀ fuel, fuel0 ≤ fuel →
      (_twin_path_scurve _twin_distance_to_line_squared 1 (fun _ => true) fuel sample_path
        40 16 64 40 64 64).2 = true ∧
      (_twin_path_scurve _twin_distance_to_line_squared 1 (fun _ => true) fuel sample_path
        40 16 64 40 64 64).1.points.getLast? = some ⟨64, 64⟩) ∧
    (_twin_path_scurve _twin_distance_to_line_squared 1 (fun _ => true) 8 sample_path
        40 16 64 40 64 64).1.points =
      [⟨0, 0⟩, ⟨16, 0⟩, ⟨16, 16⟩, ⟨33, 19⟩, ⟨44, 26⟩, ⟨57, 43⟩, ⟨61, 52⟩, ⟨64, 64⟩] :=
  ⟨_twin_distance_to_line_squared_stair 1, _twin_distance_to_line_squared_quad_stair 1,
    fun _ => rfl,
    (((twin_path_scurve_ends_at_end_point _twin_distance_to_line_squared 1 (fun _ => true)
      (_twin_distance_to_line_squared_stair 1) (_twin_distance_to_line_squared_quad_stair 1)
      (fun _ => rfl) sample_path).1 40 16 64 40 64 64).imp
        (fun _ h fuel hfuel => ⟨(h fuel hfuel).1, (h fuel hfuel).2.1⟩)),
    by decide⟩

/-! ## Auxiliary lemmas: the rectangle of the control points -/

/-- C32: the extent `twin_path_arc_circle` selects without sweep. For angles `start_angle`
and `end_angle` in `[0, ANGLE_360)`, with `angle_diff = (end_angle - start_angle) mod
ANGLE_360` in `[0, ANGLE_360)`: a large arc gets `360 - diff` when `diff < 180` and `diff`
otherwise; a small arc gets `diff - 360` when `diff > 180` and `diff` otherwise. The
extent the function passes to `twin_path_arc` is this value for the two angles it has
computed with `twin_atan2`. -/
theorem twin_path_arc_circle_extent_table (start_angle end_angle : Int)
    (hs : 0 ≤ start_angle ∧ start_angle < TWIN_ANGLE_360)
    (he : 0 ≤ end_angle ∧ end_angle < TWIN_ANGLE_360) :
    (0 ≤ (end_angle - start_angle) % TWIN_ANGLE_360 ∧
      (end_angle - start_angle) % TWIN_ANGLE_360 < TWIN_ANGLE_360) ∧
    twin_path_arc_circle_extent true false start_angle end_angle =
      (if (end_angle - start_angle) % TWIN_ANGLE_360 < TWIN_ANGLE_180
        then TWIN_ANGLE_360 - (end_angle - start_angle) % TWIN_ANGLE_360
        else (end_angle - start_angle) % TWIN_ANGLE_360) ∧
    twin_path_arc_circle_extent false false start_angle end_angle =
      (if (end_angle - start_angle) % TWIN_ANGLE_360 > TWIN_ANGLE_180
        then (end_angle - start_angle) % TWIN_ANGLE_360 - TWIN_ANGLE_360
        else (end_angle - start_angle) % TWIN_ANGLE_360) ∧
    (∀ (fixed_sqrt : Int → Int) (fixed_div : Int → Int → Int) (large_arc sweep : Bool)
        (radius cur_x cur_y target_x target_y : Int) (args : twin_arc_args) (end_angle : Int),
      twin_path_arc_circle fixed_sqrt fixed_div large_arc sweep radius cur_x cur_y target_x
          target_y = some (args, end_angle) →
        args.extent = twin_path_arc_circle_extent large_arc sweep args.start end_angle) := by
  obtain ⟨hs0, hs1⟩ := hs
  obtain ⟨he0, he1⟩ := he
  unfold TWIN_ANGLE_360 at *
  unfold TWIN_ANGLE_180
  refine ⟨by omega, ?_, ?_, ?_⟩
  · unfold twin_path_arc_circle_extent TWIN_ANGLE_360 TWIN_ANGLE_180
    simp only [Bool.false_and, Bool.false_eq_true, if_false, if_true]
    by_cases hd : end_angle - start_angle < 0
    · rw [if_pos hd]
      have e : (end_angle - start_angle) % 4096 = end_angle - start_angle + 4096 := by omega
      rw [e]
    · rw [if_neg hd]
      have e : (end_angle - start_angle) % 4096 = end_angle - start_angle := by omega
      rw [e]
  · unfold twin_path_arc_circle_extent TWIN_ANGLE_360 TWIN_ANGLE_180
    simp only [Bool.false_and, Bool.false_eq_true, if_false]
    by_cases hd : end_angle - start_angle < 0
    · rw [if_pos hd]
      have e : (end_angle - start_angle) % 4096 = end_angle - start_angle + 4096 := by omega
      rw [e]
    · rw [if_neg hd]
      have e : (end_angle - start_angle) % 4096 = end_angle - start_angle := by omega
      rw [e]
  · intro fixed_sqrt fixed_div large_arc sweep radius cur_x cur_y target_x target_y args
      end_angle h
    unfold twin_path_arc_circle at h
    simp only at h
    split at h
    · exact Option.noConfusion h
    · simp only [Option.some.injEq, Prod.mk.injEq] at h
      obtain ⟨h1, h2⟩ := h
      rw [← h1, ← h2]

theorem twin_path_arc_circle_extent_table_witness :
    (0 ≤ (1360 : Int) ∧ (1360 : Int) < TWIN_ANGLE_360) ∧
    (0 ≤ (688 : Int) ∧ (688 : Int) < TWIN_ANGLE_360) ∧
    twin_path_arc_circle_extent true false 1360 688 = 3424 ∧
    twin_path_arc_circle_extent false false 1360 688 = -672 ∧
    twin_path_arc_circle sample_fixed_sqrt sample_fixed_div true false 65536 0 0 65536 0 =
      some (⟨32768, -56755, 65536, 65536, 1360, 3424⟩, 688) :=
  ⟨by decide, by decide,
    (twin_path_arc_circle_extent_table 1360 688 (by decide) (by decide)).2.1.trans (by decide),
    by decide, by decide!⟩

/-- C33, counterexample: for a small arc with `angle_diff = 3072 > 180` the table gives the
extent -1024, and with sweep the function passes -1024 too, not the negation 1024. From
(0, 0) to (1, 0) with radius 1, small arc and sweep, the angles are 1360 and 688, the
table gives -672 and the extent passed to `twin_path_arc` is -672. -/
theorem twin_path_arc_circle_sweep_counterexample :
    twin_path_arc_circle_extent false false 0 3072 = -1024 ∧
    twin_path_arc_circle_extent false true 0 3072 = -1024 ∧
    twin_path_arc_circle_extent false false 1360 688 = -672 ∧
    twin_path_arc_circle sample_fixed_sqrt sample_fixed_div false true 65536 0 0 65536 0 =
      some (⟨32768, -56755, 65536, 65536, 1360, -672⟩, 688) := by
  refine ⟨by decide, by decide, by decide, by decide!⟩

/-- C33, amended: for every large flag and all angles, the extent passed to
`twin_path_arc` when sweep is true is the extent `e` of the table made negative: `-e` when
`e > 0` and `e` itself when `e <= 0`. For a large arc and angles in `[0, ANGLE_360)` the
table gives `e > 0`, so the extent passed is the negation `-e`. -/
theorem twin_path_arc_circle_sweep (large_arc : Bool) (start_angle end_angle : Int) :
    twin_path_arc_circle_extent large_arc true start_angle end_angle =
      (if 0 < twin_path_arc_circle_extent large_arc false start_angle end_angle
        then -twin_path_arc_circle_extent large_arc false start_angle end_angle
        else twin_path_arc_circle_extent large_arc false start_angle end_angle) ∧
    twin_path_arc_circle_extent large_arc true start_angle end_angle ≤ 0 ∧
    (0 ≤ start_angle ∧ start_angle < TWIN_ANGLE_360 →
      0 ≤ end_angle ∧ end_angle < TWIN_ANGLE_360 →
      twin_path_arc_circle_extent true true start_angle end_angle =
        -twin_path_arc_circle_extent true false start_angle end_angle) := by
  have key : ∀ l, twin_path_arc_circle_extent l true start_angle end_angle =
      (if 0 < twin_path_arc_circle_extent l false start_angle end_angle
        then -twin_path_arc_circle_extent l false start_angle end_angle
        else twin_path_arc_circle_extent l false start_angle end_angle) := by
    intro l
    unfold twin_path_arc_circle_extent
    simp only [Bool.true_and, Bool.false_and, Bool.false_eq_true, if_false, decide_eq_true_eq,
      gt_iff_lt]
  refine ⟨key large_arc, ?_, ?_⟩
  · rw [key]
    split <;> omega
  · intro hs he
    rw [key]
    have hpos : 0 < twin_path_arc_circle_extent true false start_angle end_angle := by
      unfold twin_path_arc_circle_extent TWIN_ANGLE_360 TWIN_ANGLE_180
      unfold TWIN_ANGLE_360 at hs he
      simp only [Bool.false_and, Bool.false_eq_true, if_false, if_true]
      split <;> split <;> omega
    rw [if_pos hpos]

/-! ## Claims on path.c: the centre of an elliptical arc -/

/-- C34, counterexample: called with `large == sweep` (both set, or both clear) the sign
that multiplies the square root is +1, and called with `large` set and `sweep` clear it is
-1. -/
theorem get_center_parameters_sign_counterexample :
    get_center_parameters_sign true true = 1 ∧ get_center_parameters_sign false false = 1 ∧
    get_center_parameters_sign true false = -1 ∧ get_center_parameters_sign false true = -1 := by
  decide

/-- C34, amended: in `get_center_parameters` as called by `twin_path_arc_ellipse` with the
flags `large`, `sweep`, the sign multiplying the square root is -1 if and only if
`large != sweep`, and +1 otherwise: the function inverts its sweep flag before it compares
the two flags. -/
theorem get_center_parameters_sign_spec (large_arc sweep : Bool) :
    (get_center_parameters_sign large_arc sweep = -1 ↔ large_arc ≠ sweep) ∧
    (get_center_parameters_sign large_arc sweep = 1 ↔ large_arc = sweep) ∧
    (∀ (fixed_sqrt : Int → Int) (fixed_div : Int → Int → Int)
        (radius_x radius_y cur_x cur_y target_x target_y rotation : Int),
      twin_path_arc_ellipse_para fixed_sqrt fixed_div large_arc sweep radius_x radius_y cur_x
          cur_y target_x target_y rotation =
        get_center_parameters fixed_sqrt fixed_div cur_x cur_y target_x target_y large_arc
          sweep radius_x radius_y rotation) := by
  refine ⟨?_, ?_, fun _ _ _ _ _ _ _ _ _ => rfl⟩
  · cases large_arc <;> cases sweep <;> decide
  · cases large_arc <;> cases sweep <;> decide

/-! ## Auxiliary lemmas: the range of the angles of `twin_acos` -/

theorem cordic_step_angle (st : Int × Int × Int) (i : Nat) :
    (cordic_step st i).2.2 = st.2.2 + atan_table.getD i 0 ∨
    (cordic_step st i).2.2 = st.2.2 - atan_table.getD i 0 := by
  unfold cordic_step
  by_cases h : st.2.1 > 0
  · left; simp only [if_pos h]
  · right; simp only [if_neg h]

theorem cordic_fold_angle (l : List Nat) (st : Int × Int × Int) :
    st.2.2 - (l.map (fun i => atan_table.getD i 0)).sum ≤ (l.foldl cordic_step st).2.2 ∧
    (l.foldl cordic_step st).2.2 ≤ st.2.2 + (l.map (fun i => atan_table.getD i 0)).sum := by
  induction l generalizing st with
  | nil => simp
  | cons i l ih =>
    simp only [List.foldl_cons, List.map_cons, List.sum_cons]
    obtain ⟨h1, h2⟩ := ih (cordic_step st i)
    rcases cordic_step_angle st i with h | h <;> rw [h] at h1 h2 <;>
      have hnn : 0 ≤ atan_table.getD i 0 := by
        unfold atan_table
        rcases i with _ | _ | _ | _ | _ | _ | _ | _ | _ | _ | _ | _ | i <;> simp
    all_goals omega

theorem twin_atan2_first_quadrant_range (y x : Int) :
    -1128 ≤ twin_atan2_first_quadrant y x ∧ twin_atan2_first_quadrant y x ≤ 1128 := by
  unfold twin_atan2_first_quadrant
  split
  · omega
  · split
    · omega
    · split
      · omega
      · have h := cordic_fold_angle (List.range 12) (x, y, 0)
        have hs : ((List.range 12).map (fun i => atan_table.getD i 0)).sum = 1128 := by decide
        rw [hs] at h
        simpa using h

theorem twin_acos_range (fixed_sqrt : Int → Int) (x : Int) :
    -1128 ≤ twin_acos fixed_sqrt x ∧ twin_acos fixed_sqrt x ≤ 3176 := by
  unfold twin_acos
  dsimp only
  split
  · omega
  · split
    · omega
    · split
      · have := twin_atan2_first_quadrant_range
          (fixed_sqrt (wrap32 (TWIN_FIXED_ONE - twin_fixed_mul x x))) x
        omega
      · have := twin_atan2_first_quadrant_range
          (fixed_sqrt (wrap32 (TWIN_FIXED_ONE - twin_fixed_mul x x))) (wrap32 (-x))
        omega

theorem vector_angle_range (fixed_sqrt : Int → Int) (fixed_div : Int → Int → Int)
    (ux uy vx vy : Int) :
    -3176 ≤ vector_angle fixed_sqrt fixed_div ux uy vx vy ∧
    vector_angle fixed_sqrt fixed_div ux uy vx vy ≤ 3176 := by
  unfold vector_angle
  simp only
  have := twin_acos_range fixed_sqrt (fixed_div
    (wrap32 (twin_fixed_mul ux vx + twin_fixed_mul uy vy))
    (wrap32 (twin_fixed_mul
      (fixed_sqrt (wrap32 (twin_fixed_mul ux ux + twin_fixed_mul uy uy)))
      (fixed_sqrt (wrap32 (twin_fixed_mul vx vx + twin_fixed_mul vy vy))))))
  split <;> omega

theorem tmod_of_small (a : Int) (h1 : -4096 < a) (h2 : a < 4096) : Int.tmod a 4096 = a := by
  rcases le_or_lt 0 a with h | h
  · exact Int.tmod_eq_of_lt h h2
  · rw [Int.tmod_def]
    have e : a.tdiv 4096 = 0 := by
      have e1 : (-a).tdiv 4096 = 0 := by
        rw [Int.tdiv_eq_ediv (by omega) (by omega)]
        omega
      rw [Int.neg_tdiv] at e1
      omega
    rw [e]; omega

theorem get_center_parameters_extent_range (fs : Bool) (d : Int) (h1 : -4096 ≤ d)
    (h2 : d ≤ 4096) :
    -4096 < get_center_parameters_extent fs d ∧ get_center_parameters_extent fs d < 4096 ∧
    (fs = true → get_center_parameters_extent fs d ≤ 0) ∧
    (fs = false → 0 ≤ get_center_parameters_extent fs d) := by
  unfold get_center_parameters_extent TWIN_ANGLE_0 TWIN_ANGLE_360
  cases fs
  · simp only [Bool.not_false, Bool.not_true, Bool.false_and, Bool.false_eq_true, if_false,
      Bool.true_and, decide_eq_true_eq]
    by_cases hd : d < 0
    · rw [if_pos hd, tmod_of_small _ (by omega) (by omega)]
      exact ⟨by omega, by omega, fun h => by simp at h, fun _ => by omega⟩
    · rw [if_neg hd]
      by_cases h4 : d = 4096
      · subst h4; decide
      · rw [tmod_of_small _ (by omega) (by omega)]
        exact ⟨by omega, by omega, fun h => by simp at h, fun _ => by omega⟩
  · simp only [Bool.not_false, Bool.not_true, Bool.false_and, Bool.false_eq_true, if_false,
      Bool.true_and, decide_eq_true_eq, gt_iff_lt]
    by_cases hd : 0 < d
    · rw [if_pos hd, tmod_of_small _ (by omega) (by omega)]
      exact ⟨by omega, by omega, fun _ => by omega, fun h => by simp at h⟩
    · rw [if_neg hd]
      by_cases h4 : d = -4096
      · subst h4; decide
      · rw [tmod_of_small _ (by omega) (by omega)]
        exact ⟨by omega, by omega, fun _ => by omega, fun h => by simp at h⟩

theorem get_center_parameters_extent_eq (fixed_sqrt : Int → Int)
    (fixed_div : Int → Int → Int) (x1 y1 x2 y2 : Int) (fa fs : Bool) (rx ry phi : Int) :
    ∃ ux uy vx vy,
      (get_center_parameters fixed_sqrt fixed_div x1 y1 x2 y2 fa fs rx ry phi).extent =
        get_center_parameters_extent fs (vector_angle fixed_sqrt fixed_div ux uy vx vy) :=
  ⟨_, _, _, _, rfl⟩

/-- C35: the extent `get_center_parameters` returns. For every input and every square root
and division, the extent lies strictly between `-ANGLE_360` and `ANGLE_360`; it is at most
0 when the function is called with the sweep flag set and at least 0 when it is called
with the flag clear. -/
theorem get_center_parameters_extent_sign (fixed_sqrt : Int → Int)
    (fixed_div : Int → Int → Int) (x1 y1 x2 y2 : Int) (fa fs : Bool) (rx ry phi : Int) :
    -TWIN_ANGLE_360 <
        (get_center_parameters fixed_sqrt fixed_div x1 y1 x2 y2 fa fs rx ry phi).extent ∧
    (get_center_parameters fixed_sqrt fixed_div x1 y1 x2 y2 fa fs rx ry phi).extent
        < TWIN_ANGLE_360 ∧
    (fs = true →
      (get_center_parameters fixed_sqrt fixed_div x1 y1 x2 y2 fa fs rx ry phi).extent ≤ 0) ∧
    (fs = false →
      0 ≤ (get_center_parameters fixed_sqrt fixed_div x1 y1 x2 y2 fa fs rx ry phi).extent) := by
  obtain ⟨ux, uy, vx, vy, h⟩ :=
    get_center_parameters_extent_eq fixed_sqrt fixed_div x1 y1 x2 y2 fa fs rx ry phi
  rw [h]
  have hr := vector_angle_range fixed_sqrt fixed_div ux uy vx vy
  exact get_center_parameters_extent_range fs _ (by omega) (by omega)

/-! ## Auxiliary lemmas: sine and cosine by residue -/

theorem twin_sin_cos_of_residue (a : Int) :
    twin_sin a = sin_of_residue sp (a % 4096).toNat ∧
    twin_cos a = cos_of_residue sp (a % 4096).toNat := by
  obtain ⟨h0, h1⟩ := emod_4096_range a
  unfold sin_of_residue cos_of_residue
  constructor
  · split_ifs with c1 c2 c3 c4 c5
    · exact (twin_sincos_q1 a _ c1 (by omega)).1
    · exact (twin_sincos_90 a (by omega)).1
    · exact (twin_sincos_q2 a (2048 - (a % 4096).toNat) (by omega) (by omega) (by omega)).1
    · exact (twin_sincos_q3 a ((a % 4096).toNat - 2048) (by omega) (by omega)).1
    · exact (twin_sincos_270 a (by omega)).1
    · exact (twin_sincos_q4 a (4096 - (a % 4096).toNat) (by omega) (by omega) (by omega)).1
  · split_ifs with c1 c2 c3 c4 c5
    · exact (twin_sincos_q1 a _ c1 (by omega)).2
    · exact (twin_sincos_90 a (by omega)).2
    · exact (twin_sincos_q2 a (2048 - (a % 4096).toNat) (by omega) (by omega)
        (by omega)).2.trans (congrArg (fun x => -sp x) (by omega))
    · exact (twin_sincos_q3 a ((a % 4096).toNat - 2048) (by omega) (by omega)).2.trans
        (congrArg (fun x => -sp x) (by omega))
    · exact (twin_sincos_270 a (by omega)).2
    · exact (twin_sincos_q4 a (4096 - (a % 4096).toNat) (by omega) (by omega)
        (by omega)).2.trans (congrArg sp (by omega))

theorem residue_shift (r : Nat) (h : r < 4096) :
    (r + 1024) % 4096 = (if r < 3072 then r + 1024 else r - 3072) ∧
    (r + 2048) % 4096 = (if r < 2048 then r + 2048 else r - 2048) := by
  constructor <;> split <;> omega

theorem cos_of_residue_eq (f : Nat → Int) (z : f 0 = 0) (o : f 1024 = 65536) (r : Nat)
    (h : r < 4096) : cos_of_residue f r = sin_of_residue f ((r + 1024) % 4096) := by
  rw [(residue_shift r h).1]
  unfold sin_of_residue cos_of_residue
  by_cases c0 : r = 0
  · subst c0; norm_num [o]
  by_cases c2 : r = 1024
  · subst c2; norm_num [z]
  by_cases c4 : r = 2048
  · subst c4; norm_num [o]
  by_cases c6 : r = 3072
  · subst c6; norm_num [z]
  split_ifs <;> first
    | omega
    | exact congrArg f (by omega)
    | exact congrArg (fun x => -f x) (by omega)

theorem sin_of_residue_half_turn (f : Nat → Int) (z : f 0 = 0) (r : Nat) (h : r < 4096) :
    sin_of_residue f ((r + 2048) % 4096) = -sin_of_residue f r := by
  rw [(residue_shift r h).2]
  unfold sin_of_residue
  by_cases c0 : r = 0
  · subst c0; norm_num [z]
  by_cases c2 : r = 1024
  · subst c2; norm_num
  by_cases c4 : r = 2048
  · subst c4; norm_num [z]
  by_cases c6 : r = 3072
  · subst c6; norm_num
  split_ifs <;> first
    | omega
    | exact congrArg f (by omega)
    | exact congrArg (fun x => -f x) (by omega)
    | (rw [neg_neg]; exact congrArg f (by omega))

/-! ## Claims on trig.c: sine and cosine -/

/-- C39: sine and cosine are the same curve shifted by a quarter turn. For every angle
`a`, `twin_cos(a) = twin_sin(a + ANGLE_90)` and `twin_sin(a + ANGLE_180) = -twin_sin(a)`;
the same holds when the sum is changed by a multiple of `ANGLE_360`, as the conversion
of the sum to `twin_angle_t` does. -/
theorem twin_cos_eq_sin_quarter_turn (a : Int) :
    twin_cos a = twin_sin (a + TWIN_ANGLE_90) ∧
    twin_sin (a + TWIN_ANGLE_180) = -twin_sin a ∧
    (∀ k : Int, twin_sin (a + TWIN_ANGLE_90 + TWIN_ANGLE_360 * k) = twin_cos a ∧
      twin_sin (a + TWIN_ANGLE_180 + TWIN_ANGLE_360 * k) = -twin_sin a) := by
  have key : ∀ k : Int, twin_sin (a + TWIN_ANGLE_90 + TWIN_ANGLE_360 * k) = twin_cos a ∧
      twin_sin (a + TWIN_ANGLE_180 + TWIN_ANGLE_360 * k) = -twin_sin a := by
    intro k
    unfold TWIN_ANGLE_90 TWIN_ANGLE_180 TWIN_ANGLE_360
    obtain ⟨h0, h1⟩ := emod_4096_range a
    have hr : (a % 4096).toNat < 4096 := by omega
    rw [(twin_sin_cos_of_residue a).2, (twin_sin_cos_of_residue a).1,
      (twin_sin_cos_of_residue (a + 1024 + 4096 * k)).1,
      (twin_sin_cos_of_residue (a + 2048 + 4096 * k)).1,
      cos_of_residue_eq sp sp_zero sp_1024 _ hr,
      ← sin_of_residue_half_turn sp sp_zero _ hr]
    have e1 : ((a + 1024 + 4096 * k) % 4096).toNat = ((a % 4096).toNat + 1024) % 4096 := by
      omega
    have e2 : ((a + 2048 + 4096 * k) % 4096).toNat = ((a % 4096).toNat + 2048) % 4096 := by
      omega
    rw [e1, e2]
    exact ⟨rfl, rfl⟩
  have k0 := key 0
  simp only [mul_zero, add_zero] at k0
  exact ⟨k0.1.symm, k0.2, key⟩

/-! ## Claims on trig.c: the range of `twin_atan2` -/

/-- C38: what `twin_atan2` returns for the vector with `y = 1` and `x = 12` (in units of
`2^-16`). In the first quadrant the result is -26, below 0; mirrored into the fourth
quadrant, `twin_atan2(-1, 12)` is 4122, above `ANGLE_360`. The CORDIC loop of
`twin_atan2_first_quadrant` reaches `current_y = 0` in its fifth pass and from there on
subtracts every remaining entry of `atan_table`. -/
theorem twin_atan2_out_of_range :
    twin_atan2_first_quadrant 1 12 = -26 ∧ twin_atan2 1 12 = -26 ∧ twin_atan2 (-1) 12 = 4122 ∧
    (List.range 5).foldl cordic_step (12, 1, 0) = (22, 0, 13) := by
  refine ⟨by decide!, by decide!, by decide!, by decide!⟩

/-! ## Claims on image-tvg.c: short reads in a path -/

/-- C40: what `tvg_parse_path` does when the input ends at a path-command byte. With one
command announced and an input of the start point alone, the function returns
`TVG_SUCCESS` although the read has run short; when the input ends at the flag byte of an
arc, or inside the start point, it returns `TVG_E_IO_ERROR`. In a document that ends
after the start point of a FILL_PATH command the fill sink is called with the path of one
point before the command loop reports `TVG_E_IO_ERROR`. -/
theorem tvg_parse_path_short_command_read :
    (fun r => (r.1.toOption, r.2.eof, r.2.path))
        (tvg_parse_path 1 (tvg_context_init [8, 0, 8, 0] [])) =
      (some (), true, [path_call.move 8 8]) ∧
    (fun r => (tvg_result r.1, r.2.eof)) (tvg_parse_path 1 (tvg_context_init [8, 0, 8, 0, 4] []))
      = (TVG_E_IO_ERROR, true) ∧
    (fun r => (tvg_result r.1, r.2.eof)) (tvg_parse_path 1 (tvg_context_init [8, 0, 8] []))
      = (TVG_E_IO_ERROR, true) ∧
    (tvg_render_document (some (sample_header ++ [0x03, 0x00, 0x00, 0x00, 0x08, 0x08])) []).map
        (fun r => (r.1, r.2.log, r.2.eof)) =
      some (TVG_E_IO_ERROR, [sink_call.paint_path (some 0xFFFF0000) [path_call.move 8 8]],
        true) := by
  refine ⟨by decide!, by decide!, by decide!, by decide!⟩

/-! ## Auxiliary lemmas: the loop of `twin_path_arc` ends -/

theorem to_angle_16 (x : Int) : to_angle 16 x = (x + 32768) % 65536 - 32768 := by
  unfold to_angle
  norm_num

theorem twin_path_arc_loop_up (s last : Int) (hl : -32768 ≤ last ∧ last < 32768) :
    ∀ (m : Nat) (a t : Int), -32768 ≤ a → a < 32768 → (last - a) % 65536 = t →
      t = (m : Int) * s → 0 ≤ s →
      (twin_path_arc_loop 16 s last (m + 1) a).isSome = true := by
  intro m
  induction m with
  | zero =>
    intro a t h1 h2 h3 h4 hs
    have ht : t = 0 := by rw [h4]; simp
    have ha : a = last := by omega
    rw [twin_path_arc_loop]
    simp [ha]
  | succ m ih =>
    intro a t h1 h2 h3 h4 hs
    by_cases hs0 : s = 0
    · have ht0 : t = 0 := by rw [h4, hs0]; simp
      have ha : a = last := by omega
      rw [twin_path_arc_loop]
      simp [ha]
    have ht : t = (m : Int) * s + s := by rw [h4]; push_cast; ring
    have ht' : 0 ≤ (m : Int) * s := mul_nonneg (by omega) hs
    generalize hu : (m : Int) * s = u at ht ht'
    have ha : a ≠ last := by omega
    rw [twin_path_arc_loop, if_pos ha]
    rw [Option.isSome_map']
    have e := to_angle_16 (a + s)
    exact ih (to_angle 16 (a + s)) u (by omega) (by omega) (by omega) hu.symm hs

theorem twin_path_arc_loop_down (s last : Int) (hl : -32768 ≤ last ∧ last < 32768) :
    ∀ (m : Nat) (a t : Int), -32768 ≤ a → a < 32768 → (a - last) % 65536 = t →
      t = (m : Int) * s → 0 ≤ s →
      (twin_path_arc_loop 16 (-s) last (m + 1) a).isSome = true := by
  intro m
  induction m with
  | zero =>
    intro a t h1 h2 h3 h4 hs
    have ht : t = 0 := by rw [h4]; simp
    have ha : a = last := by omega
    rw [twin_path_arc_loop]
    simp [ha]
  | succ m ih =>
    intro a t h1 h2 h3 h4 hs
    by_cases hs0 : s = 0
    · have ht0 : t = 0 := by rw [h4, hs0]; simp
      have ha : a = last := by omega
      rw [twin_path_arc_loop]
      simp [ha]
    have ht : t = (m : Int) * s + s := by rw [h4]; push_cast; ring
    have ht' : 0 ≤ (m : Int) * s := mul_nonneg (by omega) hs
    generalize hu : (m : Int) * s = u at ht ht'
    have ha : a ≠ last := by omega
    rw [twin_path_arc_loop, if_pos ha]
    rw [Option.isSome_map']
    have e := to_angle_16 (a + -s)
    exact ih (to_angle 16 (a + -s)) u (by omega) (by omega) (by omega) hu.symm hs

theorem to_angle_16_range (x : Int) : -32768 ≤ to_angle 16 x ∧ to_angle 16 x < 32768 := by
  rw [to_angle_16]; omega

theorem and_not_mask_dvd (x s : Int) : s ∣ and_not_mask x s :=
  ⟨x / s, by unfold and_not_mask; rw [Int.emod_def]; ring⟩

theorem to_angle_16_dvd (y s : Int) (h1 : s ∣ y) (h2 : s ∣ 4096) : s ∣ to_angle 16 y := by
  have h3 : s ∣ (65536 : Int) := Dvd.dvd.trans h2 ⟨16, by norm_num⟩
  have h4 : s ∣ (32768 : Int) := Dvd.dvd.trans h2 ⟨8, by norm_num⟩
  rw [to_angle_16, Int.emod_def]
  exact dvd_sub (dvd_sub (dvd_add h1 h4) (Dvd.dvd.mul_right h3 _)) h4

theorem emod_65536_dvd (y s : Int) (h1 : s ∣ y) (h2 : s ∣ 4096) : s ∣ y % 65536 := by
  have h3 : s ∣ (65536 : Int) := Dvd.dvd.trans h2 ⟨16, by norm_num⟩
  rw [Int.emod_def]
  exact dvd_sub h1 (Dvd.dvd.mul_right h3 _)

/-- The step of `twin_path_arc` with angles of 16 bits: a divisor of 4096 between 1 and
4096, or 0 when `n` is above 12. -/
theorem twin_path_arc_step_16 (n : Int) :
    (0 < twin_path_arc_step 16 n ∧ twin_path_arc_step 16 n ≤ 4096 ∧
      twin_path_arc_step 16 n ∣ 4096) ∨ twin_path_arc_step 16 n = 0 := by
  unfold twin_path_arc_step TWIN_ANGLE_360
  rw [Int.shiftRight_eq_div_pow]
  generalize n.toNat = k
  by_cases hk : k ≤ 12
  · left
    interval_cases k <;> decide
  · right
    have h : (4096 : Int) / ((2 ^ k : Nat) : Int) = 0 := by
      apply Int.ediv_eq_zero_of_lt (by norm_num)
      have : (2 : Nat) ^ 13 ≤ 2 ^ k := Nat.pow_le_pow_right (by norm_num) (by omega)
      have h2 : ((2 ^ 13 : Nat) : Int) ≤ ((2 ^ k : Nat) : Int) := by exact_mod_cast this
      norm_num at h2 ⊢
      omega
    rw [h]
    decide

/-- The loop of `twin_path_arc` ends, with angles of 16 bits: for every `n`, start and
extent some bound on its passes is not reached. -/
theorem twin_path_arc_angles_terminates (n start extent : Int) :
    ∃ fuel, (twin_path_arc_angles 16 fuel n start extent).isSome = true := by
  unfold twin_path_arc_angles
  simp only [Option.isSome_map']
  generalize hs : twin_path_arc_step 16 n = s
  have hstep := twin_path_arc_step_16 n
  rw [hs] at hstep
  have key : ∀ x y : Int, ∃ m : Nat,
      (to_angle 16 (and_not_mask x s) - to_angle 16 (and_not_mask y s)) % 65536
        = (m : Int) * s := by
    intro x y
    rcases hstep with ⟨h1, h2, h3⟩ | h0
    · have hd : s ∣ (to_angle 16 (and_not_mask x s) - to_angle 16 (and_not_mask y s)) % 65536 :=
        emod_65536_dvd _ s (dvd_sub (to_angle_16_dvd _ s (and_not_mask_dvd x s) h3)
          (to_angle_16_dvd _ s (and_not_mask_dvd y s) h3)) h3
      obtain ⟨q, hq⟩ := hd
      have hq0 : 0 ≤ q := by
        by_contra hneg
        have : s * q < 0 := mul_neg_of_pos_of_neg h1 (by omega)
        omega
      exact ⟨q.toNat, by rw [hq, Int.toNat_of_nonneg hq0, mul_comm]⟩
    · subst h0
      refine ⟨0, ?_⟩
      unfold and_not_mask
      simp
  have hnn : 0 ≤ s := by
    rcases hstep with ⟨h1, -, -⟩ | h0 <;> omega
  have hle : s ≤ 4096 := by
    rcases hstep with ⟨-, h2, -⟩ | h0 <;> omega
  by_cases he : extent < 0
  · simp only [if_pos he]
    have hneg : to_angle 16 (-s) = -s := by rw [to_angle_16]; omega
    rw [hneg]
    obtain ⟨m, hm⟩ := key (start + -s - to_angle 16 (-1)) (start + extent - -s + to_angle 16 (-1))
    exact ⟨m + 1, twin_path_arc_loop_down s _ (to_angle_16_range _) m _ _
      (to_angle_16_range _).1 (to_angle_16_range _).2 hm rfl hnn⟩
  · simp only [if_neg he]
    obtain ⟨m, hm⟩ := key (start + extent - s + 1) (start + s - 1)
    exact ⟨m + 1, twin_path_arc_loop_up s _ (to_angle_16_range _) m _ _
      (to_angle_16_range _).1 (to_angle_16_range _).2 hm rfl hnn⟩

/-! ## Claims on path.c: the sweep of an arc -/

/-- C31: the angles `twin_path_arc` passes to `twin_path_draw_polar` for a sweep that does
not reach two multiples of the step, with four sides (`n = 2`, step 1024) and angles of 16
bits. From 5 over the extent 1024 the function draws 65 angles: 5, then 1024, 2048, 3072
and so on around the whole range of the angle type, through -32768, up to -1024, then
1029; they do not all lie between 5 and 1029. From 0 over the extent 1, which is smaller
than the step, it draws 64 angles: 0, 1024, 2048 and so on through -32768 up to -1024,
then 1. -/
theorem twin_path_arc_outside_sweep :
    (twin_path_arc_angles 16 64 2 5 1024).map
        (fun l => (l.length, l.take 4, l.getLast?, l.all (fun a => decide (5 ≤ a ∧ a ≤ 1029)),
          decide (2048 ∈ l), decide (-32768 ∈ l))) =
      some (65, [5, 1024, 2048, 3072], some 1029, false, true, true) ∧
    (twin_path_arc_angles 16 64 2 0 1).map
        (fun l => (l.length, l.take 4, l.getLast?, l.all (fun a => decide (0 ≤ a ∧ a ≤ 1)),
          decide (2048 ∈ l), decide (-32768 ∈ l))) =
      some (64, [0, 1024, 2048, 3072], some 1, false, true, true) ∧
    (twin_path_arc_angles 16 64 2 0 (-1)).map
        (fun l => (l.length, l.take 4, l.getLast?, l.all (fun a => decide (-1 ≤ a ∧ a ≤ 0)),
          decide (-2048 ∈ l), decide (-32768 ∈ l))) =
      some (65, [0, -1024, -2048, -3072], some (-1), false, true, true) := by
  refine ⟨by decide!, by decide!, by decide!⟩

/-- C37: the sampling loop of `twin_path_arc` with angles of 16 bits ends for every `n`,
start and extent, but not within `2^n` passes. With four sides (`n = 2`, so `2^n = 4`,
step 1024), from 0 over the extent 1, the loop starts at `first = 0` with `last = -1024`
and the increment 1024; after 4 passes it has not ended, and it ends after 63 passes, when
the angle has wrapped around the range of the angle type. -/
theorem twin_path_arc_loop_passes :
    (∀ n start extent : Int,
      ∃ fuel, (twin_path_arc_angles 16 fuel n start extent).isSome = true) ∧
    twin_path_arc_angles 16 64 2 0 1 =
      (twin_path_arc_loop 16 1024 (-1024) 64 0).map (fun l => l ++ [1]) ∧
    twin_path_arc_loop 16 1024 (-1024) 5 0 = none ∧
    twin_path_arc_loop 16 1024 (-1024) 63 0 = none ∧
    (twin_path_arc_loop 16 1024 (-1024) 64 0).map List.length = some 63 := by
  refine ⟨twin_path_arc_angles_terminates, by decide!, by decide!, by decide!, by decide!⟩

/-! ## Auxiliary lemmas: one pass of the outer loop of a flattener -/

/-- One pass of the outer loop of the cubic flattener makes progress: the control polygon
of the new working spline is shorter, or as long with its inner points nearer to the end
point, or the same spline is kept and the shift is smaller. -/
theorem _twin_spline_decompose_step_progress
    (dist : twin_spoint_t → twin_spoint_t → twin_spoint_t → Int) (tol2 : Int)
    (hstair : ∀ s, is_stair s → is_flat dist s tol2 = true)
    (spline : twin_spline_t) (hf : is_flat dist spline tol2 ≠ true)
    (bound shift sh : Nat) (l r : twin_spline_t) (hshift : 1 ≤ shift)
    (hfs : _twin_spline_find_shift dist tol2 spline bound shift = some (sh, l, r)) :
    r.d = spline.d ∧ 1 ≤ sh ∧
    (spline_tv r < spline_tv spline ∨
      (spline_tv r = spline_tv spline ∧
        (spline_psi r < spline_psi spline ∨
          (spline_psi r = spline_psi spline ∧ r = spline ∧ sh < shift)))) := by
  obtain ⟨s, hs1, -, hlr, hlflat, hsh2, hmin⟩ :=
    _twin_spline_find_shift_spec dist tol2 spline bound shift sh l r hfs
  have hr : r = (_de_casteljau spline s).2 := by rw [← hlr]
  have hsh1 : 1 ≤ sh := by rw [hsh2]; split <;> omega
  have hd : r.d = spline.d := by rw [hr]; rfl
  obtain ⟨m1, m2⟩ := _de_casteljau_measure spline s
  rw [← hr] at m1 m2
  refine ⟨hd, hsh1, ?_⟩
  rcases Nat.lt_or_ge (spline_tv r) (spline_tv spline) with h1 | h1
  · exact Or.inl h1
  have e1 : spline_tv r = spline_tv spline := by omega
  obtain ⟨m3, m4⟩ := m2 e1
  refine Or.inr ⟨e1, ?_⟩
  rcases Nat.lt_or_ge (spline_psi r) (spline_psi spline) with h2 | h2
  · exact Or.inl h2
  have e2 : spline_psi r = spline_psi spline := by omega
  obtain ⟨m5, m6, m7⟩ := m4 e2
  have hs_eq : s = shift := by
    by_contra hne
    have hlt : shift < s := by omega
    have hnf := hmin (s - 1) (by omega) (by omega)
    have h2s : (2 : Int) * 2 ^ (s - 1) = 2 ^ s := by
      rw [← pow_succ']; congr 1; omega
    have hup := hstair _ (_de_casteljau_stair_up spline (s - 1)
      (by rw [h2s]; exact m6) (by rw [h2s]; exact m7))
    rw [hup] at hnf
    exact Bool.noConfusion hnf
  have hs_gt : 1 < s := by
    by_contra hle
    have hs1 : s = 1 := by omega
    rw [hs1] at m6 m7
    apply hf
    apply hstair
    left
    unfold steps_up
    constructor <;> omega
  exact Or.inr ⟨e2, m5, by rw [hsh2, if_pos hs_gt]; omega⟩

/-- One pass of the outer loop of the quadratic flattener makes progress: the control polygon
of the new working spline is shorter, or as long with its inner point nearer to the end
point, or the same spline is kept and the shift is smaller. -/
theorem _twin_quad_spline_decompose_step_progress
    (dist : twin_spoint_t → twin_spoint_t → twin_spoint_t → Int) (tol2 : Int)
    (hstair : ∀ s, quad_is_stair s → _quad_is_flat dist s tol2 = true)
    (spline : twin_quad_spline_t) (hf : _quad_is_flat dist spline tol2 ≠ true)
    (bound shift sh : Nat) (l r : twin_quad_spline_t) (hshift : 1 ≤ shift)
    (hfs : _twin_quad_spline_find_shift dist tol2 spline bound shift = some (sh, l, r)) :
    r.p2 = spline.p2 ∧ 1 ≤ sh ∧
    (quad_spline_tv r < quad_spline_tv spline ∨
      (quad_spline_tv r = quad_spline_tv spline ∧
        (quad_spline_psi r < quad_spline_psi spline ∨
          (quad_spline_psi r = quad_spline_psi spline ∧ r = spline ∧ sh < shift)))) := by
  obtain ⟨s, hs1, -, hlr, hlflat, hsh2, hmin⟩ :=
    _twin_quad_spline_find_shift_spec dist tol2 spline bound shift sh l r hfs
  have hr : r = (_quad_de_casteljau spline s).2 := by rw [← hlr]
  have hsh1 : 1 ≤ sh := by rw [hsh2]; split <;> omega
  have hd : r.p2 = spline.p2 := by rw [hr]; rfl
  obtain ⟨m1, m2⟩ := _quad_de_casteljau_measure spline s
  rw [← hr] at m1 m2
  refine ⟨hd, hsh1, ?_⟩
  rcases Nat.lt_or_ge (quad_spline_tv r) (quad_spline_tv spline) with h1 | h1
  · exact Or.inl h1
  have e1 : quad_spline_tv r = quad_spline_tv spline := by omega
  obtain ⟨m3, m4⟩ := m2 e1
  refine Or.inr ⟨e1, ?_⟩
  rcases Nat.lt_or_ge (quad_spline_psi r) (quad_spline_psi spline) with h2 | h2
  · exact Or.inl h2
  have e2 : quad_spline_psi r = quad_spline_psi spline := by omega
  obtain ⟨m5, m6, m7⟩ := m4 e2
  have hs_eq : s = shift := by
    by_contra hne
    have hlt : shift < s := by omega
    have hnf := hmin (s - 1) (by omega) (by omega)
    have h2s : (2 : Int) * 2 ^ (s - 1) = 2 ^ s := by
      rw [← pow_succ']; congr 1; omega
    have hup := hstair _ (_quad_de_casteljau_stair_up spline (s - 1)
      (by rw [h2s]; exact m6) (by rw [h2s]; exact m7))
    rw [hup] at hnf
    exact Bool.noConfusion hnf
  have hs_gt : 1 < s := by
    by_contra hle
    have hs1 : s = 1 := by omega
    rw [hs1] at m6 m7
    apply hf
    apply hstair
    left
    unfold steps_up
    constructor <;> omega
  exact Or.inr ⟨e2, m5, by rw [hsh2, if_pos hs_gt]; omega⟩

/-! ## Claims on spline.c: termination -/

/-- C36: the spline flatteners terminate. When every staircase control polygon passes the
flatness test, then for every cubic and every quadratic control polygon: the inner shift
search ends from every starting shift (from some bound on its passes on, the bound is not
reached), the flattener returns (from some bound on the passes of its loops on), and each
pass of the outer loop on a spline that is not flat keeps the end point and makes
progress: the control polygon of the new working spline is shorter, or as long with its
inner points nearer to the end point, or the spline is kept and the shift is smaller. -/
theorem twin_spline_flatteners_terminate
    (dist : twin_spoint_t → twin_spoint_t → twin_spoint_t → Int) (tolerance_squared : Int)
    (hstair : ∀ s, is_stair s → is_flat dist s tolerance_squared = true)
    (hquad : ∀ s, quad_is_stair s → _quad_is_flat dist s tolerance_squared = true) :
    (∀ (spline : twin_spline_t) (shift : Nat), ∃ bound0, ∀ bound, bound0 ≤ bound →
      ∃ v, _twin_spline_find_shift dist tolerance_squared spline bound shift = some v) ∧
    (∀ spline : twin_spline_t, ∃ fuel0, ∀ fuel, fuel0 ≤ fuel →
      (_twin_spline_decompose dist tolerance_squared fuel spline).2 = true) ∧
    (∀ (spline : twin_spline_t) (bound shift sh : Nat) (l r : twin_spline_t),
      is_flat dist spline tolerance_squared = false → 1 ≤ shift →
      _twin_spline_find_shift dist tolerance_squared spline bound shift = some (sh, l, r) →
      r.d = spline.d ∧ 1 ≤ sh ∧
      (spline_tv r < spline_tv spline ∨
        (spline_tv r = spline_tv spline ∧
          (spline_psi r < spline_psi spline ∨
            (spline_psi r = spline_psi spline ∧ r = spline ∧ sh < shift))))) ∧
    (∀ (spline : twin_quad_spline_t) (shift : Nat), ∃ bound0, ∀ bound, bound0 ≤ bound →
      ∃ v, _twin_quad_spline_find_shift dist tolerance_squared spline bound shift = some v) ∧
    (∀ spline : twin_quad_spline_t, ∃ fuel0, ∀ fuel, fuel0 ≤ fuel →
      (_twin_quad_spline_decompose dist tolerance_squared fuel spline).2 = true) ∧
    (∀ (spline : twin_quad_spline_t) (bound shift sh : Nat) (l r : twin_quad_spline_t),
      _quad_is_flat dist spline tolerance_squared = false → 1 ≤ shift →
      _twin_quad_spline_find_shift dist tolerance_squared spline bound shift
        = some (sh, l, r) →
      r.p2 = spline.p2 ∧ 1 ≤ sh ∧
      (quad_spline_tv r < quad_spline_tv spline ∨
        (quad_spline_tv r = quad_spline_tv spline ∧
          (quad_spline_psi r < quad_spline_psi spline ∨
            (quad_spline_psi r = quad_spline_psi spline ∧ r = spline ∧ sh < shift))))) := by
  refine ⟨?_, ?_, ?_, ?_, ?_, ?_⟩
  · intro spline shift
    obtain ⟨lo, hi, hbox⟩ := spline_in_box_exists spline
    exact ⟨(hi - lo).toNat + 1, fun bound hb =>
      _twin_spline_find_shift_terminates dist tolerance_squared hstair lo hi (hi - lo).toNat
        bound (int_lt_two_pow_toNat _) (by omega) spline hbox shift⟩
  · intro spline
    obtain ⟨fuel0, h⟩ := _twin_spline_decompose_terminates dist tolerance_squared hstair spline
    exact ⟨fuel0, fun fuel hfuel => (h fuel hfuel).1⟩
  · intro spline bound shift sh l r hf hshift hfs
    exact _twin_spline_decompose_step_progress dist tolerance_squared hstair spline
      (by rw [hf]; exact Bool.noConfusion) bound shift sh l r hshift hfs
  · intro spline shift
    obtain ⟨lo, hi, hbox⟩ := quad_spline_in_box_exists spline
    exact ⟨(hi - lo).toNat + 1, fun bound hb =>
      _twin_quad_spline_find_shift_terminates dist tolerance_squared hquad lo hi
        (hi - lo).toNat bound (int_lt_two_pow_toNat _) (by omega) spline hbox shift⟩
  · intro spline
    obtain ⟨fuel0, h⟩ :=
      _twin_quad_spline_decompose_terminates dist tolerance_squared hquad spline
    exact ⟨fuel0, fun fuel hfuel => (h fuel hfuel).1⟩
  · intro spline bound shift sh l r hf hshift hfs
    exact _twin_quad_spline_decompose_step_progress dist tolerance_squared hquad spline
      (by rw [hf]; exact Bool.noConfusion) bound shift sh l r hshift hfs

theorem twin_spline_flatteners_terminate_witness :
    (∀ s, is_stair s → is_flat _twin_distance_to_line_squared s (1 * 1) = true) ∧
    (∀ s, quad_is_stair s → _quad_is_flat _twin_distance_to_line_squared s (1 * 1) = true) ∧
    (∃ fuel0, ∀ fuel, fuel0 ≤ fuel →
      (_twin_spline_decompose _twin_distance_to_line_squared (1 * 1) fuel
        (quad_to_cubic sample_quad)).2 = true) ∧
    (_twin_spline_decompose _twin_distance_to_line_squared (1 * 1) 64
        (quad_to_cubic sample_quad)).2 = true ∧
    (_twin_spline_decompose _twin_distance_to_line_squared (1 * 1) 5
        (quad_to_cubic sample_quad)).2 = false :=
  ⟨_twin_distance_to_line_squared_stair 1, _twin_distance_to_line_squared_quad_stair 1,
    (twin_spline_flatteners_terminate _twin_distance_to_line_squared (1 * 1)
      (_twin_distance_to_line_squared_stair 1)
      (_twin_distance_to_line_squared_quad_stair 1)).2.1 (quad_to_cubic sample_quad),
    by decide!, by decide!⟩

end Twin
